import Mathlib

/-!
# Event log manager: shallow embedding and verification

The development embeds `src/EventManager/EventManager.c` (the circular event log built on a
sector-erasable memory) together with the geometry description of
`src/EventManager/EventSST2xVF.c`, and, for the properties stated about them, the queue of
`src/FakeFreeRTOS/queue.c`, the calendar conversions of `src/calendar/calendar.c`, and the
windows of `src/SlidingWindow/SlidingWindow.c` and `src/SlidingWindow/FastMeanWindow.c`.

Conventions of the embedding

* `uint32_t` values are natural numbers; every C operation that can wrap is written with
  `add32`, `sub32`, `mul32` (reduction modulo `2^32`).  `EventInfo_t.EventSize` is a `uint8_t`
  and is reduced modulo `256` where the C code stores into it.
* The file-scope variables of `EventManager.c` are the fields of `Engine`.
* Everything outside the translation unit (memory interface functions, weak callbacks, the
  RTOS mutex and queue) acts on an abstract environment state `σ`.  The functions reached
  through `MEM_INTERFACE` are stored in the engine, as in C; the link-time functions are the
  fields of `Hooks`.
* Every function returns an `Outcome`: its C return value, the engine after the call, the
  environment after the call, and the list of external calls it made, oldest first.
  `EventManagerFree` and `vSemaphoreDelete`, which return nothing, are not recorded.
* A call through a NULL function pointer is undefined in C; the embedding records it as
  `Call.nullCall` and continues as if the call had returned `false`.  Division by zero is
  undefined in C; the embedding uses the total operators of `Nat` and the theorems state
  the non-zero hypotheses they need.
* In the queue and the windows a pointer is the address of a byte and the memory is a
  function from addresses to bytes; a control block is kept by value.  A buffer of the
  caller is the list of its bytes, and a byte read behind the end of the list is 0.  The
  bounds of allocated blocks are not tracked.
* A C loop whose number of iterations is not fixed is a function with a bound on the
  iterations as first argument; it returns `none` when the bound is reached, and the
  theorems about it show that the bound given by the caller is not reached.
-/

namespace EventManager

/-! ## Machine arithmetic -/

/-- Addition of two `uint32_t` values. -/
def add32 (a b : Nat) : Nat := (a + b) % 4294967296

/-- Subtraction of two `uint32_t` values (both operands in range). -/
def sub32 (a b : Nat) : Nat := (a + 4294967296 - b) % 4294967296

/-- Multiplication of two `uint32_t` values. -/
def mul32 (a b : Nat) : Nat := (a * b) % 4294967296

/-! ## Types of `EventManager.h` -/

/-- Return codes of the functions (`EventReturn_e`). -/
inductive EventReturn_e where
  | EVENT_RET_OK
  | EVENT_RET_ERR_MEM
  | EVENT_RET_ERR_FLASH
  | EVENT_RET_ERR_STORE
  | EVENT_INVALID_PARAM
  | EVENT_NOT_INIT
  | EVENT_NOT_EXIST
  | EVENT_MUTEX_NULL_ERROR
  | EVENT_MUTEX_TAKE_ERROR
  | EVENT_MUTEX_GIVE_ERROR
  | EVENT_MALLOC_ERROR
  | EVENT_CALLBACK_ERROR
  deriving DecidableEq, Repr

open EventReturn_e

/-- Event information structure (`EventInfo_t`). -/
structure EventInfo_t where
  ManID : Nat
  DevID : Nat
  EventSize : Nat
  LogsPerSector : Nat
  MaxLogsNumber : Nat
  FirstPointer : Nat
  MaxPointer : Nat
  SectorSize : Nat
  Pointer : Nat
  Counter : Nat
  deriving DecidableEq, Repr

/-- Configuration passed to `EventManagerInitialize` (`EventManagerConfig_t`). -/
structure EventManagerConfig_t where
  event_size : Nat
  pointer_init : Nat
  counter_init : Nat
  queue_size : Nat
  mutex_wait_tick : Nat
  first_valid_addr : Nat
  size_used : Nat
  deriving DecidableEq, Repr

/-- Notifications sent to the event task (`EventManagerCallback_e`). -/
inductive EventManagerCallback_e where
  | NEW_EVENT
  | READ_EVENT
  | EVENT_STORED
  deriving DecidableEq, Repr

/-- Memory interface access structure (`EventMemoryInterface_t`); `none` is a NULL pointer.
`ReadFunc` returns the bytes it put into the caller's buffer. -/
structure EventMemoryInterface_t (σ : Type) where
  InitFunc : Option (σ → Bool × σ)
  ConfigInfoFunc : Option (EventInfo_t → σ → Bool × EventInfo_t × σ)
  EraseAllFunc : Option (σ → Bool × σ)
  EraseSectorFunc : Option (Nat → σ → Bool × σ)
  ReadFunc : Option (Nat → Nat → σ → Bool × List Nat × σ)
  WriteFunc : Option (Nat → List Nat → Nat → σ → Bool × σ)

/-! ## The environment of `EventManager.c` -/

/-- Functions resolved at link time: the weak callbacks of `EventManager.c` and the RTOS
services of `semphr.h` and `queue.h`.  A `Bool` result is `pdTRUE`/non-NULL when `true`;
`xQueuePeek` and `xQueueReceive` return the item copied into the caller's buffer. -/
structure Hooks (σ : Type) where
  EventManagerCallback : EventManagerCallback_e → σ → EventReturn_e × σ
  EventManagerStoreCallback : Nat → Nat → σ → EventReturn_e × σ
  EventManagerMalloc : Nat → σ → Bool × σ
  xSemaphoreCreateMutex : σ → Bool × σ
  xSemaphoreTake : Nat → σ → Bool × σ
  xSemaphoreGive : σ → Bool × σ
  xQueueCreate : Nat → Nat → σ → Bool × σ
  vQueueDelete : σ → σ
  xQueueSend : List Nat → Nat → σ → Bool × σ
  xQueuePeek : Nat → σ → Option (List Nat) × σ
  xQueueReceive : Nat → σ → Option (List Nat) × σ

/-- One external call made by the engine, with the value it returned. -/
inductive Call where
  | InitFunc (ok : Bool)
  | ConfigInfoFunc (ok : Bool)
  | EraseAllFunc (ok : Bool)
  | EraseSectorFunc (addr : Nat) (ok : Bool)
  | ReadFunc (addr size : Nat) (ok : Bool)
  | WriteFunc (addr : Nat) (data : List Nat) (size : Nat) (ok : Bool)
  | StoreCallback (pointer counter : Nat) (ret : EventReturn_e)
  | Callback (notify : EventManagerCallback_e) (ret : EventReturn_e)
  | Malloc (size : Nat) (ok : Bool)
  | SemaphoreCreate (ok : Bool)
  | SemaphoreTake (ticks : Nat) (ok : Bool)
  | SemaphoreGive (ok : Bool)
  | QueueCreate (length itemSize : Nat) (ok : Bool)
  | QueueDelete
  | QueueSend (item : List Nat) (ok : Bool)
  | QueuePeek (item : Option (List Nat))
  | QueueReceive (item : Option (List Nat))
  | nullCall
  deriving DecidableEq, Repr

/-- File-scope variables of `EventManager.c`.  `EventQueue` and `EventManagerMutex` are
`true` when the handle is not NULL. -/
structure Engine (σ : Type) where
  EventQueue : Bool
  EventInfo : EventInfo_t
  Initialized : Bool
  MEM_INTERFACE : Option (EventMemoryInterface_t σ)
  EventManagerMutex : Bool
  MutexWaitTicks : Nat
  AutoIncrementLogNumber : Nat

/-- Result of running one function of the engine. -/
structure Outcome (σ : Type) (α : Type) where
  ret : α
  eng : Engine σ
  dev : σ
  calls : List Call

/-! ## Calls through `MEM_INTERFACE` -/

/-- `MEM_INTERFACE->EraseSectorFunc(addr)`. -/
def callEraseSector {σ : Type} (e : Engine σ) (addr : Nat) (d : σ) : Bool × σ × List Call :=
  match e.MEM_INTERFACE with
  | some mi =>
    match mi.EraseSectorFunc with
    | some f => ((f addr d).1, (f addr d).2, [Call.EraseSectorFunc addr (f addr d).1])
    | none => (false, d, [Call.nullCall])
  | none => (false, d, [Call.nullCall])

/-- `MEM_INTERFACE->WriteFunc(addr, data, size)`. -/
def callWrite {σ : Type} (e : Engine σ) (addr : Nat) (data : List Nat) (size : Nat) (d : σ) :
    Bool × σ × List Call :=
  match e.MEM_INTERFACE with
  | some mi =>
    match mi.WriteFunc with
    | some f => ((f addr data size d).1, (f addr data size d).2,
        [Call.WriteFunc addr data size (f addr data size d).1])
    | none => (false, d, [Call.nullCall])
  | none => (false, d, [Call.nullCall])

/-- `MEM_INTERFACE->ReadFunc(addr, event, size)`; the second component is the buffer. -/
def callRead {σ : Type} (e : Engine σ) (addr size : Nat) (d : σ) :
    Bool × Option (List Nat) × σ × List Call :=
  match e.MEM_INTERFACE with
  | some mi =>
    match mi.ReadFunc with
    | some f => ((f addr size d).1, some (f addr size d).2.1, (f addr size d).2.2,
        [Call.ReadFunc addr size (f addr size d).1])
    | none => (false, none, d, [Call.nullCall])
  | none => (false, none, d, [Call.nullCall])

/-- `MEM_INTERFACE->EraseAllFunc()`. -/
def callEraseAll {σ : Type} (e : Engine σ) (d : σ) : Bool × σ × List Call :=
  match e.MEM_INTERFACE with
  | some mi =>
    match mi.EraseAllFunc with
    | some f => ((f d).1, (f d).2, [Call.EraseAllFunc (f d).1])
    | none => (false, d, [Call.nullCall])
  | none => (false, d, [Call.nullCall])

/-- Common epilogue `if (mutex_taken) if (xSemaphoreGive(...) != pdTRUE) ret = ...`. -/
def giveIfTaken {σ : Type} {α : Type} (hk : Hooks σ) (giveError : α) (mutex_taken : Bool)
    (o : Outcome σ α) : Outcome σ α :=
  if mutex_taken then
    { ret := if (hk.xSemaphoreGive o.dev).1 then o.ret else giveError
      eng := o.eng
      dev := (hk.xSemaphoreGive o.dev).2
      calls := o.calls ++ [Call.SemaphoreGive (hk.xSemaphoreGive o.dev).1] }
  else o

/-! ## Private functions of `EventManager.c` -/

/-- `EventCheckErase` (EventManager.c, lines 674-691). -/
def EventCheckErase {σ : Type} (e : Engine σ) (d : σ) : Outcome σ EventReturn_e :=
  if e.EventInfo.Pointer % e.EventInfo.SectorSize = 0 then
    if (callEraseSector e e.EventInfo.Pointer d).1 = false then
      { ret := EVENT_RET_ERR_FLASH, eng := e
        dev := (callEraseSector e e.EventInfo.Pointer d).2.1
        calls := (callEraseSector e e.EventInfo.Pointer d).2.2 }
    else if e.EventInfo.Counter ≥ e.EventInfo.MaxLogsNumber then
      { ret := EVENT_RET_OK
        eng := { e with EventInfo := { e.EventInfo with
                  Counter := sub32 e.EventInfo.Counter e.EventInfo.LogsPerSector } }
        dev := (callEraseSector e e.EventInfo.Pointer d).2.1
        calls := (callEraseSector e e.EventInfo.Pointer d).2.2 }
    else
      { ret := EVENT_RET_OK, eng := e
        dev := (callEraseSector e e.EventInfo.Pointer d).2.1
        calls := (callEraseSector e e.EventInfo.Pointer d).2.2 }
  else
    { ret := EVENT_RET_OK, eng := e, dev := d, calls := [] }

/-- Pointer after one record has been written: `Pointer += EventSize`, wrapped to
`FirstPointer` when it passes `MaxPointer` (EventManager.c, lines 654-657). -/
def nextPointer (info : EventInfo_t) : Nat :=
  if add32 info.Pointer info.EventSize > info.MaxPointer then info.FirstPointer
  else add32 info.Pointer info.EventSize

/-- `EventStore` (EventManager.c, lines 635-667). -/
def EventStore {σ : Type} (hk : Hooks σ) (event : List Nat) (e : Engine σ) (d : σ) :
    Outcome σ EventReturn_e :=
  let c := EventCheckErase e d
  if c.ret ≠ EVENT_RET_OK then
    { ret := EVENT_RET_ERR_FLASH, eng := c.eng, dev := c.dev, calls := c.calls }
  else
    let w := callWrite c.eng c.eng.EventInfo.Pointer event c.eng.EventInfo.EventSize c.dev
    if w.1 = false then
      { ret := EVENT_RET_ERR_FLASH, eng := c.eng, dev := w.2.1, calls := c.calls ++ w.2.2 }
    else
      let info : EventInfo_t := { c.eng.EventInfo with
        Counter := add32 c.eng.EventInfo.Counter 1
        Pointer := nextPointer c.eng.EventInfo }
      let s := hk.EventManagerStoreCallback info.Pointer info.Counter w.2.1
      { ret := if s.1 ≠ EVENT_RET_OK then EVENT_RET_ERR_MEM else EVENT_RET_OK
        eng := { c.eng with EventInfo := info }
        dev := s.2
        calls := c.calls ++ w.2.2 ++ [Call.StoreCallback info.Pointer info.Counter s.1] }

/-- `GetFlashPointer` (EventManager.c, lines 697-729). -/
def GetFlashPointer (info : EventInfo_t) (event_number : Nat) : Nat :=
  let memory_size := add32 info.MaxPointer 1
  let sector_offset := info.Pointer % info.SectorSize
  let first_log_pointer :=
    if info.Counter > sub32 info.MaxLogsNumber info.LogsPerSector then
      let p := if sector_offset = 0 then info.Pointer
               else add32 (sub32 info.Pointer sector_offset) info.SectorSize
      if p = memory_size then info.FirstPointer else p
    else info.FirstPointer
  let flash_pointer :=
    add32 (mul32 (sub32 (sub32 info.Counter event_number) 1) info.EventSize) first_log_pointer
  if flash_pointer ≥ memory_size then sub32 flash_pointer memory_size else flash_pointer

/-- `EventSend2Queue` (EventManager.c, lines 609-627); `0` is success, `-1` failure. -/
def EventSend2Queue {σ : Type} (hk : Hooks σ) (event : List Nat) (e : Engine σ) (d : σ) :
    Outcome σ Int :=
  if e.EventQueue = false then
    { ret := -1, eng := e, dev := d, calls := [] }
  else if (hk.xQueueSend event 100 d).1 = false then
    { ret := -1, eng := e, dev := (hk.xQueueSend event 100 d).2
      calls := [Call.QueueSend event false] }
  else
    let d1 := (hk.xQueueSend event 100 d).2
    let cb := hk.EventManagerCallback EventManagerCallback_e.NEW_EVENT d1
    { ret := if cb.1 ≠ EVENT_RET_OK then -1 else 0
      eng := e, dev := cb.2
      calls := [Call.QueueSend event true,
                Call.Callback EventManagerCallback_e.NEW_EVENT cb.1] }

/-! ## Public functions of `EventManager.c` -/

/-- Assignments of EventManager.c, lines 120-124: seed the information structure from the
configuration.  `EventSize` is a `uint8_t`; `MaxPointer` is
`first_valid_addr + size_used - 1` stored into a `uint32_t`. -/
def seedInfo (config : EventManagerConfig_t) (info : EventInfo_t) : EventInfo_t :=
  { info with
    EventSize := config.event_size % 256
    Pointer := config.pointer_init
    Counter := config.counter_init
    FirstPointer := config.first_valid_addr
    MaxPointer := (config.first_valid_addr + config.size_used + 4294967296 - 1) % 4294967296 }

/-- Seed validation of EventManager.c, lines 131-139. -/
def validateSeed (info : EventInfo_t) : EventInfo_t :=
  let i1 : EventInfo_t :=
    if info.Counter > info.MaxLogsNumber ∨ info.Pointer > info.MaxPointer
        ∨ info.Pointer % info.EventSize ≠ 0 then
      { info with Counter := 0, Pointer := info.FirstPointer }
    else info
  if i1.Pointer < i1.FirstPointer then { i1 with Pointer := i1.FirstPointer } else i1

/-- Counter re-derivation of EventManager.c, lines 141-149. -/
def rederiveCounter (info : EventInfo_t) : EventInfo_t :=
  if info.Counter ≥ sub32 info.MaxLogsNumber info.LogsPerSector then
    { info with
      Counter := add32 (sub32 info.MaxLogsNumber info.LogsPerSector)
        ((sub32 info.Pointer info.FirstPointer % info.SectorSize) / info.EventSize) }
  else
    { info with Counter := sub32 info.Pointer info.FirstPointer / info.EventSize }

/-- Prefix the call list of an outcome with the calls made before it. -/
def Outcome.after {σ : Type} {α : Type} (cs : List Call) (o : Outcome σ α) : Outcome σ α :=
  { o with calls := cs ++ o.calls }

/-- `EventManagerInitialize`, lines 120-156: seed the information structure, let the memory
interface describe the geometry, validate the seed, re-derive the counter and check the
record size. -/
def EventManagerInitializeInfo {σ : Type} (config : EventManagerConfig_t)
    (configInfo : EventInfo_t → σ → Bool × EventInfo_t × σ) (e : Engine σ) (d : σ) :
    Outcome σ EventReturn_e :=
  let c := configInfo (seedInfo config e.EventInfo) d
  if c.1 = false then
    { ret := EVENT_INVALID_PARAM, eng := { e with EventInfo := c.2.1 }, dev := c.2.2
      calls := [Call.ConfigInfoFunc false] }
  else
    let info := rederiveCounter (validateSeed c.2.1)
    if info.SectorSize % info.EventSize ≠ 0 ∨ info.EventSize > info.SectorSize then
      { ret := EVENT_INVALID_PARAM, eng := { e with EventInfo := info }, dev := c.2.2
        calls := [Call.ConfigInfoFunc true] }
    else
      { ret := EVENT_RET_OK, eng := { e with EventInfo := info, Initialized := true }
        dev := c.2.2, calls := [Call.ConfigInfoFunc true] }

/-- `EventManagerInitialize`, lines 100-156: attach the memory interface, reject NULL
function pointers, run the optional `InitFunc`, then set up the information structure. -/
def EventManagerInitializeMem {σ : Type} (config : EventManagerConfig_t)
    (mem_interface : EventMemoryInterface_t σ) (e : Engine σ) (d : σ) :
    Outcome σ EventReturn_e :=
  let e1 : Engine σ := { e with MEM_INTERFACE := some mem_interface }
  match mem_interface.ConfigInfoFunc, mem_interface.EraseAllFunc,
      mem_interface.EraseSectorFunc, mem_interface.ReadFunc, mem_interface.WriteFunc with
  | some configInfo, some _, some _, some _, some _ =>
    match mem_interface.InitFunc with
    | some f =>
      if (f d).1 = false then
        { ret := EVENT_RET_ERR_FLASH, eng := e1, dev := (f d).2, calls := [Call.InitFunc false] }
      else
        (EventManagerInitializeInfo config configInfo e1 (f d).2).after [Call.InitFunc true]
    | none => EventManagerInitializeInfo config configInfo e1 d
  | _, _, _, _, _ => { ret := EVENT_INVALID_PARAM, eng := e1, dev := d, calls := [] }

/-- Part of `EventManagerInitialize` that runs with the mutex taken
(EventManager.c, lines 91-156). -/
def EventManagerInitializeBody {σ : Type} (hk : Hooks σ) (config : EventManagerConfig_t)
    (mem_interface : EventMemoryInterface_t σ) (e : Engine σ) (d : σ) :
    Outcome σ EventReturn_e :=
  if e.EventQueue = true then EventManagerInitializeMem config mem_interface e d
  else if (hk.xQueueCreate config.queue_size config.event_size d).1 = false then
    { ret := EVENT_RET_ERR_MEM, eng := e
      dev := (hk.xQueueCreate config.queue_size config.event_size d).2
      calls := [Call.QueueCreate config.queue_size config.event_size false] }
  else
    (EventManagerInitializeMem config mem_interface { e with EventQueue := true }
        (hk.xQueueCreate config.queue_size config.event_size d).2).after
      [Call.QueueCreate config.queue_size config.event_size true]

/-- `EventManagerInitialize` once the mutex handle exists (EventManager.c, lines 77-167);
`none` is a NULL argument. -/
def EventManagerInitializeLocked {σ : Type} (hk : Hooks σ)
    (config : Option EventManagerConfig_t) (mem_interface : Option (EventMemoryInterface_t σ))
    (e : Engine σ) (d : σ) : Outcome σ EventReturn_e :=
  match config, mem_interface with
  | some cfg, some mi =>
    if (hk.xSemaphoreTake cfg.mutex_wait_tick d).1 = false then
      { ret := EVENT_MUTEX_TAKE_ERROR, eng := { e with MutexWaitTicks := cfg.mutex_wait_tick }
        dev := (hk.xSemaphoreTake cfg.mutex_wait_tick d).2
        calls := [Call.SemaphoreTake cfg.mutex_wait_tick false] }
    else
      giveIfTaken hk EVENT_MUTEX_GIVE_ERROR true
        ((EventManagerInitializeBody hk cfg mi { e with MutexWaitTicks := cfg.mutex_wait_tick }
            (hk.xSemaphoreTake cfg.mutex_wait_tick d).2).after
          [Call.SemaphoreTake cfg.mutex_wait_tick true])
  | _, _ => { ret := EVENT_INVALID_PARAM, eng := e, dev := d, calls := [] }

/-- `EventManagerInitialize` (EventManager.c, lines 60-168); `none` is a NULL argument. -/
def EventManagerInitialize {σ : Type} (hk : Hooks σ) (config : Option EventManagerConfig_t)
    (mem_interface : Option (EventMemoryInterface_t σ)) (e : Engine σ) (d : σ) :
    Outcome σ EventReturn_e :=
  if e.EventManagerMutex = true then EventManagerInitializeLocked hk config mem_interface e d
  else if (hk.xSemaphoreCreateMutex d).1 = false then
    { ret := EVENT_MUTEX_NULL_ERROR, eng := e, dev := (hk.xSemaphoreCreateMutex d).2
      calls := [Call.SemaphoreCreate false] }
  else
    (EventManagerInitializeLocked hk config mem_interface { e with EventManagerMutex := true }
        (hk.xSemaphoreCreateMutex d).2).after [Call.SemaphoreCreate true]

/-- The all-zero information structure left by `memset` in `EventManagerUninitialize`. -/
def zeroInfo : EventInfo_t :=
  { ManID := 0, DevID := 0, EventSize := 0, LogsPerSector := 0, MaxLogsNumber := 0
    FirstPointer := 0, MaxPointer := 0, SectorSize := 0, Pointer := 0, Counter := 0 }

/-- `EventManagerUninitialize` (EventManager.c, lines 173-193). -/
def EventManagerUninitialize {σ : Type} (hk : Hooks σ) (e : Engine σ) (d : σ) :
    Outcome σ EventReturn_e :=
  { ret := EVENT_RET_OK
    eng := { e with EventQueue := false, EventManagerMutex := false, EventInfo := zeroInfo
                    MEM_INTERFACE := none, Initialized := false }
    dev := if e.EventQueue then hk.vQueueDelete d else d
    calls := if e.EventQueue then [Call.QueueDelete] else [] }

/-- The `while` loop of `EventManagerRun` (EventManager.c, lines 224-252).  The first
argument is `max_events`, at least 1 when the loop is entered; the loop body runs at most
`max_events` times because of `if (--max_events == 0) break`.  The result is the pair
`(ret, mutex_taken)` at loop exit. -/
def EventManagerRunLoop {σ : Type} (hk : Hooks σ) :
    Nat → Engine σ → σ → Outcome σ (EventReturn_e × Bool)
  | 0, e, d => { ret := (EVENT_RET_OK, false), eng := e, dev := d, calls := [] }
  | n + 1, e, d =>
    match (hk.xQueuePeek 10 d).1 with
    | none =>
      { ret := (EVENT_RET_OK, false), eng := e, dev := (hk.xQueuePeek 10 d).2
        calls := [Call.QueuePeek none] }
    | some event =>
      let d1 := (hk.xQueuePeek 10 d).2
      let t := hk.xSemaphoreTake e.MutexWaitTicks d1
      if t.1 = false then
        { ret := (EVENT_MUTEX_TAKE_ERROR, false), eng := e, dev := t.2
          calls := [Call.QueuePeek (some event), Call.SemaphoreTake e.MutexWaitTicks false] }
      else
        let s := EventStore hk event e t.2
        let c1 := [Call.QueuePeek (some event), Call.SemaphoreTake e.MutexWaitTicks true]
                    ++ s.calls
        if s.ret ≠ EVENT_RET_OK then
          { ret := (s.ret, true), eng := s.eng, dev := s.dev, calls := c1 }
        else
          let r := hk.xQueueReceive 10 s.dev
          let g := hk.xSemaphoreGive r.2
          let c2 := c1 ++ [Call.QueueReceive r.1, Call.SemaphoreGive g.1]
          if g.1 = false then
            { ret := (EVENT_MUTEX_GIVE_ERROR, false), eng := s.eng, dev := g.2, calls := c2 }
          else
            let cb := hk.EventManagerCallback EventManagerCallback_e.EVENT_STORED g.2
            let c3 := c2 ++ [Call.Callback EventManagerCallback_e.EVENT_STORED cb.1]
            if n = 0 then
              { ret := (EVENT_RET_OK, false), eng := s.eng, dev := cb.2, calls := c3 }
            else
              let rest := EventManagerRunLoop hk n s.eng cb.2
              { rest with calls := c3 ++ rest.calls }

/-- `EventManagerRun` (EventManager.c, lines 199-268). -/
def EventManagerRun {σ : Type} (hk : Hooks σ) (max_events : Nat) (e : Engine σ) (d : σ) :
    Outcome σ EventReturn_e :=
  if e.Initialized ≠ true then
    { ret := EVENT_NOT_INIT, eng := e, dev := d, calls := [] }
  else if max_events = 0 then
    { ret := EVENT_RET_OK, eng := e, dev := d, calls := [] }
  else
    let m := hk.EventManagerMalloc e.EventInfo.EventSize d
    if m.1 = false then
      { ret := EVENT_MALLOC_ERROR, eng := e, dev := m.2
        calls := [Call.Malloc e.EventInfo.EventSize false] }
    else
      let l := EventManagerRunLoop hk max_events e m.2
      giveIfTaken hk EVENT_MUTEX_GIVE_ERROR l.ret.2
        { ret := l.ret.1, eng := l.eng, dev := l.dev
          calls := [Call.Malloc e.EventInfo.EventSize true] ++ l.calls }

/-- `EventManagerClear` (EventManager.c, lines 273-316). -/
def EventManagerClear {σ : Type} (hk : Hooks σ) (e : Engine σ) (d : σ) :
    Outcome σ EventReturn_e :=
  if e.Initialized ≠ true then
    { ret := EVENT_NOT_INIT, eng := e, dev := d, calls := [] }
  else
    let t := hk.xSemaphoreTake e.MutexWaitTicks d
    if t.1 = false then
      { ret := EVENT_MUTEX_TAKE_ERROR, eng := e, dev := t.2
        calls := [Call.SemaphoreTake e.MutexWaitTicks false] }
    else
      let c0 := [Call.SemaphoreTake e.MutexWaitTicks true]
      let a := callEraseAll e t.2
      giveIfTaken hk EVENT_MUTEX_GIVE_ERROR true
        (if a.1 = false then
          { ret := EVENT_RET_ERR_FLASH, eng := e, dev := a.2.1, calls := c0 ++ a.2.2 }
        else
          let info : EventInfo_t :=
            { e.EventInfo with Pointer := e.EventInfo.FirstPointer, Counter := 0 }
          let s := hk.EventManagerStoreCallback info.Pointer info.Counter a.2.1
          { ret := if s.1 ≠ EVENT_RET_OK then EVENT_RET_ERR_MEM else EVENT_RET_OK
            eng := { e with EventInfo := info }
            dev := s.2
            calls := c0 ++ a.2.2 ++ [Call.StoreCallback info.Pointer info.Counter s.1] })

/-- `EventManagerRead` (EventManager.c, lines 324-383).  The second component is the
caller's buffer: `none` when the function did not write into it. -/
def EventManagerRead {σ : Type} (hk : Hooks σ) (log_number event_size : Nat) (e : Engine σ)
    (d : σ) : Outcome σ EventReturn_e × Option (List Nat) :=
  if e.Initialized ≠ true then
    ({ ret := EVENT_NOT_INIT, eng := e, dev := d, calls := [] }, none)
  else if event_size < e.EventInfo.EventSize then
    ({ ret := EVENT_RET_ERR_MEM, eng := e, dev := d, calls := [] }, none)
  else
    let t := hk.xSemaphoreTake e.MutexWaitTicks d
    if t.1 = false then
      ({ ret := EVENT_MUTEX_TAKE_ERROR, eng := e, dev := t.2
         calls := [Call.SemaphoreTake e.MutexWaitTicks false] }, none)
    else
      let c0 := [Call.SemaphoreTake e.MutexWaitTicks true]
      if log_number ≥ e.EventInfo.Counter then
        (giveIfTaken hk EVENT_MUTEX_GIVE_ERROR true
          { ret := EVENT_NOT_EXIST, eng := e, dev := t.2, calls := c0 }, none)
      else
        let flash_pointer := GetFlashPointer e.EventInfo log_number
        if flash_pointer > e.EventInfo.MaxPointer then
          (giveIfTaken hk EVENT_MUTEX_GIVE_ERROR true
            { ret := EVENT_INVALID_PARAM, eng := e, dev := t.2, calls := c0 }, none)
        else
          let cb := hk.EventManagerCallback EventManagerCallback_e.READ_EVENT t.2
          let r := callRead e flash_pointer e.EventInfo.EventSize cb.2
          (giveIfTaken hk EVENT_MUTEX_GIVE_ERROR true
            { ret := if r.1 = false then EVENT_RET_ERR_FLASH else EVENT_RET_OK
              eng := e, dev := r.2.2.1
              calls := c0 ++ [Call.Callback EventManagerCallback_e.READ_EVENT cb.1] ++ r.2.2.2 },
           r.2.1)

/-- `EventManagerReadNext` (EventManager.c, lines 391-425). -/
def EventManagerReadNext {σ : Type} (hk : Hooks σ) (event_size : Nat) (e : Engine σ) (d : σ) :
    Outcome σ EventReturn_e × Option (List Nat) :=
  if e.Initialized ≠ true then
    ({ ret := EVENT_NOT_INIT, eng := e, dev := d, calls := [] }, none)
  else
    let r := EventManagerRead hk e.AutoIncrementLogNumber event_size e d
    let t := hk.xSemaphoreTake e.MutexWaitTicks r.1.dev
    if t.1 = false then
      ({ ret := EVENT_MUTEX_TAKE_ERROR, eng := r.1.eng, dev := t.2
         calls := r.1.calls ++ [Call.SemaphoreTake e.MutexWaitTicks false] }, r.2)
    else
      let n := add32 e.AutoIncrementLogNumber 1
      (giveIfTaken hk EVENT_MUTEX_GIVE_ERROR true
        { ret := r.1.ret
          eng := { r.1.eng with
            AutoIncrementLogNumber := if n ≥ e.EventInfo.Counter then 0 else n }
          dev := t.2
          calls := r.1.calls ++ [Call.SemaphoreTake e.MutexWaitTicks true] }, r.2)

/-- `EventManagerResetAutoCount` (EventManager.c, lines 430-460). -/
def EventManagerResetAutoCount {σ : Type} (hk : Hooks σ) (e : Engine σ) (d : σ) :
    Outcome σ EventReturn_e :=
  if e.Initialized ≠ true then
    { ret := EVENT_NOT_INIT, eng := e, dev := d, calls := [] }
  else
    let t := hk.xSemaphoreTake e.MutexWaitTicks d
    if t.1 = false then
      { ret := EVENT_MUTEX_TAKE_ERROR, eng := e, dev := t.2
        calls := [Call.SemaphoreTake e.MutexWaitTicks false] }
    else
      giveIfTaken hk EVENT_MUTEX_GIVE_ERROR true
        { ret := EVENT_RET_OK, eng := { e with AutoIncrementLogNumber := 0 }, dev := t.2
          calls := [Call.SemaphoreTake e.MutexWaitTicks true] }

/-- `EventManagerGetAutoCount` (EventManager.c, lines 465-468). -/
def EventManagerGetAutoCount {σ : Type} (e : Engine σ) : Nat := e.AutoIncrementLogNumber

/-- `EventManagerWriteBack` (EventManager.c, lines 478-507); `none` is a NULL buffer. -/
def EventManagerWriteBack {σ : Type} (hk : Hooks σ) (event : Option (List Nat))
    (event_size : Nat) (e : Engine σ) (d : σ) : Outcome σ EventReturn_e :=
  if e.Initialized ≠ true then
    { ret := EVENT_NOT_INIT, eng := e, dev := d, calls := [] }
  else if event_size ≠ e.EventInfo.EventSize then
    { ret := EVENT_INVALID_PARAM, eng := e, dev := d, calls := [] }
  else
    match event with
    | none => { ret := EVENT_INVALID_PARAM, eng := e, dev := d, calls := [] }
    | some ev =>
      let s := EventSend2Queue hk ev e d
      { ret := if s.ret ≠ 0 then EVENT_RET_ERR_MEM else EVENT_RET_OK
        eng := s.eng, dev := s.dev, calls := s.calls }

/-- `EventManagerWriteThrough` (EventManager.c, lines 517-554); `none` is a NULL buffer. -/
def EventManagerWriteThrough {σ : Type} (hk : Hooks σ) (event : Option (List Nat))
    (event_size : Nat) (e : Engine σ) (d : σ) : Outcome σ EventReturn_e :=
  if e.Initialized ≠ true then
    { ret := EVENT_NOT_INIT, eng := e, dev := d, calls := [] }
  else if event_size ≠ e.EventInfo.EventSize then
    { ret := EVENT_INVALID_PARAM, eng := e, dev := d, calls := [] }
  else
    match event with
    | none => { ret := EVENT_INVALID_PARAM, eng := e, dev := d, calls := [] }
    | some ev =>
      let t := hk.xSemaphoreTake e.MutexWaitTicks d
      if t.1 = false then
        { ret := EVENT_MUTEX_TAKE_ERROR, eng := e, dev := t.2
          calls := [Call.SemaphoreTake e.MutexWaitTicks false] }
      else
        let s := EventStore hk ev e t.2
        giveIfTaken hk EVENT_MUTEX_GIVE_ERROR true
          { s with calls := [Call.SemaphoreTake e.MutexWaitTicks true] ++ s.calls }

/-- `EventManagerGetInfo` (EventManager.c, lines 559-562). -/
def EventManagerGetInfo {σ : Type} (e : Engine σ) : EventInfo_t := e.EventInfo

/-! ## The SST2xVF memory interface (`EventSST2xVF.c`) -/

/-- Fields of `SST2xVF_INFO_t` (SST2xVF.h) read by the event interface. -/
structure SST2xVF_INFO_t where
  size : Nat
  sector_size : Nat
  erased_value : Nat
  man_id : Nat
  dev_id : Nat
  deriving DecidableEq, Repr

/-- Functions of the driver control block `SST2xVF_DRIVER_t` (SST2xVF.h) called by the event
interface, acting on the state `δ` of the device; a `Bool` result is `true` for
`SST2xVF_RET_OK`. -/
structure SST2xVF_DRIVER_t (δ : Type) where
  Initialize : δ → Bool × δ
  ReadData : Nat → Nat → δ → Bool × List Nat × δ
  ProgramData : Nat → List Nat → Nat → δ → Bool × δ
  EraseSector : Nat → δ → Bool × δ
  EraseChip : δ → Bool × δ
  GetInfo : δ → SST2xVF_INFO_t

/-- The static `UserConfig` of `EventSST2xVF.c` (`struct UserDefinedArea`). -/
structure UserDefinedArea where
  user_defined : Bool
  first_addr : Nat
  total_size : Nat
  deriving DecidableEq, Repr

/-- Environment seen through the SST2xVF interface: the static `UserConfig` and the rest. -/
structure SSTState (δ : Type) where
  UserConfig : UserDefinedArea
  drv : δ

/-- `EventSST2xVFConfig` (EventSST2xVF.c, lines 64-106). -/
def EventSST2xVFConfig {δ : Type} (drv : SST2xVF_DRIVER_t δ) (info : EventInfo_t)
    (s : SSTState δ) : Bool × EventInfo_t × SSTState δ :=
  let fi := drv.GetInfo s.drv
  let info1 : EventInfo_t :=
    if add32 info.MaxPointer 1 = 0 then { info with MaxPointer := sub32 fi.size 1 } else info
  let s1 : SSTState δ :=
    { s with UserConfig := { s.UserConfig with
        user_defined := if add32 info.MaxPointer 1 = 0 then false else true } }
  if info1.MaxPointer > fi.size then (false, info1, s1)
  else if info1.FirstPointer % fi.sector_size ≠ 0 then (false, info1, s1)
  else if add32 info1.MaxPointer 1 % fi.sector_size ≠ 0 then (false, info1, s1)
  else
    let total_size := add32 (sub32 info1.MaxPointer info1.FirstPointer) 1
    (true,
     { info1 with
       LogsPerSector := fi.sector_size / info1.EventSize
       MaxLogsNumber := total_size / info1.EventSize
       SectorSize := fi.sector_size
       ManID := fi.man_id
       DevID := fi.dev_id },
     { s1 with UserConfig := { s1.UserConfig with
         first_addr := info1.FirstPointer, total_size := total_size } })

/-- `EventSST2xVFInit` (EventSST2xVF.c, lines 113-123). -/
def EventSST2xVFInit {δ : Type} (drv : SST2xVF_DRIVER_t δ) (s : SSTState δ) :
    Bool × SSTState δ :=
  ((drv.Initialize s.drv).1, { s with drv := (drv.Initialize s.drv).2 })

/-- The `for` loop of `EventSST2xVFEraseAll` (EventSST2xVF.c, lines 137-144) with the loop
variable `i` and the bound `first_addr + total_size` as 32-bit values.  The first argument
bounds the number of iterations; `none` means the bound was reached. -/
def EventSST2xVFEraseAllLoop {δ : Type} (drv : SST2xVF_DRIVER_t δ) (bound : Nat) :
    Nat → Nat → δ → Option (Bool × δ)
  | 0, _, _ => none
  | fuel + 1, i, d =>
    if i ≤ bound then
      if (drv.EraseSector i d).1 = false then some (false, (drv.EraseSector i d).2)
      else
        EventSST2xVFEraseAllLoop drv bound fuel
          (add32 i (drv.GetInfo (drv.EraseSector i d).2).sector_size) (drv.EraseSector i d).2
    else some (true, d)

/-- `EventSST2xVFEraseAll` (EventSST2xVF.c, lines 130-152).  The loop is given
`total_size + 2` iterations, enough whenever the sector size is not 0 and `i` does not wrap
around `2^32`; otherwise the C loop need not terminate and the embedding reports failure. -/
def EventSST2xVFEraseAll {δ : Type} (drv : SST2xVF_DRIVER_t δ) (s : SSTState δ) :
    Bool × SSTState δ :=
  if s.UserConfig.user_defined = true then
    match EventSST2xVFEraseAllLoop drv (add32 s.UserConfig.first_addr s.UserConfig.total_size)
        (s.UserConfig.total_size + 2) s.UserConfig.first_addr s.drv with
    | some r => (r.1, { s with drv := r.2 })
    | none => (false, s)
  else ((drv.EraseChip s.drv).1, { s with drv := (drv.EraseChip s.drv).2 })

/-- `EventSST2xVFEraseSector` (EventSST2xVF.c, lines 160-170). -/
def EventSST2xVFEraseSector {δ : Type} (drv : SST2xVF_DRIVER_t δ) (addr : Nat)
    (s : SSTState δ) : Bool × SSTState δ :=
  ((drv.EraseSector addr s.drv).1, { s with drv := (drv.EraseSector addr s.drv).2 })

/-- `EventSST2xVFRead` (EventSST2xVF.c, lines 180-190); the driver takes a 16-bit length. -/
def EventSST2xVFRead {δ : Type} (drv : SST2xVF_DRIVER_t δ) (addr size : Nat)
    (s : SSTState δ) : Bool × List Nat × SSTState δ :=
  ((drv.ReadData addr (size % 65536) s.drv).1, (drv.ReadData addr (size % 65536) s.drv).2.1,
   { s with drv := (drv.ReadData addr (size % 65536) s.drv).2.2 })

/-- `EventSST2xVFWrite` (EventSST2xVF.c, lines 200-209); the driver takes a 16-bit length. -/
def EventSST2xVFWrite {δ : Type} (drv : SST2xVF_DRIVER_t δ) (addr : Nat) (data : List Nat)
    (size : Nat) (s : SSTState δ) : Bool × SSTState δ :=
  ((drv.ProgramData addr data (size % 65536) s.drv).1,
   { s with drv := (drv.ProgramData addr data (size % 65536) s.drv).2 })

/-- `SST2xVF_EventFuncs` (EventSST2xVF.c, lines 38-45), returned by
`EventSST2xVFGetInterface`. -/
def SST2xVF_EventFuncs {δ : Type} (drv : SST2xVF_DRIVER_t δ) :
    EventMemoryInterface_t (SSTState δ) :=
  { InitFunc := some (EventSST2xVFInit drv)
    ConfigInfoFunc := some (EventSST2xVFConfig drv)
    EraseAllFunc := some (EventSST2xVFEraseAll drv)
    EraseSectorFunc := some (EventSST2xVFEraseSector drv)
    ReadFunc := some (EventSST2xVFRead drv)
    WriteFunc := some (EventSST2xVFWrite drv) }

/-! ## A reference environment

An ideal flash device behind the SST2xVF driver interface, a bounded FIFO for the RTOS
queue, a mutex that is always free, and a store callback that records the pair it is given.
It is the environment "in which every external call succeeds". -/

/-- State of the reference environment. -/
structure IdealWorld where
  mem : Nat → Nat
  queue : List (List Nat)
  queueLength : Nat
  queueItemSize : Nat
  persisted : Option (Nat × Nat)

/-- Memory after the sector that contains `addr` has been erased. -/
def memErase (fi : SST2xVF_INFO_t) (addr : Nat) (m : Nat → Nat) : Nat → Nat :=
  fun a =>
    if addr - addr % fi.sector_size ≤ a ∧ a < addr - addr % fi.sector_size + fi.sector_size
    then fi.erased_value else m a

/-- Memory after the first `len` bytes of `data` have been stored at `addr`. -/
def memWrite (addr : Nat) (data : List Nat) (len : Nat) (m : Nat → Nat) : Nat → Nat :=
  fun a => if addr ≤ a ∧ a < addr + len then data.getD (a - addr) 0 else m a

/-- The `len` bytes stored from `addr` on. -/
def memRead (addr len : Nat) (m : Nat → Nat) : List Nat :=
  (List.range len).map (fun i => m (addr + i))

/-- Ideal flash device: every operation succeeds, `EraseSector` fills the sector that
contains the address with the erased value, `ProgramData` stores the bytes given and
`ReadData` returns the bytes stored. -/
def idealDriver (fi : SST2xVF_INFO_t) : SST2xVF_DRIVER_t IdealWorld :=
  { Initialize := fun w => (true, w)
    ReadData := fun addr len w => (true, memRead addr len w.mem, w)
    ProgramData := fun addr data len w => (true, { w with mem := memWrite addr data len w.mem })
    EraseSector := fun addr w => (true, { w with mem := memErase fi addr w.mem })
    EraseChip := fun w => (true, { w with mem := fun _ => fi.erased_value })
    GetInfo := fun _ => fi }

/-- Link-time functions of the reference environment. -/
def idealHooks : Hooks (SSTState IdealWorld) :=
  { EventManagerCallback := fun _ s => (EVENT_RET_OK, s)
    EventManagerStoreCallback := fun pointer counter s =>
      (EVENT_RET_OK, { s with drv := { s.drv with persisted := some (pointer, counter) } })
    EventManagerMalloc := fun _ s => (true, s)
    xSemaphoreCreateMutex := fun s => (true, s)
    xSemaphoreTake := fun _ s => (true, s)
    xSemaphoreGive := fun s => (true, s)
    xQueueCreate := fun len size s =>
      (true, { s with drv := { s.drv with queue := [], queueLength := len
                                          queueItemSize := size } })
    vQueueDelete := fun s => { s with drv := { s.drv with queue := [] } }
    xQueueSend := fun item _ s =>
      if s.drv.queue.length < s.drv.queueLength then
        (true, { s with drv := { s.drv with
          queue := s.drv.queue ++ [item.take s.drv.queueItemSize] } })
      else (false, s)
    xQueuePeek := fun _ s => (s.drv.queue.head?, s)
    xQueueReceive := fun _ s =>
      (s.drv.queue.head?, { s with drv := { s.drv with queue := s.drv.queue.tail } }) }

/-- Interface of the reference environment for a device described by `fi`. -/
def idealInterface (fi : SST2xVF_INFO_t) : EventMemoryInterface_t (SSTState IdealWorld) :=
  SST2xVF_EventFuncs (idealDriver fi)

/-- Engine before any call (`Initialized == false`, all handles NULL). -/
def bootEngine : Engine (SSTState IdealWorld) :=
  { EventQueue := false, EventInfo := zeroInfo, Initialized := false, MEM_INTERFACE := none
    EventManagerMutex := false, MutexWaitTicks := 0, AutoIncrementLogNumber := 0 }

/-- Reference environment whose memory holds `fill` at every address. -/
def bootWorld (fill : Nat) : SSTState IdealWorld :=
  { UserConfig := { user_defined := false, first_addr := 0, total_size := 0 }
    drv := { mem := fun _ => fill, queue := [], queueLength := 0, queueItemSize := 0
             persisted := none } }

/-- Successive `EventManagerWriteThrough` calls, one for each record of the list, in the
reference environment; returns the list of return codes and the final state. -/
def writeAll :
    List (List Nat) → Engine (SSTState IdealWorld) → SSTState IdealWorld →
      List EventReturn_e × Engine (SSTState IdealWorld) × SSTState IdealWorld
  | [], e, d => ([], e, d)
  | r :: rs, e, d =>
    let o := EventManagerWriteThrough idealHooks (some r) e.EventInfo.EventSize e d
    let rest := writeAll rs o.eng o.dev
    (o.ret :: rest.1, rest.2.1, rest.2.2)

/-! ## Auxiliary definitions used in the statements -/

/-- Engine after the erase check of an append succeeded: the counter drops by one sector's
worth when it had reached the maximum. -/
def erasedEngine {σ : Type} (e : Engine σ) : Engine σ :=
  { e with EventInfo := { e.EventInfo with
      Counter := if e.EventInfo.Counter ≥ e.EventInfo.MaxLogsNumber
        then sub32 e.EventInfo.Counter e.EventInfo.LogsPerSector else e.EventInfo.Counter } }

/-- Information structure after a record has been written (EventManager.c, lines 653-657). -/
def advance (info : EventInfo_t) : EventInfo_t :=
  { info with Counter := add32 info.Counter 1, Pointer := nextPointer info }

/-- Outcome of `EventStore` once the erase check has left engine `e1`, environment `d1` and
call list `c1`, and `WriteFunc` has succeeded. -/
def storedOutcome {σ : Type} (hk : Hooks σ) (event : List Nat) (e1 : Engine σ) (d1 : σ)
    (c1 : List Call) : Outcome σ EventReturn_e :=
  let w := callWrite e1 e1.EventInfo.Pointer event e1.EventInfo.EventSize d1
  let s := hk.EventManagerStoreCallback (advance e1.EventInfo).Pointer
    (advance e1.EventInfo).Counter w.2.1
  { ret := if s.1 ≠ EVENT_RET_OK then EVENT_RET_ERR_MEM else EVENT_RET_OK
    eng := { e1 with EventInfo := advance e1.EventInfo }
    dev := s.2
    calls := c1 ++ w.2.2 ++
      [Call.StoreCallback (advance e1.EventInfo).Pointer (advance e1.EventInfo).Counter s.1] }

/-- Geometry of the log region as the data model of the specification words it: the record
size is positive and divides the sector size, the region `[FirstPointer, MaxPointer]` is a
whole number (at least one) of sectors and ends below `2^32`, and the derived constants are
the quotients by the record size.  Nothing is said about the first address. -/
def RegionGeometry (i : EventInfo_t) : Prop :=
  0 < i.EventSize ∧ i.EventSize ≤ i.SectorSize ∧ i.SectorSize % i.EventSize = 0 ∧
  i.FirstPointer ≤ i.MaxPointer ∧ (i.MaxPointer - i.FirstPointer + 1) % i.SectorSize = 0 ∧
  i.MaxPointer + 1 < 4294967296 ∧
  i.LogsPerSector = i.SectorSize / i.EventSize ∧
  i.MaxLogsNumber = (i.MaxPointer - i.FirstPointer + 1) / i.EventSize

instance (i : EventInfo_t) : Decidable (RegionGeometry i) := by
  unfold RegionGeometry; infer_instance

/-- Geometry whose bounds are moreover sector aligned, as `EventSST2xVFConfig` requires. -/
def ValidGeometry (i : EventInfo_t) : Prop :=
  RegionGeometry i ∧ i.FirstPointer % i.SectorSize = 0

instance (i : EventInfo_t) : Decidable (ValidGeometry i) := by
  unfold ValidGeometry; infer_instance

/-- A valid geometry in coordinates: the first address is sector number `f`, the region has
`ns` sectors. -/
structure Coords (i : EventInfo_t) (f ns : Nat) : Prop where
  hE : 0 < i.EventSize
  hL : 0 < i.LogsPerSector
  hns : 0 < ns
  hS : i.SectorSize = i.LogsPerSector * i.EventSize
  hF : i.FirstPointer = f * i.SectorSize
  hM : i.MaxLogsNumber = ns * i.LogsPerSector
  hMax : i.MaxPointer + 1 = i.FirstPointer + i.MaxLogsNumber * i.EventSize
  h32 : i.MaxPointer + 1 < 4294967296

/-- Position invariant of the log: the pointer is at slot `j` of the region and the counter
is in one of the three shapes the append path produces. -/
def LogInv (i : EventInfo_t) : Prop :=
  ∃ j, j < i.MaxLogsNumber ∧ i.Pointer = i.FirstPointer + j * i.EventSize ∧
    (i.Counter = j ∨ i.Counter = i.MaxLogsNumber - i.LogsPerSector + j % i.LogsPerSector ∨
      (j % i.LogsPerSector = 0 ∧ i.Counter = i.MaxLogsNumber))

/-- Position invariant once the erase check has run: the counter is below the maximum. -/
def Ready (i : EventInfo_t) : Prop :=
  ∃ j, j < i.MaxLogsNumber ∧ i.Pointer = i.FirstPointer + j * i.EventSize ∧
    (i.Counter = j ∨
      (i.Counter = i.MaxLogsNumber - i.LogsPerSector + j % i.LogsPerSector))

/-- Information structure after a successful erase check on a sector boundary. -/
def erasedInfo (i : EventInfo_t) : EventInfo_t :=
  { i with Counter := if i.Counter ≥ i.MaxLogsNumber
      then sub32 i.Counter i.LogsPerSector else i.Counter }

/-- One call of the public interface that can change the log. -/
inductive Op where
  | writeThrough (event : Option (List Nat)) (event_size : Nat)
  | run (max_events : Nat)
  | clear

/-- Engine and environment after one call. -/
def applyOp {σ : Type} (hk : Hooks σ) (op : Op) (e : Engine σ) (d : σ) : Engine σ × σ :=
  match op with
  | Op.writeThrough event event_size =>
    ((EventManagerWriteThrough hk event event_size e d).eng,
     (EventManagerWriteThrough hk event event_size e d).dev)
  | Op.run max_events =>
    ((EventManagerRun hk max_events e d).eng, (EventManagerRun hk max_events e d).dev)
  | Op.clear => ((EventManagerClear hk e d).eng, (EventManagerClear hk e d).dev)

/-- Engine and environment after a sequence of calls. -/
def applyOps {σ : Type} (hk : Hooks σ) : List Op → Engine σ → σ → Engine σ × σ
  | [], e, d => (e, d)
  | op :: ops, e, d => applyOps hk ops (applyOp hk op e d).1 (applyOp hk op e d).2

/-- Invariant of the engine: valid geometry in coordinates and position invariant. -/
def EngInv {σ : Type} (f ns : Nat) (e : Engine σ) : Prop :=
  Coords e.EventInfo f ns ∧ LogInv e.EventInfo

/-- Device information of the SST26VF064B (SST2xVF.c, lines 904-917): 8 Mbytes in sectors
of 4 kbytes. -/
def SST26VF064B : SST2xVF_INFO_t :=
  { size := 8388608, sector_size := 4096, erased_value := 255, man_id := 191, dev_id := 67 }

/-- Configuration of the second pass of `TestEventSST2xVF` (TestEventSST2xVF.c, lines 42-55):
records of 128 bytes in the two sectors that start at address `4 * 4096`. -/
def testConfig : EventManagerConfig_t :=
  { event_size := 128, pointer_init := 16384, counter_init := 0, queue_size := 5
    mutex_wait_tick := 10, first_valid_addr := 16384, size_used := 8192 }

/-- Outcome of `EventManagerInitialize` on the reference environment. -/
def initOn (fi : SST2xVF_INFO_t) (config : EventManagerConfig_t) :
    Outcome (SSTState IdealWorld) EventReturn_e :=
  EventManagerInitialize idealHooks (some config) (some (idealInterface fi)) bootEngine
    (bootWorld 0)

/-- Information structure reported by `EventManagerGetInfo` after `EventManagerInitialize`
followed by the calls `ops`. -/
def reachedInfo {σ : Type} (hk : Hooks σ) (config : Option EventManagerConfig_t)
    (mem_interface : Option (EventMemoryInterface_t σ)) (e0 : Engine σ) (d0 : σ)
    (ops : List Op) : EventInfo_t :=
  EventManagerGetInfo (applyOps hk ops
    (EventManagerInitialize hk config mem_interface e0 d0).eng
    (EventManagerInitialize hk config mem_interface e0 d0).dev).1

/-- Memory of the reference environment after one append. -/
def memAfterStore (fi : SST2xVF_INFO_t) (info : EventInfo_t) (event : List Nat)
    (m : Nat → Nat) : Nat → Nat :=
  memWrite info.Pointer event (info.EventSize % 65536)
    (if info.Pointer % info.SectorSize = 0 then memErase fi info.Pointer m else m)

/-- Information structure after one successful append. -/
def infoAfterStore (info : EventInfo_t) : EventInfo_t :=
  advance (if info.Pointer % info.SectorSize = 0 then erasedInfo info else info)

/-- State of the log after the records `done` (there are `n` of them, at most
`MaxLogsNumber`) have been appended to an empty log: position of the pointer, value of the
counter and contents of the memory. -/
def Filled (f ns n : Nat) (done : List (List Nat)) (i : EventInfo_t) (m : Nat → Nat) : Prop :=
  Coords i f ns ∧ i.Pointer = i.FirstPointer + (n % i.MaxLogsNumber) * i.EventSize ∧
  i.Counter = n ∧ done.length = n ∧
  ∀ k b, k < n → b < i.EventSize →
    m (i.FirstPointer + k * i.EventSize + b) = (done.getD k []).getD b 0

/-- Initialized engine of the reference environment with the given information structure. -/
def idealEngine (fi : SST2xVF_INFO_t) (info : EventInfo_t) : Engine (SSTState IdealWorld) :=
  { EventQueue := true, EventInfo := info, Initialized := true
    MEM_INTERFACE := some (idealInterface fi), EventManagerMutex := true
    MutexWaitTicks := 10, AutoIncrementLogNumber := 0 }

/-- Empty log of the second pass of `TestEventSST2xVF`: records of 128 bytes, two sectors of
4096 bytes from address 16384 on (64 records, 32 per sector). -/
def testInfo : EventInfo_t :=
  { ManID := 191, DevID := 67, EventSize := 128, LogsPerSector := 32, MaxLogsNumber := 64
    FirstPointer := 16384, MaxPointer := 24575, SectorSize := 4096, Pointer := 16384
    Counter := 0 }

/-- The same log as `testInfo` placed at the start of the device (first address 0). -/
def testInfoAtZero : EventInfo_t :=
  { testInfo with FirstPointer := 0, MaxPointer := 8191, Pointer := 0 }

/-- A device with sectors of 4 bytes, for small examples. -/
def tinyFlash : SST2xVF_INFO_t :=
  { size := 64, sector_size := 4, erased_value := 255, man_id := 191, dev_id := 67 }

/-- Empty log of records of 2 bytes in one sector of 4 bytes whose first address, 2, is not
a multiple of the sector size. -/
def unalignedInfo : EventInfo_t :=
  { ManID := 191, DevID := 67, EventSize := 2, LogsPerSector := 2, MaxLogsNumber := 2
    FirstPointer := 2, MaxPointer := 5, SectorSize := 4, Pointer := 2, Counter := 0 }

/-- The records of the turnaround test (TestEventSST2xVF.c, lines 186-189): record `k`
starts with the four bytes of `k`, least significant first, and is padded with zeros. -/
def numberedRecord (size k : Nat) : List Nat :=
  ([k % 256, k / 256 % 256, k / 65536 % 256, k / 16777216 % 256]
    ++ List.replicate (size - 4) 0).take size

/-- Records numbered `0 .. n - 1`. -/
def numberedRecords (size n : Nat) : List (List Nat) :=
  (List.range n).map (numberedRecord size)

/-- Engine of the reference environment holding the empty log `testInfo`. -/
def testEngine : Engine (SSTState IdealWorld) := idealEngine SST26VF064B testInfo

/-- Engine and environment after `n` numbered records have been appended to `testEngine`. -/
def testAfter (n : Nat) : Engine (SSTState IdealWorld) × SSTState IdealWorld :=
  ((writeAll (numberedRecords 128 n) testEngine (bootWorld 0)).2.1,
   (writeAll (numberedRecords 128 n) testEngine (bootWorld 0)).2.2)

/-- Reference interface in which `EraseSectorFunc` and `WriteFunc` fail when the
corresponding flag is `false`. -/
def faultyInterface (fi : SST2xVF_INFO_t) (eraseOk writeOk : Bool) :
    EventMemoryInterface_t (SSTState IdealWorld) :=
  { idealInterface fi with
    EraseSectorFunc := some (fun addr s =>
      if eraseOk then EventSST2xVFEraseSector (idealDriver fi) addr s else (false, s))
    WriteFunc := some (fun addr data size s =>
      if writeOk then EventSST2xVFWrite (idealDriver fi) addr data size s else (false, s)) }

/-- Full log of the test geometry whose pointer has wrapped to the first address (the state
after 64 appends), attached to a memory whose `WriteFunc` fails. -/
def fullEngineWriteFails : Engine (SSTState IdealWorld) :=
  { idealEngine SST26VF064B { testInfo with Counter := 64 } with
    MEM_INTERFACE := some (faultyInterface SST26VF064B true false) }

/-- Full log of the test geometry whose pointer has wrapped to the first address (the state
after 64 appends), attached to a memory whose `EraseSectorFunc` fails. -/
def fullEngineEraseFails : Engine (SSTState IdealWorld) :=
  { idealEngine SST26VF064B { testInfo with Counter := 64 } with
    MEM_INTERFACE := some (faultyInterface SST26VF064B false true) }

/-- Empty test log attached to a memory whose `WriteFunc` fails. -/
def testEngineWriteFails : Engine (SSTState IdealWorld) :=
  { testEngine with MEM_INTERFACE := some (faultyInterface SST26VF064B true false) }

/-- Configuration that hands the pair `(pointer, counter)` back to `EventManagerInitialize`
over the geometry of `testConfig`. -/
def recoveryConfig (pointer counter : Nat) : EventManagerConfig_t :=
  { testConfig with pointer_init := pointer, counter_init := counter }

/-- Outcome of `EventManagerUninitialize` followed by `EventManagerInitialize` with the seed
`(pointer, counter)`, from the given engine and environment. -/
def recover (pointer counter : Nat) (s : Engine (SSTState IdealWorld) × SSTState IdealWorld) :
    Outcome (SSTState IdealWorld) EventReturn_e :=
  EventManagerInitialize idealHooks (some (recoveryConfig pointer counter))
    (some (idealInterface SST26VF064B))
    ( EventManagerUninitialize idealHooks s.1 s.2).eng
    ( EventManagerUninitialize idealHooks s.1 s.2).dev

/-- What a successful `EventManagerInitialize` went through: the attached interface has a
`ConfigInfoFunc`, it accepted the seeded information structure, the result is the validated
and re-derived structure, and the record size passed the final check. -/
def InitTrace {σ : Type} (mi : EventMemoryInterface_t σ) (cfg : EventManagerConfig_t)
    (info : EventInfo_t) : Prop :=
  ∃ (configInfo : EventInfo_t → σ → Bool × EventInfo_t × σ) (i0 : EventInfo_t) (d : σ),
    mi.ConfigInfoFunc = some configInfo ∧
    (configInfo (seedInfo cfg i0) d).1 = true ∧
    info = rederiveCounter (validateSeed (configInfo (seedInfo cfg i0) d).2.1) ∧
    info.SectorSize % info.EventSize = 0 ∧ info.EventSize ≤ info.SectorSize

/-- Information structure reported by `EventManagerGetInfo` right after
`EventManagerInitialize`. -/
def initializedInfo {σ : Type} (hk : Hooks σ) (config : Option EventManagerConfig_t)
    (mem_interface : Option (EventMemoryInterface_t σ)) (e0 : Engine σ) (d0 : σ) :
    EventInfo_t :=
  EventManagerGetInfo (EventManagerInitialize hk config mem_interface e0 d0).eng

/-- Outcome of a second `EventManagerInitialize`, with record size `event_size`, on the
engine that `EventManagerInitialize` with `testConfig` has initialized. -/
def reinitialized (event_size : Nat) : Outcome (SSTState IdealWorld) EventReturn_e :=
  EventManagerInitialize idealHooks (some { testConfig with event_size := event_size })
    (some (idealInterface SST26VF064B)) (initOn SST26VF064B testConfig).eng
    (initOn SST26VF064B testConfig).dev

/-- Information structure with the given bounds as `EventManagerInitialize` hands it to
`ConfigInfoFunc` for records of 128 bytes. -/
def boundsInfo (first last : Nat) : EventInfo_t :=
  { zeroInfo with EventSize := 128, FirstPointer := first, MaxPointer := last
                  Pointer := first }

/-- Configuration of the concrete scenario: records of 128 bytes in the four sectors of
4096 bytes that start at address 0, empty log. -/
def scenarioConfig : EventManagerConfig_t :=
  { event_size := 128, pointer_init := 0, counter_init := 0, queue_size := 5
    mutex_wait_tick := 10, first_valid_addr := 0, size_used := 16384 }

/-- Engine and environment of the concrete scenario after `EventManagerInitialize` and `n`
appends of the numbered records `0 .. n - 1`, with the return codes of the appends. -/
def scenarioAfter (n : Nat) :
    List EventReturn_e × Engine (SSTState IdealWorld) × SSTState IdealWorld :=
  writeAll (numberedRecords 128 n) (initOn SST26VF064B scenarioConfig).eng
    (initOn SST26VF064B scenarioConfig).dev

/-- Reference interface whose `EraseAllFunc` always fails. -/
def eraseAllFails (fi : SST2xVF_INFO_t) : EventMemoryInterface_t (SSTState IdealWorld) :=
  { idealInterface fi with EraseAllFunc := some (fun s => (false, s)) }

/-- Engine of the reference environment holding three records, attached to a memory whose
`EraseAllFunc` fails. -/
def engineEraseAllFails : Engine (SSTState IdealWorld) :=
  { (testAfter 3).1 with MEM_INTERFACE := some (eraseAllFails SST26VF064B) }

/-- Reference environment holding the queue `q` (capacity five records of 128 bytes, as
`EventManagerInitialize` creates it for `testConfig`). -/
def queueWorld (q : List (List Nat)) : SSTState IdealWorld :=
  { bootWorld 0 with drv := { (bootWorld 0).drv with
      queue := q, queueLength := 5, queueItemSize := 128 } }

/-- What the engine assumes of the RTOS queue, in terms of the list `queueOf d` of the
records waiting in environment `d`, oldest first: `xQueuePeek` returns the oldest record and
leaves the queue as it is, `xQueueReceive` removes the oldest record, and the other link-time
functions do not touch the queue. -/
structure QueueModel {σ : Type} (hk : Hooks σ) (queueOf : σ → List (List Nat)) : Prop where
  peek : ∀ t d, (hk.xQueuePeek t d).1 = (queueOf d).head?
  peek_keeps : ∀ t d, queueOf (hk.xQueuePeek t d).2 = queueOf d
  receive : ∀ t d, queueOf (hk.xQueueReceive t d).2 = (queueOf d).tail
  take_keeps : ∀ t d, queueOf (hk.xSemaphoreTake t d).2 = queueOf d
  give_keeps : ∀ d, queueOf (hk.xSemaphoreGive d).2 = queueOf d
  store_keeps : ∀ p c d, queueOf (hk.EventManagerStoreCallback p c d).2 = queueOf d
  callback_keeps : ∀ n d, queueOf (hk.EventManagerCallback n d).2 = queueOf d
  malloc_keeps : ∀ n d, queueOf (hk.EventManagerMalloc n d).2 = queueOf d

/-- The erase and write functions of the attached memory interface do not touch the
queue. -/
def MemKeepsQueue {σ : Type} (mi : Option (EventMemoryInterface_t σ))
    (queueOf : σ → List (List Nat)) : Prop :=
  ∀ m, mi = some m →
    (∀ f, m.EraseSectorFunc = some f → ∀ a d, queueOf (f a d).2 = queueOf d) ∧
    (∀ f, m.WriteFunc = some f → ∀ a data n d, queueOf (f a data n d).2 = queueOf d)

/-- The records that a call list has written to the memory: the data of its successful
`WriteFunc` calls, oldest first. -/
def writtenRecords : List Call → List (List Nat)
  | [] => []
  | Call.WriteFunc _ data _ true :: cs => data :: writtenRecords cs
  | _ :: cs => writtenRecords cs

/-- State at the start of the next iteration of the loop of `EventManagerRun` when the
current iteration completes (EventManager.c, lines 224-251): the record at the head of the
queue has been stored, then received, and the mutex given.  `none` when the iteration
leaves the loop (empty queue, mutex not taken, `EventStore` failed, or give failed). -/
def runIteration {σ : Type} (hk : Hooks σ) (e : Engine σ) (d : σ) : Option (Engine σ × σ) :=
  match (hk.xQueuePeek 10 d).1 with
  | none => none
  | some event =>
    let t := hk.xSemaphoreTake e.MutexWaitTicks (hk.xQueuePeek 10 d).2
    if t.1 = false then none
    else
      let s := EventStore hk event e t.2
      if s.ret ≠ EVENT_RET_OK then none
      else
        let g := hk.xSemaphoreGive (hk.xQueueReceive 10 s.dev).2
        if g.1 = false then none
        else some (s.eng, (hk.EventManagerCallback EventManagerCallback_e.EVENT_STORED g.2).2)

/-- State after `j` complete iterations of the loop of `EventManagerRun`. -/
def runIterations {σ : Type} (hk : Hooks σ) : Nat → Engine σ → σ → Option (Engine σ × σ)
  | 0, e, d => some (e, d)
  | j + 1, e, d =>
    match runIteration hk e d with
    | none => none
    | some s => runIterations hk j s.1 s.2

/-- Call `next` may directly follow call `prev`: a record is removed from the queue
(`xQueueReceive`) only right after the store callback of its append returned
`EVENT_RET_OK`, which is the last step of a successful `EventStore`. -/
def removalAllowed (prev next : Call) : Prop :=
  ∀ item, next = Call.QueueReceive item →
    ∃ pointer counter, prev = Call.StoreCallback pointer counter EVENT_RET_OK

/-- Link-time functions of the reference environment with a mutex that is never free. -/
def lockedHooks : Hooks (SSTState IdealWorld) :=
  { idealHooks with xSemaphoreTake := fun _ s => (false, s) }

/-- Link-time functions of the reference environment whose `xSemaphoreGive` always fails. -/
def giveFailsHooks : Hooks (SSTState IdealWorld) :=
  { idealHooks with xSemaphoreGive := fun s => (false, s) }

/-- Link-time functions of the reference environment whose store callback fails from the
second record on. -/
def secondStoreFails : Hooks (SSTState IdealWorld) :=
  { idealHooks with
    EventManagerStoreCallback := fun _ counter s =>
      if counter < 2 then (EVENT_RET_OK, s) else (EVENT_RET_ERR_STORE, s) }

/-- Driver that accepts every operation and keeps the list of the addresses handed to
`EraseSector`, oldest first. -/
def loggingDriver (fi : SST2xVF_INFO_t) : SST2xVF_DRIVER_t (List Nat) :=
  { Initialize := fun w => (true, w)
    ReadData := fun _ _ w => (true, [], w)
    ProgramData := fun _ _ _ w => (true, w)
    EraseSector := fun addr w => (true, w ++ [addr])
    EraseChip := fun w => (true, w)
    GetInfo := fun _ => fi }

/-- Static `UserConfig` left by `EventSST2xVFConfig` for the region `[first, last]` of the
device `fi`, with an empty list of erased addresses. -/
def regionState (fi : SST2xVF_INFO_t) (first last : Nat) : SSTState (List Nat) :=
  (EventSST2xVFConfig (loggingDriver fi) (boundsInfo first last)
    { UserConfig := { user_defined := false, first_addr := 0, total_size := 0 }, drv := [] }).2.2

/-- Link-time functions of the reference environment with the store callback that
`EventManager.c` itself supplies (the weak definition of lines 580-583, which returns
`EVENT_RET_ERR_STORE`). -/
def weakStoreHooks : Hooks (SSTState IdealWorld) :=
  { idealHooks with EventManagerStoreCallback := fun _ _ s => (EVENT_RET_ERR_STORE, s) }

/-- Outcome of `EventManagerWriteBack` of the numbered record 7 on the empty test log with an
empty queue. -/
def enqueuedOnce : Outcome (SSTState IdealWorld) EventReturn_e :=
  EventManagerWriteBack weakStoreHooks (some (numberedRecord 128 7)) 128 testEngine
    (queueWorld [])

/-- Outcome of the first `EventManagerRun(1)` after `enqueuedOnce`. -/
def firstRun : Outcome (SSTState IdealWorld) EventReturn_e :=
  EventManagerRun weakStoreHooks 1 enqueuedOnce.eng enqueuedOnce.dev

/-- Outcome of the second `EventManagerRun(1)`. -/
def secondRun : Outcome (SSTState IdealWorld) EventReturn_e :=
  EventManagerRun weakStoreHooks 1 firstRun.eng firstRun.dev

/-- Configuration with an empty region: the geometry of `testConfig` with `size_used = 0`. -/
def emptyRegionConfig : EventManagerConfig_t :=
  { testConfig with size_used := 0 }

/-- Successive `EventManagerWriteThrough` calls, one for each record of the list, in any
environment; returns the list of return codes and the final engine and environment. -/
def appendAll {σ : Type} (hk : Hooks σ) :
    List (List Nat) → Engine σ → σ → List EventReturn_e × Engine σ × σ
  | [], e, d => ([], e, d)
  | r :: rs, e, d =>
    let o := EventManagerWriteThrough hk (some r) e.EventInfo.EventSize e d
    let rest := appendAll hk rs o.eng o.dev
    (o.ret :: rest.1, rest.2.1, rest.2.2)

/-- Counter of the closed form, as the claim words it: `n` up to `M` appends, then
`M - L + ((n - M - 1) mod L) + 1`. -/
def closedFormCounter (M L n : Nat) : Nat :=
  if n ≤ M then n else M - L + ((n - M - 1) % L) + 1

/-- The test log after 65 appends: the pointer is one record into the first sector and the
counter is in the final-sector regime. -/
def wrappedInfo : EventInfo_t :=
  { testInfo with Pointer := 16512, Counter := 33 }

/-- `Queue_t` of `src/FakeFreeRTOS/queue.c` (lines 37-48).  Pointers are byte addresses. -/
structure Queue_t where
  pcHead : Nat
  pcWriteTo : Nat
  pcTail : Nat
  pcReadFrom : Nat
  uxLength : Nat
  uxItemSize : Nat
  ucStaticallyAllocated : Nat
  deriving DecidableEq, Repr

/-- Size of `Queue_t` in bytes: four pointers and three `uint32_t` on the 32-bit target. -/
def sizeofQueue_t : Nat := 28

/-- `xQueueReset` (queue.c, lines 286-296). -/
def xQueueReset (q : Queue_t) : Bool × Queue_t :=
  (true, { q with pcTail := q.pcHead + mul32 q.uxLength q.uxItemSize
                  pcWriteTo := q.pcHead
                  pcReadFrom := q.pcHead })

/-- `xQueueCreate` (queue.c, lines 62-85).  `QueueMalloc` gives the address of the block it
allocates for the requested number of bytes, or `none` for NULL; the result is the new
control block, `none` for a NULL handle. -/
def xQueueCreate (QueueMalloc : Nat → Option Nat) (uxQueueLength uxItemSize : Nat) :
    Option Queue_t :=
  let xQueueSizeInBytes := mul32 uxQueueLength uxItemSize
  match QueueMalloc (sizeofQueue_t + xQueueSizeInBytes) with
  | none => none
  | some pxNewQueue =>
    some (xQueueReset
      { pcHead := pxNewQueue + sizeofQueue_t, pcWriteTo := 0, pcTail := 0, pcReadFrom := 0
        uxLength := uxQueueLength, uxItemSize := uxItemSize, ucStaticallyAllocated := 0 }).2

/-- `xQueueIsQueueFull` (queue.c, lines 303-315). -/
def xQueueIsQueueFull (q : Queue_t) : Bool :=
  if q.pcWriteTo = q.pcTail ∧ q.pcReadFrom = q.pcHead then true
  else if (q.pcReadFrom : Int) - (q.pcWriteTo : Int) = 1 then true
  else false

/-- `xQueueSend` (queue.c, lines 135-160) on the memory `m`: the return value, the control
block and the memory after the call. -/
def xQueueSend (q : Queue_t) (pvItemToQueue : List Nat) (_xTicksToWait : Nat)
    (m : Nat → Nat) : Bool × Queue_t × (Nat → Nat) :=
  if xQueueIsQueueFull q = false then
    (true,
     { q with pcWriteTo :=
        if q.pcWriteTo + q.uxItemSize ≥ q.pcTail then q.pcHead
        else q.pcWriteTo + q.uxItemSize },
     memWrite q.pcWriteTo pvItemToQueue q.uxItemSize m)
  else
    (true, q, m)

/-- `xQueueReceive` (queue.c, lines 178-199): the item copied into the caller's buffer when
the return value is 1, `none` when it is 0. -/
def xQueueReceive (q : Queue_t) (_xTicksToWait : Nat) (m : Nat → Nat) :
    Option (List Nat) × Queue_t :=
  if q.pcReadFrom ≠ q.pcWriteTo then
    (some (memRead q.pcReadFrom q.uxItemSize m),
     { q with pcReadFrom :=
        if q.pcReadFrom + q.uxItemSize ≥ q.pcTail then q.pcHead
        else q.pcReadFrom + q.uxItemSize })
  else
    (none, q)

/-- `xQueuePeek` (queue.c, lines 211-226). -/
def xQueuePeek (q : Queue_t) (_xTicksToWait : Nat) (m : Nat → Nat) : Option (List Nat) :=
  if q.pcReadFrom ≠ q.pcWriteTo then some (memRead q.pcReadFrom q.uxItemSize m)
  else none

/-- Environment made of the stand-ins of `src/FakeFreeRTOS`: the queue behind the handle
`EventQueue` (when it has been created) and the memory that holds its storage area. -/
structure FakeRTOS where
  queue : Option Queue_t
  heap : Nat → Nat

/-- Link-time functions given by `src/FakeFreeRTOS` (`queue.c`, and `semphr.c`, whose
functions always succeed), with callbacks that succeed and an allocator that places every
block at address 4096. -/
def fakeHooks : Hooks FakeRTOS :=
  { EventManagerCallback := fun _ s => (EVENT_RET_OK, s)
    EventManagerStoreCallback := fun _ _ s => (EVENT_RET_OK, s)
    EventManagerMalloc := fun _ s => (true, s)
    xSemaphoreCreateMutex := fun s => (true, s)
    xSemaphoreTake := fun _ s => (true, s)
    xSemaphoreGive := fun s => (true, s)
    xQueueCreate := fun len size s =>
      ((xQueueCreate (fun _ => some 4096) len size).isSome,
       { s with queue := xQueueCreate (fun _ => some 4096) len size })
    vQueueDelete := fun s => s
    xQueueSend := fun item ticks s =>
      match s.queue with
      | none => (false, s)
      | some q =>
        ((xQueueSend q item ticks s.heap).1,
         { queue := some (xQueueSend q item ticks s.heap).2.1
           heap := (xQueueSend q item ticks s.heap).2.2 })
    xQueuePeek := fun ticks s =>
      match s.queue with
      | none => (none, s)
      | some q => (xQueuePeek q ticks s.heap, s)
    xQueueReceive := fun ticks s =>
      match s.queue with
      | none => (none, s)
      | some q =>
        ((xQueueReceive q ticks s.heap).1,
         { s with queue := some (xQueueReceive q ticks s.heap).2 }) }

/-- Successive `xQueueSend` calls, one for each item of the list: the return values, the
control block and the memory at the end. -/
def sendAll : List (List Nat) → Queue_t → (Nat → Nat) → List Bool × Queue_t × (Nat → Nat)
  | [], q, m => ([], q, m)
  | item :: items, q, m =>
    ((xQueueSend q item 0 m).1 :: (sendAll items (xQueueSend q item 0 m).2.1
        (xQueueSend q item 0 m).2.2).1,
     (sendAll items (xQueueSend q item 0 m).2.1 (xQueueSend q item 0 m).2.2).2)

/-- Queue of capacity two items of four bytes each, as `xQueueCreate(2, 4)` returns it when
the block is allocated at address 4096. -/
def smallQueue : Queue_t :=
  ((xQueueCreate (fun _ => some 4096) 2 4).getD
    { pcHead := 0, pcWriteTo := 0, pcTail := 0, pcReadFrom := 0, uxLength := 0
      uxItemSize := 0, ucStaticallyAllocated := 0 })

/-- Engine over the stand-ins of `src/FakeFreeRTOS`, initialized for records of 128 bytes
(the information structure of the test log). -/
def fakeEngine : Engine FakeRTOS :=
  { EventQueue := true, EventInfo := testInfo, Initialized := true, MEM_INTERFACE := none
    EventManagerMutex := true, MutexWaitTicks := 10, AutoIncrementLogNumber := 0 }

/-- Environment in which `EventManagerInitialize` has created the queue for `testConfig`:
`xQueueCreate(5, 128)`. -/
def fakeWorld : FakeRTOS :=
  { queue := xQueueCreate (fun _ => some 4096) 5 128, heap := fun _ => 0 }

/-- Successive `EventManagerWriteBack` calls, one for each record of the list: the return
codes and the environment at the end. -/
def writeBackAll {σ : Type} (hk : Hooks σ) (e : Engine σ) :
    List (List Nat) → σ → List EventReturn_e × σ
  | [], d => ([], d)
  | r :: rs, d =>
    ((EventManagerWriteBack hk (some r) e.EventInfo.EventSize e d).ret
      :: (writeBackAll hk e rs (EventManagerWriteBack hk (some r) e.EventInfo.EventSize e d).dev).1,
     (writeBackAll hk e rs (EventManagerWriteBack hk (some r) e.EventInfo.EventSize e d).dev).2)

/-- `calendar_struct` of `src/calendar/calendar.h` (lines 42-51); the fields are `uint16_t`,
`weekday` is the value of the enumeration. -/
structure calendar_struct where
  seconds : Nat
  minutes : Nat
  hours : Nat
  day : Nat
  month : Nat
  year : Nat
  weekday : Nat
  deriving DecidableEq, Repr

/-- The `days_in_month` column of the table `gregorian` (calendar.c, lines 41-54). -/
def gregorian_days_in_month : List Nat := [31, 28, 31, 30, 31, 30, 31, 31, 30, 31, 30, 31]

/-- Constant `TIME_SECONDS_IN_DAY` (calendar.c, line 56). -/
def TIME_SECONDS_IN_DAY : Nat := 86400

/-- Constant `TIME_SECONDS_IN_NORMAL_YEAR` (calendar.c, line 57). -/
def TIME_SECONDS_IN_NORMAL_YEAR : Nat := 31536000

/-- Constant `TIME_SECONDS_IN_LEAP_YEAR` (calendar.c, line 58). -/
def TIME_SECONDS_IN_LEAP_YEAR : Nat := 31622400

/-- `cal_leapyear` (calendar.c, lines 67-77); the argument is a `uint16_t`. -/
def cal_leapyear (year : Nat) : Nat :=
  if (year % 4 = 0 ∧ year % 100 ≠ 0) ∨ year % 400 = 0 then 1 else 0

/-- The loop "count years" of `cal_encode` (calendar.c, lines 126-130) from the value `i` of
the loop variable on; the first argument bounds the number of iterations, `none` means the
bound was reached. -/
def cal_encode_years (year : Nat) : Nat → Nat → Nat → Option Nat
  | 0, _, _ => none
  | fuel + 1, i, time_out =>
    if i < year then
      cal_encode_years year fuel (add32 i 1)
        (add32 time_out (if cal_leapyear (i % 65536) ≠ 0 then TIME_SECONDS_IN_LEAP_YEAR
                         else TIME_SECONDS_IN_NORMAL_YEAR))
    else some time_out

/-- The loop "count months" of `cal_encode` (calendar.c, lines 133-143) from the value `i` of
the loop variable on; the first argument bounds the number of iterations. -/
def cal_encode_months (year month : Nat) : Nat → Nat → Nat → Option Nat
  | 0, _, _ => none
  | fuel + 1, i, time_out =>
    if i < month then
      cal_encode_months year month fuel (add32 i 1)
        (let t := add32 time_out (mul32 TIME_SECONDS_IN_DAY (gregorian_days_in_month.getD (i - 1) 0))
         if i = 2 ∧ cal_leapyear year ≠ 0 then add32 t TIME_SECONDS_IN_DAY else t)
    else some time_out

/-- `cal_encode` (calendar.c, lines 98-154): the return value and `*time_out`.  The year loop
runs `year - 2000` times and the month loop `month - 1` times, which the bounds given to the
loops allow for; `none` is never returned (theorem `cal_encode_returns`). -/
def cal_encode (x : calendar_struct) : Option (Int × Nat) :=
  if x.year < 2000 then some (-1, 0)
  else if x.month < 1 ∨ x.month > 12 then some (-1, 0)
  else if x.day < 1 then some (-1, 0)
  else if x.day > (if x.month = 2
      then gregorian_days_in_month.getD (x.month - 1) 0 + cal_leapyear x.year
      else gregorian_days_in_month.getD (x.month - 1) 0) then some (-1, 0)
  else
    match cal_encode_years x.year (x.year - 2000 + 1) 2000 0 with
    | none => none
    | some t1 =>
      match cal_encode_months x.year x.month x.month 1 t1 with
      | none => none
      | some t2 =>
        some (0,
          add32 (add32 (add32 (add32 t2 (mul32 TIME_SECONDS_IN_DAY (x.day - 1)))
            (mul32 x.hours 3600)) (mul32 x.minutes 60)) x.seconds)

/-- The loop "take off years" of `cal_decode` (calendar.c, lines 177-190): the remaining
time and the year; the first argument bounds the number of iterations, `none` means the
bound was reached. -/
def cal_decode_years : Nat → Nat → Nat → Option (Nat × Nat)
  | 0, _, _ => none
  | fuel + 1, time, year =>
    if time ≥ (if cal_leapyear year ≠ 0 then TIME_SECONDS_IN_LEAP_YEAR
               else TIME_SECONDS_IN_NORMAL_YEAR) then
      if cal_leapyear year ≠ 0 then
        cal_decode_years fuel (time - TIME_SECONDS_IN_LEAP_YEAR) ((year + 1) % 65536)
      else
        cal_decode_years fuel (time - TIME_SECONDS_IN_NORMAL_YEAR) ((year + 1) % 65536)
    else some (time, year)

/-- The `for` loop of `cal_decode` (calendar.c, lines 194-213) from the value `i` of the loop
variable on: the final `i`, the remaining time and the month.  The first argument is the
number of iterations left, `12 - i`. -/
def cal_decode_months (year : Nat) : Nat → Nat → Nat → Nat → Nat × Nat × Nat
  | 0, i, time, month => (i, time, month)
  | left + 1, i, time, month =>
    let days := gregorian_days_in_month.getD i 0
      + (if cal_leapyear year ≠ 0 ∧ month = 2 then 1 else 0)
    if time ≥ mul32 days TIME_SECONDS_IN_DAY then
      cal_decode_months year left (i + 1) (time - mul32 days TIME_SECONDS_IN_DAY)
        ((month + 1) % 65536)
    else (i, time, month)

/-- `cal_decode` (calendar.c, lines 161-235): the return value and the calendar written to
`x`.  Each round of the year loop takes at least the seconds of a normal year off, so
`time_in / 31536000 + 1` rounds are enough; `none` is never returned (theorem
`cal_decode_returns`). -/
def cal_decode (time_in : Nat) : Option (Int × calendar_struct) :=
  match cal_decode_years (time_in / TIME_SECONDS_IN_NORMAL_YEAR + 1) time_in 2000 with
  | none => none
  | some (time1, year) =>
    let r := cal_decode_months year 12 0 time1 1
    let x0 : calendar_struct :=
      { seconds := 0, minutes := 0, hours := 0, day := 1, month := r.2.2, year := year
        weekday := 0 }
    if r.1 = 12 then some (-1, x0)
    else if r.2.1 / TIME_SECONDS_IN_DAY > gregorian_days_in_month.getD r.1 0 then
      some (-1, x0)
    else
      some (0,
        { x0 with
          day := (1 + r.2.1 / TIME_SECONDS_IN_DAY) % 65536
          seconds := (r.2.1 % 60) % 65536
          minutes := ((r.2.1 % 3600) / 60) % 65536
          hours := ((r.2.1 % TIME_SECONDS_IN_DAY) / 3600) % 65536 })

/-- `SlidingWindowRet_et` (SlidingWindow.h). -/
inductive SlidingWindowRet_et where
  | SLIDING_WINDOW_OK
  | SLIDING_WINDOW_ERR_INV_PARAM
  | SLIDING_WINDOW_ERR_MEM
  deriving DecidableEq, Repr

/-- `SlidingWindowCtrl_t` (SlidingWindow.c, lines 36-42).  Pointers are byte addresses; they
are integers because `SlidingWindowGetLastItems` steps one item below `first_item`. -/
structure SlidingWindowCtrl_t where
  first_item : Int
  last_item : Int
  next_item : Int
  item_size : Nat
  deriving DecidableEq, Repr

/-- Size of `SlidingWindowCtrl_t` in bytes: three pointers and a `size_t` on the 32-bit
target. -/
def sizeofSlidingWindowCtrl_t : Nat := 16

/-- Memory after `memcpy(dst, src, n)` from a caller's buffer holding the bytes `src`. -/
def memcpyAt (dst : Int) (src : List Nat) (n : Nat) (m : Int → Nat) : Int → Nat :=
  fun a => if dst ≤ a ∧ a < dst + n then src.getD (a - dst).toNat 0 else m a

/-- Memory after `memset(dst, 0, n)`. -/
def memsetZeroAt (dst : Int) (n : Nat) (m : Int → Nat) : Int → Nat :=
  fun a => if dst ≤ a ∧ a < dst + n then 0 else m a

/-- The `n` bytes stored from address `src` on. -/
def bytesAt (src : Int) (n : Nat) (m : Int → Nat) : List Nat :=
  (List.range n).map (fun k => m (src + k))

/-- The loop of `SlidingWindowCreate` that fills the items (SlidingWindow.c, lines 77-89):
the first argument is `num_elements`, the result is the final `last_item` and the memory. -/
def SlidingWindowCreateFill (item_size : Nat) (default_value : Option (List Nat)) :
    Nat → Int → (Int → Nat) → Int × (Int → Nat)
  | 0, last_item, m => (last_item, m)
  | num_elements + 1, last_item, m =>
    let m1 := match default_value with
      | none => memsetZeroAt last_item item_size m
      | some v => memcpyAt last_item v item_size m
    if num_elements ≠ 0 then
      SlidingWindowCreateFill item_size default_value num_elements (last_item + item_size) m1
    else
      SlidingWindowCreateFill item_size default_value num_elements last_item m1

/-- `SlidingWindowCreate` (SlidingWindow.c, lines 52-97).  `window` is the handle `*window`
(`none` for NULL), `SlidingWindowMalloc` gives the address of the block it allocates or
`none` for NULL, `default_value` holds the bytes the pointer refers to (`none` for NULL).
Returns the code, the handle and the memory after the call. -/
def SlidingWindowCreate (SlidingWindowMalloc : Nat → Option Int)
    (window : Option SlidingWindowCtrl_t) (item_size num_elements : Nat)
    (default_value : Option (List Nat)) (m : Int → Nat) :
    SlidingWindowRet_et × Option SlidingWindowCtrl_t × (Int → Nat) :=
  if window ≠ none then (SlidingWindowRet_et.SLIDING_WINDOW_ERR_INV_PARAM, window, m)
  else if item_size = 0 ∨ num_elements = 0 then
    (SlidingWindowRet_et.SLIDING_WINDOW_ERR_INV_PARAM, window, m)
  else
    match SlidingWindowMalloc
        (add32 sizeofSlidingWindowCtrl_t (mul32 item_size num_elements)) with
    | none => (SlidingWindowRet_et.SLIDING_WINDOW_ERR_MEM, window, m)
    | some new_window =>
      let first_item : Int := new_window + sizeofSlidingWindowCtrl_t
      let r := SlidingWindowCreateFill item_size default_value num_elements first_item m
      (SlidingWindowRet_et.SLIDING_WINDOW_OK,
       some { first_item := first_item, last_item := r.1, next_item := first_item
              item_size := item_size },
       r.2)

/-- `SlidingWindowAppend` (SlidingWindow.c, lines 105-128); `item` holds the bytes the
pointer refers to. -/
def SlidingWindowAppend (window : Option SlidingWindowCtrl_t) (item : List Nat)
    (m : Int → Nat) : SlidingWindowRet_et × Option SlidingWindowCtrl_t × (Int → Nat) :=
  match window with
  | none => (SlidingWindowRet_et.SLIDING_WINDOW_ERR_INV_PARAM, window, m)
  | some this_window =>
    (SlidingWindowRet_et.SLIDING_WINDOW_OK,
     some { this_window with
       next_item :=
         if this_window.next_item + this_window.item_size > this_window.last_item
         then this_window.first_item
         else this_window.next_item + this_window.item_size },
     memcpyAt this_window.next_item item this_window.item_size m)

/-- The loop of `SlidingWindowGetLastItems` (SlidingWindow.c, lines 149-158): the first
argument is `n`, then `previous_item`, the offset of `items` in the caller's buffer and the
buffer itself. -/
def SlidingWindowGetLastItemsLoop (this_window : SlidingWindowCtrl_t) (m : Int → Nat) :
    Nat → Int → Nat → (Nat → Nat) → (Nat → Nat)
  | 0, _, _, out => out
  | n + 1, previous_item, items, out =>
    let p := if previous_item < this_window.first_item then this_window.last_item
             else previous_item
    SlidingWindowGetLastItemsLoop this_window m n (p - this_window.item_size)
      (items + this_window.item_size)
      (fun a => if items ≤ a ∧ a < items + this_window.item_size
                then m (p + ((a - items : Nat) : Int)) else out a)

/-- `SlidingWindowGetLastItems` (SlidingWindow.c, lines 137-164): the code and the caller's
buffer `items` after the call, as the bytes at each offset. -/
def SlidingWindowGetLastItems (window : Option SlidingWindowCtrl_t) (n : Nat)
    (items : Nat → Nat) (m : Int → Nat) : SlidingWindowRet_et × (Nat → Nat) :=
  match window with
  | none => (SlidingWindowRet_et.SLIDING_WINDOW_ERR_INV_PARAM, items)
  | some this_window =>
    (SlidingWindowRet_et.SLIDING_WINDOW_OK,
     SlidingWindowGetLastItemsLoop this_window m n
       (this_window.next_item - this_window.item_size) 0 items)

/-- `SlidingWindowGetTail` (SlidingWindow.c, lines 271-293) for a buffer that is not NULL:
the code and the bytes copied to `item`. -/
def SlidingWindowGetTail (window : Option SlidingWindowCtrl_t) (m : Int → Nat) :
    SlidingWindowRet_et × Option (List Nat) :=
  match window with
  | none => (SlidingWindowRet_et.SLIDING_WINDOW_ERR_INV_PARAM, none)
  | some this_window =>
    (SlidingWindowRet_et.SLIDING_WINDOW_OK,
     some (bytesAt this_window.next_item this_window.item_size m))

/-- The `do ... while` loop of `SlidingWindowReset` (SlidingWindow.c, lines 384-388) from
`curr_item` on; the first argument bounds the number of iterations, `none` means the bound
was reached. -/
def SlidingWindowResetLoop (this_window : SlidingWindowCtrl_t) :
    Nat → Int → (Int → Nat) → Option (Int → Nat)
  | 0, _, _ => none
  | fuel + 1, curr_item, m =>
    if curr_item + this_window.item_size ≤ this_window.last_item then
      SlidingWindowResetLoop this_window fuel (curr_item + this_window.item_size)
        (memsetZeroAt curr_item this_window.item_size m)
    else some (memsetZeroAt curr_item this_window.item_size m)

/-- `SlidingWindowReset` (SlidingWindow.c, lines 372-394).  The loop advances by `item_size`
from `first_item` until it passes `last_item`, so `last_item - first_item + 1` iterations are
enough when `item_size` is not 0; `none` means the loop did not finish within them. -/
def SlidingWindowReset (window : Option SlidingWindowCtrl_t) (m : Int → Nat) :
    Option (SlidingWindowRet_et × (Int → Nat)) :=
  match window with
  | none => some (SlidingWindowRet_et.SLIDING_WINDOW_ERR_INV_PARAM, m)
  | some this_window =>
    match SlidingWindowResetLoop this_window
        ((this_window.last_item - this_window.first_item).toNat + 1)
        this_window.first_item m with
    | none => none
    | some m1 => some (SlidingWindowRet_et.SLIDING_WINDOW_OK, m1)

/-- `SlidingWindowGetWinSize` (SlidingWindow.c, lines 414-433): the code and `*window_size`. -/
def SlidingWindowGetWinSize (window : Option SlidingWindowCtrl_t) :
    SlidingWindowRet_et × Nat :=
  match window with
  | none => (SlidingWindowRet_et.SLIDING_WINDOW_ERR_INV_PARAM, 0)
  | some this_window =>
    (SlidingWindowRet_et.SLIDING_WINDOW_OK,
     (this_window.last_item - this_window.first_item).toNat / this_window.item_size + 1)

/-- Successive `SlidingWindowAppend` calls, one for each item of the list: the codes, the
handle and the memory at the end. -/
def slidingAppendAll :
    List (List Nat) → Option SlidingWindowCtrl_t → (Int → Nat) →
      List SlidingWindowRet_et × Option SlidingWindowCtrl_t × (Int → Nat)
  | [], window, m => ([], window, m)
  | item :: items, window, m =>
    ((SlidingWindowAppend window item m).1
       :: (slidingAppendAll items (SlidingWindowAppend window item m).2.1
            (SlidingWindowAppend window item m).2.2).1,
     (slidingAppendAll items (SlidingWindowAppend window item m).2.1
        (SlidingWindowAppend window item m).2.2).2)

/-- The item number `j` of a buffer of items of `item_size` bytes. -/
def itemAt (item_size : Nat) (buffer : Nat → Nat) (j : Nat) : List Nat :=
  (List.range item_size).map (fun b => buffer (j * item_size + b))

/-- Address of slot `i` of a window whose first item is at `first` (items of `s` bytes). -/
def slotAddr (first : Int) (s i : Nat) : Int := first + ((i * s : Nat) : Int)

/-- State of a window of `w` items of `s` bytes at address `first` after the items `xs` have
been appended: the control block, and the slots of the last `w` items appended. -/
def WindowHolds (first : Int) (w s : Nat) (xs : List (List Nat)) (c : SlidingWindowCtrl_t)
    (m : Int → Nat) : Prop :=
  c.first_item = first ∧ c.last_item = slotAddr first s (w - 1) ∧ c.item_size = s ∧
  c.next_item = slotAddr first s (xs.length % w) ∧
  ∀ k, k < xs.length → xs.length ≤ k + w → ∀ b, b < s →
    m (slotAddr first s (k % w) + (b : Int)) = (xs.getD k []).getD b 0

/-- `FastMeanWindowRet_et` (FastMeanWindow.h, lines 26-35). -/
inductive FastMeanWindowRet_et where
  | FAST_MEAN_WINDOW_OK
  | FAST_MEAN_WINDOW_ERR_INV_PARAM
  | FAST_MEAN_WINDOW_ERR
  | FAST_MEAN_WINDOW_ERR_TAIL
  | FAST_MEAN_WINDOW_ERR_APPEND
  | FAST_MEAN_WINDOW_ERR_INIT
  | FAST_MEAN_WINDOW_ERR_MEM
  deriving DecidableEq, Repr

/-- `FastMeanWinCtl_st` (FastMeanWindow.c, lines 17-21); `accumm` is an `int64_t`. -/
structure FastMeanWinCtl_st where
  window : Option SlidingWindowCtrl_t
  accumm : Int
  deriving DecidableEq, Repr

/-- Size of `FastMeanWinCtl_st` in bytes on the 32-bit target. -/
def sizeofFastMeanWinCtl_st : Nat := 16

/-- Reduction of an integer to the range of `int64_t`. -/
def wrap64 (x : Int) : Int :=
  (x + 9223372036854775808) % 18446744073709551616 - 9223372036854775808

/-- The four bytes of an `int32_t`, least significant first. -/
def int32Bytes (v : Int) : List Nat :=
  [(v % 4294967296).toNat % 256, (v % 4294967296).toNat / 256 % 256,
   (v % 4294967296).toNat / 65536 % 256, (v % 4294967296).toNat / 16777216 % 256]

/-- The `int32_t` whose four bytes, least significant first, are the first four of `bs`. -/
def int32OfBytes (bs : List Nat) : Int :=
  if bs.getD 0 0 + 256 * bs.getD 1 0 + 65536 * bs.getD 2 0 + 16777216 * bs.getD 3 0
      ≥ 2147483648 then
    ((bs.getD 0 0 + 256 * bs.getD 1 0 + 65536 * bs.getD 2 0 + 16777216 * bs.getD 3 0 : Nat)
      : Int) - 4294967296
  else
    ((bs.getD 0 0 + 256 * bs.getD 1 0 + 65536 * bs.getD 2 0 + 16777216 * bs.getD 3 0 : Nat)
      : Int)

/-- `FastMeanWindowCreate` (FastMeanWindow.c, lines 23-54); `default_value` holds the four
bytes the pointer refers to (`none` for NULL).  The control block is kept by value, only the
success of its allocation is looked at. -/
def FastMeanWindowCreate (SlidingWindowMalloc : Nat → Option Int)
    (win : Option FastMeanWinCtl_st) (win_size : Nat) (default_value : Option (List Nat))
    (m : Int → Nat) : FastMeanWindowRet_et × Option FastMeanWinCtl_st × (Int → Nat) :=
  if win ≠ none ∨ win_size ≤ 0 then
    (FastMeanWindowRet_et.FAST_MEAN_WINDOW_ERR_INV_PARAM, win, m)
  else
    match SlidingWindowMalloc sizeofFastMeanWinCtl_st with
    | none => (FastMeanWindowRet_et.FAST_MEAN_WINDOW_ERR_MEM, win, m)
    | some _ =>
      let r := SlidingWindowCreate SlidingWindowMalloc none 4 win_size default_value m
      if r.1 ≠ SlidingWindowRet_et.SLIDING_WINDOW_OK then
        (FastMeanWindowRet_et.FAST_MEAN_WINDOW_ERR_INIT, win, r.2.2)
      else
        (FastMeanWindowRet_et.FAST_MEAN_WINDOW_OK, some { window := r.2.1, accumm := 0 }, r.2.2)

/-- `FastMeanWindowAppend` (FastMeanWindow.c, lines 56-87); `new_data` is an `int32_t`. -/
def FastMeanWindowAppend (win : Option FastMeanWinCtl_st) (new_data : Int) (m : Int → Nat) :
    FastMeanWindowRet_et × Option FastMeanWinCtl_st × (Int → Nat) :=
  match win with
  | none => (FastMeanWindowRet_et.FAST_MEAN_WINDOW_ERR_INV_PARAM, win, m)
  | some this_window =>
    let t := SlidingWindowGetTail this_window.window m
    if t.1 ≠ SlidingWindowRet_et.SLIDING_WINDOW_OK then
      (FastMeanWindowRet_et.FAST_MEAN_WINDOW_ERR_TAIL, win, m)
    else
      let old_data := int32OfBytes (t.2.getD [])
      let accumm := wrap64 (wrap64 (this_window.accumm - old_data) + new_data)
      let a := SlidingWindowAppend this_window.window (int32Bytes new_data) m
      if a.1 ≠ SlidingWindowRet_et.SLIDING_WINDOW_OK then
        (FastMeanWindowRet_et.FAST_MEAN_WINDOW_ERR_APPEND,
         some { window := a.2.1, accumm := accumm }, a.2.2)
      else
        (FastMeanWindowRet_et.FAST_MEAN_WINDOW_OK,
         some { window := a.2.1, accumm := accumm }, a.2.2)

/-- `FastMeanWindowGetAverage` (FastMeanWindow.c, lines 89-116): the code and the two
operands of the division that gives `*moving_average`, the accumulator and the window size
(the conversion to `float` is not part of the embedding). -/
def FastMeanWindowGetAverage (win : Option FastMeanWinCtl_st) :
    FastMeanWindowRet_et × Option (Int × Nat) :=
  match win with
  | none => (FastMeanWindowRet_et.FAST_MEAN_WINDOW_ERR_INV_PARAM, none)
  | some this_window =>
    if (SlidingWindowGetWinSize this_window.window).1 ≠ SlidingWindowRet_et.SLIDING_WINDOW_OK
    then (FastMeanWindowRet_et.FAST_MEAN_WINDOW_ERR, none)
    else
      (FastMeanWindowRet_et.FAST_MEAN_WINDOW_OK,
       some (this_window.accumm, (SlidingWindowGetWinSize this_window.window).2))

/-- `FastMeanWindowReset` (FastMeanWindow.c, lines 118-140); `none` when the loop of
`SlidingWindowReset` does not finish. -/
def FastMeanWindowReset (win : Option FastMeanWinCtl_st) (m : Int → Nat) :
    Option (FastMeanWindowRet_et × Option FastMeanWinCtl_st × (Int → Nat)) :=
  match win with
  | none => some (FastMeanWindowRet_et.FAST_MEAN_WINDOW_ERR_INV_PARAM, win, m)
  | some this_window =>
    match SlidingWindowReset this_window.window m with
    | none => none
    | some r =>
      if r.1 ≠ SlidingWindowRet_et.SLIDING_WINDOW_OK then
        some (FastMeanWindowRet_et.FAST_MEAN_WINDOW_ERR,
          some { this_window with accumm := 0 }, r.2)
      else
        some (FastMeanWindowRet_et.FAST_MEAN_WINDOW_OK,
          some { this_window with accumm := 0 }, r.2)

/-- The exact sum of the `int32_t` items stored in the slots of the window of `win`. -/
def FastMeanWindowSum (win : Option FastMeanWinCtl_st) (m : Int → Nat) : Int :=
  match win with
  | none => 0
  | some this_window =>
    match this_window.window with
    | none => 0
    | some c =>
      ((List.range (SlidingWindowGetWinSize (some c)).2).map
        (fun k => int32OfBytes (bytesAt (slotAddr c.first_item c.item_size k) c.item_size m))).sum

/-- Window of four items created with the default value 5:
`FastMeanWindowCreate(&win, 4, &five)`. -/
def meanOfFives : FastMeanWindowRet_et × Option FastMeanWinCtl_st × (Int → Nat) :=
  FastMeanWindowCreate (fun _ => some 1000) none 4 (some (int32Bytes 5)) (fun _ => 0)

/-- Window of four items created with a NULL default value. -/
def meanOfZeros : FastMeanWindowRet_et × Option FastMeanWinCtl_st × (Int → Nat) :=
  FastMeanWindowCreate (fun _ => some 1000) none 4 none (fun _ => 0)

/-- One call on a fast mean window: `FastMeanWindowAppend(win, new_data)` or
`FastMeanWindowReset(win)`. -/
inductive MeanOp where
  | append (new_data : Int)
  | reset

/-- Handle and memory after one call (left as they are should the loop of the reset not
finish). -/
def applyMeanOp (op : MeanOp) (win : Option FastMeanWinCtl_st) (m : Int → Nat) :
    Option FastMeanWinCtl_st × (Int → Nat) :=
  match op with
  | MeanOp.append new_data =>
    ((FastMeanWindowAppend win new_data m).2.1, (FastMeanWindowAppend win new_data m).2.2)
  | MeanOp.reset =>
    match FastMeanWindowReset win m with
    | some r => (r.2.1, r.2.2)
    | none => (win, m)

/-- Handle and memory after a sequence of calls. -/
def applyMeanOps : List MeanOp → Option FastMeanWinCtl_st → (Int → Nat) →
    Option FastMeanWinCtl_st × (Int → Nat)
  | [], win, m => (win, m)
  | op :: ops, win, m => applyMeanOps ops (applyMeanOp op win m).1 (applyMeanOp op win m).2

/-- The argument of an append is an `int32_t`. -/
def MeanOp.InRange (op : MeanOp) : Prop :=
  match op with
  | MeanOp.append new_data => -2147483648 ≤ new_data ∧ new_data < 2147483648
  | MeanOp.reset => True

/-- State of a fast mean window of `w` items at address `first` whose slots hold the
`int32_t` values `vals` and whose accumulator is their sum. -/
def MeanHolds (first : Int) (w : Nat) (vals : List Int) (tw : FastMeanWinCtl_st)
    (m : Int → Nat) : Prop :=
  ∃ c p, tw.window = some c ∧ c.first_item = first ∧ c.last_item = slotAddr first 4 (w - 1) ∧
    c.item_size = 4 ∧ p < w ∧ c.next_item = slotAddr first 4 p ∧ vals.length = w ∧
    (∀ v ∈ vals, -2147483648 ≤ v ∧ v < 2147483648) ∧
    (∀ k, k < w → bytesAt (slotAddr first 4 k) 4 m = int32Bytes (vals.getD k 0)) ∧
    tw.accumm = vals.sum

/-! ## Symbolic execution of the append path -/

theorem callEraseSector_calls {σ : Type} (e : Engine σ) (a : Nat) (d : σ) :
    ((callEraseSector e a d).1 = true ∧
        (callEraseSector e a d).2.2 = [Call.EraseSectorFunc a true]) ∨
    ((callEraseSector e a d).1 = false ∧
        ((callEraseSector e a d).2.2 = [Call.EraseSectorFunc a false] ∨
         (callEraseSector e a d).2.2 = [Call.nullCall])) := by
  unfold callEraseSector
  split
  · split
    · rename_i f _
      rcases h : (f a d).1 <;> simp [h]
    · simp
  · simp

theorem callWrite_calls {σ : Type} (e : Engine σ) (a : Nat) (data : List Nat) (n : Nat) (d : σ) :
    ((callWrite e a data n d).1 = true ∧
        (callWrite e a data n d).2.2 = [Call.WriteFunc a data n true]) ∨
    ((callWrite e a data n d).1 = false ∧
        ((callWrite e a data n d).2.2 = [Call.WriteFunc a data n false] ∨
         (callWrite e a data n d).2.2 = [Call.nullCall])) := by
  unfold callWrite
  split
  · split
    · rename_i f _
      rcases h : (f a data n d).1 <;> simp [h]
    · simp
  · simp

theorem EventCheckErase_cases {σ : Type} (e : Engine σ) (d : σ) :
    (e.EventInfo.Pointer % e.EventInfo.SectorSize ≠ 0 ∧
      EventCheckErase e d = { ret := EVENT_RET_OK, eng := e, dev := d, calls := [] }) ∨
    (e.EventInfo.Pointer % e.EventInfo.SectorSize = 0 ∧
      (callEraseSector e e.EventInfo.Pointer d).1 = false ∧
      EventCheckErase e d =
        { ret := EVENT_RET_ERR_FLASH, eng := e
          dev := (callEraseSector e e.EventInfo.Pointer d).2.1
          calls := (callEraseSector e e.EventInfo.Pointer d).2.2 }) ∨
    (e.EventInfo.Pointer % e.EventInfo.SectorSize = 0 ∧
      (callEraseSector e e.EventInfo.Pointer d).1 = true ∧
      EventCheckErase e d =
        { ret := EVENT_RET_OK, eng := erasedEngine e
          dev := (callEraseSector e e.EventInfo.Pointer d).2.1
          calls := (callEraseSector e e.EventInfo.Pointer d).2.2 }) := by
  unfold EventCheckErase erasedEngine
  by_cases hp : e.EventInfo.Pointer % e.EventInfo.SectorSize = 0
  · rcases hr : (callEraseSector e e.EventInfo.Pointer d).1
    · right; left
      simp only [hp, hr, if_true, true_and]
    · right; right
      by_cases hc : e.EventInfo.Counter ≥ e.EventInfo.MaxLogsNumber
      · simp only [hp, hr, hc, if_true, true_and, Bool.true_eq_false, if_false]
      · simp only [hp, hr, hc, if_true, true_and, Bool.true_eq_false, if_false]
  · left
    simp only [hp, if_false, ne_eq, not_false_eq_true, true_and]

theorem EventStore_after_check {σ : Type} (hk : Hooks σ) (event : List Nat) (e : Engine σ)
    (d : σ) (e1 : Engine σ) (d1 : σ) (c1 : List Call)
    (hc : EventCheckErase e d = { ret := EVENT_RET_OK, eng := e1, dev := d1, calls := c1 }) :
    ((callWrite e1 e1.EventInfo.Pointer event e1.EventInfo.EventSize d1).1 = false ∧
      EventStore hk event e d =
        { ret := EVENT_RET_ERR_FLASH, eng := e1
          dev := (callWrite e1 e1.EventInfo.Pointer event e1.EventInfo.EventSize d1).2.1
          calls := c1 ++
            (callWrite e1 e1.EventInfo.Pointer event e1.EventInfo.EventSize d1).2.2 }) ∨
    ((callWrite e1 e1.EventInfo.Pointer event e1.EventInfo.EventSize d1).1 = true ∧
      EventStore hk event e d = storedOutcome hk event e1 d1 c1) := by
  unfold EventStore storedOutcome advance
  rw [hc]
  rcases hw : (callWrite e1 e1.EventInfo.Pointer event e1.EventInfo.EventSize d1).1
  · left
    simp only [hw, ne_eq, not_true_eq_false, if_false, if_true, true_and]
  · right
    simp only [hw, ne_eq, not_true_eq_false, if_false, Bool.true_eq_false, true_and]

theorem EventStore_cases {σ : Type} (hk : Hooks σ) (event : List Nat) (e : Engine σ) (d : σ) :
    (e.EventInfo.Pointer % e.EventInfo.SectorSize = 0 ∧
      (callEraseSector e e.EventInfo.Pointer d).1 = false ∧
      EventStore hk event e d =
        { ret := EVENT_RET_ERR_FLASH, eng := e
          dev := (callEraseSector e e.EventInfo.Pointer d).2.1
          calls := (callEraseSector e e.EventInfo.Pointer d).2.2 }) ∨
    (∃ e1 d1 c1,
      ((e.EventInfo.Pointer % e.EventInfo.SectorSize ≠ 0 ∧ e1 = e ∧ d1 = d ∧ c1 = []) ∨
       (e.EventInfo.Pointer % e.EventInfo.SectorSize = 0 ∧
        (callEraseSector e e.EventInfo.Pointer d).1 = true ∧ e1 = erasedEngine e ∧
        d1 = (callEraseSector e e.EventInfo.Pointer d).2.1 ∧
        c1 = (callEraseSector e e.EventInfo.Pointer d).2.2)) ∧
      (((callWrite e1 e1.EventInfo.Pointer event e1.EventInfo.EventSize d1).1 = false ∧
        EventStore hk event e d =
          { ret := EVENT_RET_ERR_FLASH, eng := e1
            dev := (callWrite e1 e1.EventInfo.Pointer event e1.EventInfo.EventSize d1).2.1
            calls := c1 ++
              (callWrite e1 e1.EventInfo.Pointer event e1.EventInfo.EventSize d1).2.2 }) ∨
       ((callWrite e1 e1.EventInfo.Pointer event e1.EventInfo.EventSize d1).1 = true ∧
        EventStore hk event e d = storedOutcome hk event e1 d1 c1))) := by
  rcases EventCheckErase_cases e d with ⟨hp, hc⟩ | ⟨hp, hr, hc⟩ | ⟨hp, hr, hc⟩
  · right
    exact ⟨e, d, [], Or.inl ⟨hp, rfl, rfl, rfl⟩, EventStore_after_check hk event e d _ _ _ hc⟩
  · left
    refine ⟨hp, hr, ?_⟩
    unfold EventStore
    rw [hc]
    simp
  · right
    exact ⟨_, _, _, Or.inr ⟨hp, hr, rfl, rfl, rfl⟩, EventStore_after_check hk event e d _ _ _ hc⟩

theorem erasedEngine_pointer {σ : Type} (e : Engine σ) :
    (erasedEngine e).EventInfo.Pointer = e.EventInfo.Pointer := rfl

theorem erasedEngine_eventSize {σ : Type} (e : Engine σ) :
    (erasedEngine e).EventInfo.EventSize = e.EventInfo.EventSize := rfl

theorem storedOutcome_ret_ok {σ : Type} (hk : Hooks σ) (event : List Nat) (e1 : Engine σ)
    (d1 : σ) (c1 : List Call) (h : (storedOutcome hk event e1 d1 c1).ret = EVENT_RET_OK) :
    (hk.EventManagerStoreCallback (advance e1.EventInfo).Pointer (advance e1.EventInfo).Counter
      (callWrite e1 e1.EventInfo.Pointer event e1.EventInfo.EventSize d1).2.1).1
      = EVENT_RET_OK := by
  unfold storedOutcome at h
  simp only [ne_eq, ite_not] at h
  by_contra hne
  rw [if_neg hne] at h
  exact absurd h (by decide)

/-- Calls made by a successful `EventStore`. -/
theorem EventStore_ok_calls {σ : Type} (hk : Hooks σ) (event : List Nat)
    (e : Engine σ) (d : σ) (hok : (EventStore hk event e d).ret = EVENT_RET_OK) :
    (EventStore hk event e d).calls =
      (if e.EventInfo.Pointer % e.EventInfo.SectorSize = 0
        then [Call.EraseSectorFunc e.EventInfo.Pointer true] else [])
      ++ [Call.WriteFunc e.EventInfo.Pointer event e.EventInfo.EventSize true,
          Call.StoreCallback (EventStore hk event e d).eng.EventInfo.Pointer
            (EventStore hk event e d).eng.EventInfo.Counter EVENT_RET_OK] := by
  rcases EventStore_cases hk event e d with ⟨_, _, h⟩ | ⟨e1, d1, c1, hpre, hw⟩
  · rw [h] at hok; exact EventReturn_e.noConfusion hok
  · rcases hw with ⟨_, h⟩ | ⟨hw1, h⟩
    · rw [h] at hok; exact EventReturn_e.noConfusion hok
    · rw [h] at hok ⊢
      have hs := storedOutcome_ret_ok hk event e1 d1 c1 hok
      have hwc : (callWrite e1 e1.EventInfo.Pointer event e1.EventInfo.EventSize d1).2.2
          = [Call.WriteFunc e1.EventInfo.Pointer event e1.EventInfo.EventSize true] := by
        rcases callWrite_calls e1 e1.EventInfo.Pointer event e1.EventInfo.EventSize d1 with
          ⟨_, h2⟩ | ⟨h1, _⟩
        · exact h2
        · rw [hw1] at h1; exact absurd h1 (by decide)
      have hcalls : (storedOutcome hk event e1 d1 c1).calls = c1 ++
          [Call.WriteFunc e1.EventInfo.Pointer event e1.EventInfo.EventSize true,
           Call.StoreCallback (advance e1.EventInfo).Pointer (advance e1.EventInfo).Counter
             EVENT_RET_OK] := by
        unfold storedOutcome
        simp only [hwc, hs, List.append_assoc, List.singleton_append]
      rw [hcalls]
      have heng : (storedOutcome hk event e1 d1 c1).eng.EventInfo = advance e1.EventInfo := rfl
      rw [heng]
      rcases hpre with ⟨hp, he1, _, hc1⟩ | ⟨hp, hr, he1, _, hc1⟩
      · subst he1
        rw [if_neg hp, hc1]
      · have hec : (callEraseSector e e.EventInfo.Pointer d).2.2
            = [Call.EraseSectorFunc e.EventInfo.Pointer true] := by
          rcases callEraseSector_calls e e.EventInfo.Pointer d with ⟨_, h2⟩ | ⟨h1, _⟩
          · exact h2
          · rw [hr] at h1; exact absurd h1 (by decide)
        rw [if_pos hp, hc1, hec, he1, erasedEngine_pointer, erasedEngine_eventSize]

theorem EventStore_shape {σ : Type} (hk : Hooks σ) (event : List Nat) (e : Engine σ) (d : σ) :
    (e.EventInfo.Pointer % e.EventInfo.SectorSize = 0 ∧
      (EventStore hk event e d).eng = e ∧
      (EventStore hk event e d).ret = EVENT_RET_ERR_FLASH ∧
      ((EventStore hk event e d).calls = [Call.EraseSectorFunc e.EventInfo.Pointer false] ∨
       (EventStore hk event e d).calls = [Call.nullCall])) ∨
    (∃ e1 c1,
      ((e.EventInfo.Pointer % e.EventInfo.SectorSize ≠ 0 ∧ e1 = e ∧ c1 = []) ∨
       (e.EventInfo.Pointer % e.EventInfo.SectorSize = 0 ∧ e1 = erasedEngine e ∧
        c1 = [Call.EraseSectorFunc e.EventInfo.Pointer true])) ∧
      (((EventStore hk event e d).eng = e1 ∧
        (EventStore hk event e d).ret = EVENT_RET_ERR_FLASH ∧
        ((EventStore hk event e d).calls =
            c1 ++ [Call.WriteFunc e.EventInfo.Pointer event e.EventInfo.EventSize false] ∨
         (EventStore hk event e d).calls = c1 ++ [Call.nullCall])) ∨
       (∃ r, (EventStore hk event e d).eng = { e1 with EventInfo := advance e1.EventInfo } ∧
        (EventStore hk event e d).ret
          = (if r ≠ EVENT_RET_OK then EVENT_RET_ERR_MEM else EVENT_RET_OK) ∧
        (EventStore hk event e d).calls =
          c1 ++ [Call.WriteFunc e.EventInfo.Pointer event e.EventInfo.EventSize true,
                 Call.StoreCallback (advance e1.EventInfo).Pointer
                   (advance e1.EventInfo).Counter r]))) := by
  rcases EventStore_cases hk event e d with ⟨hp, hr, h⟩ | ⟨e1, d1, c1, hpre, hw⟩
  · left
    refine ⟨hp, by rw [h], by rw [h], ?_⟩
    rw [h]
    rcases callEraseSector_calls e e.EventInfo.Pointer d with ⟨h1, _⟩ | ⟨_, h2⟩
    · rw [hr] at h1; exact Bool.noConfusion h1
    · exact h2
  · right
    have hpe : e1.EventInfo.Pointer = e.EventInfo.Pointer ∧
        e1.EventInfo.EventSize = e.EventInfo.EventSize := by
      rcases hpre with ⟨_, he1, _, _⟩ | ⟨_, _, he1, _, _⟩ <;> subst he1 <;> exact ⟨rfl, rfl⟩
    have hc1 : (e.EventInfo.Pointer % e.EventInfo.SectorSize ≠ 0 ∧ e1 = e ∧ c1 = []) ∨
       (e.EventInfo.Pointer % e.EventInfo.SectorSize = 0 ∧ e1 = erasedEngine e ∧
        c1 = [Call.EraseSectorFunc e.EventInfo.Pointer true]) := by
      rcases hpre with ⟨hp, he1, _, hc⟩ | ⟨hp, hr, he1, _, hc⟩
      · exact Or.inl ⟨hp, he1, hc⟩
      · right
        refine ⟨hp, he1, ?_⟩
        rcases callEraseSector_calls e e.EventInfo.Pointer d with ⟨_, h2⟩ | ⟨h1, _⟩
        · rw [hc, h2]
        · rw [hr] at h1; exact Bool.noConfusion h1
    refine ⟨e1, c1, hc1, ?_⟩
    rcases hw with ⟨hw1, h⟩ | ⟨hw1, h⟩
    · left
      refine ⟨by rw [h], by rw [h], ?_⟩
      rw [h]
      rcases callWrite_calls e1 e1.EventInfo.Pointer event e1.EventInfo.EventSize d1 with
        ⟨h1, _⟩ | ⟨_, h2⟩
      · rw [hw1] at h1; exact Bool.noConfusion h1
      · simp only [hpe.1, hpe.2] at h2 ⊢
        rcases h2 with h2 | h2
        · left; simp only [h2]
        · right; simp only [h2]
    · right
      refine ⟨(hk.EventManagerStoreCallback (advance e1.EventInfo).Pointer
        (advance e1.EventInfo).Counter
        (callWrite e1 e1.EventInfo.Pointer event e1.EventInfo.EventSize d1).2.1).1, ?_, ?_, ?_⟩
      · rw [h]; rfl
      · rw [h]; rfl
      · rw [h]
        rcases callWrite_calls e1 e1.EventInfo.Pointer event e1.EventInfo.EventSize d1 with
          ⟨_, h2⟩ | ⟨h1, _⟩
        · unfold storedOutcome
          simp only [hpe.1, hpe.2] at h2 ⊢
          simp only [h2, List.append_assoc, List.singleton_append]
        · rw [hw1] at h1; exact Bool.noConfusion h1

/-- Shape of `EventManagerWriteThrough`: either it returns before the append, or it is the
append between a successful take and a give. -/
theorem EventManagerWriteThrough_shape {σ : Type} (hk : Hooks σ) (event : Option (List Nat))
    (event_size : Nat) (e : Engine σ) (d : σ) :
    ((EventManagerWriteThrough hk event event_size e d).eng = e ∧
      (EventManagerWriteThrough hk event event_size e d).ret ≠ EVENT_RET_OK ∧
      ((EventManagerWriteThrough hk event event_size e d).calls = [] ∨
       (EventManagerWriteThrough hk event event_size e d).calls
          = [Call.SemaphoreTake e.MutexWaitTicks false])) ∨
    (∃ ev g, event = some ev ∧ e.Initialized = true ∧ event_size = e.EventInfo.EventSize ∧
      (hk.xSemaphoreTake e.MutexWaitTicks d).1 = true ∧
      (EventManagerWriteThrough hk event event_size e d).eng
        = (EventStore hk ev e (hk.xSemaphoreTake e.MutexWaitTicks d).2).eng ∧
      (EventManagerWriteThrough hk event event_size e d).ret
        = (if g = true then (EventStore hk ev e (hk.xSemaphoreTake e.MutexWaitTicks d).2).ret
           else EVENT_MUTEX_GIVE_ERROR) ∧
      (EventManagerWriteThrough hk event event_size e d).calls
        = [Call.SemaphoreTake e.MutexWaitTicks true]
          ++ (EventStore hk ev e (hk.xSemaphoreTake e.MutexWaitTicks d).2).calls
          ++ [Call.SemaphoreGive g]) := by
  unfold EventManagerWriteThrough
  by_cases hi : e.Initialized = true
  · by_cases hs : event_size = e.EventInfo.EventSize
    · rcases event with _ | ev
      · left
        simp [hi, hs]
      · rcases ht : (hk.xSemaphoreTake e.MutexWaitTicks d).1
        · left
          simp [hi, hs, ht]
        · right
          refine ⟨ev, (hk.xSemaphoreGive
            (EventStore hk ev e (hk.xSemaphoreTake e.MutexWaitTicks d).2).dev).1, rfl, hi, hs,
            rfl, ?_, ?_, ?_⟩
          · simp [hi, hs, ht, giveIfTaken]
          · simp [hi, hs, ht, giveIfTaken]
          · simp [hi, hs, ht, giveIfTaken]
    · left
      simp [hi, hs]
  · left
    simp [hi]

/-- C6. Persistence notification: whenever `EventManagerWriteThrough` returns
`EVENT_RET_OK`, the calls it made are the mutex take, the sector erase if one was due,
`WriteFunc` returning true, then exactly one `EventManagerStoreCallback` whose arguments are
the `Pointer` and `Counter` that `EventManagerGetInfo` reports after the call, then the mutex
give. -/
theorem writeThrough_persistence_notification {σ : Type} (hk : Hooks σ)
    (event : Option (List Nat)) (event_size : Nat) (e : Engine σ) (d : σ)
    (hok : (EventManagerWriteThrough hk event event_size e d).ret = EVENT_RET_OK) :
    ∃ ev, event = some ev ∧
      (EventManagerWriteThrough hk event event_size e d).calls =
        [Call.SemaphoreTake e.MutexWaitTicks true]
        ++ (if e.EventInfo.Pointer % e.EventInfo.SectorSize = 0
              then [Call.EraseSectorFunc e.EventInfo.Pointer true] else [])
        ++ [Call.WriteFunc e.EventInfo.Pointer ev e.EventInfo.EventSize true,
            Call.StoreCallback
              (EventManagerGetInfo (EventManagerWriteThrough hk event event_size e d).eng).Pointer
              (EventManagerGetInfo (EventManagerWriteThrough hk event event_size e d).eng).Counter
              EVENT_RET_OK,
            Call.SemaphoreGive true] := by
  rcases EventManagerWriteThrough_shape hk event event_size e d with
    ⟨_, hne, _⟩ | ⟨ev, g, hev, _, _, _, heng, hret, hcalls⟩
  · exact absurd hok hne
  · refine ⟨ev, hev, ?_⟩
    rw [hret] at hok
    rcases g with _ | _
    · simp at hok
    · simp only [if_true] at hok
      have h5 := EventStore_ok_calls hk ev e _ hok
      rw [hcalls, h5]
      unfold EventManagerGetInfo
      rw [heng]
      simp only [List.append_assoc, List.singleton_append, List.cons_append, List.nil_append]

/-- State after a failed append, in every environment: when `EraseSectorFunc` or `WriteFunc`
returned false during `EventManagerWriteThrough`, `Pointer` is unchanged, and `Counter` is
unchanged on every path but one: when the append had erased the sector at `Pointer` while
`Counter >= MaxLogsNumber` (so that the failure was in `WriteFunc`), `Counter` has been
decreased by `LogsPerSector`. -/
theorem writeThrough_failure_state {σ : Type} (hk : Hooks σ)
    (event : Option (List Nat)) (event_size : Nat) (e : Engine σ) (d : σ)
    (hfail : (∃ a, Call.EraseSectorFunc a false
                ∈ (EventManagerWriteThrough hk event event_size e d).calls) ∨
             (∃ a data n, Call.WriteFunc a data n false
                ∈ (EventManagerWriteThrough hk event event_size e d).calls)) :
    (EventManagerWriteThrough hk event event_size e d).eng.EventInfo.Pointer
        = e.EventInfo.Pointer ∧
    (EventManagerWriteThrough hk event event_size e d).eng.EventInfo.Counter
        = (if Call.EraseSectorFunc e.EventInfo.Pointer true
                ∈ (EventManagerWriteThrough hk event event_size e d).calls
              ∧ e.EventInfo.MaxLogsNumber ≤ e.EventInfo.Counter
            then sub32 e.EventInfo.Counter e.EventInfo.LogsPerSector
            else e.EventInfo.Counter) := by
  rcases EventManagerWriteThrough_shape hk event event_size e d with
    ⟨_, _, hc⟩ | ⟨ev, g, hev, _, _, _, heng, hret, hcalls⟩
  · rcases hc with hc | hc <;> rw [hc] at hfail <;> simp at hfail
  · rw [hcalls] at hfail ⊢
    rw [heng]
    rcases EventStore_shape hk ev e (hk.xSemaphoreTake e.MutexWaitTicks d).2 with
      ⟨hp, he, _, hc⟩ | ⟨e1, c1, hpre, hw⟩
    · rw [he]
      rcases hc with hc | hc <;> rw [hc] <;> simp
    · rcases hw with ⟨he, _, hc⟩ | ⟨r, he, _, hc⟩
      · rw [he]
        rcases hpre with ⟨hp, he1, hc1⟩ | ⟨hp, he1, hc1⟩
        · subst he1 hc1
          rcases hc with hc | hc <;> rw [hc] <;> simp
        · subst he1 hc1
          rcases hc with hc | hc <;> rw [hc] <;> simp [erasedEngine]
      · exfalso
        rw [hc] at hfail
        rcases hpre with ⟨hp, he1, hc1⟩ | ⟨hp, he1, hc1⟩ <;> subst hc1 <;> simp at hfail

theorem ValidGeometry.coords {i : EventInfo_t} (h : ValidGeometry i) :
    ∃ f ns, Coords i f ns := by
  obtain ⟨⟨hE, hES, hSE, hFM, hR, h32, hL, hM⟩, hF⟩ := h
  have hS : i.SectorSize = i.LogsPerSector * i.EventSize := by
    rw [hL]; exact (Nat.div_mul_cancel (Nat.dvd_of_mod_eq_zero hSE)).symm
  have hLpos : 0 < i.LogsPerSector := by
    rw [hL]; exact Nat.div_pos hES hE
  have hSpos : 0 < i.SectorSize := by omega
  obtain ⟨ns, hns⟩ := Nat.dvd_of_mod_eq_zero hR
  obtain ⟨f, hf⟩ := Nat.dvd_of_mod_eq_zero hF
  have hnspos : 0 < ns := by
    rcases Nat.eq_zero_or_pos ns with h0 | h0
    · subst h0; simp at hns
    · exact h0
  have hM' : i.MaxLogsNumber = ns * i.LogsPerSector := by
    rw [hM, hns, hS]
    rw [show i.LogsPerSector * i.EventSize * ns = (ns * i.LogsPerSector) * i.EventSize by ring]
    exact Nat.mul_div_cancel _ hE
  refine ⟨f, ns, ⟨hE, hLpos, hnspos, hS, by rw [hf]; ring, hM', ?_, h32⟩⟩
  have : i.MaxLogsNumber * i.EventSize = i.MaxPointer - i.FirstPointer + 1 := by
    rw [hM', hns, hS]; ring
  omega

theorem Coords.pointer_mod {i : EventInfo_t} {f ns j : Nat} (h : Coords i f ns)
    (hp : i.Pointer = i.FirstPointer + j * i.EventSize) :
    i.Pointer % i.SectorSize = (j % i.LogsPerSector) * i.EventSize := by
  rw [hp, h.hF, h.hS, Nat.add_comm, Nat.add_mul_mod_self_right, Nat.mul_mod_mul_right]

theorem Coords.pointer_mod_zero_iff {i : EventInfo_t} {f ns j : Nat} (h : Coords i f ns)
    (hp : i.Pointer = i.FirstPointer + j * i.EventSize) :
    i.Pointer % i.SectorSize = 0 ↔ j % i.LogsPerSector = 0 := by
  rw [h.pointer_mod hp]
  constructor
  · intro h0
    rcases Nat.mul_eq_zero.mp h0 with h1 | h1
    · exact h1
    · have := h.hE; omega
  · intro h0; rw [h0, Nat.zero_mul]

theorem Coords.maxLogs_pos {i : EventInfo_t} {f ns : Nat} (h : Coords i f ns) :
    i.LogsPerSector ≤ i.MaxLogsNumber := by
  rw [h.hM]
  exact Nat.le_mul_of_pos_left _ h.hns

theorem Coords.maxLogs_lt {i : EventInfo_t} {f ns : Nat} (h : Coords i f ns) :
    i.MaxLogsNumber < 4294967296 := by
  have h1 : i.MaxLogsNumber ≤ i.MaxLogsNumber * i.EventSize :=
    Nat.le_mul_of_pos_right _ h.hE
  have := h.hMax
  have := h.h32
  omega

theorem Coords.nextPointer_eq {i : EventInfo_t} {f ns j : Nat} (h : Coords i f ns)
    (hj : j < i.MaxLogsNumber) (hp : i.Pointer = i.FirstPointer + j * i.EventSize) :
    nextPointer i = i.FirstPointer + ((j + 1) % i.MaxLogsNumber) * i.EventSize := by
  have h1 : (j + 1) * i.EventSize ≤ i.MaxLogsNumber * i.EventSize :=
    Nat.mul_le_mul_right _ hj
  have h2 : (j + 1) * i.EventSize = j * i.EventSize + i.EventSize := by ring
  have hMax := h.hMax
  have h32 := h.h32
  have hadd : add32 i.Pointer i.EventSize = i.Pointer + i.EventSize := by
    unfold add32
    apply Nat.mod_eq_of_lt
    omega
  unfold nextPointer
  rw [hadd]
  by_cases hw : j + 1 = i.MaxLogsNumber
  · have : i.Pointer + i.EventSize > i.MaxPointer := by
      rw [hw] at h2
      omega
    rw [if_pos this, hw, Nat.mod_self, Nat.zero_mul, Nat.add_zero]
  · have hlt : j + 1 < i.MaxLogsNumber := by omega
    have h3 : (j + 2) * i.EventSize ≤ i.MaxLogsNumber * i.EventSize :=
      Nat.mul_le_mul_right _ hlt
    have h4 : (j + 2) * i.EventSize = j * i.EventSize + i.EventSize + i.EventSize := by ring
    have hE := h.hE
    have : ¬ (i.Pointer + i.EventSize > i.MaxPointer) := by omega
    rw [if_neg this, Nat.mod_eq_of_lt hlt, hp, h2]
    omega

/-! ## The position invariant -/

theorem erasedEngine_info {σ : Type} (e : Engine σ) :
    (erasedEngine e).EventInfo = erasedInfo e.EventInfo := rfl

theorem succ_mod_eq (j L : Nat) (hL : 0 < L) :
    (j + 1) % L = if j % L + 1 = L then 0 else j % L + 1 := by
  have hdm := Nat.div_add_mod j L
  have hlt := Nat.mod_lt j hL
  split
  · rename_i h
    have : j + 1 = L * (j / L + 1) := by rw [Nat.mul_add, Nat.mul_one]; omega
    rw [this, Nat.mul_mod_right]
  · rename_i h
    have h1 : j % L + 1 < L := by omega
    have : j + 1 = L * (j / L) + (j % L + 1) := by omega
    rw [this, Nat.mul_add_mod, Nat.mod_eq_of_lt h1]

theorem Coords.after_erase {i : EventInfo_t} {f ns : Nat} (h : Coords i f ns) :
    Coords (erasedInfo i) f ns :=
  ⟨h.hE, h.hL, h.hns, h.hS, h.hF, h.hM, h.hMax, h.h32⟩

theorem Coords.after_advance {i : EventInfo_t} {f ns : Nat} (h : Coords i f ns) :
    Coords (advance i) f ns :=
  ⟨h.hE, h.hL, h.hns, h.hS, h.hF, h.hM, h.hMax, h.h32⟩

theorem Ready.logInv {i : EventInfo_t} (h : Ready i) : LogInv i := by
  obtain ⟨j, hj, hp, hc⟩ := h
  refine ⟨j, hj, hp, ?_⟩
  rcases hc with hc | hc
  · exact Or.inl hc
  · exact Or.inr (Or.inl hc)

theorem LogInv.ready_of_not_boundary {i : EventInfo_t} {f ns : Nat} (h : Coords i f ns)
    (hi : LogInv i) (hp : i.Pointer % i.SectorSize ≠ 0) : Ready i := by
  obtain ⟨j, hj, hpj, hc⟩ := hi
  refine ⟨j, hj, hpj, ?_⟩
  rcases hc with hc | hc | ⟨h0, _⟩
  · exact Or.inl hc
  · exact Or.inr hc
  · exact absurd ((h.pointer_mod_zero_iff hpj).mpr h0) hp

theorem LogInv.ready_erased {i : EventInfo_t} {f ns : Nat} (h : Coords i f ns)
    (hi : LogInv i) (hp : i.Pointer % i.SectorSize = 0) : Ready (erasedInfo i) := by
  obtain ⟨j, hj, hpj, hc⟩ := hi
  have h0 := (h.pointer_mod_zero_iff hpj).mp hp
  have hLM := h.maxLogs_pos
  have hL := h.hL
  have hM32 := h.maxLogs_lt
  refine ⟨j, hj, hpj, ?_⟩
  show (erasedInfo i).Counter = j ∨
    (erasedInfo i).Counter = i.MaxLogsNumber - i.LogsPerSector + j % i.LogsPerSector
  unfold erasedInfo
  simp only
  rcases hc with hc | hc | ⟨_, hc⟩
  · left
    rw [if_neg (by omega), hc]
  · right
    rw [if_neg (by omega), hc]
  · right
    rw [if_pos (by omega), hc, h0]
    unfold sub32
    rw [Nat.add_zero]
    have : i.MaxLogsNumber + 4294967296 - i.LogsPerSector
        = (i.MaxLogsNumber - i.LogsPerSector) + 4294967296 := by omega
    rw [this, Nat.add_mod_right]
    apply Nat.mod_eq_of_lt
    omega

theorem Ready.logInv_advance {i : EventInfo_t} {f ns : Nat} (h : Coords i f ns) (hr : Ready i) :
    LogInv (advance i) := by
  obtain ⟨j, hj, hpj, hc⟩ := hr
  have hLM := h.maxLogs_pos
  have hL := h.hL
  have hM32 := h.maxLogs_lt
  have hjl := Nat.mod_lt j hL
  have hdvd : i.LogsPerSector ∣ i.MaxLogsNumber := ⟨ns, by rw [h.hM]; ring⟩
  have hmm : (j + 1) % i.MaxLogsNumber % i.LogsPerSector = (j + 1) % i.LogsPerSector :=
    Nat.mod_mod_of_dvd _ hdvd
  have hsm := succ_mod_eq j i.LogsPerSector hL
  have hcnt : (advance i).Counter = i.Counter + 1 := by
    show add32 i.Counter 1 = i.Counter + 1
    unfold add32
    apply Nat.mod_eq_of_lt
    rcases hc with hc | hc <;> omega
  refine ⟨(j + 1) % i.MaxLogsNumber, Nat.mod_lt _ (by omega), h.nextPointer_eq hj hpj, ?_⟩
  show (advance i).Counter = _ ∨ (advance i).Counter = _ ∨ (_ ∧ (advance i).Counter = _)
  have hM' : (advance i).MaxLogsNumber = i.MaxLogsNumber := rfl
  have hL' : (advance i).LogsPerSector = i.LogsPerSector := rfl
  rw [hcnt, hM', hL', hmm, hsm]
  by_cases hw : j + 1 = i.MaxLogsNumber
  · have hz : (j + 1) % i.LogsPerSector = 0 := by
      rw [hw]; exact Nat.mod_eq_zero_of_dvd hdvd
    rw [hsm] at hz
    right; right
    constructor
    · exact hz
    · rcases hc with hc | hc
      · omega
      · split at hz <;> omega
  · have hlt : (j + 1) % i.MaxLogsNumber = j + 1 := Nat.mod_eq_of_lt (by omega)
    rw [hlt]
    rcases hc with hc | hc
    · left; omega
    · right
      split
      · right
        exact ⟨rfl, by omega⟩
      · left; omega

/-! ## The invariant is kept by every call -/

theorem EventStore_engInv {σ : Type} (hk : Hooks σ) (event : List Nat) (e : Engine σ) (d : σ)
    (f ns : Nat) (h : EngInv f ns e) : EngInv f ns (EventStore hk event e d).eng := by
  obtain ⟨hc, hi⟩ := h
  rcases EventStore_shape hk event e d with ⟨_, he, _, _⟩ | ⟨e1, c1, hpre, hw⟩
  · rw [he]; exact ⟨hc, hi⟩
  · have h1 : Coords e1.EventInfo f ns ∧ Ready e1.EventInfo := by
      rcases hpre with ⟨hp, he1, _⟩ | ⟨hp, he1, _⟩
      · subst he1
        exact ⟨hc, hi.ready_of_not_boundary hc hp⟩
      · subst he1
        rw [erasedEngine_info]
        exact ⟨hc.after_erase, hi.ready_erased hc hp⟩
    rcases hw with ⟨he, _, _⟩ | ⟨r, he, _, _⟩
    · rw [he]; exact ⟨h1.1, h1.2.logInv⟩
    · rw [he]; exact ⟨h1.1.after_advance, h1.2.logInv_advance h1.1⟩

theorem EventManagerWriteThrough_engInv {σ : Type} (hk : Hooks σ) (event : Option (List Nat))
    (event_size : Nat) (e : Engine σ) (d : σ) (f ns : Nat) (h : EngInv f ns e) :
    EngInv f ns (EventManagerWriteThrough hk event event_size e d).eng := by
  rcases EventManagerWriteThrough_shape hk event event_size e d with
    ⟨he, _, _⟩ | ⟨ev, g, _, _, _, _, he, _, _⟩
  · rw [he]; exact h
  · rw [he]; exact EventStore_engInv hk ev e _ f ns h

theorem EventManagerRunLoop_engInv {σ : Type} (hk : Hooks σ) (f ns : Nat) (n : Nat) :
    ∀ (e : Engine σ) (d : σ), EngInv f ns e → EngInv f ns (EventManagerRunLoop hk n e d).eng := by
  induction n with
  | zero => intro e d h; exact h
  | succ n ih =>
    intro e d h
    unfold EventManagerRunLoop
    split
    · exact h
    · rename_i event _
      have hs := EventStore_engInv hk event e
        (hk.xSemaphoreTake e.MutexWaitTicks (hk.xQueuePeek 10 d).2).2 f ns h
      simp only
      split_ifs
      · exact h
      · exact hs
      · exact hs
      · exact hs
      · exact ih _ _ hs

theorem giveIfTaken_eng {σ : Type} {α : Type} (hk : Hooks σ) (g : α) (b : Bool)
    (o : Outcome σ α) : (giveIfTaken hk g b o).eng = o.eng := by
  unfold giveIfTaken
  split <;> rfl

theorem EventManagerRun_engInv {σ : Type} (hk : Hooks σ) (max_events : Nat) (e : Engine σ)
    (d : σ) (f ns : Nat) (h : EngInv f ns e) :
    EngInv f ns (EventManagerRun hk max_events e d).eng := by
  unfold EventManagerRun
  dsimp only
  split_ifs
  · exact h
  · exact h
  · exact h
  · rw [giveIfTaken_eng]
    exact EventManagerRunLoop_engInv hk f ns max_events e _ h

theorem EventManagerClear_engInv {σ : Type} (hk : Hooks σ) (e : Engine σ) (d : σ)
    (f ns : Nat) (h : EngInv f ns e) : EngInv f ns (EventManagerClear hk e d).eng := by
  have hreset : EngInv f ns ({ e with EventInfo :=
      { e.EventInfo with Pointer := e.EventInfo.FirstPointer, Counter := 0 } } : Engine σ) := by
    obtain ⟨hc, _⟩ := h
    refine ⟨⟨hc.hE, hc.hL, hc.hns, hc.hS, hc.hF, hc.hM, hc.hMax, hc.h32⟩, ?_⟩
    refine ⟨0, ?_, ?_, Or.inl rfl⟩
    · have := hc.maxLogs_pos
      have := hc.hL
      show 0 < e.EventInfo.MaxLogsNumber
      omega
    · show e.EventInfo.FirstPointer = e.EventInfo.FirstPointer + 0 * e.EventInfo.EventSize
      omega
  unfold EventManagerClear
  dsimp only
  split_ifs <;> (try rw [giveIfTaken_eng]) <;> first | exact h | exact hreset

theorem applyOps_engInv {σ : Type} (hk : Hooks σ) (f ns : Nat) (ops : List Op) :
    ∀ (e : Engine σ) (d : σ), EngInv f ns e → EngInv f ns (applyOps hk ops e d).1 := by
  induction ops with
  | nil => intro e d h; exact h
  | cons op ops ih =>
    intro e d h
    unfold applyOps
    apply ih
    cases op with
    | writeThrough event event_size =>
      exact EventManagerWriteThrough_engInv hk event event_size e d f ns h
    | run max_events => exact EventManagerRun_engInv hk max_events e d f ns h
    | clear => exact EventManagerClear_engInv hk e d f ns h

/-! ## Initialization -/

theorem Outcome.after_eng {σ : Type} {α : Type} (cs : List Call) (o : Outcome σ α) :
    (o.after cs).eng = o.eng := rfl

theorem Outcome.after_ret {σ : Type} {α : Type} (cs : List Call) (o : Outcome σ α) :
    (o.after cs).ret = o.ret := rfl

theorem giveIfTaken_ret_ok {σ : Type} (hk : Hooks σ) (b : Bool)
    (o : Outcome σ EventReturn_e)
    (h : (giveIfTaken hk EVENT_MUTEX_GIVE_ERROR b o).ret = EVENT_RET_OK) :
    o.ret = EVENT_RET_OK := by
  unfold giveIfTaken at h
  split at h
  · dsimp only at h
    split at h
    · exact h
    · exact EventReturn_e.noConfusion h
  · exact h

theorem EventManagerInitializeInfo_ok {σ : Type} (config : EventManagerConfig_t)
    (configInfo : EventInfo_t → σ → Bool × EventInfo_t × σ) (e : Engine σ) (d : σ)
    (h : (EventManagerInitializeInfo config configInfo e d).ret = EVENT_RET_OK) :
    (configInfo (seedInfo config e.EventInfo) d).1 = true ∧
    (EventManagerInitializeInfo config configInfo e d).eng.EventInfo
        = rederiveCounter (validateSeed (configInfo (seedInfo config e.EventInfo) d).2.1) ∧
    (EventManagerInitializeInfo config configInfo e d).eng.Initialized = true := by
  revert h
  unfold EventManagerInitializeInfo
  dsimp only
  split_ifs with h1 h2
  · intro h; exact h.elim
  · intro h; exact h.elim
  · intro _
    refine ⟨?_, rfl, rfl⟩
    simpa using h1

theorem EventManagerInitializeMem_ok {σ : Type} (config : EventManagerConfig_t)
    (mi : EventMemoryInterface_t σ) (e : Engine σ) (d : σ)
    (h : (EventManagerInitializeMem config mi e d).ret = EVENT_RET_OK) :
    ∃ info0, (EventManagerInitializeMem config mi e d).eng.EventInfo
        = rederiveCounter (validateSeed info0) ∧
      (EventManagerInitializeMem config mi e d).eng.Initialized = true := by
  revert h
  unfold EventManagerInitializeMem
  dsimp only
  split
  · split
    · split_ifs
      · intro h; exact h.elim
      · intro h
        rw [Outcome.after_ret] at h
        rw [Outcome.after_eng]
        exact ⟨_, (EventManagerInitializeInfo_ok _ _ _ _ h).2⟩
    · intro h
      exact ⟨_, (EventManagerInitializeInfo_ok _ _ _ _ h).2⟩
  · intro h; exact EventReturn_e.noConfusion h

theorem EventManagerInitializeBody_ok {σ : Type} (hk : Hooks σ) (config : EventManagerConfig_t)
    (mi : EventMemoryInterface_t σ) (e : Engine σ) (d : σ)
    (h : (EventManagerInitializeBody hk config mi e d).ret = EVENT_RET_OK) :
    ∃ info0, (EventManagerInitializeBody hk config mi e d).eng.EventInfo
        = rederiveCounter (validateSeed info0) ∧
      (EventManagerInitializeBody hk config mi e d).eng.Initialized = true := by
  revert h
  unfold EventManagerInitializeBody
  split_ifs
  · exact EventManagerInitializeMem_ok _ _ _ _
  · intro h; exact h.elim
  · intro h
    rw [Outcome.after_ret] at h
    rw [Outcome.after_eng]
    exact EventManagerInitializeMem_ok _ _ _ _ h

theorem EventManagerInitializeLocked_ok {σ : Type} (hk : Hooks σ)
    (config : Option EventManagerConfig_t) (mem_interface : Option (EventMemoryInterface_t σ))
    (e : Engine σ) (d : σ)
    (h : (EventManagerInitializeLocked hk config mem_interface e d).ret = EVENT_RET_OK) :
    ∃ info0, (EventManagerInitializeLocked hk config mem_interface e d).eng.EventInfo
        = rederiveCounter (validateSeed info0) ∧
      (EventManagerInitializeLocked hk config mem_interface e d).eng.Initialized = true := by
  revert h
  unfold EventManagerInitializeLocked
  split
  · split_ifs
    · intro h; exact h.elim
    · intro h
      have h1 := giveIfTaken_ret_ok hk true _ h
      rw [Outcome.after_ret] at h1
      rw [giveIfTaken_eng, Outcome.after_eng]
      exact EventManagerInitializeBody_ok _ _ _ _ _ h1
  · intro h; exact EventReturn_e.noConfusion h

theorem EventManagerInitialize_ok {σ : Type} (hk : Hooks σ)
    (config : Option EventManagerConfig_t) (mem_interface : Option (EventMemoryInterface_t σ))
    (e : Engine σ) (d : σ)
    (h : (EventManagerInitialize hk config mem_interface e d).ret = EVENT_RET_OK) :
    ∃ info0, (EventManagerInitialize hk config mem_interface e d).eng.EventInfo
        = rederiveCounter (validateSeed info0) ∧
      (EventManagerInitialize hk config mem_interface e d).eng.Initialized = true := by
  revert h
  unfold EventManagerInitialize
  split_ifs
  · exact EventManagerInitializeLocked_ok _ _ _ _ _
  · intro h; exact h.elim
  · intro h
    rw [Outcome.after_ret] at h
    rw [Outcome.after_eng]
    exact EventManagerInitializeLocked_ok _ _ _ _ _ h

theorem sub32_eq {a b : Nat} (hb : b ≤ a) (ha : a < 4294967296) : sub32 a b = a - b := by
  unfold sub32
  have : a + 4294967296 - b = (a - b) + 4294967296 := by omega
  rw [this, Nat.add_mod_right]
  exact Nat.mod_eq_of_lt (by omega)

theorem add32_eq {a b : Nat} (h : a + b < 4294967296) : add32 a b = a + b := by
  unfold add32
  exact Nat.mod_eq_of_lt h

theorem Coords.slot_lt {i : EventInfo_t} {f ns : Nat} (h : Coords i f ns) {p j : Nat}
    (hp : p = i.FirstPointer + j * i.EventSize) (hmax : p ≤ i.MaxPointer) :
    j < i.MaxLogsNumber := by
  have hMax := h.hMax
  have h1 : j * i.EventSize < i.MaxLogsNumber * i.EventSize := by omega
  exact Nat.lt_of_mul_lt_mul_right h1

theorem Coords.first_mod_eventSize {i : EventInfo_t} {f ns : Nat} (h : Coords i f ns) :
    i.FirstPointer % i.EventSize = 0 := by
  rw [h.hF, h.hS, ← Nat.mul_assoc]
  exact Nat.mul_mod_left _ _

theorem validateSeed_geometry (i : EventInfo_t) :
    (validateSeed i).EventSize = i.EventSize ∧
    (validateSeed i).LogsPerSector = i.LogsPerSector ∧
    (validateSeed i).MaxLogsNumber = i.MaxLogsNumber ∧
    (validateSeed i).FirstPointer = i.FirstPointer ∧
    (validateSeed i).MaxPointer = i.MaxPointer ∧
    (validateSeed i).SectorSize = i.SectorSize := by
  unfold validateSeed
  dsimp only
  split_ifs <;> exact ⟨rfl, rfl, rfl, rfl, rfl, rfl⟩

theorem rederiveCounter_geometry (i : EventInfo_t) :
    (rederiveCounter i).EventSize = i.EventSize ∧
    (rederiveCounter i).LogsPerSector = i.LogsPerSector ∧
    (rederiveCounter i).MaxLogsNumber = i.MaxLogsNumber ∧
    (rederiveCounter i).FirstPointer = i.FirstPointer ∧
    (rederiveCounter i).MaxPointer = i.MaxPointer ∧
    (rederiveCounter i).SectorSize = i.SectorSize ∧
    (rederiveCounter i).Pointer = i.Pointer := by
  unfold rederiveCounter
  split_ifs <;> exact ⟨rfl, rfl, rfl, rfl, rfl, rfl, rfl⟩

theorem Coords.of_geometry {i k : EventInfo_t} {f ns : Nat} (h : Coords i f ns)
    (hE : k.EventSize = i.EventSize) (hL : k.LogsPerSector = i.LogsPerSector)
    (hM : k.MaxLogsNumber = i.MaxLogsNumber) (hF : k.FirstPointer = i.FirstPointer)
    (hX : k.MaxPointer = i.MaxPointer) (hS : k.SectorSize = i.SectorSize) :
    Coords k f ns := by
  refine ⟨?_, ?_, h.hns, ?_, ?_, ?_, ?_, ?_⟩
  · rw [hE]; exact h.hE
  · rw [hL]; exact h.hL
  · rw [hS, hL, hE]; exact h.hS
  · rw [hF, hS]; exact h.hF
  · rw [hM, hL]; exact h.hM
  · rw [hX, hF, hM, hE]; exact h.hMax
  · rw [hX]; exact h.h32

/-- After the seed validation the pointer is on a record slot of the region. -/
theorem validateSeed_slot {i : EventInfo_t} {f ns : Nat} (h : Coords i f ns) :
    ∃ j, j < i.MaxLogsNumber ∧
      (validateSeed i).Pointer = i.FirstPointer + j * i.EventSize := by
  have hLM := h.maxLogs_pos
  have hL := h.hL
  have hzero : ∃ j, j < i.MaxLogsNumber ∧
      i.FirstPointer = i.FirstPointer + j * i.EventSize := ⟨0, by omega, by omega⟩
  unfold validateSeed
  dsimp only
  split_ifs with h1 h2 h3
  · exact hzero
  · exact hzero
  · exact hzero
  · have hP : i.Pointer ≤ i.MaxPointer := by omega
    have hPE : i.Pointer % i.EventSize = 0 := by
      by_contra hne
      exact h1 (Or.inr (Or.inr hne))
    have hF : i.FirstPointer ≤ i.Pointer := by omega
    have hFE := h.first_mod_eventSize
    have hd : (i.Pointer - i.FirstPointer) % i.EventSize = 0 := by
      have := (Nat.modEq_iff_dvd' hF).mp
        (show i.FirstPointer ≡ i.Pointer [MOD i.EventSize] by
          unfold Nat.ModEq; rw [hFE, hPE])
      exact Nat.mod_eq_zero_of_dvd this
    obtain ⟨j, hj⟩ := Nat.dvd_of_mod_eq_zero hd
    have hp : i.Pointer = i.FirstPointer + j * i.EventSize := by
      rw [Nat.mul_comm j]; omega
    exact ⟨j, h.slot_lt hp hP, hp⟩

theorem rederiveCounter_ready {i : EventInfo_t} {f ns j : Nat} (h : Coords i f ns)
    (hj : j < i.MaxLogsNumber) (hp : i.Pointer = i.FirstPointer + j * i.EventSize) :
    Ready (rederiveCounter i) := by
  have hLM := h.maxLogs_pos
  have hL := h.hL
  have hE := h.hE
  have hM32 := h.maxLogs_lt
  have hMax := h.hMax
  have h32 := h.h32
  have hjl := Nat.mod_lt j hL
  have h1 : (j + 1) * i.EventSize ≤ i.MaxLogsNumber * i.EventSize :=
    Nat.mul_le_mul_right _ hj
  have h2 : (j + 1) * i.EventSize = j * i.EventSize + i.EventSize := by ring
  have hsubML : sub32 i.MaxLogsNumber i.LogsPerSector = i.MaxLogsNumber - i.LogsPerSector :=
    sub32_eq hLM hM32
  have hsubPF : sub32 i.Pointer i.FirstPointer = j * i.EventSize := by
    rw [sub32_eq (by omega) (by omega)]; omega
  have hg := rederiveCounter_geometry i
  refine ⟨j, by rw [hg.2.2.1]; exact hj, by rw [hg.2.2.2.2.2.2, hg.2.2.2.1, hg.1]; exact hp, ?_⟩
  rw [hg.2.2.1, hg.2.1]
  unfold rederiveCounter
  split_ifs
  · right
    show add32 _ _ = _
    rw [hsubML, hsubPF, h.hS, Nat.mul_mod_mul_right, Nat.mul_div_cancel _ hE]
    exact add32_eq (by omega)
  · left
    show sub32 _ _ / _ = _
    rw [hsubPF, Nat.mul_div_cancel _ hE]

/-- The state left by a successful initialization satisfies the position invariant. -/
theorem seed_logInv {i : EventInfo_t} {f ns : Nat}
    (h : Coords (rederiveCounter (validateSeed i)) f ns) :
    LogInv (rederiveCounter (validateSeed i)) := by
  have hg := rederiveCounter_geometry (validateSeed i)
  have hv := validateSeed_geometry i
  have hci : Coords i f ns :=
    h.of_geometry (by rw [hg.1, hv.1]) (by rw [hg.2.1, hv.2.1]) (by rw [hg.2.2.1, hv.2.2.1])
      (by rw [hg.2.2.2.1, hv.2.2.2.1]) (by rw [hg.2.2.2.2.1, hv.2.2.2.2.1])
      (by rw [hg.2.2.2.2.2.1, hv.2.2.2.2.2])
  have hcv : Coords (validateSeed i) f ns :=
    hci.of_geometry hv.1 hv.2.1 hv.2.2.1 hv.2.2.2.1 hv.2.2.2.2.1 hv.2.2.2.2.2
  obtain ⟨j, hj, hp⟩ := validateSeed_slot hci
  apply Ready.logInv
  apply rederiveCounter_ready hcv (j := j)
  · rw [hv.2.2.1]; exact hj
  · rw [hp, hv.2.2.2.1, hv.1]

/-- What the invariant says about pointer and counter. -/
theorem LogInv.bounds {i : EventInfo_t} {f ns : Nat} (h : Coords i f ns) (hi : LogInv i) :
    i.FirstPointer ≤ i.Pointer ∧ i.Pointer ≤ i.MaxPointer ∧
    (i.Pointer - i.FirstPointer) % i.EventSize = 0 ∧ i.Counter ≤ i.MaxLogsNumber := by
  obtain ⟨j, hj, hp, hc⟩ := hi
  have hLM := h.maxLogs_pos
  have hL := h.hL
  have hjl := Nat.mod_lt j hL
  have hMax := h.hMax
  have h1 : (j + 1) * i.EventSize ≤ i.MaxLogsNumber * i.EventSize :=
    Nat.mul_le_mul_right _ hj
  have h2 : (j + 1) * i.EventSize = j * i.EventSize + i.EventSize := by ring
  have hE := h.hE
  refine ⟨by omega, by omega, ?_, ?_⟩
  · rw [hp, Nat.add_sub_cancel_left]
    exact Nat.mul_mod_left _ _
  · rcases hc with hc | hc | ⟨_, hc⟩ <;> omega

/-- A seed taken from a log whose counter is below the maximum is handed back unchanged by
the validation and re-derivation of `EventManagerInitialize`. -/
theorem seed_roundtrip {i : EventInfo_t} {f ns : Nat} (h : Coords i f ns) (hr : Ready i) :
    rederiveCounter (validateSeed i) = i := by
  obtain ⟨j, hj, hp, hc⟩ := hr
  have hLM := h.maxLogs_pos
  have hL := h.hL
  have hE := h.hE
  have hM32 := h.maxLogs_lt
  have hMax := h.hMax
  have h32 := h.h32
  have hjl := Nat.mod_lt j hL
  have h1 : (j + 1) * i.EventSize ≤ i.MaxLogsNumber * i.EventSize :=
    Nat.mul_le_mul_right _ hj
  have h2 : (j + 1) * i.EventSize = j * i.EventSize + i.EventSize := by ring
  have hPE : i.Pointer % i.EventSize = 0 := by
    rw [hp, Nat.add_mul_mod_self_right]; exact h.first_mod_eventSize
  have hcond : ¬ (i.Counter > i.MaxLogsNumber ∨ i.Pointer > i.MaxPointer
      ∨ i.Pointer % i.EventSize ≠ 0) := by
    rintro (hh | hh | hh)
    · rcases hc with hc | hc <;> omega
    · omega
    · exact hh hPE
  have hv : validateSeed i = i := by
    unfold validateSeed
    dsimp only
    rw [if_neg hcond, if_neg (show ¬ i.Pointer < i.FirstPointer by omega)]
  rw [hv]
  have hsubML : sub32 i.MaxLogsNumber i.LogsPerSector = i.MaxLogsNumber - i.LogsPerSector :=
    sub32_eq hLM hM32
  have hsubPF : sub32 i.Pointer i.FirstPointer = j * i.EventSize := by
    rw [sub32_eq (by omega) (by omega)]; omega
  have hdm := Nat.div_add_mod j i.LogsPerSector
  have hq : i.LogsPerSector * (j / i.LogsPerSector) < i.LogsPerSector * ns := by
    have : j < i.LogsPerSector * ns := by rw [Nat.mul_comm, ← h.hM]; exact hj
    omega
  have hq' : j / i.LogsPerSector < ns := Nat.lt_of_mul_lt_mul_left hq
  have hML : i.MaxLogsNumber - i.LogsPerSector = i.LogsPerSector * (ns - 1) := by
    rw [h.hM, Nat.mul_sub, Nat.mul_one, Nat.mul_comm]
  have hset : ∀ c, c = i.Counter → ({ i with Counter := c } : EventInfo_t) = i := by
    intro c hc'; subst hc'; rfl
  unfold rederiveCounter
  split_ifs with hge
  · apply hset
    rw [hsubML, hsubPF, h.hS, Nat.mul_mod_mul_right, Nat.mul_div_cancel _ hE,
      add32_eq (by omega)]
    rw [hsubML] at hge
    rcases hc with hc | hc
    · rw [hc] at hge ⊢
      have hge' : i.LogsPerSector * (ns - 1) ≤ i.LogsPerSector * (j / i.LogsPerSector)
          + j % i.LogsPerSector := by rw [hdm, ← hML]; exact hge
      have hq2 : ns - 1 ≤ j / i.LogsPerSector := by
        by_contra hlt
        have hlt' : j / i.LogsPerSector + 1 ≤ ns - 1 := by omega
        have := Nat.mul_le_mul_left i.LogsPerSector hlt'
        rw [Nat.mul_add, Nat.mul_one] at this
        omega
      have hq3 : j / i.LogsPerSector = ns - 1 := by omega
      rw [hq3] at hdm
      omega
    · omega
  · apply hset
    rw [hsubPF, Nat.mul_div_cancel _ hE]
    rw [hsubML] at hge
    rcases hc with hc | hc <;> omega

/-- The three inconsistencies that `EventManagerInitialize` checks together (counter above
`MaxLogsNumber`, pointer above `MaxPointer`, pointer not a multiple of `EventSize`) do give
an empty log. -/
theorem inconsistent_seed_reset (i : EventInfo_t) (hF : i.FirstPointer < 4294967296)
    (hbad : i.Counter > i.MaxLogsNumber ∨ i.Pointer > i.MaxPointer
      ∨ i.Pointer % i.EventSize ≠ 0) :
    (rederiveCounter (validateSeed i)).Pointer = i.FirstPointer ∧
    (rederiveCounter (validateSeed i)).Counter = 0 := by
  have hv : validateSeed i = { i with Counter := 0, Pointer := i.FirstPointer } := by
    unfold validateSeed
    dsimp only
    rw [if_pos hbad]
    dsimp only
    rw [if_neg (Nat.lt_irrefl _)]
  rw [hv]
  have hPF : sub32 i.FirstPointer i.FirstPointer = 0 := by
    rw [sub32_eq (Nat.le_refl _) hF, Nat.sub_self]
  unfold rederiveCounter
  dsimp only
  split_ifs with hge
  · refine ⟨rfl, ?_⟩
    show add32 _ _ = 0
    have h0 : sub32 i.MaxLogsNumber i.LogsPerSector = 0 := by omega
    rw [h0, hPF, Nat.zero_mod, Nat.zero_div]
    rfl
  · refine ⟨rfl, ?_⟩
    show sub32 _ _ / _ = 0
    rw [hPF, Nat.zero_div]

/-! ## State invariants -/

/-- C8. State invariants: after a successful `EventManagerInitialize` that leaves a valid
geometry (record size dividing the sector size, sector-aligned region of at least one
sector), every state reached by any sequence of `EventManagerWriteThrough`,
`EventManagerRun` and `EventManagerClear` calls, whatever the memory interface, the callbacks
and the mutex return, has `FirstPointer <= Pointer <= MaxPointer`, `Pointer - FirstPointer`
a multiple of `EventSize`, and `Counter <= MaxLogsNumber`. -/
theorem state_invariants {σ : Type} (hk : Hooks σ) (config : Option EventManagerConfig_t)
    (mem_interface : Option (EventMemoryInterface_t σ)) (e0 : Engine σ) (d0 : σ)
    (hret : (EventManagerInitialize hk config mem_interface e0 d0).ret = EVENT_RET_OK)
    (hgeo : ValidGeometry (EventManagerInitialize hk config mem_interface e0 d0).eng.EventInfo)
    (ops : List Op) :
    (reachedInfo hk config mem_interface e0 d0 ops).FirstPointer
      ≤ (reachedInfo hk config mem_interface e0 d0 ops).Pointer ∧
    (reachedInfo hk config mem_interface e0 d0 ops).Pointer
      ≤ (reachedInfo hk config mem_interface e0 d0 ops).MaxPointer ∧
    ((reachedInfo hk config mem_interface e0 d0 ops).Pointer
        - (reachedInfo hk config mem_interface e0 d0 ops).FirstPointer)
      % (reachedInfo hk config mem_interface e0 d0 ops).EventSize = 0 ∧
    (reachedInfo hk config mem_interface e0 d0 ops).Counter
      ≤ (reachedInfo hk config mem_interface e0 d0 ops).MaxLogsNumber := by
  obtain ⟨f, ns, hc⟩ := hgeo.coords
  obtain ⟨info0, hinfo, _⟩ := EventManagerInitialize_ok hk config mem_interface e0 d0 hret
  have hinv : EngInv f ns (EventManagerInitialize hk config mem_interface e0 d0).eng := by
    refine ⟨hc, ?_⟩
    rw [hinfo] at hc ⊢
    exact seed_logInv hc
  have h := applyOps_engInv hk f ns ops _
    (EventManagerInitialize hk config mem_interface e0 d0).dev hinv
  exact h.2.bounds h.1

/-- Instance of `state_invariants`: the test configuration followed by four calls. -/
theorem state_invariants_witness :
    (initOn SST26VF064B testConfig).ret = EVENT_RET_OK ∧
    ValidGeometry (initOn SST26VF064B testConfig).eng.EventInfo ∧
    (reachedInfo idealHooks (some testConfig) (some (idealInterface SST26VF064B)) bootEngine
        (bootWorld 0)
        [Op.writeThrough (some (List.replicate 128 1)) 128, Op.run 3, Op.clear,
         Op.writeThrough (some (List.replicate 128 2)) 128]).Counter
      ≤ (reachedInfo idealHooks (some testConfig) (some (idealInterface SST26VF064B)) bootEngine
        (bootWorld 0)
        [Op.writeThrough (some (List.replicate 128 1)) 128, Op.run 3, Op.clear,
         Op.writeThrough (some (List.replicate 128 2)) 128]).MaxLogsNumber :=
  ⟨by decide, by decide,
   (state_invariants idealHooks (some testConfig) (some (idealInterface SST26VF064B))
      bootEngine (bootWorld 0) (by decide) (by decide) _).2.2.2⟩

/-! ## Execution in the reference environment -/

theorem ideal_callEraseSector (fi : SST2xVF_INFO_t) (e : Engine (SSTState IdealWorld))
    (hmi : e.MEM_INTERFACE = some (idealInterface fi)) (a : Nat) (d : SSTState IdealWorld) :
    callEraseSector e a d =
      (true, { d with drv := { d.drv with mem := memErase fi a d.drv.mem } },
       [Call.EraseSectorFunc a true]) := by
  unfold callEraseSector
  rw [hmi]
  rfl

theorem ideal_callWrite (fi : SST2xVF_INFO_t) (e : Engine (SSTState IdealWorld))
    (hmi : e.MEM_INTERFACE = some (idealInterface fi)) (a : Nat) (data : List Nat) (n : Nat)
    (d : SSTState IdealWorld) :
    callWrite e a data n d =
      (true, { d with drv := { d.drv with mem := memWrite a data (n % 65536) d.drv.mem } },
       [Call.WriteFunc a data n true]) := by
  unfold callWrite
  rw [hmi]
  rfl

theorem ideal_callRead (fi : SST2xVF_INFO_t) (e : Engine (SSTState IdealWorld))
    (hmi : e.MEM_INTERFACE = some (idealInterface fi)) (a n : Nat)
    (d : SSTState IdealWorld) :
    callRead e a n d =
      (true, some (memRead a (n % 65536) d.drv.mem), d, [Call.ReadFunc a n true]) := by
  unfold callRead
  rw [hmi]
  rfl

/-- In the reference environment `EventStore` always succeeds; its effect on the engine
and on the memory. -/
theorem ideal_EventStore (fi : SST2xVF_INFO_t) (e : Engine (SSTState IdealWorld))
    (hmi : e.MEM_INTERFACE = some (idealInterface fi)) (event : List Nat)
    (d : SSTState IdealWorld) :
    (EventStore idealHooks event e d).ret = EVENT_RET_OK ∧
    (EventStore idealHooks event e d).eng = { e with EventInfo := infoAfterStore e.EventInfo } ∧
    (EventStore idealHooks event e d).dev.drv.mem
      = memAfterStore fi e.EventInfo event d.drv.mem := by
  rcases EventStore_cases idealHooks event e d with ⟨_, hr, _⟩ | ⟨e1, d1, c1, hpre, hw⟩
  · rw [ideal_callEraseSector fi e hmi] at hr
    exact Bool.noConfusion hr
  · have hmi1 : e1.MEM_INTERFACE = some (idealInterface fi) := by
      rcases hpre with ⟨_, he1, _⟩ | ⟨_, _, he1, _⟩ <;> subst he1 <;> exact hmi
    rcases hw with ⟨hw1, _⟩ | ⟨_, h⟩
    · rw [ideal_callWrite fi e1 hmi1] at hw1
      exact Bool.noConfusion hw1
    · rw [h]
      unfold storedOutcome infoAfterStore memAfterStore
      rw [ideal_callWrite fi e1 hmi1]
      rcases hpre with ⟨hp, he1, hd1, _⟩ | ⟨hp, _, he1, hd1, _⟩
      · subst he1 hd1
        rw [if_neg hp, if_neg hp]
        exact ⟨rfl, rfl, rfl⟩
      · subst he1
        rw [ideal_callEraseSector fi e hmi] at hd1
        subst hd1
        rw [if_pos hp, if_pos hp]
        exact ⟨rfl, rfl, rfl⟩

/-- In the reference environment `EventManagerWriteThrough` of a record of the right size
always succeeds; its effect on the engine and on the memory. -/
theorem ideal_WriteThrough (fi : SST2xVF_INFO_t) (e : Engine (SSTState IdealWorld))
    (hmi : e.MEM_INTERFACE = some (idealInterface fi)) (hinit : e.Initialized = true)
    (event : List Nat) (d : SSTState IdealWorld) :
    (EventManagerWriteThrough idealHooks (some event) e.EventInfo.EventSize e d).ret
      = EVENT_RET_OK ∧
    (EventManagerWriteThrough idealHooks (some event) e.EventInfo.EventSize e d).eng
      = { e with EventInfo := infoAfterStore e.EventInfo } ∧
    (EventManagerWriteThrough idealHooks (some event) e.EventInfo.EventSize e d).dev.drv.mem
      = memAfterStore fi e.EventInfo event d.drv.mem := by
  have hs := ideal_EventStore fi e hmi event d
  unfold EventManagerWriteThrough
  rw [if_neg (by rw [hinit]; simp), if_neg (by simp)]
  exact ⟨hs.1, hs.2.1, hs.2.2⟩

theorem nextPointer_erasedInfo (i : EventInfo_t) : nextPointer (erasedInfo i) = nextPointer i :=
  rfl

theorem Filled.step {f ns n : Nat} {done : List (List Nat)} {i : EventInfo_t} {m : Nat → Nat}
    (fi : SST2xVF_INFO_t) (hfi : fi.sector_size = i.SectorSize) (hE : i.EventSize < 65536)
    (h : Filled f ns n done i m) (hn : n < i.MaxLogsNumber) (r : List Nat) :
    Filled f ns (n + 1) (done ++ [r]) (infoAfterStore i) (memAfterStore fi i r m) := by
  obtain ⟨hc, hp, hcnt, hlen, hmem⟩ := h
  rw [Nat.mod_eq_of_lt hn] at hp
  have hM32 := hc.maxLogs_lt
  have hgeoE : (infoAfterStore i).EventSize = i.EventSize := by
    unfold infoAfterStore; split <;> rfl
  have hgeoF : (infoAfterStore i).FirstPointer = i.FirstPointer := by
    unfold infoAfterStore; split <;> rfl
  have hgeoM : (infoAfterStore i).MaxLogsNumber = i.MaxLogsNumber := by
    unfold infoAfterStore; split <;> rfl
  refine ⟨?_, ?_, ?_, ?_, ?_⟩
  · unfold infoAfterStore
    split
    · exact hc.after_erase.after_advance
    · exact hc.after_advance
  · rw [hgeoF, hgeoM, hgeoE, ← hc.nextPointer_eq hn hp]
    unfold infoAfterStore
    split <;> rfl
  · have h1 : (infoAfterStore i).Counter = add32 i.Counter 1 := by
      unfold infoAfterStore
      split
      · show add32 (erasedInfo i).Counter 1 = _
        unfold erasedInfo
        dsimp only
        rw [if_neg (by omega)]
      · rfl
    rw [h1, hcnt]
    exact add32_eq (by omega)
  · rw [List.length_append, hlen]; rfl
  · intro k b hk hb
    rw [hgeoE] at hb
    rw [hgeoF, hgeoE]
    have hkE : (k + 1) * i.EventSize = k * i.EventSize + i.EventSize := by ring
    unfold memAfterStore memWrite
    rw [Nat.mod_eq_of_lt hE]
    by_cases hkn : k = n
    · subst hkn
      have hin : i.Pointer ≤ i.FirstPointer + k * i.EventSize + b ∧
          i.FirstPointer + k * i.EventSize + b < i.Pointer + i.EventSize := by omega
      rw [if_pos hin]
      have h2 : i.FirstPointer + k * i.EventSize + b - i.Pointer = b := by omega
      rw [h2, ← hlen, List.getD_append_right _ _ _ _ (Nat.le_refl _), Nat.sub_self]
      rfl
    · have hlt : k < n := by omega
      have h3 : (k + 1) * i.EventSize ≤ n * i.EventSize := Nat.mul_le_mul_right _ hlt
      have hout : ¬ (i.Pointer ≤ i.FirstPointer + k * i.EventSize + b ∧
          i.FirstPointer + k * i.EventSize + b < i.Pointer + i.EventSize) := by omega
      rw [if_neg hout, List.getD_append _ _ _ _ (by omega), ← hmem k b hlt hb]
      split
      · rename_i hps
        unfold memErase
        rw [hfi, hps]
        rw [if_neg (by omega)]
      · rfl

theorem memRead_eq (a : Nat) (r : List Nat) (m : Nat → Nat)
    (h : ∀ b, b < r.length → m (a + b) = r.getD b 0) : memRead a r.length m = r := by
  unfold memRead
  apply List.ext_getElem
  · simp
  · intro b h1 h2
    simp only [List.getElem_map, List.getElem_range]
    rw [h b h2, List.getD_eq_getElem _ _ h2]

/-- For a log filled from empty with at most `MaxLogsNumber` records the first surviving
record is at `FirstPointer`, and index `idx` is read `n - 1 - idx` records after it. -/
theorem GetFlashPointer_filled {f ns n idx : Nat} {done : List (List Nat)} {i : EventInfo_t}
    {m : Nat → Nat} (h : Filled f ns n done i m) (hn : n ≤ i.MaxLogsNumber) (hidx : idx < n) :
    GetFlashPointer i idx = i.FirstPointer + (n - 1 - idx) * i.EventSize := by
  obtain ⟨hc, hp, hcnt, -, -⟩ := h
  have hLM := hc.maxLogs_pos
  have hL := hc.hL
  have hE := hc.hE
  have hM32 := hc.maxLogs_lt
  have hMax := hc.hMax
  have h32 := hc.h32
  have hS := hc.hS
  have hmem : add32 i.MaxPointer 1 = i.MaxPointer + 1 := add32_eq h32
  have hsubML : sub32 i.MaxLogsNumber i.LogsPerSector = i.MaxLogsNumber - i.LogsPerSector :=
    sub32_eq hLM hM32
  have hx : (n - 1 - idx + 1) * i.EventSize ≤ i.MaxLogsNumber * i.EventSize :=
    Nat.mul_le_mul_right _ (by omega)
  have hx2 : (n - 1 - idx + 1) * i.EventSize = (n - 1 - idx) * i.EventSize + i.EventSize := by
    ring
  have hfirst : (if i.Counter > sub32 i.MaxLogsNumber i.LogsPerSector then
        (if (if i.Pointer % i.SectorSize = 0 then i.Pointer
              else add32 (sub32 i.Pointer (i.Pointer % i.SectorSize)) i.SectorSize)
            = add32 i.MaxPointer 1 then i.FirstPointer
         else (if i.Pointer % i.SectorSize = 0 then i.Pointer
              else add32 (sub32 i.Pointer (i.Pointer % i.SectorSize)) i.SectorSize))
      else i.FirstPointer) = i.FirstPointer := by
    split
    · rename_i hfin
      rw [hsubML, hcnt] at hfin
      rw [hmem]
      by_cases hfull : n = i.MaxLogsNumber
      · have hp0 : i.Pointer = i.FirstPointer := by
          rw [hp, hfull, Nat.mod_self, Nat.zero_mul, Nat.add_zero]
        have hoff : i.Pointer % i.SectorSize = 0 := by
          rw [hc.pointer_mod (j := 0) (by rw [hp0]; omega), Nat.zero_mod, Nat.zero_mul]
        rw [if_pos hoff, hp0, ite_self]
      · have hlt : n < i.MaxLogsNumber := by omega
        rw [Nat.mod_eq_of_lt hlt] at hp
        obtain ⟨t, ht⟩ : ∃ t, n = (i.MaxLogsNumber - i.LogsPerSector) + t :=
          ⟨n - (i.MaxLogsNumber - i.LogsPerSector), by omega⟩
        have ht0 : 0 < t := by omega
        have htL : t < i.LogsPerSector := by omega
        have hML : i.MaxLogsNumber - i.LogsPerSector = (ns - 1) * i.LogsPerSector := by
          rw [hc.hM, Nat.sub_mul, Nat.one_mul]
        have hmod : n % i.LogsPerSector = t := by
          rw [ht, hML, Nat.add_comm, Nat.add_mul_mod_self_right, Nat.mod_eq_of_lt htL]
        have hoff : i.Pointer % i.SectorSize = t * i.EventSize := by
          rw [hc.pointer_mod hp, hmod]
        have htE : 0 < t * i.EventSize := Nat.mul_pos ht0 hE
        have hnE : n * i.EventSize
            = (i.MaxLogsNumber - i.LogsPerSector) * i.EventSize + t * i.EventSize := by
          rw [ht]; ring
        have hMLE : i.MaxLogsNumber * i.EventSize
            = (i.MaxLogsNumber - i.LogsPerSector) * i.EventSize + i.SectorSize := by
          rw [hS, ← Nat.add_mul]; congr 1; omega
        have htS : t * i.EventSize < i.SectorSize := by
          rw [hS]; exact Nat.mul_lt_mul_of_pos_right htL hE
        have hoffne : ¬ (i.Pointer % i.SectorSize = 0) := by omega
        have hsub : sub32 i.Pointer (t * i.EventSize) = i.Pointer - t * i.EventSize :=
          sub32_eq (by omega) (by omega)
        have hadd : add32 (i.Pointer - t * i.EventSize) i.SectorSize = i.MaxPointer + 1 := by
          rw [add32_eq (by omega)]; omega
        rw [if_neg hoffne, hoff, hsub, hadd, if_pos rfl]
    · rfl
  have hnE' : n * i.EventSize ≤ i.MaxLogsNumber * i.EventSize := Nat.mul_le_mul_right _ hn
  have hs1 : sub32 n idx = n - idx := sub32_eq (by omega) (by omega)
  have hs2 : sub32 (n - idx) 1 = n - 1 - idx := by
    rw [sub32_eq (by omega) (by omega)]; omega
  have hmul : mul32 (n - 1 - idx) i.EventSize = (n - 1 - idx) * i.EventSize := by
    unfold mul32
    exact Nat.mod_eq_of_lt (by omega)
  have hadd : add32 ((n - 1 - idx) * i.EventSize) i.FirstPointer
      = i.FirstPointer + (n - 1 - idx) * i.EventSize := by
    rw [add32_eq (by omega)]; omega
  have hin : ¬ (i.FirstPointer + (n - 1 - idx) * i.EventSize ≥ i.MaxPointer + 1) := by omega
  unfold GetFlashPointer
  dsimp only
  rw [hfirst, hmem, hcnt, hs1, hs2, hmul, hadd, if_neg hin]

theorem infoAfterStore_geometry (i : EventInfo_t) :
    (infoAfterStore i).EventSize = i.EventSize ∧
    (infoAfterStore i).SectorSize = i.SectorSize ∧
    (infoAfterStore i).MaxLogsNumber = i.MaxLogsNumber ∧
    (infoAfterStore i).MaxPointer = i.MaxPointer := by
  unfold infoAfterStore
  split <;> exact ⟨rfl, rfl, rfl, rfl⟩

theorem writeAll_filled (fi : SST2xVF_INFO_t) (f ns : Nat) :
    ∀ (rs : List (List Nat)) (n : Nat) (done : List (List Nat))
      (e : Engine (SSTState IdealWorld)) (d : SSTState IdealWorld),
      e.MEM_INTERFACE = some (idealInterface fi) → e.Initialized = true →
      fi.sector_size = e.EventInfo.SectorSize → e.EventInfo.EventSize < 65536 →
      Filled f ns n done e.EventInfo d.drv.mem →
      n + rs.length ≤ e.EventInfo.MaxLogsNumber →
      (∀ c ∈ (writeAll rs e d).1, c = EVENT_RET_OK) ∧
      (writeAll rs e d).2.1.MEM_INTERFACE = some (idealInterface fi) ∧
      (writeAll rs e d).2.1.Initialized = true ∧
      (writeAll rs e d).2.1.EventInfo.EventSize = e.EventInfo.EventSize ∧
      (writeAll rs e d).2.1.EventInfo.MaxLogsNumber = e.EventInfo.MaxLogsNumber ∧
      (writeAll rs e d).2.1.EventInfo.MaxPointer = e.EventInfo.MaxPointer ∧
      Filled f ns (n + rs.length) (done ++ rs) (writeAll rs e d).2.1.EventInfo
        (writeAll rs e d).2.2.drv.mem := by
  intro rs
  induction rs with
  | nil =>
    intro n done e d hmi hinit _ _ hfill _
    refine ⟨fun c hc => ?_, hmi, hinit, rfl, rfl, rfl, ?_⟩
    · exact absurd hc (List.not_mem_nil c)
    · rw [List.append_nil]; exact hfill
  | cons r rs ih =>
    intro n done e d hmi hinit hfi hE hfill hlen
    rw [List.length_cons] at hlen
    obtain ⟨hret, heng, hmem⟩ := ideal_WriteThrough fi e hmi hinit r d
    have hg := infoAfterStore_geometry e.EventInfo
    have hstep := hfill.step fi hfi hE (by omega) r
    have h := ih (n + 1) (done ++ [r])
      (EventManagerWriteThrough idealHooks (some r) e.EventInfo.EventSize e d).eng
      (EventManagerWriteThrough idealHooks (some r) e.EventInfo.EventSize e d).dev
      (by rw [heng]; exact hmi) (by rw [heng]; exact hinit)
      (by rw [heng]; exact hfi.trans hg.2.1.symm)
      (by rw [heng]; exact hg.1.symm ▸ hE)
      (by rw [heng, hmem]; exact hstep)
      (by rw [heng]; show n + 1 + rs.length ≤ (infoAfterStore e.EventInfo).MaxLogsNumber
          rw [hg.2.2.1]; omega)
    rw [heng] at h
    obtain ⟨h1, h2, h3, h4, h5, h6, h7⟩ := h
    have hw : writeAll (r :: rs) e d =
        ((EventManagerWriteThrough idealHooks (some r) e.EventInfo.EventSize e d).ret ::
          (writeAll rs (EventManagerWriteThrough idealHooks (some r) e.EventInfo.EventSize e d).eng
            (EventManagerWriteThrough idealHooks (some r) e.EventInfo.EventSize e d).dev).1,
         (writeAll rs (EventManagerWriteThrough idealHooks (some r) e.EventInfo.EventSize e d).eng
            (EventManagerWriteThrough idealHooks (some r) e.EventInfo.EventSize e d).dev).2.1,
         (writeAll rs (EventManagerWriteThrough idealHooks (some r) e.EventInfo.EventSize e d).eng
            (EventManagerWriteThrough idealHooks (some r) e.EventInfo.EventSize e d).dev).2.2) :=
      rfl
    rw [hw, heng]
    refine ⟨?_, h2, h3, h4.trans hg.1, h5.trans hg.2.2.1, h6.trans hg.2.2.2, ?_⟩
    · intro c hc
      rcases List.mem_cons.mp hc with hc | hc
      · rw [hc, hret]
      · exact h1 c hc
    · have e1 : n + (rs.length + 1) = n + 1 + rs.length := by omega
      have e2 : done ++ r :: rs = done ++ [r] ++ rs := by simp
      rw [List.length_cons, e1, e2]
      exact h7

/-- In the reference environment a read of an existing record whose address is inside the
region succeeds and returns the bytes stored at the address `GetFlashPointer` computes. -/
theorem ideal_Read (fi : SST2xVF_INFO_t) (e : Engine (SSTState IdealWorld))
    (hmi : e.MEM_INTERFACE = some (idealInterface fi)) (hinit : e.Initialized = true)
    (idx event_size : Nat) (d : SSTState IdealWorld)
    (hsize : e.EventInfo.EventSize ≤ event_size) (hidx : idx < e.EventInfo.Counter)
    (hfp : GetFlashPointer e.EventInfo idx ≤ e.EventInfo.MaxPointer) :
    (EventManagerRead idealHooks idx event_size e d).1.ret = EVENT_RET_OK ∧
    (EventManagerRead idealHooks idx event_size e d).2
      = some (memRead (GetFlashPointer e.EventInfo idx) (e.EventInfo.EventSize % 65536)
          d.drv.mem) := by
  unfold EventManagerRead
  rw [if_neg (by rw [hinit]; simp), if_neg (by omega)]
  dsimp only
  rw [if_neg (by simp [idealHooks]), if_neg (by omega), if_neg (by omega)]
  rw [ideal_callRead fi e hmi]
  exact ⟨rfl, rfl⟩

/-! ## C1: append monotonicity -/

/-- C1 (amended). Append monotonicity: for every valid geometry whose first address is a
multiple of the sector size, starting from an empty log in the environment where every
external call succeeds, `N <= MaxLogsNumber` calls of `EventManagerWriteThrough` all return
`EVENT_RET_OK`, leave `Counter == N`, and for every `i < N` `EventManagerRead(i)` returns
`EVENT_RET_OK` with the bytes of the `(N-1-i)`-th appended record. -/
theorem append_monotonicity (fi : SST2xVF_INFO_t) (e : Engine (SSTState IdealWorld))
    (d : SSTState IdealWorld) (rs : List (List Nat))
    (hinit : e.Initialized = true) (hmi : e.MEM_INTERFACE = some (idealInterface fi))
    (hfi : fi.sector_size = e.EventInfo.SectorSize) (hgeo : ValidGeometry e.EventInfo)
    (hE : e.EventInfo.EventSize < 256)
    (hP : e.EventInfo.Pointer = e.EventInfo.FirstPointer) (hC : e.EventInfo.Counter = 0)
    (hlen : rs.length ≤ e.EventInfo.MaxLogsNumber)
    (hrec : ∀ r ∈ rs, r.length = e.EventInfo.EventSize) :
    (∀ c ∈ (writeAll rs e d).1, c = EVENT_RET_OK) ∧
    (EventManagerGetInfo (writeAll rs e d).2.1).Counter = rs.length ∧
    ∀ i, i < rs.length →
      (EventManagerRead idealHooks i e.EventInfo.EventSize
          (writeAll rs e d).2.1 (writeAll rs e d).2.2).1.ret = EVENT_RET_OK ∧
      (EventManagerRead idealHooks i e.EventInfo.EventSize
          (writeAll rs e d).2.1 (writeAll rs e d).2.2).2 = rs[rs.length - 1 - i]? := by
  obtain ⟨f, ns, hc⟩ := hgeo.coords
  have h0 : Filled f ns 0 [] e.EventInfo d.drv.mem := by
    refine ⟨hc, ?_, hC, rfl, ?_⟩
    · rw [Nat.zero_mod, Nat.zero_mul, Nat.add_zero]; exact hP
    · intro k b hk; omega
  obtain ⟨hok, hmi', hinit', hE', hM', hX', hfill⟩ :=
    writeAll_filled fi f ns rs 0 [] e d hmi hinit hfi (by omega) h0 (by omega)
  rw [Nat.zero_add, List.nil_append] at hfill
  refine ⟨hok, hfill.2.2.1, ?_⟩
  intro i hi
  have hfp := GetFlashPointer_filled hfill (by rw [hM']; exact hlen) hi
  obtain ⟨hc', hp', hcnt', -, hmem'⟩ := hfill
  have hMax := hc'.hMax
  have hx : (rs.length - 1 - i + 1) * (writeAll rs e d).2.1.EventInfo.EventSize
      ≤ (writeAll rs e d).2.1.EventInfo.MaxLogsNumber
        * (writeAll rs e d).2.1.EventInfo.EventSize :=
    Nat.mul_le_mul_right _ (by rw [hM']; omega)
  have hx2 : (rs.length - 1 - i + 1) * (writeAll rs e d).2.1.EventInfo.EventSize
      = (rs.length - 1 - i) * (writeAll rs e d).2.1.EventInfo.EventSize
        + (writeAll rs e d).2.1.EventInfo.EventSize := by ring
  have hEpos := hc'.hE
  have hr := ideal_Read fi (writeAll rs e d).2.1 hmi' hinit' i e.EventInfo.EventSize
    (writeAll rs e d).2.2 (by rw [hE']) (by rw [hcnt']; exact hi) (by rw [hfp]; omega)
  refine ⟨hr.1, ?_⟩
  have hk : rs.length - 1 - i < rs.length := by omega
  have hl : (rs[rs.length - 1 - i]).length = (writeAll rs e d).2.1.EventInfo.EventSize := by
    rw [hE']; exact hrec _ (List.getElem_mem _)
  have hread := memRead_eq
    ((writeAll rs e d).2.1.EventInfo.FirstPointer
      + (rs.length - 1 - i) * (writeAll rs e d).2.1.EventInfo.EventSize)
    (rs[rs.length - 1 - i]) (writeAll rs e d).2.2.drv.mem
    (fun b hb => by
      rw [hl] at hb
      rw [hmem' _ b hk hb, List.getD_eq_getElem _ _ hk])
  rw [hl] at hread
  rw [hr.2, hfp, Nat.mod_eq_of_lt (by omega), hread, List.getElem?_eq_getElem hk]

set_option maxRecDepth 20000 in
/-- Instance of `append_monotonicity`: two records appended to the empty test log. -/
theorem append_monotonicity_witness :
    ValidGeometry testInfo ∧
    (∀ c ∈ (writeAll [List.replicate 128 1, List.replicate 128 2]
        (idealEngine SST26VF064B testInfo) (bootWorld 0)).1, c = EVENT_RET_OK) ∧
    (EventManagerGetInfo (writeAll [List.replicate 128 1, List.replicate 128 2]
        (idealEngine SST26VF064B testInfo) (bootWorld 0)).2.1).Counter = 2 :=
  ⟨by decide,
   (append_monotonicity SST26VF064B (idealEngine SST26VF064B testInfo) (bootWorld 0)
      [List.replicate 128 1, List.replicate 128 2] rfl rfl rfl (by decide) (by decide) rfl rfl
      (by decide) (by decide)).1,
   (append_monotonicity SST26VF064B (idealEngine SST26VF064B testInfo) (bootWorld 0)
      [List.replicate 128 1, List.replicate 128 2] rfl rfl rfl (by decide) (by decide) rfl rfl
      (by decide) (by decide)).2.1⟩

/-- C1 as stated fails when the first address is not a multiple of the sector size: two
records appended to the empty log `unalignedInfo` (capacity 2); the read of index 0 returns
the bytes at address 0, outside the region, and the read of index 1 returns the newest
record instead of the oldest. -/
theorem append_monotonicity_unaligned_counterexample :
    RegionGeometry unalignedInfo ∧
    unalignedInfo.Pointer = unalignedInfo.FirstPointer ∧ unalignedInfo.Counter = 0 ∧
    [[1, 101], [2, 102]].length ≤ unalignedInfo.MaxLogsNumber ∧
    (writeAll [[1, 101], [2, 102]] (idealEngine tinyFlash unalignedInfo) (bootWorld 0)).1
      = [EVENT_RET_OK, EVENT_RET_OK] ∧
    GetFlashPointer (writeAll [[1, 101], [2, 102]] (idealEngine tinyFlash unalignedInfo)
      (bootWorld 0)).2.1.EventInfo 0 = 0 ∧
    (EventManagerRead idealHooks 0 2
      (writeAll [[1, 101], [2, 102]] (idealEngine tinyFlash unalignedInfo) (bootWorld 0)).2.1
      (writeAll [[1, 101], [2, 102]] (idealEngine tinyFlash unalignedInfo) (bootWorld 0)).2.2).2
      = some [0, 0] ∧
    (EventManagerRead idealHooks 1 2
      (writeAll [[1, 101], [2, 102]] (idealEngine tinyFlash unalignedInfo) (bootWorld 0)).2.1
      (writeAll [[1, 101], [2, 102]] (idealEngine tinyFlash unalignedInfo) (bootWorld 0)).2.2).2
      = some [2, 102] := by
  decide

/-! ## Evaluations on the test geometry -/

set_option maxRecDepth 100000 in
/-- C2 (code defect, evaluated). Wraparound with a first address that is not 0: in the
geometry of the second pass of `TestEventSST2xVF` (first address 16384, two sectors, 64
records), after `MaxLogsNumber + 1 = 65` successful appends of the numbered records,
`EventManagerRead(0)` returns `EVENT_RET_OK` with the 128 bytes found at address 0, outside
the region, although the newest record, number 64, is stored at address 16384.  The same
65 appends to the same log placed at first address 0 read record 64 back. -/
theorem wraparound_nonzero_first_address_defect :
    ValidGeometry testInfo ∧ testInfo.MaxLogsNumber + 1 = 65 ∧
    (∀ c ∈ (writeAll (numberedRecords 128 65) testEngine (bootWorld 0)).1,
        c = EVENT_RET_OK) ∧
    (EventManagerGetInfo (testAfter 65).1).Counter = 33 ∧
    (EventManagerRead idealHooks 0 128 (testAfter 65).1 (testAfter 65).2).1.ret
      = EVENT_RET_OK ∧
    (EventManagerRead idealHooks 0 128 (testAfter 65).1 (testAfter 65).2).2
      = some (List.replicate 128 0) ∧
    memRead 16384 128 (testAfter 65).2.drv.mem = numberedRecord 128 64 ∧
    numberedRecord 128 64 ≠ List.replicate 128 0 ∧
    (EventManagerRead idealHooks 0 128
      (writeAll (numberedRecords 128 65) (idealEngine SST26VF064B testInfoAtZero)
        (bootWorld 0)).2.1
      (writeAll (numberedRecords 128 65) (idealEngine SST26VF064B testInfoAtZero)
        (bootWorld 0)).2.2).2 = some (numberedRecord 128 64) := by
  decide

set_option maxRecDepth 100000 in
/-- C9 (code defect, evaluated). Read addressing leaves the region: in the same state (first
address 16384, last address 24575, 65 appends) `GetFlashPointer` maps index 0 to address 0
and `EventManagerRead` passes that address to `ReadFunc`, whereas the address of the claim,
`FirstPointer + ((first_record_addr - FirstPointer) + (Counter - index - 1) * EventSize)
mod region_size`, is 16384. -/
theorem read_address_below_region_defect :
    (EventManagerGetInfo (testAfter 65).1).FirstPointer = 16384 ∧
    (EventManagerGetInfo (testAfter 65).1).MaxPointer = 24575 ∧
    (EventManagerGetInfo (testAfter 65).1).Pointer = 16512 ∧
    (EventManagerGetInfo (testAfter 65).1).Counter = 33 ∧
    GetFlashPointer (testAfter 65).1.EventInfo 0 = 0 ∧
    (EventManagerRead idealHooks 0 128 (testAfter 65).1 (testAfter 65).2).1.calls
      = [Call.SemaphoreTake 10 true, Call.Callback EventManagerCallback_e.READ_EVENT EVENT_RET_OK,
         Call.ReadFunc 0 128 true, Call.SemaphoreGive true] ∧
    16384 + ((20480 - 16384) + (33 - 0 - 1) * 128) % 8192 = 16384 := by
  decide

set_option maxRecDepth 100000 in
/-- C3 (code defect, evaluated). Recovery of a full log: after 64 appends to the empty log
of 64 records the engine reports `(Pointer, Counter) = (16384, 64)`; uninitializing and
initializing again with that seed succeeds but leaves `Counter == 32`, and index 0 is then
read at address 20352 (record 31) instead of 24448 (record 63, the newest). -/
theorem recovery_of_full_log_defect :
    (EventManagerGetInfo (testAfter 64).1).Pointer = 16384 ∧
    (EventManagerGetInfo (testAfter 64).1).Counter = 64 ∧
    (recover 16384 64 (testAfter 64)).ret = EVENT_RET_OK ∧
    (EventManagerGetInfo (recover 16384 64 (testAfter 64)).eng).Pointer = 16384 ∧
    (EventManagerGetInfo (recover 16384 64 (testAfter 64)).eng).Counter = 32 ∧
    GetFlashPointer (testAfter 64).1.EventInfo 0 = 24448 ∧
    GetFlashPointer (recover 16384 64 (testAfter 64)).eng.EventInfo 0 = 20352 ∧
    (EventManagerRead idealHooks 0 128 (testAfter 64).1 (testAfter 64).2).2
      = some (numberedRecord 128 63) ∧
    (EventManagerRead idealHooks 0 128 (recover 16384 64 (testAfter 64)).eng
        (recover 16384 64 (testAfter 64)).dev).2
      = some (numberedRecord 128 31) := by
  decide

/-- C10 (code defect, evaluated). A seed pointer below the first address does not give an
empty log: with `pointer_init = 0`, `first_valid_addr = 16384` and `counter_init = 40`,
`EventManagerInitialize` succeeds with `Pointer == FirstPointer` but `Counter == 32`. -/
theorem initialize_pointer_below_first_defect :
    (recoveryConfig 0 40).pointer_init < (recoveryConfig 0 40).first_valid_addr ∧
    (initOn SST26VF064B (recoveryConfig 0 40)).ret = EVENT_RET_OK ∧
    (EventManagerGetInfo (initOn SST26VF064B (recoveryConfig 0 40)).eng).FirstPointer
      = 16384 ∧
    (EventManagerGetInfo (initOn SST26VF064B (recoveryConfig 0 40)).eng).MaxLogsNumber = 64 ∧
    (EventManagerGetInfo (initOn SST26VF064B (recoveryConfig 0 40)).eng).Pointer = 16384 ∧
    (EventManagerGetInfo (initOn SST26VF064B (recoveryConfig 0 40)).eng).Counter = 32 := by
  decide

set_option maxRecDepth 100000 in
/-- C4 (code defect, evaluated). A failed append changes the log state.  The log holds the
records 0 .. 63 (`Pointer == 16384`, `Counter == 64`; index 0 is record 63, index 32 is
record 31).  The next `EventManagerWriteThrough` erases the sector at 16384,
`EventCheckErase` takes `LogsPerSector` off `Counter`, and `WriteFunc` returns false: the
call returns `EVENT_RET_ERR_FLASH` with `Pointer == 16384` but `Counter == 32`.  Afterwards
index 0 is addressed at 20352, inside the sector just erased, so `EventManagerRead(0)`
returns `EVENT_RET_OK` with 128 erased bytes, and index 32 does not exist, although record
63 is still stored at 24448.  When it is `EraseSectorFunc` that fails on the same state,
`Pointer` and `Counter` keep their values. -/
theorem writeThrough_failure_changes_counter :
    fullEngineWriteFails.Initialized = true ∧
    fullEngineWriteFails.EventInfo = (testAfter 64).1.EventInfo ∧
    (EventManagerRead idealHooks 0 128 fullEngineWriteFails (testAfter 64).2).2
      = some (numberedRecord 128 63) ∧
    (EventManagerRead idealHooks 32 128 fullEngineWriteFails (testAfter 64).2).2
      = some (numberedRecord 128 31) ∧
    (EventManagerWriteThrough idealHooks (some (numberedRecord 128 64)) 128
        fullEngineWriteFails (testAfter 64).2).ret = EVENT_RET_ERR_FLASH ∧
    (EventManagerWriteThrough idealHooks (some (numberedRecord 128 64)) 128
        fullEngineWriteFails (testAfter 64).2).calls
      = [Call.SemaphoreTake 10 true, Call.EraseSectorFunc 16384 true,
         Call.WriteFunc 16384 (numberedRecord 128 64) 128 false, Call.SemaphoreGive true] ∧
    fullEngineWriteFails.EventInfo.Pointer = 16384 ∧
    fullEngineWriteFails.EventInfo.Counter = 64 ∧
    (EventManagerWriteThrough idealHooks (some (numberedRecord 128 64)) 128
        fullEngineWriteFails (testAfter 64).2).eng.EventInfo.Pointer = 16384 ∧
    (EventManagerWriteThrough idealHooks (some (numberedRecord 128 64)) 128
        fullEngineWriteFails (testAfter 64).2).eng.EventInfo.Counter = 32 ∧
    GetFlashPointer (EventManagerWriteThrough idealHooks (some (numberedRecord 128 64)) 128
        fullEngineWriteFails (testAfter 64).2).eng.EventInfo 0 = 20352 ∧
    (EventManagerRead idealHooks 0 128
      (EventManagerWriteThrough idealHooks (some (numberedRecord 128 64)) 128
        fullEngineWriteFails (testAfter 64).2).eng
      (EventManagerWriteThrough idealHooks (some (numberedRecord 128 64)) 128
        fullEngineWriteFails (testAfter 64).2).dev).1.ret = EVENT_RET_OK ∧
    (EventManagerRead idealHooks 0 128
      (EventManagerWriteThrough idealHooks (some (numberedRecord 128 64)) 128
        fullEngineWriteFails (testAfter 64).2).eng
      (EventManagerWriteThrough idealHooks (some (numberedRecord 128 64)) 128
        fullEngineWriteFails (testAfter 64).2).dev).2 = some (List.replicate 128 255) ∧
    (EventManagerRead idealHooks 32 128
      (EventManagerWriteThrough idealHooks (some (numberedRecord 128 64)) 128
        fullEngineWriteFails (testAfter 64).2).eng
      (EventManagerWriteThrough idealHooks (some (numberedRecord 128 64)) 128
        fullEngineWriteFails (testAfter 64).2).dev).1.ret = EVENT_NOT_EXIST ∧
    memRead 24448 128 (EventManagerWriteThrough idealHooks (some (numberedRecord 128 64)) 128
        fullEngineWriteFails (testAfter 64).2).dev.drv.mem = numberedRecord 128 63 ∧
    (EventManagerWriteThrough idealHooks (some (numberedRecord 128 64)) 128
        fullEngineEraseFails (testAfter 64).2).ret = EVENT_RET_ERR_FLASH ∧
    (EventManagerWriteThrough idealHooks (some (numberedRecord 128 64)) 128
        fullEngineEraseFails (testAfter 64).2).eng.EventInfo.Pointer = 16384 ∧
    (EventManagerWriteThrough idealHooks (some (numberedRecord 128 64)) 128
        fullEngineEraseFails (testAfter 64).2).eng.EventInfo.Counter = 64 := by
  refine ⟨?_, ?_, ?_, ?_, ?_, ?_, ?_, ?_, ?_, ?_, ?_, ?_, ?_, ?_, ?_, ?_, ?_, ?_⟩
  all_goals decide

set_option maxRecDepth 100000 in
/-- Instance of `writeThrough_failure_state` on a full log whose `WriteFunc` fails. -/
theorem writeThrough_failure_state_witness :
    (∃ a data n, Call.WriteFunc a data n false ∈
      (EventManagerWriteThrough idealHooks (some (numberedRecord 128 64)) 128
        fullEngineWriteFails (bootWorld 0)).calls) ∧
    (EventManagerWriteThrough idealHooks (some (numberedRecord 128 64)) 128
        fullEngineWriteFails (bootWorld 0)).eng.EventInfo.Pointer
      = fullEngineWriteFails.EventInfo.Pointer :=
  ⟨⟨16384, numberedRecord 128 64, 128, by decide⟩,
   (writeThrough_failure_state idealHooks (some (numberedRecord 128 64)) 128
      fullEngineWriteFails (bootWorld 0)
      (Or.inr ⟨16384, numberedRecord 128 64, 128, by decide⟩)).1⟩

/-- C5. Erase-before-write: when `EventStore` returns `EVENT_RET_OK`, the external calls it
made are, in this order, `EraseSectorFunc(Pointer)` once if `Pointer` is a multiple of
`SectorSize` and not at all otherwise, then `WriteFunc(Pointer, event, EventSize)`, then the
store callback with the pointer and counter of the state it leaves. -/
theorem eventStore_erase_before_write {σ : Type} (hk : Hooks σ) (event : List Nat)
    (e : Engine σ) (d : σ) (hok : (EventStore hk event e d).ret = EVENT_RET_OK) :
    (EventStore hk event e d).calls =
      (if e.EventInfo.Pointer % e.EventInfo.SectorSize = 0
        then [Call.EraseSectorFunc e.EventInfo.Pointer true] else [])
      ++ [Call.WriteFunc e.EventInfo.Pointer event e.EventInfo.EventSize true,
          Call.StoreCallback (EventStore hk event e d).eng.EventInfo.Pointer
            (EventStore hk event e d).eng.EventInfo.Counter EVENT_RET_OK] :=
  EventStore_ok_calls hk event e d hok

set_option maxRecDepth 100000 in
/-- Instance of `eventStore_erase_before_write`: first append to the empty test log. -/
theorem eventStore_erase_before_write_witness :
    (EventStore idealHooks (numberedRecord 128 0) testEngine (bootWorld 0)).ret
      = EVENT_RET_OK ∧
    (EventStore idealHooks (numberedRecord 128 0) testEngine (bootWorld 0)).calls
      = [Call.EraseSectorFunc 16384 true, Call.WriteFunc 16384 (numberedRecord 128 0) 128 true,
         Call.StoreCallback 16512 1 EVENT_RET_OK] :=
  ⟨by decide,
   eventStore_erase_before_write idealHooks (numberedRecord 128 0) testEngine (bootWorld 0)
     (by decide)⟩

set_option maxRecDepth 100000 in
/-- Instance of `writeThrough_persistence_notification`: first append to the empty test
log. -/
theorem writeThrough_persistence_notification_witness :
    (EventManagerWriteThrough idealHooks (some (numberedRecord 128 0)) 128 testEngine
        (bootWorld 0)).ret = EVENT_RET_OK ∧
    ∃ ev, some (numberedRecord 128 0) = some ev ∧
      (EventManagerWriteThrough idealHooks (some (numberedRecord 128 0)) 128 testEngine
          (bootWorld 0)).calls
        = [Call.SemaphoreTake 10 true, Call.EraseSectorFunc 16384 true,
           Call.WriteFunc 16384 ev 128 true, Call.StoreCallback 16512 1 EVENT_RET_OK,
           Call.SemaphoreGive true] :=
  ⟨by decide,
   writeThrough_persistence_notification idealHooks (some (numberedRecord 128 0)) 128
     testEngine (bootWorld 0) (by decide)⟩

theorem EventManagerInitializeInfo_trace {σ : Type} (config : EventManagerConfig_t)
    (configInfo : EventInfo_t → σ → Bool × EventInfo_t × σ) (e : Engine σ) (d : σ)
    (h : (EventManagerInitializeInfo config configInfo e d).ret = EVENT_RET_OK) :
    (configInfo (seedInfo config e.EventInfo) d).1 = true ∧
    (EventManagerInitializeInfo config configInfo e d).eng.EventInfo
        = rederiveCounter (validateSeed (configInfo (seedInfo config e.EventInfo) d).2.1) ∧
    (EventManagerInitializeInfo config configInfo e d).eng.EventInfo.SectorSize
        % (EventManagerInitializeInfo config configInfo e d).eng.EventInfo.EventSize = 0 ∧
    (EventManagerInitializeInfo config configInfo e d).eng.EventInfo.EventSize
        ≤ (EventManagerInitializeInfo config configInfo e d).eng.EventInfo.SectorSize := by
  revert h
  unfold EventManagerInitializeInfo
  dsimp only
  split_ifs with h1 h2
  · intro h; exact h.elim
  · intro h; exact h.elim
  · intro _
    refine ⟨by simpa using h1, rfl, ?_, ?_⟩
    · by_contra hne; exact h2 (Or.inl hne)
    · by_contra hne; exact h2 (Or.inr (not_le.mp hne))

theorem EventManagerInitializeMem_trace {σ : Type} (config : EventManagerConfig_t)
    (mi : EventMemoryInterface_t σ) (e : Engine σ) (d : σ)
    (h : (EventManagerInitializeMem config mi e d).ret = EVENT_RET_OK) :
    InitTrace mi config (EventManagerInitializeMem config mi e d).eng.EventInfo := by
  revert h
  unfold EventManagerInitializeMem
  dsimp only
  split
  · rename_i configInfo _ _ _ _ hcfg _ _ _ _
    split
    · split_ifs
      · intro h; exact h.elim
      · intro h
        rw [Outcome.after_ret] at h
        rw [Outcome.after_eng]
        obtain ⟨h1, h2, h3, h4⟩ := EventManagerInitializeInfo_trace _ _ _ _ h
        exact ⟨configInfo, _, _, hcfg, h1, h2, h3, h4⟩
    · intro h
      obtain ⟨h1, h2, h3, h4⟩ := EventManagerInitializeInfo_trace _ _ _ _ h
      exact ⟨configInfo, _, _, hcfg, h1, h2, h3, h4⟩
  · intro h; exact EventReturn_e.noConfusion h

theorem EventManagerInitializeBody_trace {σ : Type} (hk : Hooks σ)
    (config : EventManagerConfig_t) (mi : EventMemoryInterface_t σ) (e : Engine σ) (d : σ)
    (h : (EventManagerInitializeBody hk config mi e d).ret = EVENT_RET_OK) :
    InitTrace mi config (EventManagerInitializeBody hk config mi e d).eng.EventInfo := by
  revert h
  unfold EventManagerInitializeBody
  split_ifs
  · exact EventManagerInitializeMem_trace _ _ _ _
  · intro h; exact h.elim
  · intro h
    rw [Outcome.after_ret] at h
    rw [Outcome.after_eng]
    exact EventManagerInitializeMem_trace _ _ _ _ h

theorem EventManagerInitializeLocked_trace {σ : Type} (hk : Hooks σ)
    (config : Option EventManagerConfig_t) (mem_interface : Option (EventMemoryInterface_t σ))
    (e : Engine σ) (d : σ)
    (h : (EventManagerInitializeLocked hk config mem_interface e d).ret = EVENT_RET_OK) :
    ∃ cfg mi, config = some cfg ∧ mem_interface = some mi ∧
      InitTrace mi cfg (EventManagerInitializeLocked hk config mem_interface e d).eng.EventInfo := by
  revert h
  unfold EventManagerInitializeLocked
  split
  · rename_i cfg mi
    split_ifs
    · intro h; exact h.elim
    · intro h
      have h1 := giveIfTaken_ret_ok hk true _ h
      rw [Outcome.after_ret] at h1
      rw [giveIfTaken_eng, Outcome.after_eng]
      exact ⟨cfg, mi, rfl, rfl, EventManagerInitializeBody_trace _ _ _ _ _ h1⟩
  · intro h; exact EventReturn_e.noConfusion h

theorem EventManagerInitialize_trace {σ : Type} (hk : Hooks σ)
    (config : Option EventManagerConfig_t) (mem_interface : Option (EventMemoryInterface_t σ))
    (e : Engine σ) (d : σ)
    (h : (EventManagerInitialize hk config mem_interface e d).ret = EVENT_RET_OK) :
    ∃ cfg mi, config = some cfg ∧ mem_interface = some mi ∧
      InitTrace mi cfg (EventManagerInitialize hk config mem_interface e d).eng.EventInfo := by
  revert h
  unfold EventManagerInitialize
  split_ifs
  · exact EventManagerInitializeLocked_trace _ _ _ _ _
  · intro h; exact h.elim
  · intro h
    rw [Outcome.after_ret] at h
    rw [Outcome.after_eng]
    exact EventManagerInitializeLocked_trace _ _ _ _ _ h

/-- What `EventSST2xVFConfig` has checked and filled in when it returns `true`. -/
theorem EventSST2xVFConfig_accepts {δ : Type} (drv : SST2xVF_DRIVER_t δ) (info : EventInfo_t)
    (s : SSTState δ) (hMax : info.MaxPointer < 4294967296)
    (hsize : (drv.GetInfo s.drv).size < 4294967296)
    (h : (EventSST2xVFConfig drv info s).1 = true) :
    (EventSST2xVFConfig drv info s).2.1.EventSize = info.EventSize ∧
    (EventSST2xVFConfig drv info s).2.1.FirstPointer = info.FirstPointer ∧
    (EventSST2xVFConfig drv info s).2.1.MaxPointer + 1 < 4294967296 ∧
    (EventSST2xVFConfig drv info s).2.1.FirstPointer
      % (EventSST2xVFConfig drv info s).2.1.SectorSize = 0 ∧
    ((EventSST2xVFConfig drv info s).2.1.MaxPointer + 1)
      % (EventSST2xVFConfig drv info s).2.1.SectorSize = 0 ∧
    (EventSST2xVFConfig drv info s).2.1.LogsPerSector
      = (EventSST2xVFConfig drv info s).2.1.SectorSize
        / (EventSST2xVFConfig drv info s).2.1.EventSize ∧
    (EventSST2xVFConfig drv info s).2.1.MaxLogsNumber
      = add32 (sub32 (EventSST2xVFConfig drv info s).2.1.MaxPointer
          (EventSST2xVFConfig drv info s).2.1.FirstPointer) 1
        / (EventSST2xVFConfig drv info s).2.1.EventSize := by
  revert h
  unfold EventSST2xVFConfig
  dsimp only
  split_ifs with h0 h1 h2 h3 h1 h2 h3
  · intro h; exact absurd h (by simp)
  · intro h; exact absurd h (by simp)
  · intro h; exact absurd h (by simp)
  · intro _
    have hs : 0 < (drv.GetInfo s.drv).size := by
      by_contra hz
      have hz0 : (drv.GetInfo s.drv).size = 0 := by omega
      apply h1
      show sub32 (drv.GetInfo s.drv).size 1 > (drv.GetInfo s.drv).size
      rw [hz0]; decide
    have hm : sub32 (drv.GetInfo s.drv).size 1 = (drv.GetInfo s.drv).size - 1 :=
      sub32_eq hs hsize
    have ha : add32 (sub32 (drv.GetInfo s.drv).size 1) 1 = sub32 (drv.GetInfo s.drv).size 1 + 1 :=
      add32_eq (by rw [hm]; omega)
    refine ⟨rfl, rfl, ?_, ?_, ?_, rfl, rfl⟩
    · show sub32 (drv.GetInfo s.drv).size 1 + 1 < 4294967296
      rw [hm]; omega
    · show info.FirstPointer % (drv.GetInfo s.drv).sector_size = 0
      by_contra hne; exact h2 hne
    · show (sub32 (drv.GetInfo s.drv).size 1 + 1) % (drv.GetInfo s.drv).sector_size = 0
      rw [← ha]
      by_contra hne; exact h3 hne
  · intro h; exact absurd h (by simp)
  · intro h; exact absurd h (by simp)
  · intro h; exact absurd h (by simp)
  · intro _
    have hlt : info.MaxPointer + 1 < 4294967296 := by
      by_contra hge
      have : info.MaxPointer + 1 = 4294967296 := by omega
      apply h0
      unfold add32
      rw [this]
    have ha : add32 info.MaxPointer 1 = info.MaxPointer + 1 := add32_eq hlt
    refine ⟨rfl, rfl, hlt, ?_, ?_, rfl, rfl⟩
    · show info.FirstPointer % (drv.GetInfo s.drv).sector_size = 0
      by_contra hne; exact h2 hne
    · show (info.MaxPointer + 1) % (drv.GetInfo s.drv).sector_size = 0
      rw [← ha]
      by_contra hne; exact h3 hne

/-- With the SST2xVF interface of the repository, a successful `EventManagerInitialize` of a
non-empty region with a non-zero record size leaves a valid geometry: the interface has
checked the sector alignment of both bounds and the engine the record size. -/
theorem initialize_sst_validGeometry {δ : Type} (hk : Hooks (SSTState δ))
    (drv : SST2xVF_DRIVER_t δ) (config : Option EventManagerConfig_t)
    (e0 : Engine (SSTState δ)) (d0 : SSTState δ)
    (hsize : ∀ w, (drv.GetInfo w).size < 4294967296)
    (hret : (EventManagerInitialize hk config (some (SST2xVF_EventFuncs drv)) e0 d0).ret
      = EVENT_RET_OK)
    (hE : 0 < (EventManagerInitialize hk config (some (SST2xVF_EventFuncs drv)) e0
      d0).eng.EventInfo.EventSize)
    (hreg : (EventManagerInitialize hk config (some (SST2xVF_EventFuncs drv)) e0
        d0).eng.EventInfo.FirstPointer
      ≤ (EventManagerInitialize hk config (some (SST2xVF_EventFuncs drv)) e0
        d0).eng.EventInfo.MaxPointer) :
    ValidGeometry
      (EventManagerInitialize hk config (some (SST2xVF_EventFuncs drv)) e0 d0).eng.EventInfo := by
  obtain ⟨cfg, mi, _, hm, configInfo, i0, d, hcf, hacc, hinfo, hmod, hle⟩ :=
    EventManagerInitialize_trace hk config _ e0 d0 hret
  cases hm
  have hci : configInfo = EventSST2xVFConfig drv := (Option.some.inj hcf).symm
  subst hci
  generalize (EventManagerInitialize hk config (some (SST2xVF_EventFuncs drv)) e0
    d0).eng.EventInfo = info at hE hreg hinfo hmod hle ⊢
  have hMax : (seedInfo cfg i0).MaxPointer < 4294967296 := Nat.mod_lt _ (by decide)
  obtain ⟨_, a2, a3, a4, a5, a6, a7⟩ :=
    EventSST2xVFConfig_accepts drv (seedInfo cfg i0) d hMax (hsize _) hacc
  have hg := rederiveCounter_geometry (validateSeed (EventSST2xVFConfig drv (seedInfo cfg i0) d).2.1)
  have hv := validateSeed_geometry (EventSST2xVFConfig drv (seedInfo cfg i0) d).2.1
  rw [← hinfo] at hg
  obtain ⟨g1, g2, g3, g4, g5, g6, _⟩ := hg
  obtain ⟨v1, v2, v3, v4, v5, v6⟩ := hv
  have e1 := g1.trans v1
  have e2 := g2.trans v2
  have e3 := g3.trans v3
  have e4 := g4.trans v4
  have e5 := g5.trans v5
  have e6 := g6.trans v6
  rw [← e5] at a3
  rw [← e4, ← e6] at a4
  rw [← e5, ← e6] at a5
  rw [← e2, ← e6, ← e1] at a6
  rw [← e3, ← e5, ← e4, ← e1] at a7
  have hS : 0 < info.SectorSize := by omega
  have hsub : sub32 info.MaxPointer info.FirstPointer = info.MaxPointer - info.FirstPointer :=
    sub32_eq hreg (by omega)
  have hadd : add32 (info.MaxPointer - info.FirstPointer) 1
      = info.MaxPointer - info.FirstPointer + 1 := add32_eq (by omega)
  refine ⟨⟨hE, hle, hmod, hreg, ?_, a3, a6, ?_⟩, a4⟩
  · have h1 : info.MaxPointer - info.FirstPointer + 1
        = info.MaxPointer + 1 - info.FirstPointer := by omega
    rw [h1]
    exact (Nat.dvd_sub' (Nat.dvd_of_mod_eq_zero a5) (Nat.dvd_of_mod_eq_zero a4)).elim
      (fun k hk => by rw [hk]; exact Nat.mul_mod_right _ _)
  · rw [a7, hsub, hadd]

/-! ## Initialization: record size, counter re-derivation, region bounds -/

theorem EventManagerInitializeInfo_flag {σ : Type} (config : EventManagerConfig_t)
    (configInfo : EventInfo_t → σ → Bool × EventInfo_t × σ) (e : Engine σ) (d : σ)
    (h : (EventManagerInitializeInfo config configInfo e d).eng.Initialized = true) :
    e.Initialized = true ∨
      (EventManagerInitializeInfo config configInfo e d).ret = EVENT_RET_OK := by
  revert h
  unfold EventManagerInitializeInfo
  dsimp only
  split_ifs
  · intro h; exact Or.inl h
  · intro h; exact Or.inl h
  · intro _; exact Or.inr rfl

theorem EventManagerInitializeMem_flag {σ : Type} (config : EventManagerConfig_t)
    (mi : EventMemoryInterface_t σ) (e : Engine σ) (d : σ)
    (h : (EventManagerInitializeMem config mi e d).eng.Initialized = true) :
    e.Initialized = true ∨ (EventManagerInitializeMem config mi e d).ret = EVENT_RET_OK := by
  revert h
  unfold EventManagerInitializeMem
  dsimp only
  split
  · split
    · split_ifs
      · intro h; exact Or.inl h
      · intro h
        rw [Outcome.after_eng] at h
        rw [Outcome.after_ret]
        exact EventManagerInitializeInfo_flag _ _ _ _ h
    · intro h
      exact EventManagerInitializeInfo_flag _ _ _ _ h
  · intro h; exact Or.inl h

theorem EventManagerInitializeBody_flag {σ : Type} (hk : Hooks σ)
    (config : EventManagerConfig_t) (mi : EventMemoryInterface_t σ) (e : Engine σ) (d : σ)
    (h : (EventManagerInitializeBody hk config mi e d).eng.Initialized = true) :
    e.Initialized = true ∨
      (EventManagerInitializeBody hk config mi e d).ret = EVENT_RET_OK := by
  revert h
  unfold EventManagerInitializeBody
  split_ifs
  · exact EventManagerInitializeMem_flag _ _ _ _
  · intro h; exact Or.inl h
  · intro h
    rw [Outcome.after_eng] at h
    rw [Outcome.after_ret]
    exact EventManagerInitializeMem_flag _ _ _ _ h

theorem EventManagerInitializeLocked_flag {σ : Type} (hk : Hooks σ)
    (config : Option EventManagerConfig_t) (mem_interface : Option (EventMemoryInterface_t σ))
    (e : Engine σ) (d : σ)
    (h : (EventManagerInitializeLocked hk config mem_interface e d).eng.Initialized = true) :
    e.Initialized = true ∨ ∃ cfg mi, config = some cfg ∧ mem_interface = some mi ∧
      InitTrace mi cfg (EventManagerInitializeLocked hk config mem_interface e d).eng.EventInfo := by
  revert h
  unfold EventManagerInitializeLocked
  split
  · rename_i cfg mi
    split_ifs
    · intro h; exact Or.inl h
    · intro h
      rw [giveIfTaken_eng, Outcome.after_eng] at h ⊢
      rcases EventManagerInitializeBody_flag _ _ _ _ _ h with h1 | h1
      · exact Or.inl h1
      · exact Or.inr ⟨cfg, mi, rfl, rfl, EventManagerInitializeBody_trace _ _ _ _ _ h1⟩
  · intro h; exact Or.inl h

/-- An engine that was not initialized is initialized after `EventManagerInitialize`, in
whatever environment and whatever the return code, only if the memory interface accepted
the geometry and the record size passed the final check (it divides the sector size and
does not exceed it). -/
theorem initialize_fresh_engine_flag {σ : Type} (hk : Hooks σ)
    (config : Option EventManagerConfig_t) (mem_interface : Option (EventMemoryInterface_t σ))
    (e : Engine σ) (d : σ) (h0 : e.Initialized = false)
    (h : (EventManagerInitialize hk config mem_interface e d).eng.Initialized = true) :
    ∃ cfg mi, config = some cfg ∧ mem_interface = some mi ∧
      InitTrace mi cfg (EventManagerInitialize hk config mem_interface e d).eng.EventInfo := by
  have hne : ¬ e.Initialized = true := by rw [h0]; simp
  revert h
  unfold EventManagerInitialize
  split_ifs
  · intro h
    rcases EventManagerInitializeLocked_flag _ _ _ _ _ h with h1 | h1
    · exact absurd h1 hne
    · exact h1
  · intro h; exact absurd h hne
  · intro h
    rw [Outcome.after_eng] at h ⊢
    rcases EventManagerInitializeLocked_flag _ _ _ _ _ h with h1 | h1
    · exact absurd h1 hne
    · exact h1

/-- C11 (code defect, evaluated). A rejected record size leaves an initialized engine
initialized: on the engine initialized with records of 128 bytes, `EventManagerInitialize`
with `event_size = 96` (which does not divide the sector size 4096) returns
`EVENT_INVALID_PARAM`, but `Initialized` is still true and the information structure now
holds the rejected size, so a following `EventManagerWriteThrough` of 96 bytes returns
`EVENT_RET_OK` after writing to the memory.  On an engine that was not initialized the
same configuration is rejected and `EventManagerWriteThrough` returns `EVENT_NOT_INIT`.
A record size that does not fit the 8-bit field is not rejected either: `event_size = 257`
and `event_size = 4097` are accepted as 1. -/
theorem initialize_rejection_keeps_initialized_defect :
    (initOn SST26VF064B testConfig).ret = EVENT_RET_OK ∧
    SST26VF064B.sector_size % 96 ≠ 0 ∧
    (reinitialized 96).ret = EVENT_INVALID_PARAM ∧
    (reinitialized 96).eng.Initialized = true ∧
    (EventManagerGetInfo (reinitialized 96).eng).EventSize = 96 ∧
    (EventManagerWriteThrough idealHooks (some (List.replicate 96 7)) 96 (reinitialized 96).eng
        (reinitialized 96).dev).ret = EVENT_RET_OK ∧
    (EventManagerWriteThrough idealHooks (some (List.replicate 96 7)) 96 (reinitialized 96).eng
        (reinitialized 96).dev).calls
      = [Call.SemaphoreTake 10 true, Call.EraseSectorFunc 16384 true,
         Call.WriteFunc 16384 (List.replicate 96 7) 96 true,
         Call.StoreCallback 16480 1 EVENT_RET_OK, Call.SemaphoreGive true] ∧
    (initOn SST26VF064B { testConfig with event_size := 96 }).ret = EVENT_INVALID_PARAM ∧
    (EventManagerWriteThrough idealHooks (some (List.replicate 96 7)) 96
        (initOn SST26VF064B { testConfig with event_size := 96 }).eng
        (initOn SST26VF064B { testConfig with event_size := 96 }).dev).ret = EVENT_NOT_INIT ∧
    SST26VF064B.sector_size % 257 ≠ 0 ∧
    (initOn SST26VF064B { testConfig with event_size := 257 }).ret = EVENT_RET_OK ∧
    (EventManagerGetInfo (initOn SST26VF064B { testConfig with event_size := 257 }).eng).EventSize
      = 1 ∧
    (initOn SST26VF064B { testConfig with event_size := 4097 }).ret = EVENT_RET_OK := by
  decide

/-- `EventSST2xVFConfig` never touches the pointer and the counter. -/
theorem EventSST2xVFConfig_position {δ : Type} (drv : SST2xVF_DRIVER_t δ) (info : EventInfo_t)
    (s : SSTState δ) :
    (EventSST2xVFConfig drv info s).2.1.Pointer = info.Pointer ∧
    (EventSST2xVFConfig drv info s).2.1.Counter = info.Counter := by
  cases info
  unfold EventSST2xVFConfig
  dsimp only
  split_ifs <;> exact ⟨rfl, rfl⟩

/-- Re-derivation of the counter for a seed that passes the validation. -/
theorem rederive_valid_seed {i : EventInfo_t} {f ns : Nat} (h : Coords i f ns)
    (hC : i.Counter ≤ i.MaxLogsNumber) (hF : i.FirstPointer ≤ i.Pointer)
    (hX : i.Pointer ≤ i.MaxPointer) (hA : i.Pointer % i.EventSize = 0) :
    (rederiveCounter (validateSeed i)).Pointer = i.Pointer ∧
    (i.MaxLogsNumber - i.LogsPerSector ≤ i.Counter →
      (rederiveCounter (validateSeed i)).Counter
        = (i.MaxLogsNumber - i.LogsPerSector)
          + ((i.Pointer - i.FirstPointer) % i.SectorSize) / i.EventSize) ∧
    (i.Counter < i.MaxLogsNumber - i.LogsPerSector →
      (rederiveCounter (validateSeed i)).Counter
        = (i.Pointer - i.FirstPointer) / i.EventSize) ∧
    (i.Counter = (i.Pointer - i.FirstPointer) / i.EventSize →
      (rederiveCounter (validateSeed i)).Counter = i.Counter) := by
  have hLM := h.maxLogs_pos
  have hL := h.hL
  have hE := h.hE
  have hM32 := h.maxLogs_lt
  have hMax := h.hMax
  have h32 := h.h32
  have hcond : ¬ (i.Counter > i.MaxLogsNumber ∨ i.Pointer > i.MaxPointer
      ∨ i.Pointer % i.EventSize ≠ 0) := by
    rintro (hh | hh | hh)
    · omega
    · omega
    · exact hh hA
  have hv : validateSeed i = i := by
    unfold validateSeed
    dsimp only
    rw [if_neg hcond, if_neg (show ¬ i.Pointer < i.FirstPointer by omega)]
  have hFE := h.first_mod_eventSize
  have hd : (i.Pointer - i.FirstPointer) % i.EventSize = 0 := by
    have := (Nat.modEq_iff_dvd' hF).mp
      (show i.FirstPointer ≡ i.Pointer [MOD i.EventSize] by
        unfold Nat.ModEq; rw [hFE, hA])
    exact Nat.mod_eq_zero_of_dvd this
  obtain ⟨j, hj⟩ := Nat.dvd_of_mod_eq_zero hd
  have hp : i.Pointer = i.FirstPointer + j * i.EventSize := by
    rw [Nat.mul_comm j]; omega
  have hjM : j < i.MaxLogsNumber := h.slot_lt hp hX
  have hsubML : sub32 i.MaxLogsNumber i.LogsPerSector = i.MaxLogsNumber - i.LogsPerSector :=
    sub32_eq hLM hM32
  have hPF : i.Pointer - i.FirstPointer = j * i.EventSize := by omega
  have hsubPF : sub32 i.Pointer i.FirstPointer = i.Pointer - i.FirstPointer :=
    sub32_eq hF (by omega)
  have hjl := Nat.mod_lt j hL
  have hg := rederiveCounter_geometry i
  refine ⟨?_, ?_, ?_, ?_⟩
  · rw [hv]; exact hg.2.2.2.2.2.2
  · intro hge
    rw [hv]
    unfold rederiveCounter
    rw [if_pos (show i.Counter ≥ sub32 i.MaxLogsNumber i.LogsPerSector by rw [hsubML]; exact hge)]
    show add32 _ _ = _
    rw [hsubML, hsubPF]
    apply add32_eq
    rw [hPF, h.hS, Nat.mul_mod_mul_right, Nat.mul_div_cancel _ hE]
    omega
  · intro hlt
    rw [hv]
    unfold rederiveCounter
    rw [if_neg (show ¬ i.Counter ≥ sub32 i.MaxLogsNumber i.LogsPerSector by
      rw [hsubML]; omega)]
    show sub32 _ _ / _ = _
    rw [hsubPF]
  · intro hc
    have hcj : i.Counter = j := by rw [hc, hPF, Nat.mul_div_cancel _ hE]
    have hr : Ready i := ⟨j, hjM, hp, Or.inl hcj⟩
    exact congrArg EventInfo_t.Counter (seed_roundtrip h hr)

/-- C12. Count re-derivation at Initialize: with the SST2xVF interface, for every seed that
passes the validation (`counter_init <= MaxLogsNumber`,
`FirstPointer <= pointer_init <= MaxPointer`, `pointer_init` a multiple of `EventSize`), a
successful `EventManagerInitialize` leaves `Pointer == pointer_init`, sets `Counter` to
`(MaxLogsNumber - LogsPerSector) + ((Pointer - FirstPointer) mod SectorSize) / EventSize`
when `counter_init >= MaxLogsNumber - LogsPerSector` and to
`(Pointer - FirstPointer) / EventSize` otherwise; hence a seed with
`counter_init == (pointer_init - FirstPointer) / EventSize` is handed back unchanged. -/
theorem initialize_count_rederivation {δ : Type} (hk : Hooks (SSTState δ))
    (drv : SST2xVF_DRIVER_t δ) (cfg : EventManagerConfig_t)
    (e0 : Engine (SSTState δ)) (d0 : SSTState δ)
    (hsize : ∀ w, (drv.GetInfo w).size < 4294967296)
    (hret : (EventManagerInitialize hk (some cfg) (some (SST2xVF_EventFuncs drv)) e0 d0).ret
      = EVENT_RET_OK)
    (hE : 0 < (initializedInfo hk (some cfg) (some (SST2xVF_EventFuncs drv)) e0 d0).EventSize)
    (hC : cfg.counter_init
      ≤ (initializedInfo hk (some cfg) (some (SST2xVF_EventFuncs drv)) e0 d0).MaxLogsNumber)
    (hF : (initializedInfo hk (some cfg) (some (SST2xVF_EventFuncs drv)) e0 d0).FirstPointer
      ≤ cfg.pointer_init)
    (hX : cfg.pointer_init
      ≤ (initializedInfo hk (some cfg) (some (SST2xVF_EventFuncs drv)) e0 d0).MaxPointer)
    (hA : cfg.pointer_init
      % (initializedInfo hk (some cfg) (some (SST2xVF_EventFuncs drv)) e0 d0).EventSize = 0) :
    (initializedInfo hk (some cfg) (some (SST2xVF_EventFuncs drv)) e0 d0).Pointer
      = cfg.pointer_init ∧
    ((initializedInfo hk (some cfg) (some (SST2xVF_EventFuncs drv)) e0 d0).MaxLogsNumber
        - (initializedInfo hk (some cfg) (some (SST2xVF_EventFuncs drv)) e0 d0).LogsPerSector
        ≤ cfg.counter_init →
      (initializedInfo hk (some cfg) (some (SST2xVF_EventFuncs drv)) e0 d0).Counter
        = ((initializedInfo hk (some cfg) (some (SST2xVF_EventFuncs drv)) e0 d0).MaxLogsNumber
            - (initializedInfo hk (some cfg) (some (SST2xVF_EventFuncs drv)) e0
                d0).LogsPerSector)
          + (((initializedInfo hk (some cfg) (some (SST2xVF_EventFuncs drv)) e0 d0).Pointer
              - (initializedInfo hk (some cfg) (some (SST2xVF_EventFuncs drv)) e0
                  d0).FirstPointer)
            % (initializedInfo hk (some cfg) (some (SST2xVF_EventFuncs drv)) e0 d0).SectorSize)
            / (initializedInfo hk (some cfg) (some (SST2xVF_EventFuncs drv)) e0
                d0).EventSize) ∧
    (cfg.counter_init
        < (initializedInfo hk (some cfg) (some (SST2xVF_EventFuncs drv)) e0 d0).MaxLogsNumber
          - (initializedInfo hk (some cfg) (some (SST2xVF_EventFuncs drv)) e0
              d0).LogsPerSector →
      (initializedInfo hk (some cfg) (some (SST2xVF_EventFuncs drv)) e0 d0).Counter
        = ((initializedInfo hk (some cfg) (some (SST2xVF_EventFuncs drv)) e0 d0).Pointer
            - (initializedInfo hk (some cfg) (some (SST2xVF_EventFuncs drv)) e0
                d0).FirstPointer)
          / (initializedInfo hk (some cfg) (some (SST2xVF_EventFuncs drv)) e0 d0).EventSize) ∧
    (cfg.counter_init
        = (cfg.pointer_init
            - (initializedInfo hk (some cfg) (some (SST2xVF_EventFuncs drv)) e0
                d0).FirstPointer)
          / (initializedInfo hk (some cfg) (some (SST2xVF_EventFuncs drv)) e0 d0).EventSize →
      (initializedInfo hk (some cfg) (some (SST2xVF_EventFuncs drv)) e0 d0).Counter
        = cfg.counter_init) := by
  have hgeo := initialize_sst_validGeometry hk drv (some cfg) e0 d0 hsize hret hE
    (Nat.le_trans hF hX)
  obtain ⟨f, ns, hc⟩ := hgeo.coords
  obtain ⟨cfg1, mi, hcfg, hm, configInfo, i0, d, hcf, _, hinfo, _, _⟩ :=
    EventManagerInitialize_trace hk (some cfg) _ e0 d0 hret
  cases hm
  cases hcfg
  have hci : configInfo = EventSST2xVFConfig drv := (Option.some.inj hcf).symm
  subst hci
  unfold initializedInfo EventManagerGetInfo at hE hC hF hX hA ⊢
  generalize (EventManagerInitialize hk (some cfg) (some (SST2xVF_EventFuncs drv)) e0
    d0).eng.EventInfo = info at hE hC hF hX hA hinfo hc ⊢
  generalize hr : (EventSST2xVFConfig drv (seedInfo cfg i0) d).2.1 = r at hinfo
  have hpos := EventSST2xVFConfig_position drv (seedInfo cfg i0) d
  rw [hr] at hpos
  have hrP : r.Pointer = cfg.pointer_init := hpos.1
  have hrC : r.Counter = cfg.counter_init := hpos.2
  have hg := rederiveCounter_geometry (validateSeed r)
  have hv := validateSeed_geometry r
  rw [← hinfo] at hg
  obtain ⟨g1, g2, g3, g4, g5, g6, g7⟩ := hg
  obtain ⟨v1, v2, v3, v4, v5, v6⟩ := hv
  have e1 := g1.trans v1
  have e2 := g2.trans v2
  have e3 := g3.trans v3
  have e4 := g4.trans v4
  have e5 := g5.trans v5
  have e6 := g6.trans v6
  have hcr : Coords r f ns := hc.of_geometry e1.symm e2.symm e3.symm e4.symm e5.symm e6.symm
  have hmain := rederive_valid_seed hcr (by rw [hrC, ← e3]; exact hC)
    (by rw [hrP, ← e4]; exact hF) (by rw [hrP, ← e5]; exact hX) (by rw [hrP, ← e1]; exact hA)
  rw [← hinfo, hrP, hrC, ← e1, ← e2, ← e3, ← e4, ← e6] at hmain
  obtain ⟨m1, m2, m3, m4⟩ := hmain
  refine ⟨m1, ?_, ?_, m4⟩
  · intro h; rw [m1]; exact m2 h
  · intro h; rw [m1]; exact m3 h

/-- Instance of `initialize_count_rederivation`: the seed of the turnaround test on the
geometry of `testConfig` (pointer at the start of the last sector, counter
`MaxLogsNumber - LogsPerSector`) is handed back unchanged. -/
theorem initialize_count_rederivation_witness :
    (initOn SST26VF064B (recoveryConfig 20480 32)).ret = EVENT_RET_OK ∧
    (initializedInfo idealHooks (some (recoveryConfig 20480 32))
      (some (SST2xVF_EventFuncs (idealDriver SST26VF064B))) bootEngine (bootWorld 0)).Pointer
      = 20480 ∧
    (initializedInfo idealHooks (some (recoveryConfig 20480 32))
      (some (SST2xVF_EventFuncs (idealDriver SST26VF064B))) bootEngine (bootWorld 0)).Counter
      = 32 :=
  ⟨by decide,
   (initialize_count_rederivation idealHooks (idealDriver SST26VF064B)
      (recoveryConfig 20480 32) bootEngine (bootWorld 0) (fun _ => (by decide : SST26VF064B.size < 4294967296)) (by decide)
      (by decide) (by decide) (by decide) (by decide) (by decide)).1,
   (initialize_count_rederivation idealHooks (idealDriver SST26VF064B)
      (recoveryConfig 20480 32) bootEngine (bootWorld 0) (fun _ => (by decide : SST26VF064B.size < 4294967296)) (by decide)
      (by decide) (by decide) (by decide) (by decide) (by decide)).2.2.2 (by decide)⟩

/-- `EventSST2xVFConfig` rejects caller-supplied bounds whose first address or end is not
sector aligned, or whose last address is above the device size. -/
theorem EventSST2xVFConfig_rejects {δ : Type} (drv : SST2xVF_DRIVER_t δ) (info : EventInfo_t)
    (s : SSTState δ) (huser : add32 info.MaxPointer 1 ≠ 0)
    (hbad : info.FirstPointer % (drv.GetInfo s.drv).sector_size ≠ 0
      ∨ add32 info.MaxPointer 1 % (drv.GetInfo s.drv).sector_size ≠ 0
      ∨ info.MaxPointer > (drv.GetInfo s.drv).size) :
    (EventSST2xVFConfig drv info s).1 = false := by
  unfold EventSST2xVFConfig
  dsimp only
  rw [if_neg huser]
  split_ifs with h1 h2 h3
  · rfl
  · rfl
  · rfl
  · exfalso
    rcases hbad with h | h | h
    · exact h2 h
    · exact h3 h
    · exact h1 h

/-- C20 (code defect, evaluated). `EventSST2xVFConfig` does not check the first address
against the device size or against the last address: on the SST26VF064B (8388608 bytes in
sectors of 4096) it returns `true` for the caller-supplied bounds
`FirstPointer = 8388608, MaxPointer = 8388607` (first address one past the device, above
the last address, region of 0 records) and for `FirstPointer = 16777216, MaxPointer = 4095`.
With the first of these `EventManagerInitialize` returns `EVENT_RET_OK`.  A last address
above the device size is rejected. -/
theorem config_accepts_first_address_outside_device :
    add32 (boundsInfo 8388608 8388607).MaxPointer 1 ≠ 0 ∧
    (EventSST2xVFConfig (idealDriver SST26VF064B) (boundsInfo 8388608 8388607)
      (bootWorld 0)).1 = true ∧
    (EventSST2xVFConfig (idealDriver SST26VF064B) (boundsInfo 8388608 8388607)
      (bootWorld 0)).2.1.FirstPointer = 8388608 ∧
    (EventSST2xVFConfig (idealDriver SST26VF064B) (boundsInfo 8388608 8388607)
      (bootWorld 0)).2.1.MaxPointer = 8388607 ∧
    (EventSST2xVFConfig (idealDriver SST26VF064B) (boundsInfo 8388608 8388607)
      (bootWorld 0)).2.1.MaxLogsNumber = 0 ∧
    ¬ (8388608 < SST26VF064B.size) ∧
    add32 (boundsInfo 16777216 4095).MaxPointer 1 ≠ 0 ∧
    (EventSST2xVFConfig (idealDriver SST26VF064B) (boundsInfo 16777216 4095)
      (bootWorld 0)).1 = true ∧
    (initOn SST26VF064B { testConfig with
      first_valid_addr := 8388608, size_used := 0, pointer_init := 8388608 }).ret
      = EVENT_RET_OK ∧
    (EventManagerGetInfo (initOn SST26VF064B { testConfig with
      first_valid_addr := 8388608, size_used := 0, pointer_init := 8388608 }).eng).MaxLogsNumber
      = 0 ∧
    (EventSST2xVFConfig (idealDriver SST26VF064B) (boundsInfo 0 8392703)
      (bootWorld 0)).1 = false := by
  decide

/-! ## The concrete turnaround scenario -/

set_option maxRecDepth 1000000 in
/-- C13. Concrete turnaround scenario: `EventManagerInitialize` with records of 128 bytes
on four sectors of 4096 bytes from address 0 gives `LogsPerSector == 32` and
`MaxLogsNumber == 128`; after 130 successful `EventManagerWriteThrough` calls with the
records numbered 0..129, `Counter == 98`, `EventManagerRead(0)` returns record 129 and
`EventManagerRead(Counter - 1)` returns record `130 - Counter == 32`. -/
theorem concrete_turnaround_scenario :
    (initOn SST26VF064B scenarioConfig).ret = EVENT_RET_OK ∧
    (EventManagerGetInfo (initOn SST26VF064B scenarioConfig).eng).EventSize = 128 ∧
    (EventManagerGetInfo (initOn SST26VF064B scenarioConfig).eng).SectorSize = 4096 ∧
    (EventManagerGetInfo (initOn SST26VF064B scenarioConfig).eng).LogsPerSector = 32 ∧
    (EventManagerGetInfo (initOn SST26VF064B scenarioConfig).eng).FirstPointer = 0 ∧
    (EventManagerGetInfo (initOn SST26VF064B scenarioConfig).eng).MaxPointer = 16383 ∧
    (EventManagerGetInfo (initOn SST26VF064B scenarioConfig).eng).MaxLogsNumber = 128 ∧
    (EventManagerGetInfo (initOn SST26VF064B scenarioConfig).eng).Counter = 0 ∧
    (scenarioAfter 130).1 = List.replicate 130 EVENT_RET_OK ∧
    (EventManagerGetInfo (scenarioAfter 130).2.1).Counter = 98 ∧
    (EventManagerRead idealHooks 0 128 (scenarioAfter 130).2.1 (scenarioAfter 130).2.2).1.ret
      = EVENT_RET_OK ∧
    (EventManagerRead idealHooks 0 128 (scenarioAfter 130).2.1 (scenarioAfter 130).2.2).2
      = some (numberedRecord 128 129) ∧
    (EventManagerRead idealHooks (98 - 1) 128 (scenarioAfter 130).2.1
        (scenarioAfter 130).2.2).1.ret = EVENT_RET_OK ∧
    (EventManagerRead idealHooks (98 - 1) 128 (scenarioAfter 130).2.1
        (scenarioAfter 130).2.2).2 = some (numberedRecord 128 (130 - 98)) ∧
    130 - 98 = 32 := by
  decide

/-! ## Clear and Uninitialize -/

theorem callEraseAll_calls {σ : Type} (e : Engine σ) (d : σ) :
    ((callEraseAll e d).1 = true ∧ (callEraseAll e d).2.2 = [Call.EraseAllFunc true]) ∨
    ((callEraseAll e d).1 = false ∧
        ((callEraseAll e d).2.2 = [Call.EraseAllFunc false] ∨
         (callEraseAll e d).2.2 = [Call.nullCall])) := by
  unfold callEraseAll
  split
  · split
    · rename_i f _
      rcases h : (f d).1
      · right; exact ⟨rfl, Or.inl rfl⟩
      · left; exact ⟨rfl, rfl⟩
    · right; exact ⟨rfl, Or.inr rfl⟩
  · right; exact ⟨rfl, Or.inr rfl⟩

/-- The two ways `EventManagerClear` ends once the mutex has been taken. -/
theorem EventManagerClear_shape {σ : Type} (hk : Hooks σ) (e : Engine σ) (d : σ)
    (hinit : e.Initialized = true)
    (htake : (hk.xSemaphoreTake e.MutexWaitTicks d).1 = true) :
    ((callEraseAll e (hk.xSemaphoreTake e.MutexWaitTicks d).2).1 = false ∧
      (EventManagerClear hk e d).eng = e ∧
      (∃ g, (EventManagerClear hk e d).ret
          = (if g = true then EVENT_RET_ERR_FLASH else EVENT_MUTEX_GIVE_ERROR) ∧
        (EventManagerClear hk e d).calls
          = [Call.SemaphoreTake e.MutexWaitTicks true]
            ++ (callEraseAll e (hk.xSemaphoreTake e.MutexWaitTicks d).2).2.2
            ++ [Call.SemaphoreGive g])) ∨
    ((callEraseAll e (hk.xSemaphoreTake e.MutexWaitTicks d).2).1 = true ∧
      (EventManagerClear hk e d).eng
        = { e with EventInfo :=
            { e.EventInfo with Pointer := e.EventInfo.FirstPointer, Counter := 0 } } ∧
      (∃ r g, (EventManagerClear hk e d).calls
          = [Call.SemaphoreTake e.MutexWaitTicks true]
            ++ (callEraseAll e (hk.xSemaphoreTake e.MutexWaitTicks d).2).2.2
            ++ [Call.StoreCallback e.EventInfo.FirstPointer 0 r]
            ++ [Call.SemaphoreGive g])) := by
  unfold EventManagerClear
  simp only [hinit, ne_eq, not_true_eq_false, if_false, htake, Bool.true_eq_false]
  rcases ha : (callEraseAll e (hk.xSemaphoreTake e.MutexWaitTicks d).2).1
  · left
    refine ⟨rfl, ?_, ?_⟩
    · rw [giveIfTaken_eng]; simp
    · unfold giveIfTaken
      simp only [if_true]
      exact ⟨_, rfl, rfl⟩
  · right
    refine ⟨rfl, ?_, ?_⟩
    · rw [giveIfTaken_eng]; simp
    · unfold giveIfTaken
      simp only [if_true, Bool.true_eq_false, if_false]
      exact ⟨_, _, rfl⟩

/-- `EventManagerRead` on a log whose counter is 0, with a working lock. -/
theorem EventManagerRead_empty {σ : Type} (hk : Hooks σ) (log_number event_size : Nat)
    (e : Engine σ) (d : σ) (hinit : e.Initialized = true)
    (hsize : e.EventInfo.EventSize ≤ event_size)
    (htake : (hk.xSemaphoreTake e.MutexWaitTicks d).1 = true)
    (hgive : (hk.xSemaphoreGive (hk.xSemaphoreTake e.MutexWaitTicks d).2).1 = true)
    (hC : e.EventInfo.Counter = 0) :
    (EventManagerRead hk log_number event_size e d).1.ret = EVENT_NOT_EXIST := by
  have hs : ¬ event_size < e.EventInfo.EventSize := by omega
  unfold EventManagerRead giveIfTaken
  simp [hinit, hs, htake, hC, hgive]

/-- C14 (amended). Clear: if `EraseAllFunc` returned true during `EventManagerClear`, then
afterwards `Pointer == FirstPointer` and `Counter == 0` (the rest of the information structure is as
before), `EventManagerStoreCallback` has been called once, with `(FirstPointer, 0)`, after
the erase, and every `EventManagerRead(i)` on the resulting engine (buffer large enough,
working lock) returns `EVENT_NOT_EXIST`; if `EraseAllFunc` returned false, the engine is
unchanged (so `Pointer` and `Counter` are) and `EventManagerClear` returns
`EVENT_RET_ERR_FLASH` when the final `xSemaphoreGive` succeeds and `EVENT_MUTEX_GIVE_ERROR`
when it fails. -/
theorem clear_resets_log {σ : Type} (hk : Hooks σ) (e : Engine σ) (d : σ) :
    (Call.EraseAllFunc true ∈ (EventManagerClear hk e d).calls →
      (EventManagerGetInfo (EventManagerClear hk e d).eng).Pointer = e.EventInfo.FirstPointer ∧
      (EventManagerGetInfo (EventManagerClear hk e d).eng).Counter = 0 ∧
      (EventManagerGetInfo (EventManagerClear hk e d).eng).FirstPointer
        = e.EventInfo.FirstPointer ∧
      (∃ r g, (EventManagerClear hk e d).calls
        = [Call.SemaphoreTake e.MutexWaitTicks true, Call.EraseAllFunc true,
           Call.StoreCallback e.EventInfo.FirstPointer 0 r, Call.SemaphoreGive g]) ∧
      ∀ (log_number event_size : Nat) (d1 : σ),
        (EventManagerClear hk e d).eng.EventInfo.EventSize ≤ event_size →
        (hk.xSemaphoreTake (EventManagerClear hk e d).eng.MutexWaitTicks d1).1 = true →
        (hk.xSemaphoreGive
          (hk.xSemaphoreTake (EventManagerClear hk e d).eng.MutexWaitTicks d1).2).1 = true →
        (EventManagerRead hk log_number event_size (EventManagerClear hk e d).eng d1).1.ret
          = EVENT_NOT_EXIST) ∧
    (Call.EraseAllFunc false ∈ (EventManagerClear hk e d).calls →
      (EventManagerClear hk e d).eng = e ∧
      (∃ g, (EventManagerClear hk e d).calls
        = [Call.SemaphoreTake e.MutexWaitTicks true, Call.EraseAllFunc false,
           Call.SemaphoreGive g] ∧
        (EventManagerClear hk e d).ret
          = (if g = true then EVENT_RET_ERR_FLASH else EVENT_MUTEX_GIVE_ERROR))) := by
  by_cases hinit : e.Initialized = true
  swap
  · have hc : (EventManagerClear hk e d).calls = [] := by
      unfold EventManagerClear
      simp [hinit]
    rw [hc]
    exact ⟨fun h => absurd h (by simp), fun h => absurd h (by simp)⟩
  by_cases htake : (hk.xSemaphoreTake e.MutexWaitTicks d).1 = true
  swap
  · have hc : (EventManagerClear hk e d).calls = [Call.SemaphoreTake e.MutexWaitTicks false] := by
      unfold EventManagerClear
      simp [hinit, htake]
    rw [hc]
    exact ⟨fun h => absurd h (by simp), fun h => absurd h (by simp)⟩
  rcases EventManagerClear_shape hk e d hinit htake with ⟨ha, heng, g, hret, hcalls⟩ |
    ⟨ha, heng, r, g, hcalls⟩
  · rcases callEraseAll_calls e (hk.xSemaphoreTake e.MutexWaitTicks d).2 with ⟨h1, _⟩ | ⟨_, h2⟩
    · rw [ha] at h1; exact absurd h1 (by simp)
    · rcases h2 with h2 | h2
      · rw [h2] at hcalls
        rw [hcalls]
        refine ⟨fun h => absurd h (by simp), fun _ => ⟨heng, g, rfl, hret⟩⟩
      · rw [h2] at hcalls
        rw [hcalls]
        exact ⟨fun h => absurd h (by simp), fun h => absurd h (by simp)⟩
  · rcases callEraseAll_calls e (hk.xSemaphoreTake e.MutexWaitTicks d).2 with ⟨_, h1⟩ | ⟨h2, _⟩
    · rw [h1] at hcalls
      refine ⟨fun _ => ?_, fun h => ?_⟩
      · refine ⟨by rw [heng]; rfl, by rw [heng]; rfl, by rw [heng]; rfl, ⟨r, g, hcalls⟩, ?_⟩
        intro log_number event_size d1 hsize ht hg
        exact EventManagerRead_empty hk log_number event_size _ d1 (by rw [heng]; exact hinit)
          hsize ht hg (by rw [heng])
      · rw [hcalls] at h
        exact absurd h (by simp)
    · rw [ha] at h2; exact absurd h2 (by simp)

/-- Instances of `clear_resets_log`: clearing the log that holds three records, with an
`EraseAllFunc` that succeeds and with one that fails. -/
theorem clear_resets_log_witness :
    Call.EraseAllFunc true ∈ (EventManagerClear idealHooks (testAfter 3).1 (testAfter 3).2).calls ∧
    (EventManagerGetInfo (testAfter 3).1).Counter = 3 ∧
    (EventManagerGetInfo
      (EventManagerClear idealHooks (testAfter 3).1 (testAfter 3).2).eng).Counter = 0 ∧
    (EventManagerGetInfo
      (EventManagerClear idealHooks (testAfter 3).1 (testAfter 3).2).eng).Pointer = 16384 ∧
    Call.EraseAllFunc false
      ∈ (EventManagerClear idealHooks engineEraseAllFails (testAfter 3).2).calls ∧
    (EventManagerClear idealHooks engineEraseAllFails (testAfter 3).2).ret
      = EVENT_RET_ERR_FLASH ∧
    (EventManagerClear idealHooks engineEraseAllFails (testAfter 3).2).eng
      = engineEraseAllFails :=
  ⟨by decide, by decide,
   ((clear_resets_log idealHooks (testAfter 3).1 (testAfter 3).2).1 (by decide)).2.1,
   ((clear_resets_log idealHooks (testAfter 3).1 (testAfter 3).2).1 (by decide)).1,
   by decide, by decide,
   ((clear_resets_log idealHooks engineEraseAllFails (testAfter 3).2).2 (by decide)).1⟩

set_option maxRecDepth 100000 in
/-- C14 as stated fails: when `EraseAllFunc` fails and the final `xSemaphoreGive` fails as
well, `EventManagerClear` returns `EVENT_MUTEX_GIVE_ERROR`, not `EVENT_RET_ERR_FLASH`; and
after a clear that succeeded, `EventManagerRead(0)` returns `EVENT_MUTEX_GIVE_ERROR` when
its give fails, `EVENT_MUTEX_TAKE_ERROR` when its lock cannot be taken and
`EVENT_RET_ERR_MEM` when its buffer holds 127 bytes for records of 128, not
`EVENT_NOT_EXIST`. -/
theorem clear_return_overridden_counterexample :
    engineEraseAllFails.Initialized = true ∧
    (EventManagerClear giveFailsHooks engineEraseAllFails (testAfter 3).2).calls
      = [Call.SemaphoreTake 10 true, Call.EraseAllFunc false, Call.SemaphoreGive false] ∧
    (EventManagerClear giveFailsHooks engineEraseAllFails (testAfter 3).2).ret
      = EVENT_MUTEX_GIVE_ERROR ∧
    (EventManagerClear idealHooks (testAfter 3).1 (testAfter 3).2).calls
      = [Call.SemaphoreTake 10 true, Call.EraseAllFunc true,
         Call.StoreCallback 16384 0 EVENT_RET_OK, Call.SemaphoreGive true] ∧
    (EventManagerClear idealHooks (testAfter 3).1 (testAfter 3).2).ret = EVENT_RET_OK ∧
    (EventManagerRead giveFailsHooks 0 128
      (EventManagerClear idealHooks (testAfter 3).1 (testAfter 3).2).eng
      (EventManagerClear idealHooks (testAfter 3).1 (testAfter 3).2).dev).1.ret
      = EVENT_MUTEX_GIVE_ERROR ∧
    (EventManagerRead lockedHooks 0 128
      (EventManagerClear idealHooks (testAfter 3).1 (testAfter 3).2).eng
      (EventManagerClear idealHooks (testAfter 3).1 (testAfter 3).2).dev).1.ret
      = EVENT_MUTEX_TAKE_ERROR ∧
    (EventManagerRead idealHooks 0 127
      (EventManagerClear idealHooks (testAfter 3).1 (testAfter 3).2).eng
      (EventManagerClear idealHooks (testAfter 3).1 (testAfter 3).2).dev).1.ret
      = EVENT_RET_ERR_MEM := by
  refine ⟨?_, ?_, ?_, ?_, ?_, ?_, ?_, ?_⟩
  all_goals decide

/-- C15. Uninitialize: from every state, after `EventManagerUninitialize` every field of the
information structure returned by `EventManagerGetInfo` is 0, and `EventManagerClear`,
`EventManagerRun`, `EventManagerRead`, `EventManagerWriteBack` and
`EventManagerWriteThrough`, whatever their arguments and the environment, return
`EVENT_NOT_INIT` with an empty call list (no call to the memory interface, the queue, the
mutex or the callbacks) and without writing into the caller's buffer. -/
theorem uninitialize_zeroes_and_disables {σ : Type} (hk : Hooks σ) (e : Engine σ) (d : σ) :
    ( EventManagerUninitialize hk e d).ret = EVENT_RET_OK ∧
    (EventManagerGetInfo ( EventManagerUninitialize hk e d).eng).ManID = 0 ∧
    (EventManagerGetInfo ( EventManagerUninitialize hk e d).eng).DevID = 0 ∧
    (EventManagerGetInfo ( EventManagerUninitialize hk e d).eng).EventSize = 0 ∧
    (EventManagerGetInfo ( EventManagerUninitialize hk e d).eng).LogsPerSector = 0 ∧
    (EventManagerGetInfo ( EventManagerUninitialize hk e d).eng).MaxLogsNumber = 0 ∧
    (EventManagerGetInfo ( EventManagerUninitialize hk e d).eng).FirstPointer = 0 ∧
    (EventManagerGetInfo ( EventManagerUninitialize hk e d).eng).MaxPointer = 0 ∧
    (EventManagerGetInfo ( EventManagerUninitialize hk e d).eng).SectorSize = 0 ∧
    (EventManagerGetInfo ( EventManagerUninitialize hk e d).eng).Pointer = 0 ∧
    (EventManagerGetInfo ( EventManagerUninitialize hk e d).eng).Counter = 0 ∧
    ∀ (d1 : σ) (max_events log_number event_size : Nat) (event : Option (List Nat)),
      (EventManagerClear hk ( EventManagerUninitialize hk e d).eng d1).ret = EVENT_NOT_INIT ∧
      (EventManagerClear hk ( EventManagerUninitialize hk e d).eng d1).calls = [] ∧
      (EventManagerRun hk max_events ( EventManagerUninitialize hk e d).eng d1).ret
        = EVENT_NOT_INIT ∧
      (EventManagerRun hk max_events ( EventManagerUninitialize hk e d).eng d1).calls = [] ∧
      (EventManagerRead hk log_number event_size ( EventManagerUninitialize hk e d).eng
        d1).1.ret = EVENT_NOT_INIT ∧
      (EventManagerRead hk log_number event_size ( EventManagerUninitialize hk e d).eng
        d1).1.calls = [] ∧
      (EventManagerRead hk log_number event_size ( EventManagerUninitialize hk e d).eng
        d1).2 = none ∧
      (EventManagerWriteBack hk event event_size ( EventManagerUninitialize hk e d).eng
        d1).ret = EVENT_NOT_INIT ∧
      (EventManagerWriteBack hk event event_size ( EventManagerUninitialize hk e d).eng
        d1).calls = [] ∧
      (EventManagerWriteThrough hk event event_size ( EventManagerUninitialize hk e d).eng
        d1).ret = EVENT_NOT_INIT ∧
      (EventManagerWriteThrough hk event event_size ( EventManagerUninitialize hk e d).eng
        d1).calls = [] := by
  have hu : ( EventManagerUninitialize hk e d).eng.Initialized = false := rfl
  refine ⟨rfl, rfl, rfl, rfl, rfl, rfl, rfl, rfl, rfl, rfl, rfl, ?_⟩
  intro d1 max_events log_number event_size event
  generalize ( EventManagerUninitialize hk e d).eng = u at hu
  unfold EventManagerClear EventManagerRun EventManagerRead EventManagerWriteBack
    EventManagerWriteThrough
  simp [hu]

/-! ## The buffered path -/

/-- C16. The buffered path does not touch flash: for every state, every argument and every
environment, `EventManagerWriteBack` leaves the engine (so `Pointer` and `Counter`)
unchanged and makes no call other than one `xQueueSend` of the record followed, when the
send succeeded, by the notification `EventManagerCallback(NEW_EVENT)`: no erase, read or
write of the memory interface.  When it returns `EVENT_RET_OK` the record was passed to
`xQueueSend` exactly once and the environment is the one left by that send and the
notification. -/
theorem writeBack_does_not_touch_flash {σ : Type} (hk : Hooks σ) (event : Option (List Nat))
    (event_size : Nat) (e : Engine σ) (d : σ) :
    (EventManagerWriteBack hk event event_size e d).eng = e ∧
    ((EventManagerWriteBack hk event event_size e d).calls = [] ∨
      (∃ ev, event = some ev ∧
        (EventManagerWriteBack hk event event_size e d).calls = [Call.QueueSend ev false]) ∨
      (∃ ev r, event = some ev ∧
        (EventManagerWriteBack hk event event_size e d).calls
          = [Call.QueueSend ev true, Call.Callback EventManagerCallback_e.NEW_EVENT r])) ∧
    ((EventManagerWriteBack hk event event_size e d).ret = EVENT_RET_OK →
      ∃ ev, event = some ev ∧ event_size = e.EventInfo.EventSize ∧
        (hk.xQueueSend ev 100 d).1 = true ∧
        (EventManagerWriteBack hk event event_size e d).calls
          = [Call.QueueSend ev true,
             Call.Callback EventManagerCallback_e.NEW_EVENT EVENT_RET_OK] ∧
        (EventManagerWriteBack hk event event_size e d).dev
          = (hk.EventManagerCallback EventManagerCallback_e.NEW_EVENT
              (hk.xQueueSend ev 100 d).2).2) := by
  by_cases h1 : e.Initialized = true
  swap
  · unfold EventManagerWriteBack
    simp [h1]
  by_cases h2 : event_size = e.EventInfo.EventSize
  swap
  · unfold EventManagerWriteBack
    simp [h1, h2]
  cases event with
  | none =>
    unfold EventManagerWriteBack
    simp [h1, h2]
  | some ev =>
    by_cases h3 : e.EventQueue = false
    · unfold EventManagerWriteBack EventSend2Queue
      simp [h1, h2, h3]
    · by_cases h4 : (hk.xQueueSend ev 100 d).1 = false
      · unfold EventManagerWriteBack EventSend2Queue
        simp [h1, h2, h3, h4]
      · by_cases h5 : (hk.EventManagerCallback EventManagerCallback_e.NEW_EVENT
            (hk.xQueueSend ev 100 d).2).1 = EVENT_RET_OK
        · unfold EventManagerWriteBack EventSend2Queue
          simp [h1, h2, h3, h4, h5]
        · unfold EventManagerWriteBack EventSend2Queue
          simp [h1, h2, h3, h4, h5]

/-- Instance of `writeBack_does_not_touch_flash`: a record sent to the queue that holds one
record ends up behind it, and the engine is unchanged. -/
theorem writeBack_does_not_touch_flash_witness :
    (EventManagerWriteBack idealHooks (some (numberedRecord 128 1)) 128 testEngine
      (queueWorld [numberedRecord 128 0])).ret = EVENT_RET_OK ∧
    (EventManagerWriteBack idealHooks (some (numberedRecord 128 1)) 128 testEngine
      (queueWorld [numberedRecord 128 0])).dev.drv.queue
      = [numberedRecord 128 0, numberedRecord 128 1] ∧
    (EventManagerWriteBack idealHooks (some (numberedRecord 128 1)) 128 testEngine
      (queueWorld [numberedRecord 128 0])).eng = testEngine :=
  ⟨by decide, by decide,
   (writeBack_does_not_touch_flash idealHooks (some (numberedRecord 128 1)) 128 testEngine
      (queueWorld [numberedRecord 128 0])).1⟩

theorem idealInterface_keepsQueue (fi : SST2xVF_INFO_t) :
    MemKeepsQueue (some (idealInterface fi)) (fun s => s.drv.queue) := by
  intro m hm
  cases hm
  constructor
  · intro f hf a d
    cases hf
    rfl
  · intro f hf a data n d
    cases hf
    rfl

theorem secondStoreFails_queueModel : QueueModel secondStoreFails (fun s => s.drv.queue) :=
  ⟨fun _ _ => rfl, fun _ _ => rfl, fun _ _ => rfl, fun _ _ => rfl, fun _ => rfl,
   fun _ c _ => by unfold secondStoreFails; dsimp only; split_ifs <;> rfl,
   fun _ _ => rfl, fun _ _ => rfl⟩

theorem callEraseSector_keeps {σ : Type} (queueOf : σ → List (List Nat)) (e : Engine σ)
    (hm : MemKeepsQueue e.MEM_INTERFACE queueOf) (a : Nat) (d : σ) :
    queueOf (callEraseSector e a d).2.1 = queueOf d := by
  unfold callEraseSector
  split
  · rename_i m hmi
    split
    · rename_i f hf
      exact (hm m hmi).1 f hf a d
    · rfl
  · rfl

theorem callWrite_keeps {σ : Type} (queueOf : σ → List (List Nat)) (e : Engine σ)
    (hm : MemKeepsQueue e.MEM_INTERFACE queueOf) (a : Nat) (data : List Nat) (n : Nat)
    (d : σ) : queueOf (callWrite e a data n d).2.1 = queueOf d := by
  unfold callWrite
  split
  · rename_i m hmi
    split
    · rename_i f hf
      exact (hm m hmi).2 f hf a data n d
    · rfl
  · rfl

/-- `EventStore` does not touch the queue. -/
theorem EventStore_keeps_queue {σ : Type} (hk : Hooks σ) (queueOf : σ → List (List Nat))
    (hq : QueueModel hk queueOf) (event : List Nat) (e : Engine σ) (d : σ)
    (hm : MemKeepsQueue e.MEM_INTERFACE queueOf) :
    queueOf (EventStore hk event e d).dev = queueOf d := by
  rcases EventStore_cases hk event e d with ⟨_, _, h⟩ | ⟨e1, d1, c1, hpre, hw⟩
  · rw [h]; exact callEraseSector_keeps queueOf e hm _ d
  · have h1 : MemKeepsQueue e1.MEM_INTERFACE queueOf ∧ queueOf d1 = queueOf d := by
      rcases hpre with ⟨_, he1, hd1, _⟩ | ⟨_, _, he1, hd1, _⟩
      · subst he1 hd1; exact ⟨hm, rfl⟩
      · subst he1 hd1; exact ⟨hm, callEraseSector_keeps queueOf e hm _ d⟩
    rcases hw with ⟨_, h⟩ | ⟨_, h⟩
    · rw [h]
      show queueOf (callWrite e1 _ _ _ d1).2.1 = _
      rw [callWrite_keeps queueOf e1 h1.1, h1.2]
    · rw [h]
      unfold storedOutcome
      show queueOf (hk.EventManagerStoreCallback _ _ _).2 = _
      rw [hq.store_keeps, callWrite_keeps queueOf e1 h1.1, h1.2]

/-- `EventStore` changes nothing of the engine but the information structure. -/
theorem EventStore_eng_frame {σ : Type} (hk : Hooks σ) (event : List Nat) (e : Engine σ)
    (d : σ) :
    (EventStore hk event e d).eng.MEM_INTERFACE = e.MEM_INTERFACE ∧
    (EventStore hk event e d).eng.MutexWaitTicks = e.MutexWaitTicks ∧
    (EventStore hk event e d).eng.Initialized = e.Initialized ∧
    (EventStore hk event e d).eng.EventQueue = e.EventQueue := by
  rcases EventStore_shape hk event e d with ⟨_, he, _, _⟩ | ⟨e1, c1, hpre, hw⟩
  · rw [he]; exact ⟨rfl, rfl, rfl, rfl⟩
  · have h1 : e1.MEM_INTERFACE = e.MEM_INTERFACE ∧ e1.MutexWaitTicks = e.MutexWaitTicks ∧
        e1.Initialized = e.Initialized ∧ e1.EventQueue = e.EventQueue := by
      rcases hpre with ⟨_, he1, _⟩ | ⟨_, he1, _⟩ <;> subst he1 <;> exact ⟨rfl, rfl, rfl, rfl⟩
    rcases hw with ⟨he, _, _⟩ | ⟨r, he, _, _⟩
    · rw [he]; exact h1
    · rw [he]; exact h1

/-- The loop of `EventManagerRun` on an empty queue. -/
theorem EventManagerRunLoop_empty {σ : Type} (hk : Hooks σ) (n : Nat) (e : Engine σ) (d : σ)
    (hpeek : (hk.xQueuePeek 10 d).1 = none) :
    EventManagerRunLoop hk (n + 1) e d =
      { ret := (EVENT_RET_OK, false), eng := e, dev := (hk.xQueuePeek 10 d).2
        calls := [Call.QueuePeek none] } := by
  unfold EventManagerRunLoop
  split
  · rfl
  · rename_i ev h; rw [hpeek] at h; exact Option.noConfusion h

/-- One complete iteration of the loop of `EventManagerRun`: the record at the head of the
queue is stored, received, the mutex is given and the loop goes on with one iteration
less. -/
theorem EventManagerRunLoop_step {σ : Type} (hk : Hooks σ) (n : Nat) (e : Engine σ) (d : σ)
    (ev : List Nat) (hpeek : (hk.xQueuePeek 10 d).1 = some ev)
    (htake : (hk.xSemaphoreTake e.MutexWaitTicks (hk.xQueuePeek 10 d).2).1 = true)
    (hstore : (EventStore hk ev e
      (hk.xSemaphoreTake e.MutexWaitTicks (hk.xQueuePeek 10 d).2).2).ret = EVENT_RET_OK)
    (hgive : (hk.xSemaphoreGive (hk.xQueueReceive 10 (EventStore hk ev e
      (hk.xSemaphoreTake e.MutexWaitTicks (hk.xQueuePeek 10 d).2).2).dev).2).1 = true) :
    EventManagerRunLoop hk (n + 1) e d =
      (EventManagerRunLoop hk n
        (EventStore hk ev e (hk.xSemaphoreTake e.MutexWaitTicks (hk.xQueuePeek 10 d).2).2).eng
        (hk.EventManagerCallback EventManagerCallback_e.EVENT_STORED
          (hk.xSemaphoreGive (hk.xQueueReceive 10 (EventStore hk ev e
            (hk.xSemaphoreTake e.MutexWaitTicks (hk.xQueuePeek 10 d).2).2).dev).2).2).2).after
        ([Call.QueuePeek (some ev), Call.SemaphoreTake e.MutexWaitTicks true]
          ++ (EventStore hk ev e
            (hk.xSemaphoreTake e.MutexWaitTicks (hk.xQueuePeek 10 d).2).2).calls
          ++ [Call.QueueReceive (hk.xQueueReceive 10 (EventStore hk ev e
                (hk.xSemaphoreTake e.MutexWaitTicks (hk.xQueuePeek 10 d).2).2).dev).1,
              Call.SemaphoreGive true]
          ++ [Call.Callback EventManagerCallback_e.EVENT_STORED
                (hk.EventManagerCallback EventManagerCallback_e.EVENT_STORED
                  (hk.xSemaphoreGive (hk.xQueueReceive 10 (EventStore hk ev e
                    (hk.xSemaphoreTake e.MutexWaitTicks
                      (hk.xQueuePeek 10 d).2).2).dev).2).2).1]) := by
  conv_lhs => unfold EventManagerRunLoop
  split
  · rename_i h; rw [hpeek] at h; exact Option.noConfusion h
  · rename_i ev1 h
    rw [hpeek] at h
    cases h
    simp only [htake, Bool.true_eq_false, if_false, hstore, ne_eq, not_true_eq_false, hgive]
    cases n with
    | zero =>
      simp only [if_true]
      unfold EventManagerRunLoop Outcome.after
      simp
    | succ m =>
      simp only [Nat.succ_ne_zero, if_false]
      rfl

/-- The loop of `EventManagerRun` when the append of the head of the queue fails. -/
theorem EventManagerRunLoop_store_fails {σ : Type} (hk : Hooks σ) (n : Nat) (e : Engine σ)
    (d : σ) (ev : List Nat) (hpeek : (hk.xQueuePeek 10 d).1 = some ev)
    (htake : (hk.xSemaphoreTake e.MutexWaitTicks (hk.xQueuePeek 10 d).2).1 = true)
    (hstore : (EventStore hk ev e
      (hk.xSemaphoreTake e.MutexWaitTicks (hk.xQueuePeek 10 d).2).2).ret ≠ EVENT_RET_OK) :
    EventManagerRunLoop hk (n + 1) e d =
      { ret := ((EventStore hk ev e
          (hk.xSemaphoreTake e.MutexWaitTicks (hk.xQueuePeek 10 d).2).2).ret, true)
        eng := (EventStore hk ev e
          (hk.xSemaphoreTake e.MutexWaitTicks (hk.xQueuePeek 10 d).2).2).eng
        dev := (EventStore hk ev e
          (hk.xSemaphoreTake e.MutexWaitTicks (hk.xQueuePeek 10 d).2).2).dev
        calls := [Call.QueuePeek (some ev), Call.SemaphoreTake e.MutexWaitTicks true]
          ++ (EventStore hk ev e
            (hk.xSemaphoreTake e.MutexWaitTicks (hk.xQueuePeek 10 d).2).2).calls } := by
  unfold EventManagerRunLoop
  split
  · rename_i h; rw [hpeek] at h; exact Option.noConfusion h
  · rename_i ev1 h
    rw [hpeek] at h
    cases h
    simp only [htake, Bool.true_eq_false, if_false, hstore, ne_eq, not_false_eq_true, if_true]

/-- First iteration of the loop of `EventManagerRun` when the mutex cannot be taken. -/
theorem EventManagerRunLoop_take_fails {σ : Type} (hk : Hooks σ) (n : Nat) (e : Engine σ)
    (d : σ) (ev : List Nat) (hpeek : (hk.xQueuePeek 10 d).1 = some ev)
    (htake : (hk.xSemaphoreTake e.MutexWaitTicks (hk.xQueuePeek 10 d).2).1 = false) :
    EventManagerRunLoop hk (n + 1) e d =
      { ret := (EVENT_MUTEX_TAKE_ERROR, false), eng := e
        dev := (hk.xSemaphoreTake e.MutexWaitTicks (hk.xQueuePeek 10 d).2).2
        calls := [Call.QueuePeek (some ev), Call.SemaphoreTake e.MutexWaitTicks false] } := by
  unfold EventManagerRunLoop
  split
  · rename_i h; rw [hpeek] at h; exact Option.noConfusion h
  · rename_i ev1 h
    rw [hpeek] at h
    cases h
    simp only [htake, if_true]

/-- The loop of `EventManagerRun` when the give after a successful append fails. -/
theorem EventManagerRunLoop_give_fails {σ : Type} (hk : Hooks σ) (n : Nat) (e : Engine σ)
    (d : σ) (ev : List Nat) (hpeek : (hk.xQueuePeek 10 d).1 = some ev)
    (htake : (hk.xSemaphoreTake e.MutexWaitTicks (hk.xQueuePeek 10 d).2).1 = true)
    (hstore : (EventStore hk ev e
      (hk.xSemaphoreTake e.MutexWaitTicks (hk.xQueuePeek 10 d).2).2).ret = EVENT_RET_OK)
    (hgive : (hk.xSemaphoreGive (hk.xQueueReceive 10 (EventStore hk ev e
      (hk.xSemaphoreTake e.MutexWaitTicks (hk.xQueuePeek 10 d).2).2).dev).2).1 = false) :
    EventManagerRunLoop hk (n + 1) e d =
      { ret := (EVENT_MUTEX_GIVE_ERROR, false)
        eng := (EventStore hk ev e
          (hk.xSemaphoreTake e.MutexWaitTicks (hk.xQueuePeek 10 d).2).2).eng
        dev := (hk.xSemaphoreGive (hk.xQueueReceive 10 (EventStore hk ev e
          (hk.xSemaphoreTake e.MutexWaitTicks (hk.xQueuePeek 10 d).2).2).dev).2).2
        calls := [Call.QueuePeek (some ev), Call.SemaphoreTake e.MutexWaitTicks true]
          ++ (EventStore hk ev e
            (hk.xSemaphoreTake e.MutexWaitTicks (hk.xQueuePeek 10 d).2).2).calls
          ++ [Call.QueueReceive (hk.xQueueReceive 10 (EventStore hk ev e
                (hk.xSemaphoreTake e.MutexWaitTicks (hk.xQueuePeek 10 d).2).2).dev).1,
              Call.SemaphoreGive false] } := by
  unfold EventManagerRunLoop
  split
  · rename_i h; rw [hpeek] at h; exact Option.noConfusion h
  · rename_i ev1 h
    rw [hpeek] at h
    cases h
    simp only [htake, Bool.true_eq_false, if_false, hstore, ne_eq, not_true_eq_false, hgive,
      if_true]

/-- A complete iteration leaves the queue without its head and the engine with the same
memory interface and lock wait; the loop continues from the state it leaves. -/
theorem runIteration_spec {σ : Type} (hk : Hooks σ) (queueOf : σ → List (List Nat))
    (hq : QueueModel hk queueOf) (e : Engine σ) (d : σ) (e1 : Engine σ) (d1 : σ)
    (hkq : MemKeepsQueue e.MEM_INTERFACE queueOf)
    (h : runIteration hk e d = some (e1, d1)) :
    queueOf d1 = (queueOf d).tail ∧ e1.MEM_INTERFACE = e.MEM_INTERFACE ∧
    e1.MutexWaitTicks = e.MutexWaitTicks ∧
    ∀ n, ∃ pre, EventManagerRunLoop hk (n + 1) e d
      = (EventManagerRunLoop hk n e1 d1).after pre := by
  unfold runIteration at h
  split at h
  · exact Option.noConfusion h
  · rename_i ev hpeek
    dsimp only at h
    split_ifs at h with h1 h2 h3
    have htake : (hk.xSemaphoreTake e.MutexWaitTicks (hk.xQueuePeek 10 d).2).1 = true := by
      simpa using h1
    have hstore : (EventStore hk ev e
        (hk.xSemaphoreTake e.MutexWaitTicks (hk.xQueuePeek 10 d).2).2).ret = EVENT_RET_OK := by
      by_contra hne; exact h2 hne
    have hgive : (hk.xSemaphoreGive (hk.xQueueReceive 10 (EventStore hk ev e
        (hk.xSemaphoreTake e.MutexWaitTicks (hk.xQueuePeek 10 d).2).2).dev).2).1 = true := by
      simpa using h3
    cases h
    have hf := EventStore_eng_frame hk ev e
      (hk.xSemaphoreTake e.MutexWaitTicks (hk.xQueuePeek 10 d).2).2
    refine ⟨?_, hf.1, hf.2.1, fun n => ⟨_, EventManagerRunLoop_step hk n e d ev hpeek htake
      hstore hgive⟩⟩
    rw [hq.callback_keeps, hq.give_keeps, hq.receive,
      EventStore_keeps_queue hk queueOf hq ev e _ hkq, hq.take_keeps, hq.peek_keeps]

theorem Outcome.after_after {σ : Type} {α : Type} (c1 c2 : List Call) (o : Outcome σ α) :
    (o.after c1).after c2 = o.after (c2 ++ c1) := by
  unfold Outcome.after
  simp

/-- After `j` complete iterations the first `j` records have left the queue, and the loop
continues from the state reached. -/
theorem runIterations_spec {σ : Type} (hk : Hooks σ) (queueOf : σ → List (List Nat))
    (hq : QueueModel hk queueOf) (j : Nat) :
    ∀ (e : Engine σ) (d : σ) (e1 : Engine σ) (d1 : σ),
      MemKeepsQueue e.MEM_INTERFACE queueOf → runIterations hk j e d = some (e1, d1) →
      queueOf d1 = (queueOf d).drop j ∧ e1.MEM_INTERFACE = e.MEM_INTERFACE ∧
      e1.MutexWaitTicks = e.MutexWaitTicks ∧
      ∀ n, ∃ pre, EventManagerRunLoop hk (n + j) e d
        = (EventManagerRunLoop hk n e1 d1).after pre := by
  induction j with
  | zero =>
    intro e d e1 d1 _ h
    unfold runIterations at h
    cases h
    refine ⟨rfl, rfl, rfl, fun n => ⟨[], ?_⟩⟩
    unfold Outcome.after
    simp
  | succ j ih =>
    intro e d e1 d1 hkq h
    unfold runIterations at h
    split at h
    · exact Option.noConfusion h
    · rename_i s hs
      obtain ⟨e2, d2⟩ := s
      obtain ⟨s1, s2, s3, s4⟩ := runIteration_spec hk queueOf hq e d e2 d2 hkq hs
      obtain ⟨i1, i2, i3, i4⟩ := ih e2 d2 e1 d1 (by rw [s2]; exact hkq) h
      refine ⟨?_, i2.trans s2, i3.trans s3, fun n => ?_⟩
      · rw [i1, s1, List.drop_tail]
      · obtain ⟨p1, hp1⟩ := s4 (n + j)
        obtain ⟨p2, hp2⟩ := i4 n
        refine ⟨p1 ++ p2, ?_⟩
        rw [show n + (j + 1) = (n + j) + 1 by omega, hp1, hp2, Outcome.after_after]

theorem removalAllowed_of_ne (prev next : Call)
    (h : ∀ item, next ≠ Call.QueueReceive item) : removalAllowed prev next :=
  fun item hi => absurd hi (h item)

/-- Call lists in which no call is an `xQueueReceive`. -/
theorem chain_of_no_receive (cs : List Call)
    (h : ∀ c ∈ cs, ∀ item, c ≠ Call.QueueReceive item) : List.Chain' removalAllowed cs := by
  induction cs with
  | nil => exact List.chain'_nil
  | cons c cs ih =>
    rw [List.chain'_cons']
    refine ⟨fun y hy => removalAllowed_of_ne c y ?_, ih fun c1 hc1 => h c1 (by simp [hc1])⟩
    have : y ∈ cs := List.mem_of_mem_head? hy
    exact h y (by simp [this])

/-- `EventStore` makes no `xQueueReceive` call, and makes at least one call when it
fails on the memory. -/
theorem EventStore_no_receive {σ : Type} (hk : Hooks σ) (event : List Nat) (e : Engine σ)
    (d : σ) : ∀ c ∈ (EventStore hk event e d).calls, ∀ item, c ≠ Call.QueueReceive item := by
  rcases EventStore_shape hk event e d with ⟨_, _, _, hc | hc⟩ | ⟨e1, c1, hpre, hw⟩
  · rw [hc]; simp
  · rw [hc]; simp
  · have h1 : ∀ c ∈ c1, ∀ item, c ≠ Call.QueueReceive item := by
      rcases hpre with ⟨_, _, hc1⟩ | ⟨_, _, hc1⟩ <;> subst hc1 <;> simp
    rcases hw with ⟨_, _, hc | hc⟩ | ⟨r, _, _, hc⟩
    · rw [hc]
      intro c hcm
      rcases List.mem_append.mp hcm with h | h
      · exact h1 c h
      · simp at h; subst h; simp
    · rw [hc]
      intro c hcm
      rcases List.mem_append.mp hcm with h | h
      · exact h1 c h
      · simp at h; subst h; simp
    · rw [hc]
      intro c hcm
      rcases List.mem_append.mp hcm with h | h
      · exact h1 c h
      · simp at h
        rcases h with h | h <;> subst h <;> simp

/-- In the call list of the loop of `EventManagerRun` every `xQueueReceive` comes right
after a store callback that returned `EVENT_RET_OK`, and the list does not start with an
`xQueueReceive`. -/
theorem EventManagerRunLoop_removals {σ : Type} (hk : Hooks σ) (n : Nat) :
    ∀ (e : Engine σ) (d : σ),
      List.Chain' removalAllowed (EventManagerRunLoop hk n e d).calls ∧
      ∀ c ∈ (EventManagerRunLoop hk n e d).calls.head?, ∀ item, c ≠ Call.QueueReceive item := by
  induction n with
  | zero =>
    intro e d
    unfold EventManagerRunLoop
    exact ⟨List.chain'_nil, fun c hc => by simp at hc⟩
  | succ n ih =>
    intro e d
    rcases hpeek : (hk.xQueuePeek 10 d).1 with _ | ev
    · rw [EventManagerRunLoop_empty hk n e d hpeek]
      exact ⟨List.chain'_singleton _, fun c hc => by simp at hc; subst hc; simp⟩
    · rcases htake : (hk.xSemaphoreTake e.MutexWaitTicks (hk.xQueuePeek 10 d).2).1
      · rw [EventManagerRunLoop_take_fails hk n e d ev hpeek htake]
        refine ⟨chain_of_no_receive _ (by simp), fun c hc => by simp at hc; subst hc; simp⟩
      · have hnr := EventStore_no_receive hk ev e
          (hk.xSemaphoreTake e.MutexWaitTicks (hk.xQueuePeek 10 d).2).2
        by_cases hstore : (EventStore hk ev e
            (hk.xSemaphoreTake e.MutexWaitTicks (hk.xQueuePeek 10 d).2).2).ret = EVENT_RET_OK
        · have hsc := EventStore_ok_calls hk ev e
            (hk.xSemaphoreTake e.MutexWaitTicks (hk.xQueuePeek 10 d).2).2 hstore
          rcases hgive : (hk.xSemaphoreGive (hk.xQueueReceive 10 (EventStore hk ev e
              (hk.xSemaphoreTake e.MutexWaitTicks (hk.xQueuePeek 10 d).2).2).dev).2).1
          · rw [EventManagerRunLoop_give_fails hk n e d ev hpeek htake hstore hgive]
            dsimp only
            rw [hsc]
            refine ⟨?_, fun c hc => by simp at hc; subst hc; simp⟩
            split_ifs <;>
              simp [List.chain'_cons', removalAllowed]
          · rw [EventManagerRunLoop_step hk n e d ev hpeek htake hstore hgive]
            obtain ⟨i1, i2⟩ := ih (EventStore hk ev e
                (hk.xSemaphoreTake e.MutexWaitTicks (hk.xQueuePeek 10 d).2).2).eng
              (hk.EventManagerCallback EventManagerCallback_e.EVENT_STORED
                (hk.xSemaphoreGive (hk.xQueueReceive 10 (EventStore hk ev e
                  (hk.xSemaphoreTake e.MutexWaitTicks
                    (hk.xQueuePeek 10 d).2).2).dev).2).2).2
            unfold Outcome.after
            dsimp only
            rw [hsc]
            refine ⟨?_, fun c hc => by simp at hc; subst hc; simp⟩
            split_ifs <;>
              simp [List.chain'_cons', removalAllowed, i1] <;>
              exact fun y hy => i2 y hy
        · rw [EventManagerRunLoop_store_fails hk n e d ev hpeek htake hstore]
          refine ⟨chain_of_no_receive _ ?_, fun c hc => by simp at hc; subst hc; simp⟩
          intro c hc
          rcases List.mem_append.mp hc with h | h
          · simp at h; rcases h with h | h <;> subst h <;> simp
          · exact hnr c h

theorem giveIfTaken_calls {σ : Type} {α : Type} (hk : Hooks σ) (g : α) (b : Bool)
    (o : Outcome σ α) :
    (giveIfTaken hk g b o).calls = o.calls ∨
    ∃ r, (giveIfTaken hk g b o).calls = o.calls ++ [Call.SemaphoreGive r] := by
  unfold giveIfTaken
  split
  · exact Or.inr ⟨_, rfl⟩
  · exact Or.inl rfl

/-- In the call list of `EventManagerRun` every `xQueueReceive` comes right after a store
callback that returned `EVENT_RET_OK`. -/
theorem EventManagerRun_removals {σ : Type} (hk : Hooks σ) (max_events : Nat) (e : Engine σ)
    (d : σ) :
    List.Chain' removalAllowed (EventManagerRun hk max_events e d).calls ∧
    ∀ c ∈ (EventManagerRun hk max_events e d).calls.head?,
      ∀ item, c ≠ Call.QueueReceive item := by
  obtain ⟨i1, i2⟩ := EventManagerRunLoop_removals hk max_events e
    (hk.EventManagerMalloc e.EventInfo.EventSize d).2
  unfold EventManagerRun
  dsimp only
  split_ifs
  · exact ⟨List.chain'_nil, fun c hc => by simp at hc⟩
  · exact ⟨List.chain'_nil, fun c hc => by simp at hc⟩
  · exact ⟨List.chain'_singleton _, fun c hc => by simp at hc; subst hc; simp⟩
  · have h1 : List.Chain' removalAllowed
        ([Call.Malloc e.EventInfo.EventSize true] ++ (EventManagerRunLoop hk max_events e
          (hk.EventManagerMalloc e.EventInfo.EventSize d).2).calls) := by
      rw [List.singleton_append, List.chain'_cons']
      exact ⟨fun y hy => removalAllowed_of_ne _ y (i2 y hy), i1⟩
    rcases giveIfTaken_calls hk EVENT_MUTEX_GIVE_ERROR
      (EventManagerRunLoop hk max_events e
        (hk.EventManagerMalloc e.EventInfo.EventSize d).2).ret.2
      { ret := (EventManagerRunLoop hk max_events e
          (hk.EventManagerMalloc e.EventInfo.EventSize d).2).ret.1
        eng := (EventManagerRunLoop hk max_events e
          (hk.EventManagerMalloc e.EventInfo.EventSize d).2).eng
        dev := (EventManagerRunLoop hk max_events e
          (hk.EventManagerMalloc e.EventInfo.EventSize d).2).dev
        calls := [Call.Malloc e.EventInfo.EventSize true] ++ (EventManagerRunLoop hk max_events e
          (hk.EventManagerMalloc e.EventInfo.EventSize d).2).calls } with hc | ⟨r, hc⟩
    · rw [hc]
      exact ⟨h1, fun c hc => by simp at hc; subst hc; simp⟩
    · rw [hc]
      refine ⟨?_, fun c hc => by simp at hc; subst hc; simp⟩
      rw [List.chain'_append]
      exact ⟨h1, List.chain'_singleton _,
        fun x _ y hy => removalAllowed_of_ne x y (by simp at hy; subst hy; simp)⟩

/-- C18 (amended). Drain, failure path.  (1) In the call list of `EventManagerRun` every
`xQueueReceive` comes right after a store callback that returned `EVENT_RET_OK`, the last
step of a successful `EventStore`: no record is removed from the queue before its append
succeeded.  (2) If, after `j` complete iterations of the loop, the append (`EventStore`) of
the record `ev` at the head of the queue returns an error, then `EventManagerRun` returns
that error when the `xSemaphoreGive` that follows succeeds and `EVENT_MUTEX_GIVE_ERROR` when
it fails, the engine is the one left by that append, and the queue still holds `ev` and every record behind it, in the same
order: exactly what the queue held behind the `j` records drained before. -/
theorem run_stops_on_append_error {σ : Type} (hk : Hooks σ) (queueOf : σ → List (List Nat))
    (max_events : Nat) (e : Engine σ) (d : σ) (hq : QueueModel hk queueOf)
    (hkq : MemKeepsQueue e.MEM_INTERFACE queueOf) :
    (List.Chain' removalAllowed (EventManagerRun hk max_events e d).calls ∧
      ∀ c ∈ (EventManagerRun hk max_events e d).calls.head?,
        ∀ item, c ≠ Call.QueueReceive item) ∧
    ∀ (j : Nat) (e1 : Engine σ) (d1 : σ) (ev : List Nat) (rest : List (List Nat)),
      e.Initialized = true → (hk.EventManagerMalloc e.EventInfo.EventSize d).1 = true →
      j < max_events →
      runIterations hk j e (hk.EventManagerMalloc e.EventInfo.EventSize d).2 = some (e1, d1) →
      queueOf d1 = ev :: rest →
      (hk.xSemaphoreTake e1.MutexWaitTicks (hk.xQueuePeek 10 d1).2).1 = true →
      (EventStore hk ev e1
        (hk.xSemaphoreTake e1.MutexWaitTicks (hk.xQueuePeek 10 d1).2).2).ret ≠ EVENT_RET_OK →
      (EventManagerRun hk max_events e d).ret
        = (if (hk.xSemaphoreGive (EventStore hk ev e1
              (hk.xSemaphoreTake e1.MutexWaitTicks (hk.xQueuePeek 10 d1).2).2).dev).1 = true
           then (EventStore hk ev e1
              (hk.xSemaphoreTake e1.MutexWaitTicks (hk.xQueuePeek 10 d1).2).2).ret
           else EVENT_MUTEX_GIVE_ERROR) ∧
      (EventManagerRun hk max_events e d).eng
        = (EventStore hk ev e1
            (hk.xSemaphoreTake e1.MutexWaitTicks (hk.xQueuePeek 10 d1).2).2).eng ∧
      (queueOf d).drop j = ev :: rest ∧
      queueOf (EventManagerRun hk max_events e d).dev = ev :: rest := by
  refine ⟨EventManagerRun_removals hk max_events e d, ?_⟩
  intro j e1 d1 ev rest hinit hmalloc hj hreach hqueue htake hfail
  obtain ⟨s1, s2, _, s4⟩ := runIterations_spec hk queueOf hq j e
    (hk.EventManagerMalloc e.EventInfo.EventSize d).2 e1 d1 hkq hreach
  rw [hq.malloc_keeps, hqueue] at s1
  obtain ⟨n0, hn0⟩ : ∃ n0, max_events = (n0 + 1) + j := ⟨max_events - j - 1, by omega⟩
  obtain ⟨pre, hloop⟩ := s4 (n0 + 1)
  have hpeek : (hk.xQueuePeek 10 d1).1 = some ev := by rw [hq.peek, hqueue]; rfl
  rw [EventManagerRunLoop_store_fails hk n0 e1 d1 ev hpeek htake hfail, ← hn0] at hloop
  have hne : max_events ≠ 0 := by omega
  have hkq1 : MemKeepsQueue e1.MEM_INTERFACE queueOf := by rw [s2]; exact hkq
  have hsq := EventStore_keeps_queue hk queueOf hq ev e1
    (hk.xSemaphoreTake e1.MutexWaitTicks (hk.xQueuePeek 10 d1).2).2 hkq1
  unfold EventManagerRun
  dsimp only
  rw [if_neg (by rw [hinit]; simp), if_neg hne, if_neg (by rw [hmalloc]; simp), hloop]
  unfold Outcome.after giveIfTaken
  dsimp only
  rw [if_pos rfl]
  dsimp only
  refine ⟨rfl, rfl, s1.symm, ?_⟩
  rw [hq.give_keeps, hsq, hq.take_keeps, hq.peek_keeps, hqueue]

/-- Instance of `run_stops_on_append_error`: three records queued, the store callback fails
for the second one; `EventManagerRun(3)` returns `EVENT_RET_ERR_MEM` and the second and
third record are still in the queue. -/
theorem run_stops_on_append_error_witness :
    (EventManagerRun secondStoreFails 3 testEngine
      (queueWorld [numberedRecord 128 0, numberedRecord 128 1, numberedRecord 128 2])).ret
      = EVENT_RET_ERR_MEM ∧
    (EventManagerRun secondStoreFails 3 testEngine
      (queueWorld [numberedRecord 128 0, numberedRecord 128 1,
        numberedRecord 128 2])).dev.drv.queue
      = [numberedRecord 128 1, numberedRecord 128 2] :=
  ⟨by decide,
   ((run_stops_on_append_error secondStoreFails (fun s => s.drv.queue) 3 testEngine
      (queueWorld [numberedRecord 128 0, numberedRecord 128 1, numberedRecord 128 2])
      secondStoreFails_queueModel (idealInterface_keepsQueue SST26VF064B)).2
      1 _ _ (numberedRecord 128 1) [numberedRecord 128 2] rfl rfl (by decide) rfl rfl rfl
      (by decide)).2.2.2⟩

set_option maxRecDepth 100000 in
/-- C18 as stated fails: two records queued, `WriteFunc` fails for the first one, so its
`EventStore` returns `EVENT_RET_ERR_FLASH`, and the `xSemaphoreGive` that follows fails;
`EventManagerRun(2)` returns `EVENT_MUTEX_GIVE_ERROR`, not the error of the append.  Both
records are still queued. -/
theorem run_error_overridden_counterexample :
    testEngineWriteFails.Initialized = true ∧
    (EventStore giveFailsHooks (numberedRecord 128 0) testEngineWriteFails
      (queueWorld [numberedRecord 128 0, numberedRecord 128 1])).ret = EVENT_RET_ERR_FLASH ∧
    (EventManagerRun giveFailsHooks 2 testEngineWriteFails
      (queueWorld [numberedRecord 128 0, numberedRecord 128 1])).calls
      = [Call.Malloc 128 true, Call.QueuePeek (some (numberedRecord 128 0)),
         Call.SemaphoreTake 10 true, Call.EraseSectorFunc 16384 true,
         Call.WriteFunc 16384 (numberedRecord 128 0) 128 false, Call.SemaphoreGive false] ∧
    (EventManagerRun giveFailsHooks 2 testEngineWriteFails
      (queueWorld [numberedRecord 128 0, numberedRecord 128 1])).ret
      = EVENT_MUTEX_GIVE_ERROR ∧
    (EventManagerRun giveFailsHooks 2 testEngineWriteFails
      (queueWorld [numberedRecord 128 0, numberedRecord 128 1])).dev.drv.queue
      = [numberedRecord 128 0, numberedRecord 128 1] := by
  refine ⟨?_, ?_, ?_, ?_, ?_⟩
  all_goals decide

theorem EventSST2xVFConfig_eventSize {δ : Type} (drv : SST2xVF_DRIVER_t δ) (info : EventInfo_t)
    (s : SSTState δ) :
    (EventSST2xVFConfig drv info s).2.1.EventSize = info.EventSize := by
  cases info
  unfold EventSST2xVFConfig
  dsimp only
  split_ifs <;> rfl

/-- With the SST2xVF interface a successful `EventManagerInitialize` reports the record size
of the configuration reduced modulo 256. -/
theorem initialize_sst_eventSize {δ : Type} (hk : Hooks (SSTState δ))
    (drv : SST2xVF_DRIVER_t δ) (config : Option EventManagerConfig_t)
    (e0 : Engine (SSTState δ)) (d0 : SSTState δ)
    (hret : (EventManagerInitialize hk config (some (SST2xVF_EventFuncs drv)) e0 d0).ret
      = EVENT_RET_OK) :
    ∃ cfg, config = some cfg ∧
      (EventManagerGetInfo
        (EventManagerInitialize hk config (some (SST2xVF_EventFuncs drv)) e0 d0).eng).EventSize
        = cfg.event_size % 256 := by
  obtain ⟨cfg, mi, hc, hm, configInfo, i0, d, hcf, _, hinfo, _, _⟩ :=
    EventManagerInitialize_trace hk config _ e0 d0 hret
  refine ⟨cfg, hc, ?_⟩
  have hmi : mi = SST2xVF_EventFuncs drv := (Option.some.inj hm).symm
  subst hmi
  have hci : configInfo = EventSST2xVFConfig drv := (Option.some.inj hcf).symm
  subst hci
  unfold EventManagerGetInfo
  rw [hinfo, (rederiveCounter_geometry _).1, (validateSeed_geometry _).1,
    EventSST2xVFConfig_eventSize]
  rfl

/-- C21 (code defect, evaluated). `EventInfo.EventSize` is a `uint8_t` and
`EventManagerInitialize` stores the 32-bit `config->event_size` into it without a range
check: with `event_size = 257` on the test geometry (sector size 4096, which 257 does not
divide) `EventManagerInitialize` returns `EVENT_RET_OK`, `EventManagerGetInfo()->EventSize`
is 1, not 257, the queue has been created for items of 257 bytes, and a following
`EventManagerWriteThrough` of a record of 257 bytes is refused with `EVENT_INVALID_PARAM`.
With `event_size = 256` the reported size is 0.  For `event_size = 128` the reported size is
128. -/
theorem initialize_truncates_record_size :
    (initOn SST26VF064B { testConfig with event_size := 257 }).ret = EVENT_RET_OK ∧
    (EventManagerGetInfo (initOn SST26VF064B { testConfig with event_size := 257 }).eng).EventSize
      = 1 ∧
    (EventManagerGetInfo (initOn SST26VF064B { testConfig with event_size := 257 }).eng).EventSize
      ≠ ({ testConfig with event_size := 257 } : EventManagerConfig_t).event_size ∧
    (initOn SST26VF064B { testConfig with event_size := 257 }).dev.drv.queueItemSize = 257 ∧
    (EventManagerWriteThrough idealHooks (some (List.replicate 257 7)) 257
      (initOn SST26VF064B { testConfig with event_size := 257 }).eng
      (initOn SST26VF064B { testConfig with event_size := 257 }).dev).ret
      = EVENT_INVALID_PARAM ∧
    (EventManagerGetInfo (initOn SST26VF064B { testConfig with event_size := 256 }).eng).EventSize
      = 0 ∧
    (initOn SST26VF064B testConfig).ret = EVENT_RET_OK ∧
    (EventManagerGetInfo (initOn SST26VF064B testConfig).eng).EventSize
      = testConfig.event_size := by
  decide

/-- C26 (code defect, evaluated). The erase loop of `EventSST2xVFEraseAll` runs while
`i <= first_addr + total_size`, so it erases one sector more than the region has: for the
caller-defined region `[16384, 24575]` of the test configuration (two sectors of 4096 bytes)
the driver's `EraseSector` is called three times, the third time with address 24576, which
is outside the region; for the last sector of the device, `[8384512, 8388607]`, it is called
with address 8388608, which is not an address of the device.  Through the engine:
`EventManagerClear` on the log of the test configuration returns `EVENT_RET_OK` and has
erased the bytes 24576 .. 28671 behind the region. -/
theorem eraseAll_erases_sector_behind_region :
    (regionState SST26VF064B 16384 24575).UserConfig
      = { user_defined := true, first_addr := 16384, total_size := 8192 } ∧
    (EventSST2xVFEraseAll (loggingDriver SST26VF064B)
      (regionState SST26VF064B 16384 24575)).1 = true ∧
    (EventSST2xVFEraseAll (loggingDriver SST26VF064B)
      (regionState SST26VF064B 16384 24575)).2.drv = [16384, 20480, 24576] ∧
    ¬ (24576 ≤ 16384 + 8192 - 1) ∧
    (EventSST2xVFEraseAll (loggingDriver SST26VF064B)
      (regionState SST26VF064B 8384512 8388607)).2.drv = [8384512, 8388608] ∧
    ¬ (8388608 < SST26VF064B.size) ∧
    (initOn SST26VF064B testConfig).ret = EVENT_RET_OK ∧
    (initOn SST26VF064B testConfig).dev.UserConfig
      = { user_defined := true, first_addr := 16384, total_size := 8192 } ∧
    (initOn SST26VF064B testConfig).dev.drv.mem 24576 = 0 ∧
    (EventManagerClear idealHooks (initOn SST26VF064B testConfig).eng
      (initOn SST26VF064B testConfig).dev).ret = EVENT_RET_OK ∧
    (EventManagerClear idealHooks (initOn SST26VF064B testConfig).eng
      (initOn SST26VF064B testConfig).dev).dev.drv.mem 24576 = 255 ∧
    (EventManagerClear idealHooks (initOn SST26VF064B testConfig).eng
      (initOn SST26VF064B testConfig).dev).dev.drv.mem 28671 = 255 ∧
    (EventManagerClear idealHooks (initOn SST26VF064B testConfig).eng
      (initOn SST26VF064B testConfig).dev).dev.drv.mem 28672 = 0 := by
  decide

/-- C28 (code defect, evaluated). A record is committed twice when the store callback
fails: `EventStore` advances `Pointer` and `Counter` after `WriteFunc` and only then calls
`EventManagerStoreCallback`; when that returns an error (as the weak definition in
`EventManager.c` does) `EventStore` returns `EVENT_RET_ERR_MEM` and `EventManagerRun` leaves
the record in the queue.  One record enqueued once with `EventManagerWriteBack` on the empty
test log: the first `EventManagerRun(1)` writes it at address 16384 and leaves
`Pointer = 16512`, `Counter = 1` with the record still queued; the second
`EventManagerRun(1)` writes the same record again at 16512 and leaves `Counter = 2`, with the
record still in the queue. -/
theorem run_commits_record_twice :
    enqueuedOnce.ret = EVENT_RET_OK ∧
    enqueuedOnce.dev.drv.queue = [numberedRecord 128 7] ∧
    firstRun.ret = EVENT_RET_ERR_MEM ∧
    writtenRecords firstRun.calls = [numberedRecord 128 7] ∧
    Call.WriteFunc 16384 (numberedRecord 128 7) 128 true ∈ firstRun.calls ∧
    (EventManagerGetInfo firstRun.eng).Pointer = 16512 ∧
    (EventManagerGetInfo firstRun.eng).Counter = 1 ∧
    firstRun.dev.drv.queue = [numberedRecord 128 7] ∧
    secondRun.ret = EVENT_RET_ERR_MEM ∧
    writtenRecords secondRun.calls = [numberedRecord 128 7] ∧
    Call.WriteFunc 16512 (numberedRecord 128 7) 128 true ∈ secondRun.calls ∧
    (EventManagerGetInfo secondRun.eng).Pointer = 16640 ∧
    (EventManagerGetInfo secondRun.eng).Counter = 2 ∧
    secondRun.dev.drv.queue = [numberedRecord 128 7] := by
  decide

/-- C29 (code defect, evaluated). `EventManagerInitialize` accepts an empty region: with the
SST2xVF interface of the SST26VF064B and the test configuration with `size_used = 0`
(`first_valid_addr = 16384`) it returns `EVENT_RET_OK` with `FirstPointer = 16384`,
`MaxPointer = 16383`, `MaxLogsNumber = 0` and `LogsPerSector = 32`.  A following
`EventManagerWriteThrough` returns `EVENT_RET_OK` after erasing the sector at 16384 and
writing 128 bytes there, outside the empty region, and leaves
`Counter = 2^32 - 32 + 1`. -/
theorem initialize_accepts_empty_region :
    (initOn SST26VF064B emptyRegionConfig).ret = EVENT_RET_OK ∧
    (EventManagerGetInfo (initOn SST26VF064B emptyRegionConfig).eng).FirstPointer = 16384 ∧
    (EventManagerGetInfo (initOn SST26VF064B emptyRegionConfig).eng).MaxPointer = 16383 ∧
    (EventManagerGetInfo (initOn SST26VF064B emptyRegionConfig).eng).MaxLogsNumber = 0 ∧
    (EventManagerGetInfo (initOn SST26VF064B emptyRegionConfig).eng).LogsPerSector = 32 ∧
    ¬ ((EventManagerGetInfo (initOn SST26VF064B emptyRegionConfig).eng).FirstPointer
        ≤ (EventManagerGetInfo (initOn SST26VF064B emptyRegionConfig).eng).MaxPointer) ∧
    ¬ ((EventManagerGetInfo (initOn SST26VF064B emptyRegionConfig).eng).MaxLogsNumber
        ≥ (EventManagerGetInfo (initOn SST26VF064B emptyRegionConfig).eng).LogsPerSector) ∧
    (EventManagerWriteThrough idealHooks (some (numberedRecord 128 7)) 128
      (initOn SST26VF064B emptyRegionConfig).eng
      (initOn SST26VF064B emptyRegionConfig).dev).ret = EVENT_RET_OK ∧
    (EventManagerWriteThrough idealHooks (some (numberedRecord 128 7)) 128
      (initOn SST26VF064B emptyRegionConfig).eng
      (initOn SST26VF064B emptyRegionConfig).dev).calls
      = [Call.SemaphoreTake 10 true, Call.EraseSectorFunc 16384 true,
         Call.WriteFunc 16384 (numberedRecord 128 7) 128 true,
         Call.StoreCallback 16384 4294967265 EVENT_RET_OK, Call.SemaphoreGive true] := by
  decide

/-! ## Position of the log in closed form -/

/-- A successful `EventStore` leaves the information structure of one more append. -/
theorem EventStore_ok_info {σ : Type} (hk : Hooks σ) (event : List Nat) (e : Engine σ) (d : σ)
    (hret : (EventStore hk event e d).ret = EVENT_RET_OK) :
    (EventStore hk event e d).eng.EventInfo = infoAfterStore e.EventInfo := by
  rcases EventStore_shape hk event e d with ⟨_, _, hf, _⟩ | ⟨e1, c1, hpre, hw⟩
  · rw [hret] at hf; exact EventReturn_e.noConfusion hf
  · rcases hw with ⟨_, hf, _⟩ | ⟨r, he, _, _⟩
    · rw [hret] at hf; exact EventReturn_e.noConfusion hf
    · rw [he]
      unfold infoAfterStore
      rcases hpre with ⟨hp, he1, _⟩ | ⟨hp, he1, _⟩
      · subst he1; rw [if_neg hp]
      · subst he1; rw [if_pos hp]; rfl

/-- A successful `EventManagerWriteThrough` leaves the information structure of one more
append. -/
theorem EventManagerWriteThrough_ok_info {σ : Type} (hk : Hooks σ) (event : Option (List Nat))
    (event_size : Nat) (e : Engine σ) (d : σ)
    (hret : (EventManagerWriteThrough hk event event_size e d).ret = EVENT_RET_OK) :
    (EventManagerWriteThrough hk event event_size e d).eng.EventInfo
      = infoAfterStore e.EventInfo := by
  rcases EventManagerWriteThrough_shape hk event event_size e d with
    ⟨_, hne, _⟩ | ⟨ev, g, _, _, _, _, heng, hr, _⟩
  · exact absurd hret hne
  · rw [heng]
    apply EventStore_ok_info
    rw [hret] at hr
    by_cases hg : g = true
    · rw [if_pos hg] at hr; exact hr.symm
    · rw [if_neg hg] at hr; exact EventReturn_e.noConfusion hr

theorem closedFormCounter_le {M L n : Nat} (hL : 0 < L) (hLM : L ≤ M) :
    closedFormCounter M L n ≤ M := by
  unfold closedFormCounter
  split
  · assumption
  · have := Nat.mod_lt (n - M - 1) hL
    omega

/-- One append moves the closed form from `n` to `n + 1`. -/
theorem infoAfterStore_closed_form {i : EventInfo_t} {f ns : Nat} (h : Coords i f ns) (n : Nat)
    (hp : i.Pointer = i.FirstPointer + (n % i.MaxLogsNumber) * i.EventSize)
    (hc : i.Counter = closedFormCounter i.MaxLogsNumber i.LogsPerSector n) :
    (infoAfterStore i).Pointer
      = i.FirstPointer + ((n + 1) % i.MaxLogsNumber) * i.EventSize ∧
    (infoAfterStore i).Counter
      = closedFormCounter i.MaxLogsNumber i.LogsPerSector (n + 1) := by
  have hLM := h.maxLogs_pos
  have hL := h.hL
  have hM32 := h.maxLogs_lt
  have hMpos : 0 < i.MaxLogsNumber := by omega
  have hj : n % i.MaxLogsNumber < i.MaxLogsNumber := Nat.mod_lt _ hMpos
  have hdvd : i.LogsPerSector ∣ i.MaxLogsNumber := ⟨ns, by rw [h.hM]; ring⟩
  have hmm : n % i.MaxLogsNumber % i.LogsPerSector = n % i.LogsPerSector :=
    Nat.mod_mod_of_dvd _ hdvd
  have hb : i.Pointer % i.SectorSize = 0 ↔ n % i.LogsPerSector = 0 := by
    rw [h.pointer_mod_zero_iff hp, hmm]
  have hcle : i.Counter ≤ i.MaxLogsNumber := by
    rw [hc]; exact closedFormCounter_le hL hLM
  have hnext : nextPointer i = i.FirstPointer + ((n + 1) % i.MaxLogsNumber) * i.EventSize := by
    rw [h.nextPointer_eq hj hp, Nat.mod_add_mod]
  -- the counter after the erase check
  have hsub : sub32 i.MaxLogsNumber i.LogsPerSector = i.MaxLogsNumber - i.LogsPerSector :=
    sub32_eq hLM hM32
  -- relation between the boundary and the closed form
  have hkey : closedFormCounter i.MaxLogsNumber i.LogsPerSector (n + 1)
      = (if n % i.LogsPerSector = 0 ∧ i.Counter ≥ i.MaxLogsNumber
          then i.MaxLogsNumber - i.LogsPerSector else i.Counter) + 1 := by
    rcases Nat.lt_trichotomy n i.MaxLogsNumber with hn | hn | hn
    · have hcv : i.Counter = n := by
        rw [hc]; unfold closedFormCounter; exact if_pos (Nat.le_of_lt hn)
      have h1 : ¬ (n % i.LogsPerSector = 0 ∧ i.Counter ≥ i.MaxLogsNumber) := by omega
      have h2 : n + 1 ≤ i.MaxLogsNumber := hn
      rw [if_neg h1, hcv]
      unfold closedFormCounter
      exact if_pos h2
    · have hcv : i.Counter = i.MaxLogsNumber := by
        rw [hc]; unfold closedFormCounter; rw [if_pos (Nat.le_of_eq hn)]; exact hn
      have h0 : n % i.LogsPerSector = 0 := by
        rw [hn]; exact Nat.mod_eq_zero_of_dvd hdvd
      have h1 : n % i.LogsPerSector = 0 ∧ i.Counter ≥ i.MaxLogsNumber := ⟨h0, by omega⟩
      have h2 : ¬ (n + 1 ≤ i.MaxLogsNumber) := by omega
      have h3 : n + 1 - i.MaxLogsNumber - 1 = 0 := by omega
      rw [if_pos h1]
      unfold closedFormCounter
      rw [if_neg h2, h3, Nat.zero_mod]
    · have hr := Nat.mod_lt (n - i.MaxLogsNumber - 1) hL
      have hcv : i.Counter = i.MaxLogsNumber - i.LogsPerSector
          + (n - i.MaxLogsNumber - 1) % i.LogsPerSector + 1 := by
        rw [hc]; unfold closedFormCounter; exact if_neg (by omega)
      have h2 : ¬ (n + 1 ≤ i.MaxLogsNumber) := by omega
      have h3 : n + 1 - i.MaxLogsNumber - 1 = (n - i.MaxLogsNumber - 1) + 1 := by omega
      have hsm := succ_mod_eq (n - i.MaxLogsNumber - 1) i.LogsPerSector hL
      have hnm : (n - i.MaxLogsNumber - 1 + 1) % i.LogsPerSector = n % i.LogsPerSector := by
        have h4 : n - i.MaxLogsNumber - 1 + 1 = n - i.LogsPerSector * ns := by
          have := h.hM
          rw [Nat.mul_comm] at this
          omega
        rw [h4]
        apply Nat.sub_mul_mod
        have := h.hM
        rw [Nat.mul_comm] at this
        omega
      rw [hnm] at hsm
      unfold closedFormCounter
      rw [if_neg h2, h3, hnm]
      by_cases hw : (n - i.MaxLogsNumber - 1) % i.LogsPerSector + 1 = i.LogsPerSector
      · rw [if_pos hw] at hsm
        have h1 : n % i.LogsPerSector = 0 ∧ i.Counter ≥ i.MaxLogsNumber := ⟨hsm, by omega⟩
        rw [if_pos h1, hsm]
      · rw [if_neg hw] at hsm
        have h1 : ¬ (n % i.LogsPerSector = 0 ∧ i.Counter ≥ i.MaxLogsNumber) := by omega
        rw [if_neg h1, hsm, hcv]
        omega
  have hnext_le := @closedFormCounter_le i.MaxLogsNumber i.LogsPerSector (n + 1) hL hLM
  unfold infoAfterStore
  by_cases hbd : i.Pointer % i.SectorSize = 0
  · rw [if_pos hbd]
    have h0 := hb.mp hbd
    refine ⟨by show nextPointer (erasedInfo i) = _; rw [nextPointer_erasedInfo, hnext], ?_⟩
    show add32 (erasedInfo i).Counter 1 = _
    rw [hkey]
    unfold erasedInfo
    dsimp only
    by_cases hfull : i.Counter ≥ i.MaxLogsNumber
    · have h1 : n % i.LogsPerSector = 0 ∧ i.Counter ≥ i.MaxLogsNumber := ⟨h0, hfull⟩
      rw [if_pos hfull, if_pos h1]
      have hcm : i.Counter = i.MaxLogsNumber := by omega
      rw [hcm, hsub]
      exact add32_eq (by omega)
    · have h1 : ¬ (n % i.LogsPerSector = 0 ∧ i.Counter ≥ i.MaxLogsNumber) := by omega
      rw [if_neg hfull, if_neg h1]
      exact add32_eq (by omega)
  · rw [if_neg hbd]
    have h0 : ¬ n % i.LogsPerSector = 0 := fun hh => hbd (hb.mpr hh)
    have h1 : ¬ (n % i.LogsPerSector = 0 ∧ i.Counter ≥ i.MaxLogsNumber) := fun hh => h0 hh.1
    refine ⟨hnext, ?_⟩
    show add32 i.Counter 1 = _
    rw [hkey, if_neg h1] at hnext_le
    rw [hkey, if_neg h1]
    exact add32_eq (by omega)

theorem infoAfterStore_coords {i : EventInfo_t} {f ns : Nat} (h : Coords i f ns) :
    Coords (infoAfterStore i) f ns := by
  unfold infoAfterStore
  split
  · exact (h.after_erase).after_advance
  · exact h.after_advance

theorem infoAfterStore_first (i : EventInfo_t) :
    (infoAfterStore i).FirstPointer = i.FirstPointer ∧
    (infoAfterStore i).LogsPerSector = i.LogsPerSector := by
  unfold infoAfterStore
  split <;> exact ⟨rfl, rfl⟩

/-- Closed form after the appends of `appendAll`, started from the closed form at `n`. -/
theorem appendAll_closed_form {σ : Type} (hk : Hooks σ) (f ns : Nat) :
    ∀ (rs : List (List Nat)) (n : Nat) (e : Engine σ) (d : σ),
      Coords e.EventInfo f ns →
      e.EventInfo.Pointer
        = e.EventInfo.FirstPointer + (n % e.EventInfo.MaxLogsNumber) * e.EventInfo.EventSize →
      e.EventInfo.Counter
        = closedFormCounter e.EventInfo.MaxLogsNumber e.EventInfo.LogsPerSector n →
      (∀ c ∈ (appendAll hk rs e d).1, c = EVENT_RET_OK) →
      (appendAll hk rs e d).2.1.EventInfo.EventSize = e.EventInfo.EventSize ∧
      (appendAll hk rs e d).2.1.EventInfo.FirstPointer = e.EventInfo.FirstPointer ∧
      (appendAll hk rs e d).2.1.EventInfo.MaxLogsNumber = e.EventInfo.MaxLogsNumber ∧
      (appendAll hk rs e d).2.1.EventInfo.LogsPerSector = e.EventInfo.LogsPerSector ∧
      (appendAll hk rs e d).2.1.EventInfo.Pointer
        = e.EventInfo.FirstPointer
          + ((n + rs.length) % e.EventInfo.MaxLogsNumber) * e.EventInfo.EventSize ∧
      (appendAll hk rs e d).2.1.EventInfo.Counter
        = closedFormCounter e.EventInfo.MaxLogsNumber e.EventInfo.LogsPerSector
            (n + rs.length) := by
  intro rs
  induction rs with
  | nil =>
    intro n e d _ hp hc _
    exact ⟨rfl, rfl, rfl, rfl, hp, hc⟩
  | cons r rs ih =>
    intro n e d hgeo hp hc hok
    have hok1 : (EventManagerWriteThrough hk (some r) e.EventInfo.EventSize e d).ret
        = EVENT_RET_OK := hok _ (List.mem_cons_self _ _)
    have hinfo := EventManagerWriteThrough_ok_info hk (some r) e.EventInfo.EventSize e d hok1
    have hstep := infoAfterStore_closed_form hgeo n hp hc
    have hg := infoAfterStore_geometry e.EventInfo
    have hg2 := infoAfterStore_first e.EventInfo
    have hrest := ih (n + 1)
      (EventManagerWriteThrough hk (some r) e.EventInfo.EventSize e d).eng
      (EventManagerWriteThrough hk (some r) e.EventInfo.EventSize e d).dev
      (by rw [hinfo]; exact infoAfterStore_coords hgeo)
      (by rw [hinfo, hstep.1, hg.1, hg.2.2.1, hg2.1])
      (by rw [hinfo, hstep.2, hg.2.2.1, hg2.2])
      (fun c hcm => hok c (List.mem_cons_of_mem _ hcm))
    rw [hinfo, hg.1, hg.2.2.1, hg2.1, hg2.2] at hrest
    have hlen : n + (r :: rs).length = n + 1 + rs.length := by
      rw [List.length_cons]; omega
    rw [hlen]
    exact hrest

/-- C27. Closed form of the log position: for every valid geometry (sector-aligned bounds)
with `M = MaxLogsNumber` and `L = LogsPerSector`, in every environment, after `n` successive
`EventManagerWriteThrough` calls that all returned `EVENT_RET_OK` on an empty log
(`Pointer == FirstPointer`, `Counter == 0`), `EventManagerGetInfo` reports
`Pointer == FirstPointer + (n mod M) * EventSize`, `Counter == n` when `n <= M` and
`Counter == M - L + ((n - M - 1) mod L) + 1` when `n > M`; hence for `n >= M` the counter
lies between `M - L + 1` and `M`. -/
theorem log_position_closed_form {σ : Type} (hk : Hooks σ) (records : List (List Nat))
    (e : Engine σ) (d : σ) (hgeo : ValidGeometry e.EventInfo)
    (hp : e.EventInfo.Pointer = e.EventInfo.FirstPointer) (hc : e.EventInfo.Counter = 0)
    (hok : ∀ c ∈ (appendAll hk records e d).1, c = EVENT_RET_OK) :
    (EventManagerGetInfo (appendAll hk records e d).2.1).Pointer
      = e.EventInfo.FirstPointer
        + (records.length % e.EventInfo.MaxLogsNumber) * e.EventInfo.EventSize ∧
    (records.length ≤ e.EventInfo.MaxLogsNumber →
      (EventManagerGetInfo (appendAll hk records e d).2.1).Counter = records.length) ∧
    (records.length > e.EventInfo.MaxLogsNumber →
      (EventManagerGetInfo (appendAll hk records e d).2.1).Counter
        = e.EventInfo.MaxLogsNumber - e.EventInfo.LogsPerSector
          + ((records.length - e.EventInfo.MaxLogsNumber - 1) % e.EventInfo.LogsPerSector)
          + 1) ∧
    (records.length ≥ e.EventInfo.MaxLogsNumber →
      e.EventInfo.MaxLogsNumber - e.EventInfo.LogsPerSector + 1
        ≤ (EventManagerGetInfo (appendAll hk records e d).2.1).Counter ∧
      (EventManagerGetInfo (appendAll hk records e d).2.1).Counter
        ≤ e.EventInfo.MaxLogsNumber) := by
  obtain ⟨f, ns, hco⟩ := hgeo.coords
  have hLM := hco.maxLogs_pos
  have hL := hco.hL
  have h := appendAll_closed_form hk f ns records 0 e d hco
    (by rw [Nat.zero_mod, Nat.zero_mul, Nat.add_zero]; exact hp)
    (by rw [hc]; unfold closedFormCounter; rw [if_pos (Nat.zero_le _)]) hok
  rw [Nat.zero_add] at h
  obtain ⟨_, _, _, _, hptr, hcnt⟩ := h
  unfold EventManagerGetInfo
  refine ⟨hptr, ?_, ?_, ?_⟩
  · intro hn
    rw [hcnt]; unfold closedFormCounter; rw [if_pos hn]
  · intro hn
    rw [hcnt]; unfold closedFormCounter; rw [if_neg (by omega)]
  · intro hn
    rw [hcnt]; unfold closedFormCounter
    have := Nat.mod_lt (records.length - e.EventInfo.MaxLogsNumber - 1) hL
    split <;> omega

set_option maxRecDepth 1000000 in
/-- Instance of `log_position_closed_form`: 70 numbered records appended to the empty test
log (`M = 64`, `L = 32`) in the reference environment leave `Pointer = 16384 + 6 * 128` and
`Counter = 64 - 32 + (5 mod 32) + 1 = 38`. -/
theorem log_position_closed_form_witness :
    (EventManagerGetInfo (appendAll idealHooks (numberedRecords 128 70) testEngine
      (bootWorld 0)).2.1).Pointer = 16384 + 6 * 128 ∧
    (EventManagerGetInfo (appendAll idealHooks (numberedRecords 128 70) testEngine
      (bootWorld 0)).2.1).Counter = 38 :=
  ⟨(log_position_closed_form idealHooks (numberedRecords 128 70) testEngine (bootWorld 0)
      (by decide) rfl rfl (by decide)).1,
   (log_position_closed_form idealHooks (numberedRecords 128 70) testEngine (bootWorld 0)
      (by decide) rfl rfl (by decide)).2.2.1 (by decide)⟩

/-! ## Address of the oldest surviving record -/

/-- Address that `GetFlashPointer` uses for the oldest surviving record in the final-sector
regime, for a state of a sector-aligned geometry that satisfies the position invariant: the
start of the sector behind the one of `Pointer` when `Pointer` is inside a sector, `Pointer`
itself when it is on a sector boundary. -/
theorem GetFlashPointer_oldest {i : EventInfo_t} {f ns : Nat} (h : Coords i f ns)
    (hi : LogInv i) (hreg : i.Counter > i.MaxLogsNumber - i.LogsPerSector) :
    (i.Pointer % i.SectorSize ≠ 0 →
      i.Pointer - i.Pointer % i.SectorSize + i.SectorSize ≤ i.MaxPointer + 1 ∧
      GetFlashPointer i (i.Counter - 1)
        = if i.Pointer - i.Pointer % i.SectorSize + i.SectorSize = i.MaxPointer + 1
          then i.FirstPointer
          else i.Pointer - i.Pointer % i.SectorSize + i.SectorSize) ∧
    (i.Pointer % i.SectorSize = 0 → GetFlashPointer i (i.Counter - 1) = i.Pointer) := by
  have hb := LogInv.bounds h hi
  obtain ⟨j, hj, hp, _⟩ := hi
  have hLM := h.maxLogs_pos
  have hL := h.hL
  have hE := h.hE
  have hM32 := h.maxLogs_lt
  have hMax := h.hMax
  have h32 := h.h32
  have hoff := h.pointer_mod hp
  have hr := Nat.mod_lt j hL
  have hdm := Nat.div_add_mod j i.LogsPerSector
  -- the slot in sector coordinates
  have hq : j / i.LogsPerSector < ns := by
    apply Nat.div_lt_of_lt_mul
    rw [Nat.mul_comm, ← h.hM]; exact hj
  have hqS : (j / i.LogsPerSector + 1) * i.SectorSize ≤ ns * i.SectorSize :=
    Nat.mul_le_mul_right _ hq
  have hqS2 : (j / i.LogsPerSector + 1) * i.SectorSize
      = (j / i.LogsPerSector) * i.SectorSize + i.SectorSize := by ring
  have hnsS : ns * i.SectorSize = i.MaxLogsNumber * i.EventSize := by
    rw [h.hM, h.hS]; ring
  have hjE : j * i.EventSize
      = (j / i.LogsPerSector) * i.SectorSize + (j % i.LogsPerSector) * i.EventSize := by
    rw [h.hS]
    calc j * i.EventSize
        = (i.LogsPerSector * (j / i.LogsPerSector) + j % i.LogsPerSector) * i.EventSize := by
          rw [hdm]
      _ = _ := by ring
  have hrE : (j % i.LogsPerSector) * i.EventSize < i.SectorSize := by
    rw [h.hS]; exact Nat.mul_lt_mul_of_pos_right hr hE
  have hms : add32 i.MaxPointer 1 = i.MaxPointer + 1 := add32_eq h32
  have hsubML : sub32 i.MaxLogsNumber i.LogsPerSector = i.MaxLogsNumber - i.LogsPerSector :=
    sub32_eq hLM hM32
  have hcnt : sub32 (sub32 i.Counter (i.Counter - 1)) 1 = 0 := by
    have h1 : sub32 i.Counter (i.Counter - 1) = 1 := by
      rw [sub32_eq (Nat.sub_le _ _) (by omega)]; omega
    rw [h1]; rfl
  have hmul : mul32 0 i.EventSize = 0 := by
    unfold mul32; rw [Nat.zero_mul]
  have hadd : ∀ x, x < 4294967296 → add32 0 x = x := by
    intro x hx; unfold add32; rw [Nat.zero_add]; exact Nat.mod_eq_of_lt hx
  have hregc : i.Counter > sub32 i.MaxLogsNumber i.LogsPerSector := by rw [hsubML]; exact hreg
  constructor
  · intro hne
    have hle : i.Pointer - i.Pointer % i.SectorSize + i.SectorSize ≤ i.MaxPointer + 1 := by
      rw [hoff]; omega
    refine ⟨hle, ?_⟩
    have hp1 : add32 (sub32 i.Pointer (i.Pointer % i.SectorSize)) i.SectorSize
        = i.Pointer - i.Pointer % i.SectorSize + i.SectorSize := by
      rw [sub32_eq (Nat.mod_le _ _) (by omega)]
      exact add32_eq (by omega)
    unfold GetFlashPointer
    simp only [hms, hcnt, hmul, if_pos hregc, if_neg hne, hp1]
    by_cases hend : i.Pointer - i.Pointer % i.SectorSize + i.SectorSize = i.MaxPointer + 1
    · rw [if_pos hend, hadd _ (by omega)]
      exact if_neg (by omega)
    · rw [if_neg hend, hadd _ (by omega)]
      exact if_neg (by omega)
  · intro h0
    have hpm : ¬ (i.Pointer = i.MaxPointer + 1) := by omega
    unfold GetFlashPointer
    simp only [hms, hcnt, hmul, if_pos hregc, if_pos h0, if_neg hpm]
    rw [hadd _ (by omega)]
    exact if_neg (by omega)

set_option maxRecDepth 1000000 in
/-- C25 (counterexample). After 64 appends to the empty test log (`MaxLogsNumber = 64`,
`LogsPerSector = 32`, sectors of 4096 bytes, region `[16384, 24575]`) the log is in the
final-sector regime (`Counter = 64 > 32`) with `Pointer = 16384` on a sector boundary
(`sector_offset == 0`).  `GetFlashPointer(Counter - 1)` is `Pointer = 16384`, not
`Pointer - sector_offset + SectorSize = 20480` (which is not the end of the region); the
sector at `Pointer` has not been erased yet and `EventManagerRead(Counter - 1)` returns
the record numbered 0, the oldest one. -/
theorem first_surviving_record_on_boundary_counterexample :
    (testAfter 64).1.EventInfo.Counter = 64 ∧
    (testAfter 64).1.EventInfo.Counter
      > (testAfter 64).1.EventInfo.MaxLogsNumber - (testAfter 64).1.EventInfo.LogsPerSector ∧
    (testAfter 64).1.EventInfo.Pointer % (testAfter 64).1.EventInfo.SectorSize = 0 ∧
    GetFlashPointer (testAfter 64).1.EventInfo ((testAfter 64).1.EventInfo.Counter - 1) = 16384 ∧
    (testAfter 64).1.EventInfo.Pointer
      - (testAfter 64).1.EventInfo.Pointer % (testAfter 64).1.EventInfo.SectorSize
      + (testAfter 64).1.EventInfo.SectorSize = 20480 ∧
    20480 ≠ (testAfter 64).1.EventInfo.MaxPointer + 1 ∧
    GetFlashPointer (testAfter 64).1.EventInfo ((testAfter 64).1.EventInfo.Counter - 1)
      ≠ 20480 ∧
    (EventManagerRead idealHooks 63 128 (testAfter 64).1 (testAfter 64).2).1.ret
      = EVENT_RET_OK ∧
    (EventManagerRead idealHooks 63 128 (testAfter 64).1 (testAfter 64).2).2
      = some (numberedRecord 128 0) := by
  decide

/-- C25 (amended). First surviving record in the final-sector regime: for every state of a
valid geometry that satisfies the position invariant (as every reachable state does) with
`Counter > MaxLogsNumber - LogsPerSector`, the address `GetFlashPointer` uses for the oldest
surviving record (index `Counter - 1`) is `Pointer - sector_offset + SectorSize` with
`sector_offset = Pointer mod SectorSize`, replaced by `FirstPointer` when that value equals
the end of the region, when `sector_offset != 0`; when `sector_offset == 0` it is `Pointer`
itself. -/
theorem first_surviving_record_address (info : EventInfo_t) (hgeo : ValidGeometry info)
    (hinv : LogInv info) (hreg : info.Counter > info.MaxLogsNumber - info.LogsPerSector) :
    (info.Pointer % info.SectorSize ≠ 0 →
      GetFlashPointer info (info.Counter - 1)
        = if info.Pointer - info.Pointer % info.SectorSize + info.SectorSize
              = info.MaxPointer + 1
          then info.FirstPointer
          else info.Pointer - info.Pointer % info.SectorSize + info.SectorSize) ∧
    (info.Pointer % info.SectorSize = 0 →
      GetFlashPointer info (info.Counter - 1) = info.Pointer) := by
  obtain ⟨f, ns, hco⟩ := hgeo.coords
  exact ⟨fun hne => ((GetFlashPointer_oldest hco hinv hreg).1 hne).2,
    (GetFlashPointer_oldest hco hinv hreg).2⟩

/-- Instance of `first_surviving_record_address`: on the test log after 65 appends
(`Pointer = 16512`, `Counter = 33 > 64 - 32`, `sector_offset = 128`) the oldest surviving
record, index 32, is addressed at `16512 - 128 + 4096 = 20480`. -/
theorem first_surviving_record_address_witness :
    wrappedInfo.Pointer % wrappedInfo.SectorSize ≠ 0 ∧
    GetFlashPointer wrappedInfo (wrappedInfo.Counter - 1) = 20480 :=
  ⟨by decide,
   (first_surviving_record_address wrappedInfo (by decide)
      ⟨1, by decide, by decide, Or.inr (Or.inl (by decide))⟩ (by decide)).1 (by decide)⟩

/-! ## The queue of `src/FakeFreeRTOS` -/

/-- `xQueueSend` returns `true` whatever the state of the queue. -/
theorem xQueueSend_returns_true (q : Queue_t) (item : List Nat) (ticks : Nat) (m : Nat → Nat) :
    (xQueueSend q item ticks m).1 = true := by
  unfold xQueueSend
  split <;> rfl

/-- Sends into a queue whose read pointer is at the head and whose write pointer is `k`
items behind it: when the items sent fill the queue exactly, the write pointer wraps onto
the read pointer. -/
theorem sendAll_wraps (H n s : Nat) (hs : 1 ≤ s) :
    ∀ (items : List (List Nat)) (k : Nat) (q : Queue_t) (m : Nat → Nat),
      q.pcHead = H → q.pcTail = H + n * s → q.pcReadFrom = H → q.uxItemSize = s →
      q.pcWriteTo = H + k * s → k + items.length = n → 0 < items.length →
      (sendAll items q m).2.1.pcWriteTo = H ∧ (sendAll items q m).2.1.pcReadFrom = H := by
  intro items
  induction items with
  | nil => intro k q m _ _ _ _ _ _ h0; exact absurd h0 (by simp)
  | cons item rest ih =>
    intro k q m hH hT hR hS hW hlen _
    have hk : k < n := by rw [List.length_cons] at hlen; omega
    have hks : k * s < n * s := Nat.mul_lt_mul_of_pos_right hk (by omega)
    have hk1 : (k + 1) * s = k * s + s := by ring
    have hnotfull : xQueueIsQueueFull q = false := by
      unfold xQueueIsQueueFull
      rw [if_neg (by rw [hW, hT]; omega), if_neg (by rw [hR, hW]; push_cast; omega)]
    have hsend : (xQueueSend q item 0 m).2.1
        = { q with pcWriteTo := if q.pcWriteTo + q.uxItemSize ≥ q.pcTail then q.pcHead
                                else q.pcWriteTo + q.uxItemSize } := by
      unfold xQueueSend
      rw [if_pos hnotfull]
    show (sendAll rest (xQueueSend q item 0 m).2.1 (xQueueSend q item 0 m).2.2).2.1.pcWriteTo = H ∧
      (sendAll rest (xQueueSend q item 0 m).2.1 (xQueueSend q item 0 m).2.2).2.1.pcReadFrom = H
    rw [hsend]
    rcases rest with _ | ⟨item2, rest2⟩
    · have hkn : k + 1 = n := by simpa using hlen
      have hks1 : (k + 1) * s = n * s := by rw [hkn]
      have hwrap : q.pcWriteTo + q.uxItemSize ≥ q.pcTail := by rw [hW, hS, hT]; omega
      show (if q.pcWriteTo + q.uxItemSize ≥ q.pcTail then q.pcHead
        else q.pcWriteTo + q.uxItemSize) = H ∧ q.pcReadFrom = H
      rw [if_pos hwrap]
      exact ⟨hH, hR⟩
    · have hkn : k + 1 < n := by simp only [List.length_cons] at hlen; omega
      have hks1 : (k + 1) * s < n * s := Nat.mul_lt_mul_of_pos_right hkn (by omega)
      have hnowrap : ¬ (q.pcWriteTo + q.uxItemSize ≥ q.pcTail) := by rw [hW, hS, hT]; omega
      refine ih (k + 1) _ _ ?_ ?_ ?_ ?_ ?_ ?_ ?_
      · exact hH
      · exact hT
      · exact hR
      · exact hS
      · show (if q.pcWriteTo + q.uxItemSize ≥ q.pcTail then q.pcHead
          else q.pcWriteTo + q.uxItemSize) = H + (k + 1) * s
        rw [if_neg hnowrap, hW, hS]; omega
      · simp only [List.length_cons] at hlen ⊢; omega
      · simp

/-- For every capacity `n >= 1` and item size `s >= 1` (with `n * s < 2^32`): after `n`
items have been sent to the queue that `xQueueCreate(n, s)` returns and none received, the
write pointer is back on the read pointer, so `xQueueReceive` returns 0 (the queue looks
empty) and `xQueueIsQueueFull` is false. -/
theorem full_queue_looks_empty (addr n s : Nat) (hn : 1 ≤ n) (hs : 1 ≤ s)
    (h32 : n * s < 4294967296) (items : List (List Nat)) (hlen : items.length = n)
    (q : Queue_t) (hq : xQueueCreate (fun _ => some addr) n s = some q) (m : Nat → Nat) :
    (xQueueReceive (sendAll items q m).2.1 0 (sendAll items q m).2.2).1 = none ∧
    xQueueIsQueueFull (sendAll items q m).2.1 = false := by
  have hq' : q = { pcHead := addr + sizeofQueue_t, pcWriteTo := addr + sizeofQueue_t
                   pcTail := addr + sizeofQueue_t + n * s
                   pcReadFrom := addr + sizeofQueue_t
                   uxLength := n, uxItemSize := s, ucStaticallyAllocated := 0 } := by
    unfold xQueueCreate xQueueReset at hq
    simp only [Option.some.injEq] at hq
    rw [← hq]
    unfold mul32
    rw [Nat.mod_eq_of_lt h32]
  have hw := sendAll_wraps (addr + sizeofQueue_t) n s hs items 0 q m
    (by rw [hq']) (by rw [hq']) (by rw [hq']) (by rw [hq']) (by rw [hq']; simp)
    (by omega) (by omega)
  have htail : (sendAll items q m).2.1.pcTail = addr + sizeofQueue_t + n * s := by
    have : ∀ (items : List (List Nat)) (q : Queue_t) (m : Nat → Nat),
        (sendAll items q m).2.1.pcTail = q.pcTail := by
      intro items
      induction items with
      | nil => intro q m; rfl
      | cons item rest ih =>
        intro q m
        show (sendAll rest (xQueueSend q item 0 m).2.1 (xQueueSend q item 0 m).2.2).2.1.pcTail
          = q.pcTail
        rw [ih]
        unfold xQueueSend
        split <;> rfl
    rw [this, hq']
  have hns : 0 < n * s := Nat.mul_pos (by omega) (by omega)
  constructor
  · unfold xQueueReceive
    rw [if_neg (by rw [hw.1, hw.2]; simp)]
  · unfold xQueueIsQueueFull
    rw [if_neg (by rw [hw.1, htail]; omega), if_neg (by rw [hw.1, hw.2]; simp)]

set_option maxRecDepth 1000000 in
/-- C22 (code defect, evaluated). `xQueueSend` of `src/FakeFreeRTOS/queue.c` never returns
false and a queue filled to its capacity looks empty.  Queue created by `xQueueCreate(2, 4)`:
the sends of the items `[1,1,1,1]` and `[2,2,2,2]` return true and leave the write pointer
on the read pointer, so `xQueueIsQueueFull` is false and `xQueueReceive` returns 0 although
two items are stored; a third `xQueueSend`, of `[3,3,3,3]`, returns true and overwrites the
first item: the only item `xQueueReceive` then returns is `[3,3,3,3]`.  Through the engine,
with the queue of the test configuration (`xQueueCreate(5, 128)`): six
`EventManagerWriteBack` calls in a row all return `EVENT_RET_OK`; after the first five
`xQueuePeek` finds no item, after the sixth it finds record 5 only. -/
theorem fake_queue_send_never_fails :
    smallQueue.uxLength = 2 ∧ smallQueue.uxItemSize = 4 ∧
    (sendAll [[1, 1, 1, 1], [2, 2, 2, 2]] smallQueue (fun _ => 0)).1 = [true, true] ∧
    xQueueIsQueueFull (sendAll [[1, 1, 1, 1], [2, 2, 2, 2]] smallQueue (fun _ => 0)).2.1
      = false ∧
    (xQueueReceive (sendAll [[1, 1, 1, 1], [2, 2, 2, 2]] smallQueue (fun _ => 0)).2.1 0
      (sendAll [[1, 1, 1, 1], [2, 2, 2, 2]] smallQueue (fun _ => 0)).2.2).1 = none ∧
    (sendAll [[1, 1, 1, 1], [2, 2, 2, 2], [3, 3, 3, 3]] smallQueue (fun _ => 0)).1
      = [true, true, true] ∧
    (xQueueReceive
      (sendAll [[1, 1, 1, 1], [2, 2, 2, 2], [3, 3, 3, 3]] smallQueue (fun _ => 0)).2.1 0
      (sendAll [[1, 1, 1, 1], [2, 2, 2, 2], [3, 3, 3, 3]] smallQueue (fun _ => 0)).2.2).1
      = some [3, 3, 3, 3] ∧
    (xQueueReceive
      (xQueueReceive
        (sendAll [[1, 1, 1, 1], [2, 2, 2, 2], [3, 3, 3, 3]] smallQueue (fun _ => 0)).2.1 0
        (sendAll [[1, 1, 1, 1], [2, 2, 2, 2], [3, 3, 3, 3]] smallQueue (fun _ => 0)).2.2).2 0
      (sendAll [[1, 1, 1, 1], [2, 2, 2, 2], [3, 3, 3, 3]] smallQueue (fun _ => 0)).2.2).1
      = none ∧
    (writeBackAll fakeHooks fakeEngine (numberedRecords 128 5) fakeWorld).1
      = [EVENT_RET_OK, EVENT_RET_OK, EVENT_RET_OK, EVENT_RET_OK, EVENT_RET_OK] ∧
    (fakeHooks.xQueuePeek 10
      (writeBackAll fakeHooks fakeEngine (numberedRecords 128 5) fakeWorld).2).1 = none ∧
    (writeBackAll fakeHooks fakeEngine (numberedRecords 128 6) fakeWorld).1
      = [EVENT_RET_OK, EVENT_RET_OK, EVENT_RET_OK, EVENT_RET_OK, EVENT_RET_OK, EVENT_RET_OK] ∧
    (fakeHooks.xQueueReceive 10
      (writeBackAll fakeHooks fakeEngine (numberedRecords 128 6) fakeWorld).2).1
      = some (numberedRecord 128 5) ∧
    (fakeHooks.xQueuePeek 10
      (fakeHooks.xQueueReceive 10
        (writeBackAll fakeHooks fakeEngine (numberedRecords 128 6) fakeWorld).2).2).1
      = none := by
  decide

/-! ## Calendar round trip (`src/calendar/calendar.c`) -/

theorem cal_leapyear_le_one (year : Nat) : cal_leapyear year = 0 ∨ cal_leapyear year = 1 := by
  unfold cal_leapyear
  split
  · exact Or.inr rfl
  · exact Or.inl rfl

/-- The year loop of `cal_decode` ends within the bound, and the year loop of `cal_encode`
adds back exactly the seconds it took off. -/
theorem cal_years_roundtrip :
    ∀ (fuel time year : Nat), time / 31536000 < fuel → year + time / 31536000 < 65536 →
      ∃ time1 year1, cal_decode_years fuel time year = some (time1, year1) ∧
        year ≤ year1 ∧ year1 < 65536 ∧ time1 ≤ time ∧
        time1 < (if cal_leapyear year1 ≠ 0 then TIME_SECONDS_IN_LEAP_YEAR
                 else TIME_SECONDS_IN_NORMAL_YEAR) ∧
        ∀ acc fuelE, acc + time < 4294967296 → year1 - year < fuelE →
          cal_encode_years year1 fuelE year acc = some (acc + (time - time1)) := by
  intro fuel
  induction fuel with
  | zero => intro time year h; exact absurd h (by omega)
  | succ fuel ih =>
    intro time year hf hy
    by_cases hge : time ≥ (if cal_leapyear year ≠ 0 then TIME_SECONDS_IN_LEAP_YEAR
        else TIME_SECONDS_IN_NORMAL_YEAR)
    · -- one more year is taken off
      have hys : (if cal_leapyear year ≠ 0 then TIME_SECONDS_IN_LEAP_YEAR
          else TIME_SECONDS_IN_NORMAL_YEAR) = 31536000 ∨
          (if cal_leapyear year ≠ 0 then TIME_SECONDS_IN_LEAP_YEAR
          else TIME_SECONDS_IN_NORMAL_YEAR) = 31622400 := by
        split
        · exact Or.inr rfl
        · exact Or.inl rfl
      have hdec : cal_decode_years (fuel + 1) time year
          = cal_decode_years fuel
              (time - (if cal_leapyear year ≠ 0 then TIME_SECONDS_IN_LEAP_YEAR
                else TIME_SECONDS_IN_NORMAL_YEAR)) (year + 1) := by
        have hy1 : (year + 1) % 65536 = year + 1 := Nat.mod_eq_of_lt (by omega)
        rw [cal_decode_years, if_pos hge, hy1]
        split <;> rfl
      obtain ⟨time1, year1, h1, h2, h3, h4, h5, h6⟩ := ih
        (time - (if cal_leapyear year ≠ 0 then TIME_SECONDS_IN_LEAP_YEAR
          else TIME_SECONDS_IN_NORMAL_YEAR)) (year + 1)
        (by rcases hys with h | h <;> rw [h] at hge ⊢ <;> omega)
        (by rcases hys with h | h <;> rw [h] at hge ⊢ <;> omega)
      refine ⟨time1, year1, by rw [hdec, h1], by omega, h3, by omega, h5, ?_⟩
      intro acc fuelE hacc hfe
      obtain ⟨f, rfl⟩ : ∃ f, fuelE = f + 1 := ⟨fuelE - 1, by omega⟩
      have hlt : year < year1 := by omega
      have hi1 : add32 year 1 = year + 1 := by
        unfold add32; exact Nat.mod_eq_of_lt (by omega)
      have hym : year % 65536 = year := Nat.mod_eq_of_lt (by omega)
      have hadd : add32 acc (if cal_leapyear year ≠ 0 then TIME_SECONDS_IN_LEAP_YEAR
          else TIME_SECONDS_IN_NORMAL_YEAR)
          = acc + (if cal_leapyear year ≠ 0 then TIME_SECONDS_IN_LEAP_YEAR
          else TIME_SECONDS_IN_NORMAL_YEAR) := by
        unfold add32; exact Nat.mod_eq_of_lt (by omega)
      rw [cal_encode_years, if_pos hlt, hi1, hym, hadd,
        h6 _ f (by omega) (by omega)]
      congr 1
      omega
    · -- the loop stops here
      refine ⟨time, year, by rw [cal_decode_years, if_neg hge], le_refl _, by omega, le_refl _,
        by omega, ?_⟩
      intro acc fuelE _ hfe
      obtain ⟨f, rfl⟩ : ∃ f, fuelE = f + 1 := ⟨fuelE - 1, by omega⟩
      rw [cal_encode_years, if_neg (by omega), Nat.sub_self, Nat.add_zero]

theorem gregorian_getD_le (i : Nat) : gregorian_days_in_month.getD i 0 ≤ 31 := by
  by_cases h : i < 12
  · interval_cases i <;> decide
  · rw [List.getD_eq_default _ _ (by unfold gregorian_days_in_month; simp; omega)]
    omega

/-- The month loop of `cal_decode` from month index `i` on, and the month loop of
`cal_encode` over the same months. -/
theorem cal_months_step (year : Nat) :
    ∀ (left i time : Nat), i + left = 12 →
      (cal_decode_months year left i time (i + 1)).2.2
        = (cal_decode_months year left i time (i + 1)).1 + 1 ∧
      i ≤ (cal_decode_months year left i time (i + 1)).1 ∧
      (cal_decode_months year left i time (i + 1)).1 ≤ 12 ∧
      (cal_decode_months year left i time (i + 1)).2.1 ≤ time ∧
      ((cal_decode_months year left i time (i + 1)).1 < 12 →
        (cal_decode_months year left i time (i + 1)).2.1
          < (gregorian_days_in_month.getD (cal_decode_months year left i time (i + 1)).1 0
            + (if cal_leapyear year ≠ 0
                  ∧ (cal_decode_months year left i time (i + 1)).1 + 1 = 2 then 1 else 0))
            * 86400) ∧
      ∀ acc fuelE, acc + time < 4294967296 →
        (cal_decode_months year left i time (i + 1)).1 - i < fuelE →
        cal_encode_months year ((cal_decode_months year left i time (i + 1)).1 + 1) fuelE
            (i + 1) acc
          = some (acc + (time - (cal_decode_months year left i time (i + 1)).2.1)) := by
  intro left
  induction left with
  | zero =>
    intro i time hi
    have h12 : i = 12 := by omega
    subst h12
    refine ⟨rfl, le_refl _, le_refl _, le_refl _, fun h => absurd h (Nat.lt_irrefl 12), ?_⟩
    intro acc fuelE _ hfe
    obtain ⟨f, rfl⟩ : ∃ f, fuelE = f + 1 := ⟨fuelE - 1, by omega⟩
    show cal_encode_months year 13 (f + 1) 13 acc = some (acc + (time - time))
    rw [cal_encode_months, if_neg (by omega), Nat.sub_self, Nat.add_zero]
  | succ left ih =>
    intro i time hi
    have hg := gregorian_getD_le i
    have hmul : mul32 (gregorian_days_in_month.getD i 0
          + (if cal_leapyear year ≠ 0 ∧ i + 1 = 2 then 1 else 0)) TIME_SECONDS_IN_DAY
        = (gregorian_days_in_month.getD i 0
          + (if cal_leapyear year ≠ 0 ∧ i + 1 = 2 then 1 else 0)) * 86400 := by
      unfold mul32 TIME_SECONDS_IN_DAY
      apply Nat.mod_eq_of_lt
      split <;> omega
    by_cases hge : time ≥ (gregorian_days_in_month.getD i 0
          + (if cal_leapyear year ≠ 0 ∧ i + 1 = 2 then 1 else 0)) * 86400
    · have hm : (i + 1 + 1) % 65536 = i + 1 + 1 := Nat.mod_eq_of_lt (by omega)
      have hdec : cal_decode_months year (left + 1) i time (i + 1)
          = cal_decode_months year left (i + 1)
              (time - (gregorian_days_in_month.getD i 0
                + (if cal_leapyear year ≠ 0 ∧ i + 1 = 2 then 1 else 0)) * 86400)
              (i + 1 + 1) := by
        rw [cal_decode_months]
        simp only [hmul, if_pos hge, hm]
      rw [hdec]
      obtain ⟨h1, h2, h3, h4, h5, h6⟩ := ih (i + 1)
        (time - (gregorian_days_in_month.getD i 0
          + (if cal_leapyear year ≠ 0 ∧ i + 1 = 2 then 1 else 0)) * 86400) (by omega)
      refine ⟨h1, by omega, h3, by omega, h5, ?_⟩
      intro acc fuelE hacc hfe
      obtain ⟨f, rfl⟩ : ∃ f, fuelE = f + 1 := ⟨fuelE - 1, by omega⟩
      have hi1 : add32 (i + 1) 1 = i + 1 + 1 := by
        unfold add32; exact Nat.mod_eq_of_lt (by omega)
      have hstep : (let t := add32 acc (mul32 TIME_SECONDS_IN_DAY
            (gregorian_days_in_month.getD (i + 1 - 1) 0))
          if i + 1 = 2 ∧ cal_leapyear year ≠ 0 then add32 t TIME_SECONDS_IN_DAY else t)
          = acc + (gregorian_days_in_month.getD i 0
            + (if cal_leapyear year ≠ 0 ∧ i + 1 = 2 then 1 else 0)) * 86400 := by
        simp only [Nat.add_sub_cancel]
        unfold mul32 add32 TIME_SECONDS_IN_DAY
        by_cases hc : cal_leapyear year ≠ 0 ∧ i + 1 = 2
        · rw [if_pos hc] at hge ⊢
          rw [if_pos ⟨hc.2, hc.1⟩]
          omega
        · rw [if_neg hc] at hge ⊢
          rw [if_neg (fun hh => hc ⟨hh.2, hh.1⟩)]
          omega
      rw [cal_encode_months, if_pos (by omega), hi1, hstep, h6 _ f (by omega) (by omega)]
      congr 1
      omega
    · have hdec : cal_decode_months year (left + 1) i time (i + 1) = (i, time, i + 1) := by
        rw [cal_decode_months]
        simp only [hmul, if_neg hge]
      rw [hdec]
      refine ⟨rfl, le_refl _, by show i ≤ 12; omega, le_refl _,
        fun _ => Nat.lt_of_not_le hge, ?_⟩
      intro acc fuelE _ hfe
      obtain ⟨f, rfl⟩ : ∃ f, fuelE = f + 1 := ⟨fuelE - 1, by omega⟩
      show cal_encode_months year (i + 1) (f + 1) (i + 1) acc = some (acc + (time - time))
      rw [cal_encode_months, if_neg (by omega), Nat.sub_self, Nat.add_zero]

/-- The seconds of the twelve months add up to the seconds of the year. -/
theorem cal_encode_months_year (year : Nat) :
    cal_encode_months year 13 13 1 0
      = some (if cal_leapyear year ≠ 0 then TIME_SECONDS_IN_LEAP_YEAR
              else TIME_SECONDS_IN_NORMAL_YEAR) := by
  by_cases hl : cal_leapyear year ≠ 0
  · rw [if_pos hl]
    simp [cal_encode_months, gregorian_days_in_month, hl, mul32, add32, TIME_SECONDS_IN_DAY,
      TIME_SECONDS_IN_LEAP_YEAR]
  · rw [if_neg hl]
    simp [cal_encode_months, gregorian_days_in_month, hl, mul32, add32, TIME_SECONDS_IN_DAY,
      TIME_SECONDS_IN_NORMAL_YEAR]

/-- The month loop of `cal_decode` stops before the twelfth month has been taken off when the
time is less than the year, and the month loop of `cal_encode` adds back exactly the seconds
it took off. -/
theorem cal_months_roundtrip (year time : Nat) (h32 : time < 4294967296)
    (ht : time < (if cal_leapyear year ≠ 0 then TIME_SECONDS_IN_LEAP_YEAR
                  else TIME_SECONDS_IN_NORMAL_YEAR)) :
    (cal_decode_months year 12 0 time 1).1 < 12 ∧
    (cal_decode_months year 12 0 time 1).2.2 = (cal_decode_months year 12 0 time 1).1 + 1 ∧
    (cal_decode_months year 12 0 time 1).2.1 ≤ time ∧
    (cal_decode_months year 12 0 time 1).2.1
      < (gregorian_days_in_month.getD (cal_decode_months year 12 0 time 1).1 0
          + (if cal_leapyear year ≠ 0 ∧ (cal_decode_months year 12 0 time 1).1 + 1 = 2 then 1
             else 0)) * 86400 ∧
    ∀ acc, acc + time < 4294967296 →
      cal_encode_months year ((cal_decode_months year 12 0 time 1).1 + 1)
          ((cal_decode_months year 12 0 time 1).1 + 1) 1 acc
        = some (acc + (time - (cal_decode_months year 12 0 time 1).2.1)) := by
  have hstep := cal_months_step year 12 0 time rfl
  simp only [Nat.zero_add, Nat.sub_zero] at hstep
  obtain ⟨h1, _, h3, h4, h5, h6⟩ := hstep
  have hlt : (cal_decode_months year 12 0 time 1).1 < 12 := by
    by_contra hne
    have h12 : (cal_decode_months year 12 0 time 1).1 = 12 := by omega
    have h := h6 0 13 (by omega) (by omega)
    rw [h12, cal_encode_months_year year] at h
    have := Option.some.inj h
    omega
  refine ⟨hlt, h1, h4, h5 hlt, ?_⟩
  intro acc hacc
  exact h6 acc _ hacc (by omega)

/-- `cal_decode` once the result of its two loops is known. -/
theorem cal_decode_eq (t time1 year1 : Nat) (r : Nat × Nat × Nat)
    (hy : cal_decode_years (t / 31536000 + 1) t 2000 = some (time1, year1))
    (hr : cal_decode_months year1 12 0 time1 1 = r)
    (h12 : r.1 ≠ 12) (hsane : ¬ (r.2.1 / 86400 > gregorian_days_in_month.getD r.1 0)) :
    cal_decode t = some (0,
      { seconds := (r.2.1 % 60) % 65536
        minutes := ((r.2.1 % 3600) / 60) % 65536
        hours := ((r.2.1 % 86400) / 3600) % 65536
        day := (1 + r.2.1 / 86400) % 65536
        month := r.2.2, year := year1, weekday := 0 }) := by
  unfold cal_decode
  have hfuel : t / TIME_SECONDS_IN_NORMAL_YEAR + 1 = t / 31536000 + 1 := rfl
  rw [hfuel, hy]
  simp only
  rw [hr]
  unfold TIME_SECONDS_IN_DAY
  rw [if_neg h12, if_neg hsane]

/-- `cal_encode` once the result of its two loops is known. -/
theorem cal_encode_eq (x : calendar_struct) (t1 t2 : Nat)
    (hv1 : ¬ (x.year < 2000)) (hv2 : ¬ (x.month < 1 ∨ x.month > 12)) (hv3 : ¬ (x.day < 1))
    (hv4 : ¬ (x.day > (if x.month = 2
      then gregorian_days_in_month.getD (x.month - 1) 0 + cal_leapyear x.year
      else gregorian_days_in_month.getD (x.month - 1) 0)))
    (hy : cal_encode_years x.year (x.year - 2000 + 1) 2000 0 = some t1)
    (hm : cal_encode_months x.year x.month x.month 1 t1 = some t2) :
    cal_encode x = some (0,
      add32 (add32 (add32 (add32 t2 (mul32 86400 (x.day - 1)))
        (mul32 x.hours 3600)) (mul32 x.minutes 60)) x.seconds) := by
  unfold cal_encode
  rw [if_neg hv1, if_neg hv2, if_neg hv3, if_neg hv4, hy]
  simp only
  rw [hm]
  rfl

theorem hms_split (x : Nat) :
    x = 86400 * (x / 86400) + 3600 * (x % 86400 / 3600) + 60 * (x % 3600 / 60) + x % 60 ∧
    x % 86400 / 3600 < 24 ∧ x % 3600 / 60 < 60 ∧ x % 60 < 60 := by
  have f2 : x % 86400 % 3600 = x % 3600 := Nat.mod_mod_of_dvd x (by norm_num)
  have f3 : x % 3600 % 60 = x % 60 := Nat.mod_mod_of_dvd x (by norm_num)
  have f4 := Nat.div_add_mod x 86400
  have f5 := Nat.div_add_mod (x % 86400) 3600
  have f6 := Nat.div_add_mod (x % 3600) 60
  have b1 := Nat.mod_lt x (show 0 < 86400 by norm_num)
  have b2 := Nat.mod_lt x (show 0 < 3600 by norm_num)
  have b3 := Nat.mod_lt x (show 0 < 60 by norm_num)
  rw [f2] at f5
  rw [f3] at f6
  have b4 : x % 86400 / 3600 < 24 := Nat.div_lt_of_lt_mul (by omega)
  have b5 : x % 3600 / 60 < 60 := Nat.div_lt_of_lt_mul (by omega)
  refine ⟨?_, b4, b5, b3⟩
  generalize x / 86400 = a at *
  generalize x % 86400 / 3600 = b at *
  generalize x % 3600 / 60 = c at *
  generalize x % 86400 = r1 at *
  generalize x % 3600 = r2 at *
  generalize x % 60 = r3 at *
  omega

/-- The last four additions of `cal_encode` give back the seconds that the day, the hours,
the minutes and the seconds of `cal_decode` were computed from; nothing wraps. -/
theorem cal_seconds_sum (t time1 time2 : Nat) (ht : t < 4294967296) (h1 : time1 ≤ t)
    (h2 : time2 ≤ time1) :
    add32 (add32 (add32 (add32 (t - time1 + (time1 - time2))
        (mul32 86400 (1 + time2 / 86400 - 1)))
        (mul32 (time2 % 86400 / 3600 % 65536) 3600))
        (mul32 (time2 % 3600 / 60 % 65536) 60)) (time2 % 60 % 65536) = t := by
  obtain ⟨hsum, hb, hc, he⟩ := hms_split time2
  unfold add32 mul32
  generalize time2 / 86400 = a at *
  generalize time2 % 86400 / 3600 = b at *
  generalize time2 % 3600 / 60 = c at *
  generalize time2 % 60 = e at *
  have ha : 1 + a - 1 = a := by omega
  rw [ha, Nat.mod_eq_of_lt (show b < 65536 by omega), Nat.mod_eq_of_lt (show c < 65536 by omega),
    Nat.mod_eq_of_lt (show e < 65536 by omega)]
  rw [Nat.mod_eq_of_lt (show 86400 * a < 4294967296 by omega),
    Nat.mod_eq_of_lt (show b * 3600 < 4294967296 by omega),
    Nat.mod_eq_of_lt (show c * 60 < 4294967296 by omega)]
  rw [Nat.mod_eq_of_lt (show t - time1 + (time1 - time2) + 86400 * a < 4294967296 by omega)]
  rw [Nat.mod_eq_of_lt (show t - time1 + (time1 - time2) + 86400 * a + b * 3600
    < 4294967296 by omega)]
  rw [Nat.mod_eq_of_lt (show t - time1 + (time1 - time2) + 86400 * a + b * 3600 + c * 60
    < 4294967296 by omega)]
  rw [Nat.mod_eq_of_lt (by omega)]
  omega

/-- C23. Calendar round trip: for every 32-bit number of seconds `t`, `cal_decode(t, &x)`
returns 0 and `cal_encode(&u, &x)` on the decoded calendar returns 0 with `u == t`. -/
theorem calendar_round_trip (t : Nat) (ht : t < 4294967296) :
    ∃ x, cal_decode t = some (0, x) ∧ cal_encode x = some (0, t) := by
  obtain ⟨time1, year1, hdy, hy1, hy2, ht1, hlt1, henc⟩ :=
    cal_years_roundtrip (t / 31536000 + 1) t 2000 (by omega) (by omega)
  obtain ⟨hm1, hm2, hm3, hm4, hm5⟩ := cal_months_roundtrip year1 time1 (by omega) hlt1
  obtain ⟨r, hr⟩ : ∃ r, cal_decode_months year1 12 0 time1 1 = r := ⟨_, rfl⟩
  rw [hr] at hm1 hm2 hm3 hm4 hm5
  obtain ⟨i, time2, month⟩ := r
  simp only at hm1 hm2 hm3 hm4 hm5
  subst hm2
  have hg := gregorian_getD_le i
  have hleap := cal_leapyear_le_one year1
  have hday : time2 / 86400
      < gregorian_days_in_month.getD i 0
        + (if cal_leapyear year1 ≠ 0 ∧ i + 1 = 2 then 1 else 0) :=
    Nat.div_lt_of_lt_mul (by rw [Nat.mul_comm]; exact hm4)
  have hadj : (if cal_leapyear year1 ≠ 0 ∧ i + 1 = 2 then 1 else 0) ≤ 1 := by
    split <;> omega
  have hsane : ¬ (time2 / 86400 > gregorian_days_in_month.getD i 0) := by omega
  have hdec := cal_decode_eq t time1 year1 (i, time2, i + 1) hdy hr (by simp only; omega) hsane
  simp only at hdec
  have hdayv : (1 + time2 / 86400) % 65536 = 1 + time2 / 86400 :=
    Nat.mod_eq_of_lt (by omega)
  rw [hdayv] at hdec
  refine ⟨_, hdec, ?_⟩
  have hv4 : ¬ (1 + time2 / 86400
      > (if i + 1 = 2 then gregorian_days_in_month.getD (i + 1 - 1) 0 + cal_leapyear year1
         else gregorian_days_in_month.getD (i + 1 - 1) 0)) := by
    rw [Nat.add_sub_cancel]
    by_cases h2 : i + 1 = 2
    · rw [if_pos h2]
      rcases hleap with h0 | h0
      · rw [h0] at hday ⊢
        rw [if_neg (by simp)] at hday
        omega
      · rw [h0] at hday ⊢
        rw [if_pos ⟨by decide, h2⟩] at hday
        omega
    · rw [if_neg h2]
      rw [if_neg (fun hh => h2 hh.2)] at hday
      omega
  have hyears := henc 0 (year1 - 2000 + 1) (by omega) (by omega)
  rw [Nat.zero_add] at hyears
  have hmonths := hm5 (t - time1) (by omega)
  rw [cal_encode_eq _ (t - time1) (t - time1 + (time1 - time2)) (by simp only; omega)
    (by simp only; omega) (by simp only; omega) hv4 hyears hmonths]
  simp only
  rw [cal_seconds_sum t time1 time2 ht ht1 hm3]

/-- Instance of `calendar_round_trip` at the value of `TestCalEncodeDecode`: 604518380
seconds are 2019-02-26 17:46:20. -/
theorem calendar_round_trip_witness :
    604518380 < 4294967296 ∧
    ∃ x, cal_decode 604518380 = some (0, x) ∧ cal_encode x = some (0, 604518380) :=
  ⟨by decide, calendar_round_trip 604518380 (by decide)⟩

/-- The values asserted by `TestCalEncodeDecode` (TestCalendar.c, lines 87-95). -/
theorem cal_decode_test_value :
    cal_decode 604518380
      = some (0, { seconds := 20, minutes := 46, hours := 17, day := 26, month := 2
                   year := 2019, weekday := 0 }) ∧
    cal_encode { seconds := 20, minutes := 46, hours := 17, day := 26, month := 2
                 year := 2019, weekday := 0 } = some (0, 604518380) := by
  decide

/-! ## Order of the items of a sliding window (`src/SlidingWindow/SlidingWindow.c`) -/

theorem slotAddr_succ (first : Int) (s i : Nat) :
    slotAddr first s (i + 1) = slotAddr first s i + (s : Int) := by
  unfold slotAddr
  have : (i + 1) * s = i * s + s := by ring
  rw [this]
  push_cast
  ring

theorem slotAddr_lt (first : Int) (s i j : Nat) (h : i < j) :
    slotAddr first s i + (s : Int) ≤ slotAddr first s j := by
  unfold slotAddr
  have h1 : (i + 1) * s ≤ j * s := Nat.mul_le_mul_right _ h
  have h2 : (i + 1) * s = i * s + s := by ring
  have h3 : ((i * s + s : Nat) : Int) ≤ ((j * s : Nat) : Int) := by
    rw [← h2]; exact_mod_cast h1
  push_cast at h3 ⊢
  omega

/-- A copy into one slot is read back from that slot and leaves the other slots alone. -/
theorem memcpyAt_slot (first : Int) (s i j b : Nat) (x : List Nat) (m : Int → Nat)
    (hb : b < s) :
    memcpyAt (slotAddr first s i) x s m (slotAddr first s j + (b : Int))
      = if i = j then x.getD b 0 else m (slotAddr first s j + (b : Int)) := by
  unfold memcpyAt
  by_cases hij : i = j
  · subst hij
    rw [if_pos rfl, if_pos (by constructor <;> omega)]
    congr 1
    omega
  · rw [if_neg hij]
    rcases Nat.lt_or_gt_of_ne hij with h | h
    · have := slotAddr_lt first s i j h
      rw [if_neg (by omega)]
    · have := slotAddr_lt first s j i h
      rw [if_neg (by omega)]

theorem mod_ne_of_lt_add {k l w : Nat} (h1 : k < l) (h2 : l < k + w) : k % w ≠ l % w := by
  intro h
  have hd : w ∣ l - k := (Nat.modEq_iff_dvd' (Nat.le_of_lt h1)).mp h
  have := Nat.le_of_dvd (by omega) hd
  omega

/-- `SlidingWindowAppend` keeps `WindowHolds`, with the item added to the list. -/
theorem SlidingWindowAppend_holds (first : Int) (w s : Nat) (hw : 0 < w) (hs : 0 < s)
    (xs : List (List Nat)) (c : SlidingWindowCtrl_t) (m : Int → Nat)
    (h : WindowHolds first w s xs c m) (x : List Nat) :
    ∃ c1, SlidingWindowAppend (some c) x m
        = (SlidingWindowRet_et.SLIDING_WINDOW_OK, some c1,
            (SlidingWindowAppend (some c) x m).2.2) ∧
      WindowHolds first w s (xs ++ [x]) c1 (SlidingWindowAppend (some c) x m).2.2 := by
  obtain ⟨hF, hL, hS, hN, hM⟩ := h
  have hi := Nat.mod_lt xs.length hw
  have hsm := succ_mod_eq xs.length w hw
  refine ⟨_, rfl, hF, hL, hS, ?_, ?_⟩
  · -- the next item
    show (if c.next_item + (c.item_size : Int) > c.last_item then c.first_item
      else c.next_item + (c.item_size : Int)) = slotAddr first s ((xs ++ [x]).length % w)
    rw [List.length_append, List.length_singleton, hsm, hN, hS, hL, hF, ← slotAddr_succ]
    by_cases hwrap : xs.length % w + 1 = w
    · rw [if_pos hwrap]
      have : xs.length % w + 1 = (w - 1) + 1 := by omega
      rw [this, slotAddr_succ]
      rw [if_pos (by omega)]
      unfold slotAddr
      simp
    · rw [if_neg hwrap]
      have := slotAddr_lt first s (xs.length % w) (w - 1) (by omega)
      rw [slotAddr_succ] at *
      rw [if_neg (by omega)]
  · intro k hk hkw b hb
    show memcpyAt c.next_item x c.item_size m (slotAddr first s (k % w) + (b : Int)) = _
    rw [List.length_append, List.length_singleton] at hk hkw
    rw [hN, hS, memcpyAt_slot first s _ _ b x m hb]
    by_cases hkl : k = xs.length
    · subst hkl
      rw [if_pos rfl]
      congr 1
      rw [List.getD_eq_getElem?_getD, List.getElem?_append_right (le_refl _)]
      simp
    · have hlt : k < xs.length := by omega
      rw [if_neg (fun hh => mod_ne_of_lt_add hlt (by omega) hh.symm)]
      rw [hM k hlt (by omega) b hb]
      congr 1
      rw [List.getD_eq_getElem?_getD, List.getD_eq_getElem?_getD,
        List.getElem?_append_left hlt]

/-- `slidingAppendAll` keeps `WindowHolds` and every call returns `SLIDING_WINDOW_OK`. -/
theorem slidingAppendAll_holds (first : Int) (w s : Nat) (hw : 0 < w) (hs : 0 < s) :
    ∀ (items xs : List (List Nat)) (c : SlidingWindowCtrl_t) (m : Int → Nat),
      WindowHolds first w s xs c m →
      (∀ r ∈ (slidingAppendAll items (some c) m).1,
        r = SlidingWindowRet_et.SLIDING_WINDOW_OK) ∧
      ∃ c1, (slidingAppendAll items (some c) m).2.1 = some c1 ∧
        WindowHolds first w s (xs ++ items) c1 (slidingAppendAll items (some c) m).2.2 := by
  intro items
  induction items with
  | nil =>
    intro xs c m h
    refine ⟨fun r hr => absurd hr (List.not_mem_nil r), c, rfl, ?_⟩
    rw [List.append_nil]
    exact h
  | cons x rest ih =>
    intro xs c m h
    obtain ⟨c1, hc1, hh⟩ := SlidingWindowAppend_holds first w s hw hs xs c m h x
    have hret : (SlidingWindowAppend (some c) x m).1
        = SlidingWindowRet_et.SLIDING_WINDOW_OK := by rw [hc1]
    have hwin : (SlidingWindowAppend (some c) x m).2.1 = some c1 := by rw [hc1]
    obtain ⟨hok, c2, hc2, hh2⟩ := ih (xs ++ [x]) c1 _ hh
    have hunf : slidingAppendAll (x :: rest) (some c) m
        = ((SlidingWindowAppend (some c) x m).1
            :: (slidingAppendAll rest (some c1) (SlidingWindowAppend (some c) x m).2.2).1,
           (slidingAppendAll rest (some c1) (SlidingWindowAppend (some c) x m).2.2).2) := by
      rw [slidingAppendAll, hwin]
    rw [hunf]
    refine ⟨?_, c2, hc2, ?_⟩
    · intro r hr
      rcases List.mem_cons.mp hr with h1 | h1
      · rw [h1, hret]
      · exact hok r h1
    · rw [List.append_assoc, List.singleton_append] at hh2
      exact hh2

theorem pred_mod_eq (x w : Nat) (hw : 0 < w) (hx : 0 < x) :
    (x - 1) % w = if x % w = 0 then w - 1 else x % w - 1 := by
  have hsm := succ_mod_eq (x - 1) w hw
  have hx1 : x - 1 + 1 = x := by omega
  rw [hx1] at hsm
  have := Nat.mod_lt (x - 1) hw
  by_cases h : (x - 1) % w + 1 = w
  · rw [if_pos h] at hsm
    rw [if_pos hsm]; omega
  · rw [if_neg h] at hsm
    rw [if_neg (by omega)]; omega

/-- The loop of `SlidingWindowGetLastItems` from iteration `j0` on writes the items from the
newest but `j0` backwards and leaves what it wrote before. -/
theorem SlidingWindowGetLastItemsLoop_spec (first : Int) (w s : Nat) (hw : 0 < w) (hs : 0 < s)
    (xs : List (List Nat)) (c : SlidingWindowCtrl_t) (m : Int → Nat)
    (h : WindowHolds first w s xs c m) (hlen : w ≤ xs.length) :
    ∀ (n j0 : Nat) (prev : Int) (out : Nat → Nat), j0 + n ≤ w →
      prev = slotAddr first s ((xs.length - j0) % w) - (s : Int) →
      (∀ j, j0 ≤ j → j < j0 + n → ∀ b, b < s →
        SlidingWindowGetLastItemsLoop c m n prev (j0 * s) out (j * s + b)
          = (xs.getD (xs.length - 1 - j) []).getD b 0) ∧
      (∀ a, a < j0 * s → SlidingWindowGetLastItemsLoop c m n prev (j0 * s) out a = out a) := by
  obtain ⟨hF, hL, hS, hN, hM⟩ := h
  intro n
  induction n with
  | zero =>
    intro j0 prev out _ _
    exact ⟨fun j h1 h2 => absurd h2 (by omega), fun a _ => rfl⟩
  | succ n ih =>
    intro j0 prev out hj hprev
    have hpm := pred_mod_eq (xs.length - j0) w hw (by omega)
    have hsub : xs.length - j0 - 1 = xs.length - (j0 + 1) := by omega
    have hi := Nat.mod_lt (xs.length - j0) hw
    -- the item read in this iteration
    have hp : (if prev < c.first_item then c.last_item else prev)
        = slotAddr first s ((xs.length - (j0 + 1)) % w) := by
      rw [hprev, hF, hL, ← hsub, hpm]
      by_cases h0 : (xs.length - j0) % w = 0
      · rw [if_pos h0, h0]
        rw [if_pos (by unfold slotAddr; simp; omega)]
      · rw [if_neg h0]
        have h1 : (xs.length - j0) % w = ((xs.length - j0) % w - 1) + 1 := by omega
        have h2 := slotAddr_succ first s ((xs.length - j0) % w - 1)
        rw [← h1] at h2
        have h3 : first ≤ slotAddr first s ((xs.length - j0) % w - 1) := by
          unfold slotAddr; omega
        rw [if_neg (by omega)]
        omega
    have hstep : SlidingWindowGetLastItemsLoop c m (n + 1) prev (j0 * s) out
        = SlidingWindowGetLastItemsLoop c m n
            (slotAddr first s ((xs.length - (j0 + 1)) % w) - (s : Int)) ((j0 + 1) * s)
            (fun a => if j0 * s ≤ a ∧ a < j0 * s + s
              then m (slotAddr first s ((xs.length - (j0 + 1)) % w)
                + ((a - j0 * s : Nat) : Int))
              else out a) := by
      rw [SlidingWindowGetLastItemsLoop]
      simp only [hp, hS]
      have : (j0 + 1) * s = j0 * s + s := by ring
      rw [this]
    rw [hstep]
    obtain ⟨ih1, ih2⟩ := ih (j0 + 1) _ _ (by omega) rfl
    have hj0s : (j0 + 1) * s = j0 * s + s := by ring
    constructor
    · intro j hj1 hj2 b hb
      by_cases hjj : j = j0
      · subst hjj
        rw [ih2 (j * s + b) (by omega)]
        have hcnd : j * s ≤ j * s + b ∧ j * s + b < j * s + s := ⟨by omega, by omega⟩
        rw [if_pos hcnd]
        have hb' : j * s + b - j * s = b := by omega
        rw [hb']
        have hk : (xs.length - (j + 1)) = xs.length - 1 - j := by omega
        rw [hk]
        exact hM (xs.length - 1 - j) (by omega) (by omega) b hb
      · exact ih1 j (by omega) (by omega) b hb
    · intro a ha
      rw [ih2 a (by omega)]
      have hcnd : ¬ (j0 * s ≤ a ∧ a < j0 * s + s) := by omega
      rw [if_neg hcnd]

theorem SlidingWindowCreateFill_last (item_size : Nat) (default_value : Option (List Nat)) :
    ∀ (n : Nat) (last_item : Int) (m : Int → Nat),
      (SlidingWindowCreateFill item_size default_value (n + 1) last_item m).1
        = slotAddr last_item item_size n := by
  intro n
  induction n with
  | zero =>
    intro last_item m
    unfold slotAddr
    simp [SlidingWindowCreateFill]
  | succ n ih =>
    intro last_item m
    unfold SlidingWindowCreateFill
    rw [if_pos (Nat.succ_ne_zero n), ih]
    unfold slotAddr
    have : (n + 1) * item_size = n * item_size + item_size := by ring
    rw [this]
    push_cast
    ring

/-- What `SlidingWindowCreate` returns with `SLIDING_WINDOW_OK`: an empty window. -/
theorem SlidingWindowCreate_ok (SlidingWindowMalloc : Nat → Option Int)
    (window0 : Option SlidingWindowCtrl_t) (item_size w : Nat)
    (default_value : Option (List Nat)) (m0 : Int → Nat)
    (h : (SlidingWindowCreate SlidingWindowMalloc window0 item_size w default_value m0).1
      = SlidingWindowRet_et.SLIDING_WINDOW_OK) :
    0 < item_size ∧ 0 < w ∧
    ∃ c, (SlidingWindowCreate SlidingWindowMalloc window0 item_size w default_value m0).2.1
        = some c ∧
      WindowHolds c.first_item w item_size [] c
        (SlidingWindowCreate SlidingWindowMalloc window0 item_size w default_value m0).2.2 := by
  unfold SlidingWindowCreate at h ⊢
  by_cases h1 : window0 ≠ none
  · rw [if_pos h1] at h; exact absurd h (by simp)
  · rw [if_neg h1] at h ⊢
    by_cases h2 : item_size = 0 ∨ w = 0
    · rw [if_pos h2] at h; exact absurd h (by simp)
    · rw [if_neg h2] at h ⊢
      rcases hma : SlidingWindowMalloc
          (add32 sizeofSlidingWindowCtrl_t (mul32 item_size w)) with _ | new_window
      · rw [hma] at h; exact absurd h (by simp)
      · refine ⟨by omega, by omega, _, rfl, rfl, ?_, rfl, ?_, ?_⟩
        · obtain ⟨n, rfl⟩ : ∃ n, w = n + 1 := ⟨w - 1, by omega⟩
          show (SlidingWindowCreateFill item_size default_value (n + 1) _ m0).1 = _
          rw [SlidingWindowCreateFill_last]
          rfl
        · show _ = slotAddr _ item_size (0 % w)
          unfold slotAddr
          simp
        · intro k hk
          exact absurd hk (by simp)

theorem map_getD_range (l : List Nat) :
    (List.range l.length).map (fun b => l.getD b 0) = l := by
  apply List.ext_getElem
  · simp
  · intro i h1 h2
    simp only [List.getElem_map, List.getElem_range]
    rw [List.getD_eq_getElem?_getD, List.getElem?_eq_getElem h2]
    rfl

/-- C24. Sliding window order: for every window created by `SlidingWindowCreate` with `w`
items (the call returned `SLIDING_WINDOW_OK`, so `w >= 1`), every sequence of `m >= w` items
of `item_size` bytes appended with `SlidingWindowAppend`, and every `n <= w`: the appends
return `SLIDING_WINDOW_OK`, `SlidingWindowGetLastItems(window, n, out)` returns
`SLIDING_WINDOW_OK`, and for every `j < n` the item `out[j]` is the `(m-1-j)`-th appended
item. -/
theorem sliding_window_order (SlidingWindowMalloc : Nat → Option Int) (item_size w : Nat)
    (default_value : Option (List Nat)) (m0 : Int → Nat) (items : List (List Nat))
    (n : Nat) (out : Nat → Nat)
    (hcreate : (SlidingWindowCreate SlidingWindowMalloc none item_size w default_value m0).1
      = SlidingWindowRet_et.SLIDING_WINDOW_OK)
    (hsize : ∀ item ∈ items, item.length = item_size)
    (hm : w ≤ items.length) (hn : n ≤ w) :
    (∀ r ∈ (slidingAppendAll items
        (SlidingWindowCreate SlidingWindowMalloc none item_size w default_value m0).2.1
        (SlidingWindowCreate SlidingWindowMalloc none item_size w default_value m0).2.2).1,
      r = SlidingWindowRet_et.SLIDING_WINDOW_OK) ∧
    (SlidingWindowGetLastItems
      (slidingAppendAll items
        (SlidingWindowCreate SlidingWindowMalloc none item_size w default_value m0).2.1
        (SlidingWindowCreate SlidingWindowMalloc none item_size w default_value m0).2.2).2.1
      n out
      (slidingAppendAll items
        (SlidingWindowCreate SlidingWindowMalloc none item_size w default_value m0).2.1
        (SlidingWindowCreate SlidingWindowMalloc none item_size w default_value m0).2.2).2.2).1
      = SlidingWindowRet_et.SLIDING_WINDOW_OK ∧
    ∀ j, j < n →
      itemAt item_size
        (SlidingWindowGetLastItems
          (slidingAppendAll items
            (SlidingWindowCreate SlidingWindowMalloc none item_size w default_value m0).2.1
            (SlidingWindowCreate SlidingWindowMalloc none item_size w default_value
              m0).2.2).2.1
          n out
          (slidingAppendAll items
            (SlidingWindowCreate SlidingWindowMalloc none item_size w default_value m0).2.1
            (SlidingWindowCreate SlidingWindowMalloc none item_size w default_value
              m0).2.2).2.2).2 j
        = items.getD (items.length - 1 - j) [] := by
  obtain ⟨hs, hw, c, hc, hh⟩ := SlidingWindowCreate_ok _ _ _ _ _ _ hcreate
  rw [hc]
  obtain ⟨hok, c1, hc1, hh1⟩ := slidingAppendAll_holds c.first_item w item_size hw hs items []
    c _ hh
  rw [List.nil_append] at hh1
  rw [hc1]
  refine ⟨hok, rfl, ?_⟩
  intro j hj
  have hspec := (SlidingWindowGetLastItemsLoop_spec c.first_item w item_size hw hs items c1 _
    hh1 hm n 0 (c1.next_item - (c1.item_size : Int)) out (by omega)
    (by rw [hh1.2.2.2.1, hh1.2.2.1, Nat.sub_zero])).1 j (Nat.zero_le _) (by omega)
  rw [Nat.zero_mul] at hspec
  have hitem : (items.getD (items.length - 1 - j) []).length = item_size := by
    have hidx : items.length - 1 - j < items.length := by omega
    rw [List.getD_eq_getElem?_getD, List.getElem?_eq_getElem hidx]
    exact hsize _ (List.getElem_mem _)
  show itemAt item_size (SlidingWindowGetLastItemsLoop c1 _ n
    (c1.next_item - (c1.item_size : Int)) 0 out) j = _
  unfold itemAt
  conv_rhs => rw [← map_getD_range (items.getD (items.length - 1 - j) []), hitem]
  apply List.map_congr_left
  intro b hb
  exact hspec b (List.mem_range.mp hb)

/-- Instance of `sliding_window_order`: a window of 3 items of 4 bytes, the five numbered
items 0 .. 4 appended; the first item `SlidingWindowGetLastItems(window, 3, out)` writes is
item 4. -/
theorem sliding_window_order_witness :
    itemAt 4
      (SlidingWindowGetLastItems
        (slidingAppendAll (numberedRecords 4 5)
          (SlidingWindowCreate (fun _ => some 1000) none 4 3 none (fun _ => 9)).2.1
          (SlidingWindowCreate (fun _ => some 1000) none 4 3 none (fun _ => 9)).2.2).2.1
        3 (fun _ => 77)
        (slidingAppendAll (numberedRecords 4 5)
          (SlidingWindowCreate (fun _ => some 1000) none 4 3 none (fun _ => 9)).2.1
          (SlidingWindowCreate (fun _ => some 1000) none 4 3 none (fun _ => 9)).2.2).2.2).2 0
      = numberedRecord 4 4 :=
  (sliding_window_order (fun _ => some 1000) 4 3 none (fun _ => 9) (numberedRecords 4 5) 3
    (fun _ => 77) (by decide) (by decide) (by decide) (by decide)).2.2 0 (by decide)

/-- The three items of the instance, evaluated: newest first. -/
theorem sliding_window_order_evaluated :
    (List.range 3).map (itemAt 4
      (SlidingWindowGetLastItems
        (slidingAppendAll (numberedRecords 4 5)
          (SlidingWindowCreate (fun _ => some 1000) none 4 3 none (fun _ => 9)).2.1
          (SlidingWindowCreate (fun _ => some 1000) none 4 3 none (fun _ => 9)).2.2).2.1
        3 (fun _ => 77)
        (slidingAppendAll (numberedRecords 4 5)
          (SlidingWindowCreate (fun _ => some 1000) none 4 3 none (fun _ => 9)).2.1
          (SlidingWindowCreate (fun _ => some 1000) none 4 3 none (fun _ => 9)).2.2).2.2).2)
      = [numberedRecord 4 4, numberedRecord 4 3, numberedRecord 4 2] := by
  decide

/-! ## The accumulator of the fast mean window (`src/SlidingWindow/FastMeanWindow.c`) -/

/-- C30 (code defect, evaluated). `FastMeanWindowCreate` sets the accumulator to 0 whatever
the default value is, while `SlidingWindowCreate` fills the window with the default value.
Window of four items created with the default value 5: the call returns
`FAST_MEAN_WINDOW_OK`, the items stored add up to 20, but `FastMeanWindowGetAverage` divides
the accumulator 0 by 4.  After `FastMeanWindowAppend(win, 7)` the accumulator is 2 and the
items add up to 22.  `FastMeanWindowReset` zeroes both.  With a NULL default value the
accumulator and the sum agree: both are 0 after the creation and -7 after
`FastMeanWindowAppend(win, -7)`. -/
theorem fast_mean_accumulator_ignores_default :
    meanOfFives.1 = FastMeanWindowRet_et.FAST_MEAN_WINDOW_OK ∧
    FastMeanWindowSum meanOfFives.2.1 meanOfFives.2.2 = 20 ∧
    FastMeanWindowGetAverage meanOfFives.2.1
      = (FastMeanWindowRet_et.FAST_MEAN_WINDOW_OK, some (0, 4)) ∧
    (FastMeanWindowAppend meanOfFives.2.1 7 meanOfFives.2.2).1
      = FastMeanWindowRet_et.FAST_MEAN_WINDOW_OK ∧
    FastMeanWindowGetAverage (FastMeanWindowAppend meanOfFives.2.1 7 meanOfFives.2.2).2.1
      = (FastMeanWindowRet_et.FAST_MEAN_WINDOW_OK, some (2, 4)) ∧
    FastMeanWindowSum (FastMeanWindowAppend meanOfFives.2.1 7 meanOfFives.2.2).2.1
      (FastMeanWindowAppend meanOfFives.2.1 7 meanOfFives.2.2).2.2 = 22 ∧
    (FastMeanWindowReset meanOfFives.2.1 meanOfFives.2.2).map
        (fun r => (r.1, FastMeanWindowGetAverage r.2.1, FastMeanWindowSum r.2.1 r.2.2))
      = some (FastMeanWindowRet_et.FAST_MEAN_WINDOW_OK,
          (FastMeanWindowRet_et.FAST_MEAN_WINDOW_OK, some (0, 4)), 0) ∧
    meanOfZeros.1 = FastMeanWindowRet_et.FAST_MEAN_WINDOW_OK ∧
    FastMeanWindowSum meanOfZeros.2.1 meanOfZeros.2.2 = 0 ∧
    FastMeanWindowGetAverage meanOfZeros.2.1
      = (FastMeanWindowRet_et.FAST_MEAN_WINDOW_OK, some (0, 4)) ∧
    FastMeanWindowGetAverage (FastMeanWindowAppend meanOfZeros.2.1 (-7) meanOfZeros.2.2).2.1
      = (FastMeanWindowRet_et.FAST_MEAN_WINDOW_OK, some (-7, 4)) ∧
    FastMeanWindowSum (FastMeanWindowAppend meanOfZeros.2.1 (-7) meanOfZeros.2.2).2.1
      (FastMeanWindowAppend meanOfZeros.2.1 (-7) meanOfZeros.2.2).2.2 = -7 := by
  refine ⟨by decide, by decide, by decide, by decide, by decide, by decide, by decide,
    by decide, by decide, by decide, by decide, by decide⟩

/-! ## The calendar loops end within their bounds -/

theorem cal_decode_years_some :
    ∀ (fuel time year : Nat), time / 31536000 < fuel →
      ∃ r, cal_decode_years fuel time year = some r := by
  intro fuel
  induction fuel with
  | zero => intro time year h; exact absurd h (by omega)
  | succ fuel ih =>
    intro time year hf
    rw [cal_decode_years]
    by_cases hl : cal_leapyear year ≠ 0
    · simp only [if_pos hl]
      by_cases hge : time ≥ TIME_SECONDS_IN_LEAP_YEAR
      · rw [if_pos hge]
        unfold TIME_SECONDS_IN_LEAP_YEAR at hge ⊢
        exact ih _ _ (by omega)
      · rw [if_neg hge]
        exact ⟨_, rfl⟩
    · simp only [if_neg hl]
      by_cases hge : time ≥ TIME_SECONDS_IN_NORMAL_YEAR
      · rw [if_pos hge]
        unfold TIME_SECONDS_IN_NORMAL_YEAR at hge ⊢
        exact ih _ _ (by omega)
      · rw [if_neg hge]
        exact ⟨_, rfl⟩

/-- `cal_decode` returns for every argument: the bound given to its year loop is enough. -/
theorem cal_decode_returns (time_in : Nat) : ∃ r, cal_decode time_in = some r := by
  obtain ⟨⟨time1, year⟩, hr⟩ := cal_decode_years_some
    (time_in / TIME_SECONDS_IN_NORMAL_YEAR + 1) time_in 2000
    (by unfold TIME_SECONDS_IN_NORMAL_YEAR; omega)
  unfold cal_decode
  rw [hr]
  simp only
  split_ifs <;> exact ⟨_, rfl⟩

theorem cal_encode_years_some (year : Nat) (hy : year < 4294967296) :
    ∀ (fuel i time_out : Nat), year - i < fuel →
      ∃ r, cal_encode_years year fuel i time_out = some r := by
  intro fuel
  induction fuel with
  | zero => intro i time_out h; exact absurd h (by omega)
  | succ fuel ih =>
    intro i time_out hf
    rw [cal_encode_years]
    by_cases hlt : i < year
    · rw [if_pos hlt]
      have hi1 : add32 i 1 = i + 1 := by
        unfold add32; exact Nat.mod_eq_of_lt (by omega)
      rw [hi1]
      exact ih _ _ (by omega)
    · rw [if_neg hlt]
      exact ⟨_, rfl⟩

theorem cal_encode_months_some (year month : Nat) (hm : month < 4294967296) :
    ∀ (fuel i time_out : Nat), month - i < fuel →
      ∃ r, cal_encode_months year month fuel i time_out = some r := by
  intro fuel
  induction fuel with
  | zero => intro i time_out h; exact absurd h (by omega)
  | succ fuel ih =>
    intro i time_out hf
    rw [cal_encode_months]
    by_cases hlt : i < month
    · rw [if_pos hlt]
      have hi1 : add32 i 1 = i + 1 := by
        unfold add32; exact Nat.mod_eq_of_lt (by omega)
      rw [hi1]
      exact ih _ _ (by omega)
    · rw [if_neg hlt]
      exact ⟨_, rfl⟩

/-- `cal_encode` returns for every calendar whose year is a `uint16_t`: the bounds given to
its loops are enough. -/
theorem cal_encode_returns (x : calendar_struct) (hy : x.year < 65536) :
    ∃ r, cal_encode x = some r := by
  unfold cal_encode
  by_cases h1 : x.year < 2000
  · rw [if_pos h1]; exact ⟨_, rfl⟩
  · rw [if_neg h1]
    by_cases h2 : x.month < 1 ∨ x.month > 12
    · rw [if_pos h2]; exact ⟨_, rfl⟩
    · rw [if_neg h2]
      by_cases h3 : x.day < 1
      · rw [if_pos h3]; exact ⟨_, rfl⟩
      · rw [if_neg h3]
        by_cases h4 : x.day > (if x.month = 2
            then gregorian_days_in_month.getD (x.month - 1) 0 + cal_leapyear x.year
            else gregorian_days_in_month.getD (x.month - 1) 0)
        · rw [if_pos h4]; exact ⟨_, rfl⟩
        · rw [if_neg h4]
          obtain ⟨t1, ht1⟩ := cal_encode_years_some x.year (by omega) (x.year - 2000 + 1)
            2000 0 (by omega)
          obtain ⟨t2, ht2⟩ := cal_encode_months_some x.year x.month (by omega) x.month 1 t1
            (by omega)
          rw [ht1]
          simp only
          rw [ht2]
          exact ⟨_, rfl⟩

/-! ## The accumulator of a fast mean window created with a NULL default value -/

theorem int32_roundtrip (v : Int) (h1 : -2147483648 ≤ v) (h2 : v < 2147483648) :
    int32OfBytes (int32Bytes v) = v := by
  unfold int32OfBytes int32Bytes
  simp only [List.getD_cons_zero, List.getD_cons_succ]
  have hu : (v % 4294967296).toNat < 4294967296 := by omega
  have hsum : (v % 4294967296).toNat % 256 + 256 * ((v % 4294967296).toNat / 256 % 256)
      + 65536 * ((v % 4294967296).toNat / 65536 % 256)
      + 16777216 * ((v % 4294967296).toNat / 16777216 % 256) = (v % 4294967296).toNat := by
    omega
  rw [hsum]
  split <;> omega

theorem bytesAt_four (p : Int) (m : Int → Nat) :
    bytesAt p 4 m = [m p, m (p + 1), m (p + 2), m (p + 3)] := by
  unfold bytesAt
  simp [List.range_succ]

theorem sum_bounds (l : List Int) (h : ∀ v ∈ l, -2147483648 ≤ v ∧ v < 2147483648) :
    -(2147483648 * (l.length : Int)) ≤ l.sum ∧ l.sum ≤ 2147483647 * (l.length : Int) := by
  induction l with
  | nil => simp
  | cons a l ih =>
    have ha := h a (List.mem_cons_self _ _)
    have hl := ih (fun v hv => h v (List.mem_cons_of_mem _ hv))
    simp only [List.sum_cons, List.length_cons]
    push_cast
    omega

theorem sum_set_int (l : List Int) :
    ∀ (p : Nat) (v : Int), p < l.length → (l.set p v).sum = l.sum - l.getD p 0 + v := by
  induction l with
  | nil => intro p v h; exact absurd h (by simp)
  | cons a l ih =>
    intro p v h
    rcases p with _ | p
    · simp only [List.set_cons_zero, List.sum_cons, List.getD_cons_zero]
      omega
    · simp only [List.set_cons_succ, List.sum_cons, List.getD_cons_succ]
      rw [ih p v (by simpa using h)]
      omega

theorem map_getD_range_int (l : List Int) :
    (List.range l.length).map (fun k => l.getD k 0) = l := by
  apply List.ext_getElem
  · simp
  · intro i h1 h2
    simp only [List.getElem_map, List.getElem_range]
    rw [List.getD_eq_getElem?_getD, List.getElem?_eq_getElem h2]
    rfl

theorem slotAddr_winSize (first : Int) (w : Nat) (hw : 0 < w) :
    (slotAddr first 4 (w - 1) - first).toNat / 4 + 1 = w := by
  unfold slotAddr
  have : first + (((w - 1) * 4 : Nat) : Int) - first = (((w - 1) * 4 : Nat) : Int) := by omega
  rw [this, Int.toNat_ofNat, Nat.mul_div_cancel _ (by decide : 0 < 4)]
  omega

/-- In a state described by `MeanHolds` the accumulator that `FastMeanWindowGetAverage`
divides by the window size is the exact sum of the items stored. -/
theorem MeanHolds.accumulator_eq_sum {first : Int} {w : Nat} {vals : List Int}
    {tw : FastMeanWinCtl_st} {m : Int → Nat} (h : MeanHolds first w vals tw m) :
    FastMeanWindowGetAverage (some tw)
      = (FastMeanWindowRet_et.FAST_MEAN_WINDOW_OK, some (tw.accumm, w)) ∧
    FastMeanWindowSum (some tw) m = tw.accumm := by
  obtain ⟨c, p, hwin, hF, hL, hS, hp, hN, hlen, hr, hM, hacc⟩ := h
  have hw : 0 < w := by omega
  have hsz : (SlidingWindowGetWinSize (some c)).2 = w := by
    show (c.last_item - c.first_item).toNat / c.item_size + 1 = w
    rw [hL, hF, hS]
    exact slotAddr_winSize first w hw
  constructor
  · unfold FastMeanWindowGetAverage
    simp only [hwin]
    rw [if_neg (by simp [SlidingWindowGetWinSize]), hsz]
  · unfold FastMeanWindowSum
    simp only [hwin]
    rw [hsz, hacc, hF, hS]
    conv_rhs => rw [← map_getD_range_int vals, hlen]
    congr 1
    apply List.map_congr_left
    intro k hk
    have hk' : k < w := List.mem_range.mp hk
    rw [hM k hk']
    have hv : -2147483648 ≤ vals.getD k 0 ∧ vals.getD k 0 < 2147483648 := by
      have hidx : k < vals.length := by omega
      rw [List.getD_eq_getElem?_getD, List.getElem?_eq_getElem hidx]
      exact hr _ (List.getElem_mem _)
    exact int32_roundtrip _ hv.1 hv.2

theorem wrap64_eq (x : Int) (h1 : -9223372036854775808 ≤ x) (h2 : x < 9223372036854775808) :
    wrap64 x = x := by
  unfold wrap64
  omega

/-- `FastMeanWindowAppend` keeps `MeanHolds`. -/
theorem FastMeanWindowAppend_holds (first : Int) (w : Nat) (hw32 : w < 4294967296)
    (vals : List Int) (tw : FastMeanWinCtl_st) (m : Int → Nat)
    (h : MeanHolds first w vals tw m) (new_data : Int)
    (h1 : -2147483648 ≤ new_data) (h2 : new_data < 2147483648) :
    (FastMeanWindowAppend (some tw) new_data m).1 = FastMeanWindowRet_et.FAST_MEAN_WINDOW_OK ∧
    ∃ vals1 tw1, (FastMeanWindowAppend (some tw) new_data m).2.1 = some tw1 ∧
      MeanHolds first w vals1 tw1 (FastMeanWindowAppend (some tw) new_data m).2.2 := by
  obtain ⟨c, p, hwin, hF, hL, hS, hp, hN, hlen, hr, hM, hacc⟩ := h
  have hold : int32OfBytes (bytesAt c.next_item c.item_size m) = vals.getD p 0 := by
    rw [hN, hS, hM p hp]
    have hidx : p < vals.length := by omega
    have hv : -2147483648 ≤ vals.getD p 0 ∧ vals.getD p 0 < 2147483648 := by
      rw [List.getD_eq_getElem?_getD, List.getElem?_eq_getElem hidx]
      exact hr _ (List.getElem_mem _)
    exact int32_roundtrip _ hv.1 hv.2
  have hset_range : ∀ v ∈ vals.set p new_data, -2147483648 ≤ v ∧ v < 2147483648 := by
    intro v hv
    rcases List.mem_or_eq_of_mem_set hv with h3 | h3
    · exact hr v h3
    · rw [h3]; exact ⟨h1, h2⟩
  have hsum := sum_set_int vals p new_data (by omega)
  have hb := sum_bounds (vals.set p new_data) hset_range
  rw [List.length_set, hlen] at hb
  have hwI : (w : Int) < 4294967296 := by exact_mod_cast hw32
  have hwpos : (0 : Int) < w := by exact_mod_cast (show 0 < w by omega)
  have hacc1 : wrap64 (wrap64 (tw.accumm - vals.getD p 0) + new_data)
      = (vals.set p new_data).sum := by
    rw [hsum, hacc]
    rw [wrap64_eq (vals.sum - vals.getD p 0) (by omega) (by omega)]
    exact wrap64_eq _ (by omega) (by omega)
  -- the next pointer
  have hsm := succ_mod_eq p w (by omega)
  have hpm : p % w = p := Nat.mod_eq_of_lt hp
  rw [hpm] at hsm
  unfold FastMeanWindowAppend
  simp only [hwin, SlidingWindowGetTail, SlidingWindowAppend, ne_eq, not_true_eq_false,
    if_false, Option.getD_some, hold, hacc1]
  refine ⟨trivial, vals.set p new_data, _, rfl, _, (p + 1) % w, rfl, hF, hL, hS,
    Nat.mod_lt _ (by omega), ?_, by rw [List.length_set, hlen], hset_range, ?_, rfl⟩
  · show (if c.next_item + (c.item_size : Int) > c.last_item then c.first_item
      else c.next_item + (c.item_size : Int)) = slotAddr first 4 ((p + 1) % w)
    rw [hsm, hN, hS, hL, hF, ← slotAddr_succ]
    by_cases hwrap : p + 1 = w
    · rw [if_pos hwrap]
      have : p + 1 = (w - 1) + 1 := by omega
      rw [this, slotAddr_succ]
      have hgt : slotAddr first 4 (w - 1) + ((4 : Nat) : Int) > slotAddr first 4 (w - 1) := by
        omega
      rw [if_pos hgt]
      unfold slotAddr
      simp
    · rw [if_neg hwrap]
      have := slotAddr_lt first 4 p (w - 1) (by omega)
      rw [slotAddr_succ] at *
      have hle : ¬ (slotAddr first 4 p + ((4 : Nat) : Int) > slotAddr first 4 (w - 1)) := by
        omega
      rw [if_neg hle]
  · intro k hk
    show bytesAt (slotAddr first 4 k) 4 (memcpyAt c.next_item (int32Bytes new_data)
      c.item_size m) = int32Bytes ((vals.set p new_data).getD k 0)
    rw [hN, hS, bytesAt_four]
    have e0 := memcpyAt_slot first 4 p k 0 (int32Bytes new_data) m (by decide)
    have e1 := memcpyAt_slot first 4 p k 1 (int32Bytes new_data) m (by decide)
    have e2 := memcpyAt_slot first 4 p k 2 (int32Bytes new_data) m (by decide)
    have e3 := memcpyAt_slot first 4 p k 3 (int32Bytes new_data) m (by decide)
    simp only [Nat.cast_zero, Int.add_zero, Nat.cast_one, Nat.cast_ofNat] at e0 e1 e2 e3
    rw [e0, e1, e2, e3]
    by_cases hpk : p = k
    · subst hpk
      simp only [if_true]
      have hget : (vals.set p new_data).getD p 0 = new_data := by
        rw [List.getD_eq_getElem?_getD, List.getElem?_set_self (by omega : p < vals.length)]
        rfl
      rw [hget]
      unfold int32Bytes
      rfl
    · simp only [if_neg hpk]
      have hold2 := hM k hk
      rw [bytesAt_four] at hold2
      rw [hold2]
      have hget : (vals.set p new_data).getD k 0 = vals.getD k 0 := by
        rw [List.getD_eq_getElem?_getD, List.getD_eq_getElem?_getD,
          List.getElem?_set_ne hpk]
      rw [hget]

/-- The loop of `SlidingWindowReset` on a window of items of 4 bytes ends within the bound
and zeroes the bytes from `curr_item` to the end of the last item. -/
theorem SlidingWindowResetLoop_zeroes (c : SlidingWindowCtrl_t) (hS : c.item_size = 4) :
    ∀ (n fuel : Nat) (curr : Int) (m : Int → Nat), curr + 4 * (n : Int) = c.last_item →
      n < fuel →
      ∃ m1, SlidingWindowResetLoop c fuel curr m = some m1 ∧
        ∀ a, m1 a = if curr ≤ a ∧ a < c.last_item + 4 then 0 else m a := by
  intro n
  induction n with
  | zero =>
    intro fuel curr m hc hf
    obtain ⟨f, rfl⟩ : ∃ f, fuel = f + 1 := ⟨fuel - 1, by omega⟩
    have hno : ¬ (curr + (c.item_size : Int) ≤ c.last_item) := by rw [hS]; omega
    refine ⟨_, by rw [SlidingWindowResetLoop, if_neg hno], ?_⟩
    intro a
    unfold memsetZeroAt
    rw [hS]
    by_cases h : curr ≤ a ∧ a < curr + ((4 : Nat) : Int)
    · rw [if_pos h, if_pos (by omega)]
    · rw [if_neg h, if_neg (by omega)]
  | succ n ih =>
    intro fuel curr m hc hf
    obtain ⟨f, rfl⟩ : ∃ f, fuel = f + 1 := ⟨fuel - 1, by omega⟩
    have hyes : curr + (c.item_size : Int) ≤ c.last_item := by rw [hS]; omega
    obtain ⟨m1, hm1, hz⟩ := ih f (curr + (c.item_size : Int))
      (memsetZeroAt curr c.item_size m) (by rw [hS]; omega) (by omega)
    refine ⟨m1, by rw [SlidingWindowResetLoop, if_pos hyes, hm1], ?_⟩
    intro a
    rw [hz a]
    unfold memsetZeroAt
    rw [hS]
    by_cases h1 : curr + ((4 : Nat) : Int) ≤ a ∧ a < c.last_item + 4
    · rw [if_pos h1, if_pos (by omega)]
    · rw [if_neg h1]
      by_cases h2 : curr ≤ a ∧ a < curr + ((4 : Nat) : Int)
      · rw [if_pos h2, if_pos (by omega)]
      · rw [if_neg h2, if_neg (by omega)]

theorem SlidingWindowCreateFill_one (start : Int) (m : Int → Nat) :
    SlidingWindowCreateFill 4 none 1 start m = (start, memsetZeroAt start 4 m) := rfl

theorem SlidingWindowCreateFill_step (n : Nat) (start : Int) (m : Int → Nat) :
    SlidingWindowCreateFill 4 none (n + 2) start m
      = SlidingWindowCreateFill 4 none (n + 1) (start + ((4 : Nat) : Int))
          (memsetZeroAt start 4 m) := rfl

/-- The filling loop of `SlidingWindowCreate` with a NULL default value zeroes the items. -/
theorem SlidingWindowCreateFill_zeroes :
    ∀ (n : Nat) (start : Int) (m : Int → Nat) (a : Int),
      (SlidingWindowCreateFill 4 none (n + 1) start m).2 a
        = if start ≤ a ∧ a < start + 4 * ((n : Int) + 1) then 0 else m a := by
  intro n
  induction n with
  | zero =>
    intro start m a
    rw [SlidingWindowCreateFill_one]
    show (if start ≤ a ∧ a < start + ((4 : Nat) : Int) then 0 else m a) = _
    by_cases h : start ≤ a ∧ a < start + ((4 : Nat) : Int)
    · rw [if_pos h, if_pos (by push_cast at h ⊢; omega)]
    · rw [if_neg h, if_neg (by push_cast at h ⊢; omega)]
  | succ n ih =>
    intro start m a
    rw [SlidingWindowCreateFill_step, ih]
    show (if start + ((4 : Nat) : Int) ≤ a ∧ a < start + ((4 : Nat) : Int) + 4 * ((n : Int) + 1)
      then 0 else (if start ≤ a ∧ a < start + ((4 : Nat) : Int) then 0 else m a)) = _
    by_cases h1 : start + ((4 : Nat) : Int) ≤ a
        ∧ a < start + ((4 : Nat) : Int) + 4 * ((n : Int) + 1)
    · rw [if_pos h1, if_pos (by push_cast at h1 ⊢; omega)]
    · rw [if_neg h1]
      by_cases h2 : start ≤ a ∧ a < start + ((4 : Nat) : Int)
      · rw [if_pos h2, if_pos (by push_cast at h2 ⊢; omega)]
      · rw [if_neg h2, if_neg (by push_cast at h1 h2 ⊢; omega)]

theorem slot_in_window (first : Int) (w k : Nat) (hk : k < w) :
    first ≤ slotAddr first 4 k ∧ slotAddr first 4 k + 4 ≤ slotAddr first 4 (w - 1) + 4 := by
  unfold slotAddr
  have : k * 4 ≤ (w - 1) * 4 := Nat.mul_le_mul_right _ (by omega)
  omega

theorem getD_replicate_zero (w k : Nat) : (List.replicate w (0 : Int)).getD k 0 = 0 := by
  rw [List.getD_eq_getElem?_getD]
  by_cases h : k < w
  · rw [List.getElem?_replicate_of_lt h]; rfl
  · rw [List.getElem?_eq_none (by simpa using h)]; rfl

/-- A window whose items are all zero bytes, with a zero accumulator, is in the state
`MeanHolds` for the values `0, ..., 0`. -/
theorem MeanHolds.of_zeroes (first : Int) (w p : Nat) (c : SlidingWindowCtrl_t)
    (m : Int → Nat) (tw : FastMeanWinCtl_st) (hwin : tw.window = some c)
    (hF : c.first_item = first) (hL : c.last_item = slotAddr first 4 (w - 1))
    (hS : c.item_size = 4) (hp : p < w) (hN : c.next_item = slotAddr first 4 p)
    (hz : ∀ a, first ≤ a → a < slotAddr first 4 (w - 1) + 4 → m a = 0)
    (hacc : tw.accumm = 0) :
    MeanHolds first w (List.replicate w 0) tw m := by
  refine ⟨c, p, hwin, hF, hL, hS, hp, hN, List.length_replicate _ _, ?_, ?_, ?_⟩
  · intro v hv
    rw [List.eq_of_mem_replicate hv]
    decide
  · intro k hk
    have hin := slot_in_window first w k hk
    rw [bytesAt_four, getD_replicate_zero, hz _ (by omega) (by omega),
      hz _ (by omega) (by omega), hz _ (by omega) (by omega), hz _ (by omega) (by omega)]
    rfl
  · rw [hacc]
    simp

/-- `FastMeanWindowReset` returns and keeps `MeanHolds`, with every value 0. -/
theorem FastMeanWindowReset_holds (first : Int) (w : Nat) (vals : List Int)
    (tw : FastMeanWinCtl_st) (m : Int → Nat) (h : MeanHolds first w vals tw m) :
    ∃ tw1 m1, FastMeanWindowReset (some tw) m
        = some (FastMeanWindowRet_et.FAST_MEAN_WINDOW_OK, some tw1, m1) ∧
      MeanHolds first w (List.replicate w 0) tw1 m1 := by
  obtain ⟨c, p, hwin, hF, hL, hS, hp, hN, hlen, hr, hM, hacc⟩ := h
  have hlast : c.first_item + 4 * ((w - 1 : Nat) : Int) = c.last_item := by
    rw [hL, hF]; unfold slotAddr; push_cast; omega
  have hfuel : w - 1 < (c.last_item - c.first_item).toNat + 1 := by
    rw [hL, hF]
    unfold slotAddr
    have : first + (((w - 1) * 4 : Nat) : Int) - first = (((w - 1) * 4 : Nat) : Int) := by
      omega
    rw [this, Int.toNat_ofNat]
    omega
  obtain ⟨m1, hm1, hz⟩ := SlidingWindowResetLoop_zeroes c hS (w - 1) _ c.first_item m hlast
    hfuel
  refine ⟨{ tw with accumm := 0 }, m1, ?_, ?_⟩
  · unfold FastMeanWindowReset SlidingWindowReset
    simp only [hwin, hm1, ne_eq, not_true_eq_false, if_false]
  · refine MeanHolds.of_zeroes first w p c m1 { tw with accumm := 0 } hwin hF hL hS hp hN
      ?_ rfl
    intro a ha1 ha2
    have hcnd : c.first_item ≤ a ∧ a < c.last_item + 4 := by
      rw [hF, hL]; exact ⟨ha1, ha2⟩
    rw [hz a, if_pos hcnd]

/-- `FastMeanWindowCreate` with a NULL default value leaves `MeanHolds` with every value 0. -/
theorem FastMeanWindowCreate_holds (SlidingWindowMalloc : Nat → Option Int) (w : Nat)
    (m0 : Int → Nat)
    (h : (FastMeanWindowCreate SlidingWindowMalloc none w none m0).1
      = FastMeanWindowRet_et.FAST_MEAN_WINDOW_OK) :
    ∃ first tw, (FastMeanWindowCreate SlidingWindowMalloc none w none m0).2.1 = some tw ∧
      MeanHolds first w (List.replicate w 0) tw
        (FastMeanWindowCreate SlidingWindowMalloc none w none m0).2.2 := by
  unfold FastMeanWindowCreate at h ⊢
  by_cases h1 : (none : Option FastMeanWinCtl_st) ≠ none ∨ w ≤ 0
  · rw [if_pos h1] at h; exact absurd h (by simp)
  · rw [if_neg h1] at h ⊢
    rcases hma : SlidingWindowMalloc sizeofFastMeanWinCtl_st with _ | addr
    · rw [hma] at h; exact absurd h (by simp)
    · rw [hma] at h
      simp only at h ⊢
      by_cases h2 : (SlidingWindowCreate SlidingWindowMalloc none 4 w none m0).1
          ≠ SlidingWindowRet_et.SLIDING_WINDOW_OK
      · rw [if_pos h2] at h; exact absurd h (by simp)
      · rw [if_neg h2]
        have hok : (SlidingWindowCreate SlidingWindowMalloc none 4 w none m0).1
            = SlidingWindowRet_et.SLIDING_WINDOW_OK := by
          by_contra hne; exact h2 hne
        obtain ⟨_, hw, c, hc, hF, hL, hS, hN, _⟩ := SlidingWindowCreate_ok _ _ _ _ _ _ hok
        refine ⟨c.first_item, _, rfl, ?_⟩
        refine MeanHolds.of_zeroes c.first_item w 0 c _
          { window := (SlidingWindowCreate SlidingWindowMalloc none 4 w none m0).2.1
            accumm := 0 } hc rfl hL hS hw
          (by rw [hN, List.length_nil, Nat.zero_mod]) ?_ rfl
        -- the memory after the filling loop
        intro a ha1 ha2
        have hmem : (SlidingWindowCreate SlidingWindowMalloc none 4 w none m0).2.2 a = 0 := by
          have hfirst : (SlidingWindowCreate SlidingWindowMalloc none 4 w none m0).2.1
              = some c := hc
          unfold SlidingWindowCreate at hfirst ⊢
          rw [if_neg (by simp), if_neg (by omega)] at hfirst ⊢
          rcases hmb : SlidingWindowMalloc
              (add32 sizeofSlidingWindowCtrl_t (mul32 4 w)) with _ | nw
          · rw [hmb] at hfirst; exact absurd hfirst (by simp)
          · rw [hmb] at hfirst
            simp only [Option.some.injEq] at hfirst ⊢
            have hcf : c.first_item = nw + (sizeofSlidingWindowCtrl_t : Int) := by
              rw [← hfirst]
            obtain ⟨n, rfl⟩ : ∃ n, w = n + 1 := ⟨w - 1, by omega⟩
            rw [SlidingWindowCreateFill_zeroes]
            rw [← hcf]
            have hend : slotAddr c.first_item 4 (n + 1 - 1) + 4
                = c.first_item + 4 * ((n : Int) + 1) := by
              unfold slotAddr
              rw [Nat.add_sub_cancel]
              push_cast
              omega
            rw [if_pos ⟨ha1, by omega⟩]
        exact hmem

/-- Every sequence of appends and resets keeps `MeanHolds`. -/
theorem applyMeanOps_holds (first : Int) (w : Nat) (hw32 : w < 4294967296) :
    ∀ (ops : List MeanOp) (vals : List Int) (tw : FastMeanWinCtl_st) (m : Int → Nat),
      MeanHolds first w vals tw m → (∀ op ∈ ops, op.InRange) →
      ∃ vals1 tw1, (applyMeanOps ops (some tw) m).1 = some tw1 ∧
        MeanHolds first w vals1 tw1 (applyMeanOps ops (some tw) m).2 := by
  intro ops
  induction ops with
  | nil => intro vals tw m h _; exact ⟨vals, tw, rfl, h⟩
  | cons op ops ih =>
    intro vals tw m h hr
    have hop := hr op (List.mem_cons_self _ _)
    have hrest : ∀ o ∈ ops, o.InRange := fun o ho => hr o (List.mem_cons_of_mem _ ho)
    rcases op with new_data | _
    · obtain ⟨_, vals1, tw1, h1, h2⟩ := FastMeanWindowAppend_holds first w hw32 vals tw m h
        new_data hop.1 hop.2
      have hstep : applyMeanOps (MeanOp.append new_data :: ops) (some tw) m
          = applyMeanOps ops (some tw1) (FastMeanWindowAppend (some tw) new_data m).2.2 := by
        show applyMeanOps ops (FastMeanWindowAppend (some tw) new_data m).2.1
          (FastMeanWindowAppend (some tw) new_data m).2.2 = _
        rw [h1]
      rw [hstep]
      exact ih vals1 tw1 _ h2 hrest
    · obtain ⟨tw1, m1, h1, h2⟩ := FastMeanWindowReset_holds first w vals tw m h
      have hstep : applyMeanOps (MeanOp.reset :: ops) (some tw) m
          = applyMeanOps ops (some tw1) m1 := by
        show applyMeanOps ops (applyMeanOp MeanOp.reset (some tw) m).1
          (applyMeanOp MeanOp.reset (some tw) m).2 = _
        unfold applyMeanOp
        simp only [h1]
      rw [hstep]
      exact ih _ tw1 m1 h2 hrest

/-- With a NULL default value the accumulator invariant holds: for every window that
`FastMeanWindowCreate` created with `default_value == NULL` and every sequence of
`FastMeanWindowAppend` (of `int32_t` values) and `FastMeanWindowReset` calls,
`FastMeanWindowGetAverage` returns `FAST_MEAN_WINDOW_OK` and divides, by the window size,
an accumulator equal to the exact sum of the items stored in the window. -/
theorem fast_mean_accumulator_null_default (SlidingWindowMalloc : Nat → Option Int) (w : Nat)
    (hw32 : w < 4294967296) (m0 : Int → Nat) (ops : List MeanOp)
    (hops : ∀ op ∈ ops, op.InRange)
    (hcreate : (FastMeanWindowCreate SlidingWindowMalloc none w none m0).1
      = FastMeanWindowRet_et.FAST_MEAN_WINDOW_OK) :
    ∃ acc,
      FastMeanWindowGetAverage
        (applyMeanOps ops (FastMeanWindowCreate SlidingWindowMalloc none w none m0).2.1
          (FastMeanWindowCreate SlidingWindowMalloc none w none m0).2.2).1
        = (FastMeanWindowRet_et.FAST_MEAN_WINDOW_OK, some (acc, w)) ∧
      FastMeanWindowSum
        (applyMeanOps ops (FastMeanWindowCreate SlidingWindowMalloc none w none m0).2.1
          (FastMeanWindowCreate SlidingWindowMalloc none w none m0).2.2).1
        (applyMeanOps ops (FastMeanWindowCreate SlidingWindowMalloc none w none m0).2.1
          (FastMeanWindowCreate SlidingWindowMalloc none w none m0).2.2).2 = acc := by
  obtain ⟨first, tw, htw, hh⟩ := FastMeanWindowCreate_holds SlidingWindowMalloc w m0 hcreate
  rw [htw]
  obtain ⟨vals1, tw1, h1, h2⟩ := applyMeanOps_holds first w hw32 ops _ tw _ hh hops
  rw [h1]
  exact ⟨tw1.accumm, h2.accumulator_eq_sum.1, h2.accumulator_eq_sum.2⟩

/-- Instance of `fast_mean_accumulator_null_default`: a window of four items, the calls
append 5, append -7, reset, append 9 leave the accumulator 9, the sum of the items. -/
theorem fast_mean_accumulator_null_default_instance :
    FastMeanWindowGetAverage
      (applyMeanOps [MeanOp.append 5, MeanOp.append (-7), MeanOp.reset, MeanOp.append 9]
        meanOfZeros.2.1 meanOfZeros.2.2).1
      = (FastMeanWindowRet_et.FAST_MEAN_WINDOW_OK, some (9, 4)) ∧
    FastMeanWindowSum
      (applyMeanOps [MeanOp.append 5, MeanOp.append (-7), MeanOp.reset, MeanOp.append 9]
        meanOfZeros.2.1 meanOfZeros.2.2).1
      (applyMeanOps [MeanOp.append 5, MeanOp.append (-7), MeanOp.reset, MeanOp.append 9]
        meanOfZeros.2.1 meanOfZeros.2.2).2 = 9 := by
  refine ⟨by decide, by decide⟩

/-! ## The sectors erased by `EventSST2xVFEraseAll` -/

/-- The erase loop from address `i`, `n` sectors below the bound: it calls `EraseSector` for
`i`, `i + S`, ..., up to and including the bound. -/
theorem EventSST2xVFEraseAllLoop_calls (fi : SST2xVF_INFO_t) (hS : 0 < fi.sector_size)
    (bound : Nat) (hb : bound + fi.sector_size < 4294967296) :
    ∀ (n fuel i : Nat) (log : List Nat), i + n * fi.sector_size = bound → n + 1 < fuel →
      EventSST2xVFEraseAllLoop (loggingDriver fi) bound fuel i log
        = some (true, log ++ (List.range (n + 1)).map (fun j => i + j * fi.sector_size)) := by
  intro n
  induction n with
  | zero =>
    intro fuel i log hi hf
    obtain ⟨f, rfl⟩ : ∃ f, fuel = f + 2 := ⟨fuel - 2, by omega⟩
    have hadd : add32 i fi.sector_size = i + fi.sector_size := add32_eq (by omega)
    have h1 : i ≤ bound := by omega
    have h2 : ¬ (i + fi.sector_size ≤ bound) := by omega
    rw [EventSST2xVFEraseAllLoop, if_pos h1]
    simp only [loggingDriver, Bool.true_eq_false, if_false, hadd]
    rw [EventSST2xVFEraseAllLoop, if_neg h2]
    simp [List.range_succ]
  | succ n ih =>
    intro fuel i log hi hf
    obtain ⟨f, rfl⟩ : ∃ f, fuel = f + 1 := ⟨fuel - 1, by omega⟩
    have hmul : (n + 1) * fi.sector_size = n * fi.sector_size + fi.sector_size := by ring
    have hadd : add32 i fi.sector_size = i + fi.sector_size := add32_eq (by omega)
    have h1 : i ≤ bound := by omega
    rw [EventSST2xVFEraseAllLoop, if_pos h1]
    simp only [loggingDriver, Bool.true_eq_false, if_false, hadd]
    have hih := ih f (i + fi.sector_size) (log ++ [i]) (by omega) (by omega)
    simp only [loggingDriver] at hih
    rw [hih]
    congr 2
    rw [List.append_assoc]
    congr 1
    rw [List.range_succ_eq_map (n + 1), List.map_cons, List.map_map]
    simp only [Nat.zero_mul, Nat.add_zero, List.singleton_append, List.cons.injEq, true_and]
    apply List.map_congr_left
    intro j _
    simp only [Function.comp_apply, Nat.succ_eq_add_one]
    have : (j + 1) * fi.sector_size = j * fi.sector_size + fi.sector_size := by ring
    omega

/-- For every caller-defined region of `k` sectors `EventSST2xVFEraseAll` calls the driver's
`EraseSector` `k + 1` times: once for each sector of the region and once for the sector
behind it. -/
theorem EventSST2xVFEraseAll_calls (fi : SST2xVF_INFO_t) (hS : 0 < fi.sector_size)
    (first k : Nat)
    (h32 : first + k * fi.sector_size + fi.sector_size < 4294967296) (log : List Nat) :
    EventSST2xVFEraseAll (loggingDriver fi)
        { UserConfig := { user_defined := true, first_addr := first
                          total_size := k * fi.sector_size }
          drv := log }
      = (true,
         { UserConfig := { user_defined := true, first_addr := first
                           total_size := k * fi.sector_size }
           drv := log ++ (List.range (k + 1)).map (fun j => first + j * fi.sector_size) }) := by
  have hbound : add32 first (k * fi.sector_size) = first + k * fi.sector_size :=
    add32_eq (by omega)
  have hk : k ≤ k * fi.sector_size := Nat.le_mul_of_pos_right _ hS
  have hloop := EventSST2xVFEraseAllLoop_calls fi hS (first + k * fi.sector_size) h32 k
    (k * fi.sector_size + 2) first log rfl (by omega)
  unfold EventSST2xVFEraseAll
  simp only [if_true, hbound, hloop]

end EventManager
